import Mathlib

/-!
# Voxcell: the half-edge manifold and its convex hull finder

A shallow embedding of `manifold.hpp`, `manifold.cpp`, `manifold_convex_hull.cpp`
and of the parts of `primitives.hpp` and `di_base.cpp` they use.

Modelling conventions.

* `double` is modelled by `ℚ`: `+`, `-`, `*`, `/` and the comparisons are exact
  (no rounding, no overflow, no NaN).  `sqrt` is the function `Makena.sqrt`
  below: exact on squares of rationals, rounded down to a multiple of
  `1 / (den * 2^64)` otherwise.
* A `std::list` iterator is a natural number that names one node of one list
  (`Manifold.mFresh` hands out fresh ones).  `end()` of the owning container is
  `none` where the source stores or passes it.
* Dereferencing an erased, unset or `end()` iterator, a failed `dynamic_cast`,
  a thrown exception and a loop that exceeds its fuel are all `none`.
-/

namespace Makena

/-! ## primitives.hpp -/

def EPSILON_SQUARED : ℚ := 1 / 100000000

def EPSILON_LINEAR : ℚ := 1 / 100000000

def EPSILON_ANGLE : ℚ := 1 / 100000000

/-- Number of binary digits of `n` (the first argument bounds the recursion). -/
def bitLen : Nat → Nat → Nat
  | 0, _ => 0
  | f + 1, n => if n = 0 then 0 else bitLen f (n / 2) + 1

/-- Bit-by-bit integer square root: the digits below `2^b` are still to be decided. -/
def isqrtAux (n : Nat) : Nat → Nat → Nat
  | 0, r => r
  | b + 1, r =>
    if (r + 2 ^ b) * (r + 2 ^ b) ≤ n then isqrtAux n b (r + 2 ^ b) else isqrtAux n b r

/-- Integer square root, rounded down. -/
def isqrt (n : Nat) : Nat := isqrtAux n (bitLen n n / 2 + 1) 0

/-- Model of `sqrt` on `double`: exact when the argument is the square of a
rational, rounded down otherwise. -/
def sqrt (x : ℚ) : ℚ :=
  if x ≤ 0 then 0
  else ((isqrt (x.num.toNat * x.den * 2 ^ 128) : Nat) : ℚ) / ((x.den * 2 ^ 64 : Nat) : ℚ)

/-- Model of `fabs`. -/
def fabs (x : ℚ) : ℚ := if x < 0 then -x else x

structure Vec3 where
  x : ℚ
  y : ℚ
  z : ℚ
deriving DecidableEq, Repr

namespace Vec3

/-- Default constructor `Vec3()`. -/
def zero : Vec3 := ⟨0, 0, 0⟩

def add (a b : Vec3) : Vec3 := ⟨a.x + b.x, a.y + b.y, a.z + b.z⟩

def sub (a b : Vec3) : Vec3 := ⟨a.x - b.x, a.y - b.y, a.z - b.z⟩

def dot (a b : Vec3) : ℚ := a.x * b.x + a.y * b.y + a.z * b.z

def cross (a b : Vec3) : Vec3 :=
  ⟨a.y * b.z - a.z * b.y, a.z * b.x - a.x * b.z, a.x * b.y - a.y * b.x⟩

def squaredNorm2 (a : Vec3) : ℚ := a.x * a.x + a.y * a.y + a.z * a.z

def norm2 (a : Vec3) : ℚ := sqrt (squaredNorm2 a)

def scale (a : Vec3) (s : ℚ) : Vec3 := ⟨s * a.x, s * a.y, s * a.z⟩

def normalize (a : Vec3) : Vec3 :=
  if norm2 a ≥ EPSILON_SQUARED then scale a (1 / norm2 a) else a

/-- `Vec3::perp`. -/
def perp (a : Vec3) : Vec3 :=
  if a.x > a.y then
    if a.y > a.z then cross a ⟨0, 0, 1⟩ else cross a ⟨0, 1, 0⟩
  else
    if a.x > a.z then cross a ⟨0, 0, 1⟩ else cross a ⟨1, 0, 0⟩

end Vec3

structure Vec2 where
  x : ℚ
  y : ℚ
deriving DecidableEq, Repr

namespace Vec2

def sub (a b : Vec2) : Vec2 := ⟨a.x - b.x, a.y - b.y⟩

def dot (a b : Vec2) : ℚ := a.x * b.x + a.y * b.y

/-- `Vec2::perp`. -/
def perp (a : Vec2) : Vec2 := ⟨-1 * a.y, a.x⟩

end Vec2

/-- `Mat3x3`, with `mV[0..8]` in row-major order. -/
structure Mat3x3 where
  m0 : ℚ
  m1 : ℚ
  m2 : ℚ
  m3 : ℚ
  m4 : ℚ
  m5 : ℚ
  m6 : ℚ
  m7 : ℚ
  m8 : ℚ
deriving DecidableEq, Repr

namespace Mat3x3

/-- Default constructor `Mat3x3()`. -/
def zero : Mat3x3 := ⟨0, 0, 0, 0, 0, 0, 0, 0, 0⟩

/-- Constructor `Mat3x3(v1, v2, v3)` from three columns. -/
def ofColumns (v1 v2 v3 : Vec3) : Mat3x3 :=
  ⟨v1.x, v2.x, v3.x, v1.y, v2.y, v3.y, v1.z, v2.z, v3.z⟩

/-- `Mat3x3::col`, with the 1-based index of the source. -/
def col (M : Mat3x3) (i : Nat) : Vec3 :=
  if i = 1 then ⟨M.m0, M.m3, M.m6⟩ else if i = 2 then ⟨M.m1, M.m4, M.m7⟩ else ⟨M.m2, M.m5, M.m8⟩

/-- `Mat3x3::operator*(const Vec3&)`. -/
def mulVec (M : Mat3x3) (v : Vec3) : Vec3 :=
  ⟨M.m0 * v.x + M.m1 * v.y + M.m2 * v.z,
   M.m3 * v.x + M.m4 * v.y + M.m5 * v.z,
   M.m6 * v.x + M.m7 * v.y + M.m8 * v.z⟩

/-- The largest `fabs` of the nine elements, as computed at the head of
`EigenVectorsIfSymmetric`. -/
def absMax (M : Mat3x3) : ℚ :=
  [M.m0, M.m1, M.m2, M.m3, M.m4, M.m5, M.m6, M.m7, M.m8].foldl (fun a v => max a (fabs v)) 0

/-- One step of the bubble sort in `EigenVectorsIfSymmetric`: the entries `a`
and `b` are swapped when `fabs(a) < fabs(b)`. -/
def swapIfSmaller (a b : ℚ × Vec3) : (ℚ × Vec3) × (ℚ × Vec3) :=
  if fabs a.1 < fabs b.1 then (b, a) else (a, b)

/-- `Mat3x3::EigenVectorsIfSymmetric`: the values written to `eValues` and the
returned matrix.  The last branch of the source, which finds the eigen values
with `acos` and `cos`, is the parameter `general`. -/
def EigenVectorsIfSymmetric (general : Mat3x3 → Vec3 × Mat3x3) (M : Mat3x3) : Vec3 × Mat3x3 :=
  if absMax M < EPSILON_LINEAR then
    (⟨0, 0, 0⟩, ⟨1, 0, 0, 0, 1, 0, 0, 0, 1⟩)
  else if fabs M.m1 + fabs M.m2 + fabs M.m5 < EPSILON_LINEAR ∨
      fabs M.m3 + fabs M.m6 + fabs M.m7 < EPSILON_LINEAR then
    let s1 := swapIfSmaller (M.m0, ⟨1, 0, 0⟩) (M.m4, ⟨0, 1, 0⟩)
    let s2 := swapIfSmaller s1.2 (M.m8, ⟨0, 0, 1⟩)
    let s3 := swapIfSmaller s1.1 s2.1
    (⟨s3.1.1, s3.2.1, s2.2.1⟩, ofColumns s3.1.2 s3.2.2 s2.2.2)
  else general M

end Mat3x3

/-! ## manifold.hpp: the data model -/

/-- The enumerators of `enum predicate` that the manifold code uses. -/
inductive predicate where
  | NONE
  | MAYBE_COINCIDENT
  | MAYBE_COLINEAR
  | MAYBE_COPLANAR
  | MAYBE_FLAT
  | INCOMPLETE_MANIFOLD
deriving DecidableEq, Repr

abbrev VertexIt := Nat

abbrev HalfEdgeIt := Nat

abbrev EdgeIt := Nat

abbrev FaceIt := Nat

/-- Iterator into a `std::list` of handles (a node of that list). -/
abbrev ListIt := Nat

/-- Iterator into the node list of the conflict graph. -/
abbrev NodeIt := Nat

structure Vertex where
  mPointLCS : Vec3
  mNormalLCS : Vec3
  mIncidentHalfEdges : List (ListIt × HalfEdgeIt)
  mId : Int
  mFaceCounts : List (Int × Int)
  mToBeRemoved : Bool
  mBackItVTBR : Option ListIt
deriving DecidableEq, Repr

structure HalfEdge where
  mPrev : Option HalfEdgeIt
  mPrevPred : predicate
  mNext : Option HalfEdgeIt
  mNextPred : predicate
  mSrc : VertexIt
  mSrcBackIt : Option ListIt
  mDst : VertexIt
  mDstBackIt : Option ListIt
  mFace : Option FaceIt
  mFaceBackIt : Option ListIt
  mParent : EdgeIt
  mBuddy : HalfEdgeIt
  mToBeMerged : Bool
deriving DecidableEq, Repr

structure Edge where
  mHe1 : HalfEdgeIt
  mHe2 : HalfEdgeIt
  mPredVertices : predicate
  mPredFaces : predicate
  mNormalLCS : Vec3
  mToBeRemoved : Bool
  mFound : Bool
  mBackItETBR : Option ListIt
deriving DecidableEq, Repr

structure Face where
  mId : Int
  mNormalLCS : Vec3
  mIncidentHalfEdges : List (ListIt × HalfEdgeIt)
  mPred : predicate
  mFaceConflict : Option NodeIt
  mToBeMerged : Bool
deriving DecidableEq, Repr

/-- Node of the conflict graph: `FaceConflict` or `VertexConflict`. -/
inductive ConflictNode where
  | FaceConflict (mFace : FaceIt)
  | VertexConflict (mP : Vec3) (mId : Int) (mFound : Bool)
deriving DecidableEq, Repr

/-- The `Directed::DiGraph` behind `mConflictGraph`.  Every edge is appended to
the edge list and to both incidence lists, so the incidence lists of a node are
the edges of `mEdges` that leave or enter it, in the order of `mEdges`. -/
structure DiGraph where
  mNodes : List (NodeIt × ConflictNode)
  mEdges : List (Nat × NodeIt × NodeIt)
deriving DecidableEq, Repr

structure Manifold where
  mVertices : List (VertexIt × Vertex)
  mEdges : List (EdgeIt × Edge)
  mHalfEdges : List (HalfEdgeIt × HalfEdge)
  mFaces : List (FaceIt × Face)
  mNumFaces : Int
  mPred : predicate
  mConflictGraph : DiGraph
  mNextIdForFeatures : Int
  mVertexPairToEdge : List ((Int × Int) × EdgeIt)
  mVertexIdToVertex : List (Int × VertexIt)
  mEdgeIdToEdge : List ((Int × Int) × EdgeIt)
  mFaceIdToFace : List (Int × FaceIt)
  mEpsilonCHMargin : ℚ
  mEdgesToBeRemoved : List (ListIt × EdgeIt)
  mVerticesToBeRemoved : List (ListIt × VertexIt)
  mFresh : Nat
deriving DecidableEq, Repr

/-- The constructor `Manifold::Manifold`. -/
def Manifold.new : Manifold :=
  { mVertices := [], mEdges := [], mHalfEdges := [], mFaces := [],
    mNumFaces := 0, mPred := predicate.NONE,
    mConflictGraph := ⟨[], []⟩, mNextIdForFeatures := 0,
    mVertexPairToEdge := [], mVertexIdToVertex := [], mEdgeIdToEdge := [],
    mFaceIdToFace := [], mEpsilonCHMargin := EPSILON_SQUARED * 100,
    mEdgesToBeRemoved := [], mVerticesToBeRemoved := [], mFresh := 0 }

/-! ## Lists addressed by iterators -/

/-- Dereference an iterator. -/
def deref {α : Type} : List (Nat × α) → Nat → Option α
  | [], _ => none
  | (k, a) :: l, i => if k = i then some a else deref l i

/-- Assign through an iterator; `none` when the iterator is not in the list. -/
def assign {α : Type} : List (Nat × α) → Nat → (α → α) → Option (List (Nat × α))
  | [], _, _ => none
  | (k, a) :: l, i, f =>
    if k = i then some ((k, f a) :: l)
    else match assign l i f with
      | none => none
      | some l' => some ((k, a) :: l')

/-- The member `erase(it)` of `std::list`; `none` when the iterator is not in the list. -/
def eraseAt {α : Type} : List (Nat × α) → Nat → Option (List (Nat × α))
  | [], _ => none
  | (k, a) :: l, i =>
    if k = i then some l
    else match eraseAt l i with
      | none => none
      | some l' => some ((k, a) :: l')

/-- The member `insert(pos, a)` of `std::list` with `pos` a node of the list. -/
def insertBefore {α : Type} : List (Nat × α) → Nat → Nat × α → Option (List (Nat × α))
  | [], _, _ => none
  | (k, a) :: l, pos, e =>
    if k = pos then some (e :: (k, a) :: l)
    else match insertBefore l pos e with
      | none => none
      | some l' => some ((k, a) :: l')

/-- Map insertion `m[key] = value` of `std::map`. -/
def mapAssign {κ ν : Type} [DecidableEq κ] : List (κ × ν) → κ → ν → List (κ × ν)
  | [], k, v => [(k, v)]
  | (k', v') :: l, k, v => if k' = k then (k', v) :: l else (k', v') :: mapAssign l k v

/-! ## manifold.hpp: accessors and inline members -/

namespace Manifold

def vertex (m : Manifold) (v : VertexIt) : Option Vertex := deref m.mVertices v

def halfEdge (m : Manifold) (h : HalfEdgeIt) : Option HalfEdge := deref m.mHalfEdges h

def edge (m : Manifold) (e : EdgeIt) : Option Edge := deref m.mEdges e

def face (m : Manifold) (f : FaceIt) : Option Face := deref m.mFaces f

def setVertex (m : Manifold) (v : VertexIt) (f : Vertex → Vertex) : Option Manifold :=
  match assign m.mVertices v f with
  | none => none
  | some l => some { m with mVertices := l }

def setHalfEdge (m : Manifold) (h : HalfEdgeIt) (f : HalfEdge → HalfEdge) : Option Manifold :=
  match assign m.mHalfEdges h f with
  | none => none
  | some l => some { m with mHalfEdges := l }

def setEdge (m : Manifold) (e : EdgeIt) (f : Edge → Edge) : Option Manifold :=
  match assign m.mEdges e f with
  | none => none
  | some l => some { m with mEdges := l }

def setFace (m : Manifold) (fit : FaceIt) (f : Face → Face) : Option Manifold :=
  match assign m.mFaces fit f with
  | none => none
  | some l => some { m with mFaces := l }

/-- The point `(*((*h)->mSrc))->pLCS()`. -/
def srcPoint (m : Manifold) (h : HalfEdgeIt) : Option Vec3 := do
  let H ← m.halfEdge h
  let V ← m.vertex H.mSrc
  pure V.mPointLCS

/-- The point `(*((*h)->mDst))->pLCS()`. -/
def dstPoint (m : Manifold) (h : HalfEdgeIt) : Option Vec3 := do
  let H ← m.halfEdge h
  let V ← m.vertex H.mDst
  pure V.mPointLCS

end Manifold

/-- `Manifold::clear`. -/
def clear (m : Manifold) : Manifold :=
  { m with mVertices := [], mEdges := [], mHalfEdges := [], mFaces := [],
           mConflictGraph := ⟨[], []⟩, mNumFaces := 0, mNextIdForFeatures := 0,
           mPred := predicate.NONE }

/-- `Manifold::makeVertex`. -/
def makeVertex (m : Manifold) (p : Vec3) (id : Int) : Manifold × VertexIt :=
  let V : Vertex :=
    { mPointLCS := p, mNormalLCS := Vec3.zero, mIncidentHalfEdges := [],
      mId := if id = -1 then m.mNextIdForFeatures else id,
      mFaceCounts := [], mToBeRemoved := false, mBackItVTBR := none }
  ({ m with mVertices := m.mVertices ++ [(m.mFresh, V)],
            mNextIdForFeatures :=
              if id = -1 then m.mNextIdForFeatures + 1 else m.mNextIdForFeatures,
            mFresh := m.mFresh + 1 }, m.mFresh)

/-- `Manifold::makeEdge`. -/
def makeEdge (m : Manifold) (v1 v2 : VertexIt) : Option (Manifold × EdgeIt) := do
  let V1 ← m.vertex v1
  let V2 ← m.vertex v2
  let eit := m.mFresh
  let heit1 := m.mFresh + 1
  let heit2 := m.mFresh + 2
  let v2v1 := V1.mPointLCS.sub V2.mPointLCS
  let E : Edge :=
    { mHe1 := heit1, mHe2 := heit2,
      mPredVertices :=
        if v2v1.squaredNorm2 < EPSILON_SQUARED then predicate.MAYBE_COINCIDENT
        else predicate.NONE,
      mPredFaces := predicate.NONE, mNormalLCS := Vec3.zero,
      mToBeRemoved := false, mFound := false, mBackItETBR := none }
  let H1 : HalfEdge :=
    { mPrev := none, mPrevPred := predicate.NONE, mNext := none,
      mNextPred := predicate.NONE, mSrc := v1, mSrcBackIt := none, mDst := v2,
      mDstBackIt := none, mFace := none, mFaceBackIt := none, mParent := eit,
      mBuddy := heit2, mToBeMerged := false }
  let H2 : HalfEdge :=
    { mPrev := none, mPrevPred := predicate.NONE, mNext := none,
      mNextPred := predicate.NONE, mSrc := v2, mSrcBackIt := none, mDst := v1,
      mDstBackIt := none, mFace := none, mFaceBackIt := none, mParent := eit,
      mBuddy := heit1, mToBeMerged := false }
  pure ({ m with mEdges := m.mEdges ++ [(eit, E)],
                 mHalfEdges := m.mHalfEdges ++ [(heit1, H1), (heit2, H2)],
                 mFresh := m.mFresh + 3 }, eit)

/-- `HalfEdge::isColinear`, called on `h` with argument `he`.  The end vertices
are dereferenced only when neither edge is `MAYBE_COINCIDENT`. -/
def isColinear (m : Manifold) (h he : HalfEdgeIt) : Option predicate := do
  let H ← m.halfEdge h
  let HE ← m.halfEdge he
  let E ← m.edge H.mParent
  let EE ← m.edge HE.mParent
  match m.dstPoint h, m.srcPoint h, m.dstPoint he, m.srcPoint he with
  | some pDst, some pSrc, some qDst, some qSrc =>
    pure (if E.mPredVertices = predicate.MAYBE_COINCIDENT ∨
              EE.mPredVertices = predicate.MAYBE_COINCIDENT then
            predicate.MAYBE_COINCIDENT
          else if ((pDst.sub pSrc).cross (qDst.sub qSrc)).norm2 < EPSILON_ANGLE then
            predicate.MAYBE_COLINEAR
          else predicate.NONE)
  | _, _, _, _ =>
    if E.mPredVertices = predicate.MAYBE_COINCIDENT ∨
        EE.mPredVertices = predicate.MAYBE_COINCIDENT then
      pure predicate.MAYBE_COINCIDENT
    else none

/-- `Face::findNormal`. -/
def findNormal (p1 p2 p3 : Vec3) : Vec3 × predicate :=
  let v23 := p3.sub p2
  let v21 := p1.sub p2
  let n := v23.cross v21
  (n.normalize,
    if n.norm2 < EPSILON_ANGLE then predicate.MAYBE_COLINEAR else predicate.NONE)

/-- `Face::isCoplanar(const FaceIt&)`, called on `f1` with argument `f2`. -/
def isCoplanar (m : Manifold) (f1 f2 : Option FaceIt) : Option predicate := do
  let F1 ← m.face (← f1)
  let F2 ← m.face (← f2)
  pure (if F1.mPred = predicate.MAYBE_FLAT ∨ F2.mPred = predicate.MAYBE_FLAT then
          predicate.MAYBE_COINCIDENT
        else if (F1.mNormalLCS.cross F2.mNormalLCS).norm2 < EPSILON_ANGLE then
          predicate.MAYBE_COPLANAR
        else predicate.NONE)

/-- The loop of `Face::isFacing` that finds the furthest incident vertex.  The
state is `(distMax, maxP)`. -/
def isFacingLoop (m : Manifold) (p : Vec3) :
    List (ListIt × HalfEdgeIt) → ℚ × Vec3 → Option (ℚ × Vec3)
  | [], s => some s
  | (_, heit) :: l, s => do
    let curP ← m.srcPoint heit
    isFacingLoop m p l
      (if s.1 < (p.sub curP).squaredNorm2 then ((p.sub curP).squaredNorm2, curP) else s)

/-- `Face::isFacing`: the returned flag and the predicate written to `pred`. -/
def isFacing (m : Manifold) (f : FaceIt) (p : Vec3) (eps : ℚ) : Option (Bool × predicate) := do
  let F ← m.face f
  let s ← isFacingLoop m p F.mIncidentHalfEdges (0, Vec3.zero)
  let d := p.sub s.2
  let vertDist := d.dot F.mNormalLCS
  pure (decide (vertDist > 0),
    if fabs vertDist < eps then predicate.MAYBE_COPLANAR else predicate.NONE)

/-- `Vertex::pushHalfEdgesCCW`, called on vertex `v` with the edge `e`. -/
def pushHalfEdgesCCW (m : Manifold) (v : VertexIt) (e : EdgeIt) : Option Manifold := do
  let E ← m.edge e
  let he1 ← m.halfEdge E.mHe1
  let _ ← m.halfEdge E.mHe2
  let n1 := m.mFresh
  let n2 := m.mFresh + 1
  let m := { m with mFresh := m.mFresh + 2 }
  if he1.mSrc = v then do
    let m ← m.setVertex v (fun V =>
      { V with mIncidentHalfEdges := V.mIncidentHalfEdges ++ [(n1, E.mHe2), (n2, E.mHe1)] })
    let m ← m.setHalfEdge E.mHe2 (fun H => { H with mDstBackIt := some n1 })
    m.setHalfEdge E.mHe1 (fun H => { H with mSrcBackIt := some n2 })
  else do
    let m ← m.setVertex v (fun V =>
      { V with mIncidentHalfEdges := V.mIncidentHalfEdges ++ [(n1, E.mHe1), (n2, E.mHe2)] })
    let m ← m.setHalfEdge E.mHe1 (fun H => { H with mDstBackIt := some n1 })
    m.setHalfEdge E.mHe2 (fun H => { H with mSrcBackIt := some n2 })

/-- The loop of `Vertex::setNormalFromIncidentFaces`. -/
def sumIncidentFaceNormals (m : Manifold) (v : VertexIt) :
    List (ListIt × HalfEdgeIt) → Vec3 → Option Vec3
  | [], s => some s
  | (_, heit) :: l, s => do
    let H ← m.halfEdge heit
    if H.mSrc = v then do
      let F ← m.face (← H.mFace)
      sumIncidentFaceNormals m v l (s.add F.mNormalLCS)
    else sumIncidentFaceNormals m v l s

/-- `Vertex::setNormalFromIncidentFaces`. -/
def vertexSetNormalFromIncidentFaces (m : Manifold) (v : VertexIt) : Option Manifold := do
  let V ← m.vertex v
  let sumNormals ← sumIncidentFaceNormals m v V.mIncidentHalfEdges Vec3.zero
  m.setVertex v (fun V => { V with mNormalLCS := sumNormals.normalize })

/-- `Edge::setNormalFromIncidentFaces`. -/
def edgeSetNormalFromIncidentFaces (m : Manifold) (e : EdgeIt) : Option Manifold := do
  let E ← m.edge e
  let H1 ← m.halfEdge E.mHe1
  let H2 ← m.halfEdge E.mHe2
  let F1 ← m.face (← H1.mFace)
  let F2 ← m.face (← H2.mFace)
  m.setEdge e (fun E => { E with mNormalLCS := (F1.mNormalLCS.add F2.mNormalLCS).normalize })

/-- Run a step on every iterator of a list, threading the manifold. -/
def forEachIt (step : Manifold → Nat → Option Manifold) : List Nat → Manifold → Option Manifold
  | [], m => some m
  | i :: l, m =>
    match step m i with
    | none => none
    | some m' => forEachIt step l m'

/-- `Manifold::setNormalsForVerticesAndEdges`. -/
def setNormalsForVerticesAndEdges (m : Manifold) : Option Manifold := do
  let m ← forEachIt vertexSetNormalFromIncidentFaces (m.mVertices.map Prod.fst) m
  forEachIt edgeSetNormalFromIncidentFaces (m.mEdges.map Prod.fst) m

/-! ## manifold.cpp -/

/-- The loop of `Face::halfEdgesFromEdges` that picks one half edge per edge. -/
def halfEdgesFromEdgesLoop (m : Manifold) :
    List EdgeIt → VertexIt → Option (List HalfEdgeIt)
  | [], _ => some []
  | eit :: l, vSrc => do
    let E ← m.edge eit
    let H1 ← m.halfEdge E.mHe1
    let he := if H1.mSrc = vSrc then E.mHe1 else E.mHe2
    let H ← m.halfEdge he
    let rest ← halfEdgesFromEdgesLoop m l H.mDst
    pure (he :: rest)

/-- `Face::halfEdgesFromEdges`. -/
def halfEdgesFromEdges (m : Manifold) : List EdgeIt → Option (List HalfEdgeIt)
  | [] => some []
  | [eit] => do
    let E ← m.edge eit
    pure [E.mHe1, E.mHe2]
  | eit1 :: eit2 :: l => do
    let E1 ← m.edge eit1
    let H11 ← m.halfEdge E1.mHe1
    let H12 ← m.halfEdge E1.mHe2
    let E2 ← m.edge eit2
    let H21 ← m.halfEdge E2.mHe1
    let H22 ← m.halfEdge E2.mHe2
    let vSrc :=
      if H11.mSrc = H21.mSrc ∨ H11.mSrc = H22.mSrc then H12.mSrc else H11.mSrc
    halfEdgesFromEdgesLoop m (eit1 :: eit2 :: l) vSrc

/-- Element access `points[i]` with a `long` index. -/
def pointAt (points : List Vec3) (i : Int) : Option Vec3 :=
  if i < 0 then none else points.get? i.toNat

/-- The mean of the points, as computed by `analyzePoints` and `makePolygon`. -/
def meanOf (points : List Vec3) : Vec3 :=
  (points.foldl Vec3.add Vec3.zero).scale (1 / (points.length : ℚ))

/-- The normalized sum of the squared deviations from the mean. -/
def varianceOf (points : List Vec3) (mean : Vec3) : Vec3 :=
  (points.foldl
    (fun acc p => acc.add ⟨(p.sub mean).x * (p.sub mean).x,
                           (p.sub mean).y * (p.sub mean).y,
                           (p.sub mean).z * (p.sub mean).z⟩) Vec3.zero).normalize

/-- The loop that finds the two extremal points along the first axis.  The state
is `(xMin, xMax, xMinIndex, xMaxIndex)`; `i` is the index of the head. -/
def extremalAlongAxis (ax1 : Vec3) :
    List Vec3 → Nat → ℚ × ℚ × Nat × Nat → ℚ × ℚ × Nat × Nat
  | [], _, s => s
  | p :: l, i, (xMin, xMax, xMinIndex, xMaxIndex) =>
    extremalAlongAxis ax1 l (i + 1)
      (if xMin > ax1.dot p then ax1.dot p else xMin,
       if xMax < ax1.dot p then ax1.dot p else xMax,
       if xMin > ax1.dot p then i else xMinIndex,
       if xMax < ax1.dot p then i else xMaxIndex)

/-- The loop that finds the extremal point perpendicular to the direction
`(p1, p2)`.  The state is `(yAbsMaxFound, yAbsMax, yAbsMaxIndex)`. -/
def extremalPerpendicular (p1 p2 : Vec3) (xMinIndex xMaxIndex : Nat) :
    List Vec3 → Nat → Bool × ℚ × Int → Bool × ℚ × Int
  | [], _, s => s
  | p :: l, i, (yAbsMaxFound, yAbsMax, yAbsMaxIndex) =>
    if i ≠ xMinIndex ∧ i ≠ xMaxIndex then
      if (p.sub p1).squaredNorm2 < EPSILON_SQUARED ∨
          (p.sub p2).squaredNorm2 < EPSILON_SQUARED then
        extremalPerpendicular p1 p2 xMinIndex xMaxIndex l (i + 1)
          (yAbsMaxFound, yAbsMax, yAbsMaxIndex)
      else if !yAbsMaxFound then
        extremalPerpendicular p1 p2 xMinIndex xMaxIndex l (i + 1)
          (true, ((p2.sub p1).cross (p.sub p1)).squaredNorm2, (i : Int))
      else if ((p2.sub p1).cross (p.sub p1)).squaredNorm2 > yAbsMax then
        extremalPerpendicular p1 p2 xMinIndex xMaxIndex l (i + 1)
          (true, ((p2.sub p1).cross (p.sub p1)).squaredNorm2, (i : Int))
      else
        extremalPerpendicular p1 p2 xMinIndex xMaxIndex l (i + 1)
          (yAbsMaxFound, yAbsMax, yAbsMaxIndex)
    else
      extremalPerpendicular p1 p2 xMinIndex xMaxIndex l (i + 1)
        (yAbsMaxFound, yAbsMax, yAbsMaxIndex)

/-- The loop that finds the extremal point along the normal `ax3` of
`(p1, p2, p3)`.  The state is `(zAbsMaxFound, zAbsMax, zAbsMaxIndex)`. -/
def extremalAlongNormal (p1 p2 p3 ax3 : Vec3) (xMinIndex xMaxIndex yAbsMaxIndex : Nat) :
    List Vec3 → Nat → Bool × ℚ × Int → Bool × ℚ × Int
  | [], _, s => s
  | p :: l, i, (zAbsMaxFound, zAbsMax, zAbsMaxIndex) =>
    if i ≠ xMinIndex ∧ i ≠ xMaxIndex ∧ i ≠ yAbsMaxIndex then
      if (p.sub p1).squaredNorm2 < EPSILON_SQUARED ∨
          (p.sub p2).squaredNorm2 < EPSILON_SQUARED ∨
          (p.sub p3).squaredNorm2 < EPSILON_SQUARED then
        extremalAlongNormal p1 p2 p3 ax3 xMinIndex xMaxIndex yAbsMaxIndex l (i + 1)
          (zAbsMaxFound, zAbsMax, zAbsMaxIndex)
      else if !zAbsMaxFound then
        extremalAlongNormal p1 p2 p3 ax3 xMinIndex xMaxIndex yAbsMaxIndex l (i + 1)
          (true, fabs (ax3.dot (p.sub p1)), (i : Int))
      else if fabs (ax3.dot (p.sub p1)) > zAbsMax then
        extremalAlongNormal p1 p2 p3 ax3 xMinIndex xMaxIndex yAbsMaxIndex l (i + 1)
          (true, fabs (ax3.dot (p.sub p1)), (i : Int))
      else
        extremalAlongNormal p1 p2 p3 ax3 xMinIndex xMaxIndex yAbsMaxIndex l (i + 1)
          (zAbsMaxFound, zAbsMax, zAbsMaxIndex)
    else
      extremalAlongNormal p1 p2 p3 ax3 xMinIndex xMaxIndex yAbsMaxIndex l (i + 1)
        (zAbsMaxFound, zAbsMax, zAbsMaxIndex)

/-- The part of `Manifold::makePolygon` that finds the face normal and the face
predicate `mPred` from the points of the boundary. -/
def makePolygonNormal (points : List Vec3) : Option (Vec3 × predicate) :=
  if points.length = 3 then do
    let p0 ← pointAt points 0
    let p1 ← pointAt points 1
    let p2 ← pointAt points 2
    pure ((findNormal p0 p1 p2).1,
      if (findNormal p0 p1 p2).2 ≠ predicate.NONE then predicate.MAYBE_FLAT
      else predicate.NONE)
  else do
    let ax1 := varianceOf points (meanOf points)
    let p0 ← pointAt points 0
    let (_, _, xMinIndex, xMaxIndex) :=
      extremalAlongAxis ax1 (points.drop 1) 1 (ax1.dot p0, ax1.dot p0, 0, 0)
    let p1 ← pointAt points xMinIndex
    let p2 ← pointAt points xMaxIndex
    let (yAbsMaxFound, _, yAbsMaxIndex) :=
      extremalPerpendicular p1 p2 xMinIndex xMaxIndex points 0 (false, 0, -1)
    let predIll ←
      if !yAbsMaxFound then do
        let q0 ← pointAt points 0
        let q1 ← pointAt points 1
        let q2 ← pointAt points 2
        pure (if (findNormal q0 q1 q2).2 ≠ predicate.NONE then predicate.MAYBE_FLAT
              else predicate.NONE)
      else pure predicate.NONE
    let ind1 : Int := min (xMinIndex : Int) (min (xMaxIndex : Int) yAbsMaxIndex)
    let ind3 : Int := max (xMinIndex : Int) (max (xMaxIndex : Int) yAbsMaxIndex)
    let ind2 : Int :=
      if (ind1 = xMinIndex ∧ ind3 = xMaxIndex) ∨ (ind3 = xMinIndex ∧ ind1 = xMaxIndex) then
        yAbsMaxIndex
      else if (ind1 = xMinIndex ∧ ind3 = yAbsMaxIndex) ∨
          (ind3 = xMinIndex ∧ ind1 = yAbsMaxIndex) then
        (xMaxIndex : Int)
      else (xMinIndex : Int)
    let q1 ← pointAt points ind1
    let q2 ← pointAt points ind2
    let q3 ← pointAt points ind3
    pure ((findNormal q1 q2 q3).1,
      if (findNormal q1 q2 q3).2 ≠ predicate.NONE then predicate.MAYBE_FLAT else predIll)

/-- The first loop of `makePolygon`: the half edges enter the list of the face. -/
def makePolygonInsert (fit : FaceIt) : List HalfEdgeIt → Manifold → Option Manifold
  | [], m => some m
  | heit :: l, m => do
    let n := m.mFresh
    let m ← m.setFace fit (fun F =>
      { F with mIncidentHalfEdges := F.mIncidentHalfEdges ++ [(n, heit)] })
    let m ← m.setHalfEdge heit (fun H => { H with mFaceBackIt := some n })
    makePolygonInsert fit l { m with mFresh := m.mFresh + 1 }

/-- The second loop of `makePolygon`: it links each half edge to the previous
one and collects the points.  The state is `(hitPrev, points)`. -/
def makePolygonLink (fit : FaceIt) :
    List (ListIt × HalfEdgeIt) → Manifold → Option HalfEdgeIt → List Vec3 →
      Option (Manifold × Option HalfEdgeIt × List Vec3)
  | [], m, hitPrev, points => some (m, hitPrev, points)
  | (_, hit) :: l, m, hitPrev, points => do
    let p ← m.srcPoint hit
    let m ← m.setHalfEdge hit (fun H => { H with mFace := some fit })
    match hitPrev with
    | none => makePolygonLink fit l m (some hit) (points ++ [p])
    | some hp => do
      let m ← m.setHalfEdge hit (fun H => { H with mPrev := some hp })
      let m ← m.setHalfEdge hp (fun H => { H with mNext := some hit })
      let pred ← isColinear m hit hp
      let m ← m.setHalfEdge hit (fun H => { H with mPrevPred := pred })
      let m ← m.setHalfEdge hp (fun H => { H with mNextPred := pred })
      makePolygonLink fit l m (some hit) (points ++ [p])

/-- `Manifold::makePolygon(const list<HalfEdgeIt>&)`. -/
def makePolygon (m : Manifold) (halfEdges : List HalfEdgeIt) : Option (Manifold × FaceIt) := do
  let fit := m.mFresh
  let F : Face :=
    { mId := m.mNextIdForFeatures, mNormalLCS := Vec3.zero, mIncidentHalfEdges := [],
      mPred := predicate.NONE, mFaceConflict := none, mToBeMerged := false }
  let m := { m with mFaces := m.mFaces ++ [(fit, F)],
                    mNextIdForFeatures := m.mNextIdForFeatures + 1,
                    mFresh := m.mFresh + 1 }
  if halfEdges.length < 2 then pure (m, fit)
  else do
    let m ← makePolygonInsert fit halfEdges m
    let F ← m.face fit
    let (m, hitPrev, points) ← makePolygonLink fit F.mIncidentHalfEdges m none []
    let hitLast ← hitPrev
    let hitFirst ← (F.mIncidentHalfEdges.head?).map Prod.snd
    let m ← m.setHalfEdge hitFirst (fun H => { H with mPrev := some hitLast })
    let m ← m.setHalfEdge hitLast (fun H => { H with mNext := some hitFirst })
    let pred ← isColinear m hitFirst hitLast
    let m ← m.setHalfEdge hitFirst (fun H => { H with mPrevPred := pred })
    let m ← m.setHalfEdge hitLast (fun H => { H with mNextPred := pred })
    let (n, fpred) ← makePolygonNormal points
    let m ← m.setFace fit (fun F => { F with mNormalLCS := n, mPred := fpred })
    pure (m, fit)

/-- `Manifold::makePolygon(const list<EdgeIt>&)`. -/
def makePolygonFromEdges (m : Manifold) (edges : List EdgeIt) : Option (Manifold × FaceIt) := do
  let halfEdges ← halfEdgesFromEdges m edges
  makePolygon m halfEdges

/-- `Manifold::makeTriangle(const HalfEdgeIt&, const HalfEdgeIt&, const HalfEdgeIt&)`.
An argument that is `mHalfEdges.end()` cannot be dereferenced. -/
def makeTriangle (m : Manifold) (e1 e2 e3 : Option HalfEdgeIt) : Option (Manifold × FaceIt) := do
  makePolygon m [← e1, ← e2, ← e3]

/-- `Manifold::makeTriangle(const EdgeIt&, const EdgeIt&, const EdgeIt&)`. -/
def makeTriangleFromEdges (m : Manifold) (e1 e2 e3 : EdgeIt) : Option (Manifold × FaceIt) :=
  makePolygonFromEdges m [e1, e2, e3]

/-- The inner loop of `constructHelperMaps` that fills `mFaceCounts` of `vit`. -/
def faceCountsLoop (m : Manifold) (vit : VertexIt) :
    List (ListIt × HalfEdgeIt) → List (Int × Int) → Option (List (Int × Int))
  | [], fc => some fc
  | (_, heit) :: l, fc => do
    let H ← m.halfEdge heit
    if H.mDst = vit then do
      let F ← m.face (← H.mFace)
      faceCountsLoop m vit l (mapAssign fc F.mId 1)
    else faceCountsLoop m vit l fc

/-- The loop of `constructHelperMaps` over the vertices. -/
def helperMapsVertices : List VertexIt → Manifold → Option Manifold
  | [], m => some m
  | vit :: l, m => do
    let V ← m.vertex vit
    let fc ← faceCountsLoop m vit V.mIncidentHalfEdges []
    let m ← m.setVertex vit (fun V => { V with mFaceCounts := fc })
    helperMapsVertices l { m with mVertexIdToVertex := mapAssign m.mVertexIdToVertex V.mId vit }

/-- The loop of `constructHelperMaps` over the edges. -/
def helperMapsEdges : List EdgeIt → Manifold → Option Manifold
  | [], m => some m
  | eit :: l, m => do
    let E ← m.edge eit
    let H ← m.halfEdge E.mHe1
    let VS ← m.vertex H.mSrc
    let VD ← m.vertex H.mDst
    let key : Int × Int := if VS.mId > VD.mId then (VD.mId, VS.mId) else (VS.mId, VD.mId)
    helperMapsEdges l
      { m with mEdgeIdToEdge := mapAssign m.mEdgeIdToEdge key eit,
               mVertexPairToEdge := mapAssign m.mVertexPairToEdge key eit }

/-- `Manifold::constructHelperMaps`. -/
def constructHelperMaps (m : Manifold) : Option Manifold := do
  let m ← helperMapsVertices (m.mVertices.map Prod.fst) { m with mVertexIdToVertex := [] }
  let m ← helperMapsEdges (m.mEdges.map Prod.fst)
    { m with mEdgeIdToEdge := [], mVertexPairToEdge := [] }
  pure { m with mFaceIdToFace :=
    m.mFaces.foldl (fun acc f => mapAssign acc f.2.mId f.1) [] }

/-- Assignment `(*e)->mPredFaces = (*f1)->isCoplanar(f2)`. -/
def setPredFaces (m : Manifold) (e : EdgeIt) (f1 f2 : Option FaceIt) : Option Manifold := do
  let pred ← isCoplanar m f1 f2
  m.setEdge e (fun E => { E with mPredFaces := pred })

/-- The twelve calls of `pushHalfEdgesCCW` in `construct3Simplex`. -/
def construct3SimplexPush (m : Manifold) (v1 v2 v3 v4 : VertexIt)
    (e12 e13 e14 e23 e24 e34 : EdgeIt) : Option Manifold := do
  let m ← pushHalfEdgesCCW m v1 e12
  let m ← pushHalfEdgesCCW m v1 e14
  let m ← pushHalfEdgesCCW m v1 e13
  let m ← pushHalfEdgesCCW m v2 e23
  let m ← pushHalfEdgesCCW m v2 e24
  let m ← pushHalfEdgesCCW m v2 e12
  let m ← pushHalfEdgesCCW m v3 e13
  let m ← pushHalfEdgesCCW m v3 e34
  let m ← pushHalfEdgesCCW m v3 e23
  let m ← pushHalfEdgesCCW m v4 e14
  let m ← pushHalfEdgesCCW m v4 e24
  pushHalfEdgesCCW m v4 e34

/-- The six assignments of `mPredFaces` in `construct3Simplex`. -/
def construct3SimplexPreds (m : Manifold) (e12 e13 e14 e23 e24 e34 : EdgeIt)
    (f132 f143 f124 f234 : FaceIt) : Option Manifold := do
  let m ← setPredFaces m e12 (some f132) (some f124)
  let m ← setPredFaces m e13 (some f132) (some f143)
  let m ← setPredFaces m e14 (some f124) (some f143)
  let m ← setPredFaces m e23 (some f132) (some f234)
  let m ← setPredFaces m e24 (some f124) (some f234)
  setPredFaces m e34 (some f234) (some f143)

/-- The four calls of `makeTriangle` in `construct3Simplex` and what follows them. -/
def construct3SimplexFaces (m : Manifold) (v1 v2 v3 v4 : VertexIt)
    (e12 e13 e14 e23 e24 e34 : EdgeIt) : Option Manifold := do
  let r132 ← makeTriangleFromEdges m e13 e23 e12
  let r143 ← makeTriangleFromEdges r132.1 e14 e34 e13
  let r124 ← makeTriangleFromEdges r143.1 e12 e24 e14
  let r234 ← makeTriangleFromEdges r124.1 e23 e34 e24
  let m ← construct3SimplexPush r234.1 v1 v2 v3 v4 e12 e13 e14 e23 e24 e34
  let m ← construct3SimplexPreds m e12 e13 e14 e23 e24 e34 r132.2 r143.2 r124.2 r234.2
  let m ← setNormalsForVerticesAndEdges m
  constructHelperMaps m

/-- The six calls of `makeEdge` in `construct3Simplex` and what follows them. -/
def construct3SimplexEdges (m : Manifold) (v1 v2 v3 v4 : VertexIt) : Option Manifold := do
  let r12 ← makeEdge m v1 v2
  let r13 ← makeEdge r12.1 v1 v3
  let r14 ← makeEdge r13.1 v1 v4
  let r23 ← makeEdge r14.1 v2 v3
  let r24 ← makeEdge r23.1 v2 v4
  let r34 ← makeEdge r24.1 v3 v4
  construct3SimplexFaces r34.1 v1 v2 v3 v4 r12.2 r13.2 r14.2 r23.2 r24.2 r34.2

/-- `Manifold::construct3Simplex`. -/
def construct3Simplex (m : Manifold) (cp1 cp2 cp3 cp4 : Vec3) (ind1 ind2 ind3 ind4 : Int) :
    Option Manifold :=
  let v12 := cp2.sub cp1
  let v13 := cp3.sub cp1
  let v14 := cp4.sub cp1
  let c12_13 := v12.cross v13
  let reversed : Bool := decide (v14.dot c12_13 < 0)
  let r1 := makeVertex m cp1 ind1
  let r2 := makeVertex r1.1 (if reversed then cp3 else cp2) (if reversed then ind3 else ind2)
  let r3 := makeVertex r2.1 (if reversed then cp2 else cp3) (if reversed then ind2 else ind3)
  let r4 := makeVertex r3.1 cp4 ind4
  construct3SimplexEdges r4.1 r1.2 r2.2 r3.2 r4.2

/-- The loop of `Manifold::findNextBoundaryHalfEdge`; `heit` is the current half
edge, whose buddy is read at the loop test. -/
def findNextBoundaryLoop (m : Manifold) (startIt : HalfEdgeIt) :
    Nat → HalfEdgeIt → Option HalfEdgeIt
  | 0, _ => none
  | fuel + 1, heit => do
    let H ← m.halfEdge heit
    let B ← m.halfEdge H.mBuddy
    if B.mToBeMerged ∧ heit ≠ startIt then do
      findNextBoundaryLoop m startIt fuel (← B.mNext)
    else pure heit

/-- `Manifold::findNextBoundaryHalfEdge`. -/
def findNextBoundaryHalfEdge (fuel : Nat) (m : Manifold) (startIt : HalfEdgeIt) :
    Option HalfEdgeIt := do
  let S ← m.halfEdge startIt
  findNextBoundaryLoop m startIt fuel (← S.mNext)

/-- Assign `mToBeMerged` of every half edge in the incidence list of a face. -/
def setToBeMergedOfFace (b : Bool) (m : Manifold) (fit : FaceIt) : Option Manifold := do
  let F ← m.face fit
  forEachIt (fun m heit => m.setHalfEdge heit (fun H => { H with mToBeMerged := b }))
    (F.mIncidentHalfEdges.map Prod.snd) m

/-- The inner loop of `findCircumference` that counts the boundary half edges.
The state is `(numBoundaryHalfEdges, heStart)`. -/
def countBoundaryOfFace (m : Manifold) :
    List (ListIt × HalfEdgeIt) → Nat × Option HalfEdgeIt → Option (Nat × Option HalfEdgeIt)
  | [], s => some s
  | (_, heit) :: l, s => do
    let H ← m.halfEdge heit
    if H.mToBeMerged then do
      let B ← m.halfEdge H.mBuddy
      if !B.mToBeMerged then
        countBoundaryOfFace m l (s.1 + 1, if s.2 = none then some heit else s.2)
      else countBoundaryOfFace m l s
    else countBoundaryOfFace m l s

/-- The outer loop of `findCircumference` that counts the boundary half edges. -/
def countBoundary (m : Manifold) :
    List FaceIt → Nat × Option HalfEdgeIt → Option (Nat × Option HalfEdgeIt)
  | [], s => some s
  | fit :: l, s => do
    let F ← m.face fit
    let s ← countBoundaryOfFace m F.mIncidentHalfEdges s
    countBoundary m l s

/-- The walk of `findCircumference`.  The first argument is the number of half
edges that may still be pushed, `numBoundaryHalfEdges + 1 - boundaryHalfEdges.size()`. -/
def circumferenceWalk (fuel : Nat) (m : Manifold) (heStart : HalfEdgeIt) :
    Nat → HalfEdgeIt → List HalfEdgeIt → Option (List HalfEdgeIt)
  | 0, _, acc => some acc
  | r + 1, heit, acc =>
    if heit = heStart then some acc
    else do
      let next ← findNextBoundaryHalfEdge fuel m heit
      circumferenceWalk fuel m heStart r next (acc ++ [heit])

/-- `Manifold::findCircumference`: the manifold afterwards, the returned vector
and the flag written to `abort`. -/
def findCircumference (fuel : Nat) (m : Manifold) (faces : List FaceIt) :
    Option (Manifold × List HalfEdgeIt × Bool) := do
  let m ← forEachIt (setToBeMergedOfFace true) faces m
  let s ← countBoundary m faces (0, none)
  if s.1 < 3 then do
    let m ← forEachIt (setToBeMergedOfFace false) faces m
    pure (m, [], true)
  else do
    let heStart ← s.2
    let heit ← findNextBoundaryHalfEdge fuel m heStart
    let boundaryHalfEdges ← circumferenceWalk fuel m heStart s.1 heit [heStart]
    let m ← forEachIt (setToBeMergedOfFace false) faces m
    if boundaryHalfEdges.length < s.1 then pure (m, [], true)
    else pure (m, boundaryHalfEdges, false)

/-- Erase the entry `it` from the incidence list of the vertex `v`. -/
def eraseIncident (m : Manifold) (v : VertexIt) (it : Option ListIt) : Option Manifold := do
  let V ← m.vertex v
  let l ← eraseAt V.mIncidentHalfEdges (← it)
  m.setVertex v (fun V => { V with mIncidentHalfEdges := l })

/-- The relinking `hePrev->mNext = heNext; heNext->mPrev = hePrev` of `removeEdge`
with the update of the two predicates. -/
def relink (m : Manifold) (hePrev heNext : HalfEdgeIt) : Option Manifold := do
  let m ← m.setHalfEdge hePrev (fun H => { H with mNext := some heNext })
  let m ← m.setHalfEdge heNext (fun H => { H with mPrev := some hePrev })
  let pred ← isColinear m hePrev heNext
  let m ← m.setHalfEdge hePrev (fun H => { H with mNextPred := pred })
  m.setHalfEdge heNext (fun H => { H with mPrevPred := pred })

/-- The first half of `Manifold::removeEdge`, around the vertex `v1`. -/
def removeEdgeAtSrc (m : Manifold) (e : EdgeIt) : Option Manifold := do
  let E ← m.edge e
  let H1 ← m.halfEdge E.mHe1
  if H1.mPrev ≠ some E.mHe2 then do
    let H2 ← m.halfEdge E.mHe2
    let m ← relink m (← H1.mPrev) (← H2.mNext)
    let H1 ← m.halfEdge E.mHe1
    let m ← eraseIncident m H1.mSrc H1.mSrcBackIt
    let H2 ← m.halfEdge E.mHe2
    eraseIncident m H1.mSrc H2.mDstBackIt
  else do
    let l ← eraseAt m.mVertices H1.mSrc
    pure { m with mVertices := l }

/-- The second half of `Manifold::removeEdge`, around the vertex `v2`. -/
def removeEdgeAtDst (m : Manifold) (e : EdgeIt) : Option Manifold := do
  let E ← m.edge e
  let H1 ← m.halfEdge E.mHe1
  if H1.mNext ≠ some E.mHe2 then do
    let H2 ← m.halfEdge E.mHe2
    let m ← relink m (← H2.mPrev) (← H1.mNext)
    let H1 ← m.halfEdge E.mHe1
    let m ← eraseIncident m H1.mDst H1.mDstBackIt
    let H2 ← m.halfEdge E.mHe2
    eraseIncident m H1.mDst H2.mSrcBackIt
  else do
    let l ← eraseAt m.mVertices H1.mDst
    pure { m with mVertices := l }

/-- `Manifold::removeEdge`. -/
def removeEdge (m : Manifold) (e : EdgeIt) : Option Manifold := do
  let m ← removeEdgeAtSrc m e
  let m ← removeEdgeAtDst m e
  let E ← m.edge e
  let l ← eraseAt m.mHalfEdges E.mHe1
  let l ← eraseAt l E.mHe2
  let le ← eraseAt m.mEdges e
  pure { m with mHalfEdges := l, mEdges := le }

/-- The inner loop of `Manifold::removeFaces`; the state is the manifold and
`edgesToBeRemoved`. -/
def removeFacesDetach :
    List (ListIt × HalfEdgeIt) → Manifold × List EdgeIt → Option (Manifold × List EdgeIt)
  | [], s => some s
  | (_, hit) :: l, s => do
    let m ← s.1.setHalfEdge hit (fun H => { H with mFace := none })
    let H ← m.halfEdge hit
    let B ← m.halfEdge H.mBuddy
    if B.mFace = none then removeFacesDetach l (m, s.2 ++ [H.mParent])
    else removeFacesDetach l (m, s.2)

/-- The outer loop of `Manifold::removeFaces`. -/
def removeFacesLoop : List FaceIt → Manifold × List EdgeIt → Option (Manifold × List EdgeIt)
  | [], s => some s
  | fit :: l, s => do
    let F ← s.1.face fit
    let s ← removeFacesDetach F.mIncidentHalfEdges s
    let lf ← eraseAt s.1.mFaces fit
    removeFacesLoop l ({ s.1 with mFaces := lf }, s.2)

/-- `Manifold::removeFaces`. -/
def removeFaces (m : Manifold) (faces : List FaceIt) : Option Manifold := do
  let s ← removeFacesLoop faces (m, [])
  forEachIt removeEdge s.2 s.1

/-- Insert `he` into the incidence list of `v` before the entry `pos`; the result
carries the iterator to the new entry. -/
def insertIncident (m : Manifold) (v : VertexIt) (pos : Option ListIt) (he : HalfEdgeIt) :
    Option (Manifold × ListIt) := do
  let V ← m.vertex v
  let l ← insertBefore V.mIncidentHalfEdges (← pos) (m.mFresh, he)
  let m' ← m.setVertex v (fun V => { V with mIncidentHalfEdges := l })
  pure ({ m' with mFresh := m.mFresh + 1 }, m.mFresh)

/-- Append `he` to the incidence list of `v` (`insert(end(), he)`). -/
def appendIncident (m : Manifold) (v : VertexIt) (he : HalfEdgeIt) :
    Option (Manifold × ListIt) := do
  let m' ← m.setVertex v (fun V =>
    { V with mIncidentHalfEdges := V.mIncidentHalfEdges ++ [(m.mFresh, he)] })
  pure ({ m' with mFresh := m.mFresh + 1 }, m.mFresh)

/-- Assignment `(*((*h)->mParent))->mPredFaces = (*fit)->isCoplanar(fBuddy)` with
`fBuddy = (*((*h)->mBuddy))->mFace`, as written in `makeCircularFan`. -/
def setPredFacesAcross (m : Manifold) (h : Option HalfEdgeIt) (fit : FaceIt) :
    Option Manifold := do
  let H ← m.halfEdge (← h)
  let B ← m.halfEdge H.mBuddy
  let pred ← isCoplanar m (some fit) B.mFace
  m.setEdge H.mParent (fun E => { E with mPredFaces := pred })

/-- The part of the loop body of `makeCircularFan` that creates faces. -/
def makeCircularFanFaces (m : Manifold) (i size : Nat) (hBase2 : HalfEdgeIt)
    (hBase1 : Option HalfEdgeIt) (hStem1 hStem2 : HalfEdgeIt) (hPrev hLast : Option HalfEdgeIt) :
    Option Manifold := do
  let m ←
    if i > 0 then do
      let r ← makeTriangle m hBase1 (some hStem1) hPrev
      setPredFacesAcross r.1 hBase1 r.2
    else pure m
  if i + 1 = size then do
    let r ← makeTriangle m (some hBase2) hLast (some hStem2)
    let m ← setPredFacesAcross r.1 (some hBase2) r.2
    setPredFacesAcross m hLast r.2
  else pure m

/-- The part of the loop body of `makeCircularFan` that inserts the stem half
edges into the incidence list of `vCenter`. -/
def makeCircularFanStitchCenter (m : Manifold) (vCenter : VertexIt)
    (hStem1 hStem2 : HalfEdgeIt) : Option Manifold := do
  let r ← appendIncident m vCenter hStem1
  let m ← r.1.setHalfEdge hStem1 (fun H => { H with mDstBackIt := some r.2 })
  let r ← appendIncident m vCenter hStem2
  r.1.setHalfEdge hStem2 (fun H => { H with mSrcBackIt := some r.2 })

/-- The part of the loop body of `makeCircularFan` that inserts the stem half
edges into the incidence lists of `vBase` and `vCenter`. -/
def makeCircularFanStitch (m : Manifold) (vBase vCenter : VertexIt)
    (hBase1 : Option HalfEdgeIt) (hStem1 hStem2 : HalfEdgeIt) : Option Manifold := do
  let HB1 ← m.halfEdge (← hBase1)
  let r ← insertIncident m vBase HB1.mDstBackIt hStem2
  let m ← r.1.setHalfEdge hStem2 (fun H => { H with mDstBackIt := some r.2 })
  let HB1 ← m.halfEdge (← hBase1)
  let r ← insertIncident m vBase HB1.mDstBackIt hStem1
  let m ← r.1.setHalfEdge hStem1 (fun H => { H with mSrcBackIt := some r.2 })
  makeCircularFanStitchCenter m vCenter hStem1 hStem2

/-- The loop of `makeCircularFan`; `i` is the index of the head of the list and
the state is `(hPrev, hLast)`. -/
def makeCircularFanLoop (vCenter : VertexIt) (size : Nat) :
    List HalfEdgeIt → Nat → Manifold → Option HalfEdgeIt × Option HalfEdgeIt → Option Manifold
  | [], _, m, _ => some m
  | hBase2 :: l, i, m, s => do
    let HB2 ← m.halfEdge hBase2
    let r ← makeEdge m HB2.mSrc vCenter
    let E ← r.1.edge r.2
    let H1 ← r.1.halfEdge E.mHe1
    let hStem1 := if H1.mDst = vCenter then E.mHe1 else E.mHe2
    let hStem2 := if H1.mDst = vCenter then E.mHe2 else E.mHe1
    let m ← makeCircularFanFaces r.1 i size hBase2 HB2.mPrev hStem1 hStem2 s.1 s.2
    let m ← makeCircularFanStitch m HB2.mSrc vCenter HB2.mPrev hStem1 hStem2
    makeCircularFanLoop vCenter size l (i + 1) m
      (some hStem2, if i = 0 then some hStem1 else s.2)

/-- `Manifold::makeCircularFan`. -/
def makeCircularFan (m : Manifold) (halfEdges : List HalfEdgeIt) (p : Vec3) (id : Int) :
    Option (Manifold × VertexIt) := do
  let r := makeVertex m p id
  let m ← makeCircularFanLoop r.2 halfEdges.length halfEdges 0 r.1 (none, none)
  pure (m, r.2)

/-! ## di_base.cpp: the operations of the conflict graph -/

namespace DiGraph

/-- Dereference a node iterator and `dynamic_cast` to `FaceConflict`. -/
def faceConflict (g : DiGraph) (n : NodeIt) : Option FaceIt :=
  match deref g.mNodes n with
  | some (ConflictNode.FaceConflict f) => some f
  | _ => none

/-- Dereference a node iterator and `dynamic_cast` to `VertexConflict`: the
point, the id and `mFound`. -/
def vertexConflict (g : DiGraph) (n : NodeIt) : Option (Vec3 × Int × Bool) :=
  match deref g.mNodes n with
  | some (ConflictNode.VertexConflict p id found) => some (p, id, found)
  | _ => none

/-- `Graph::addNode`. -/
def addNode (g : DiGraph) (it : NodeIt) (c : ConflictNode) : DiGraph :=
  { g with mNodes := g.mNodes ++ [(it, c)] }

/-- `DiGraph::addEdge(e, n1, n2)` with `n1` the source and `n2` the destination. -/
def addEdge (g : DiGraph) (it : Nat) (nSrc nDst : NodeIt) : DiGraph :=
  { g with mEdges := g.mEdges ++ [(it, nSrc, nDst)] }

/-- `Graph::removeNode`: the node goes together with its incident edges. -/
def removeNode (g : DiGraph) (n : NodeIt) : Option DiGraph := do
  let l ← eraseAt g.mNodes n
  pure { mNodes := l, mEdges := g.mEdges.filter (fun e => e.2.1 ≠ n ∧ e.2.2 ≠ n) }

/-- The sources of `incidentEdgesIn()` of `n`, in the order of the list. -/
def inNeighbors (g : DiGraph) (n : NodeIt) : List NodeIt :=
  (g.mEdges.filter (fun e => e.2.2 = n)).map (fun e => e.2.1)

/-- The destinations of `incidentEdgesOut()` of `n`, in the order of the list. -/
def outNeighbors (g : DiGraph) (n : NodeIt) : List NodeIt :=
  (g.mEdges.filter (fun e => e.2.1 = n)).map (fun e => e.2.2)

/-- Assignment `vc.mFound = b` through a node iterator. -/
def setFound (g : DiGraph) (n : NodeIt) (b : Bool) : Option DiGraph := do
  let c ← vertexConflict g n
  let l ← assign g.mNodes n (fun _ => ConflictNode.VertexConflict c.1 c.2.1 b)
  pure { g with mNodes := l }

end DiGraph

/-! ## manifold_convex_hull.cpp -/

/-- `FrontierElem`. -/
structure FrontierElem where
  mHeit : HalfEdgeIt
  mFacingVertices : List NodeIt
deriving DecidableEq, Repr

/-- The result of `Manifold::analyzePoints`.  The indices are written only when
the predicate is `NONE`. -/
structure Analysis where
  pred : predicate
  index1 : Nat
  index2 : Nat
  index3 : Nat
  index4 : Nat
deriving DecidableEq, Repr

/-- `Manifold::analyzePoints`. -/
def analyzePoints (points : List Vec3) : Option Analysis := do
  let ax1 := varianceOf points (meanOf points)
  let p0 ← pointAt points 0
  let sx := extremalAlongAxis ax1 (points.drop 1) 1 (ax1.dot p0, ax1.dot p0, 0, 0)
  let p1 ← pointAt points sx.2.2.1
  let p2 ← pointAt points sx.2.2.2
  let sy := extremalPerpendicular p1 p2 sx.2.2.1 sx.2.2.2 points 0 (false, 0, -1)
  if !sy.1 then pure ⟨predicate.MAYBE_COLINEAR, 0, 0, 0, 0⟩
  else do
    let p3 ← pointAt points sy.2.2
    let ax3 := (p2.sub p1).cross (p3.sub p1)
    let sz := extremalAlongNormal p1 p2 p3 ax3 sx.2.2.1 sx.2.2.2 sy.2.2.toNat points 0
      (false, 0, -1)
    if !sz.1 then pure ⟨predicate.MAYBE_COPLANAR, 0, 0, 0, 0⟩
    else pure ⟨predicate.NONE, sx.2.2.1, sx.2.2.2, sy.2.2.toNat, sz.2.2.toNat⟩

/-- The first loop of `createInitialConflictGraph`: one `FaceConflict` per face. -/
def createFaceConflicts : List FaceIt → Manifold → Option Manifold
  | [], m => some m
  | fit :: l, m => do
    let m' ← m.setFace fit (fun F => { F with mFaceConflict := some m.mFresh })
    createFaceConflicts l
      { m' with mConflictGraph :=
                  m.mConflictGraph.addNode m.mFresh (ConflictNode.FaceConflict fit),
                mFresh := m.mFresh + 1 }

/-- Add the edge `fc -> vc` to the conflict graph. -/
def addConflictEdge (m : Manifold) (fc vc : NodeIt) : Manifold :=
  { m with mConflictGraph := m.mConflictGraph.addEdge m.mFresh fc vc,
           mFresh := m.mFresh + 1 }

/-- The inner loop of `createInitialConflictGraph` for the point `p` with id
`id`.  The state is the manifold and `vcit` (`none` is `nodes().second`). -/
def createConflictsOfPoint (p : Vec3) (id : Int) :
    List FaceIt → Manifold × Option NodeIt → Option (Manifold × Option NodeIt)
  | [], s => some s
  | fit :: l, s => do
    let F ← s.1.face fit
    let fcit ← F.mFaceConflict
    let _ ← s.1.mConflictGraph.faceConflict fcit
    let r ← isFacing s.1 fit p s.1.mEpsilonCHMargin
    if r.1 ∧ r.2 = predicate.NONE then
      match s.2 with
      | none =>
        createConflictsOfPoint p id l
          (addConflictEdge
            { s.1 with mConflictGraph :=
                         s.1.mConflictGraph.addNode s.1.mFresh
                           (ConflictNode.VertexConflict p id false),
                       mFresh := s.1.mFresh + 1 } fcit s.1.mFresh, some s.1.mFresh)
      | some vcit => createConflictsOfPoint p id l (addConflictEdge s.1 fcit vcit, some vcit)
    else createConflictsOfPoint p id l s

/-- The second loop of `createInitialConflictGraph`; the state is the manifold
and `vertices`. -/
def createConflicts :
    List Vec3 → List Int → Manifold × List NodeIt → Option (Manifold × List NodeIt)
  | [], _, s => some s
  | _ :: _, [], _ => none
  | p :: ps, id :: ids, s => do
    let r ← createConflictsOfPoint p id (s.1.mFaces.map Prod.fst) (s.1, none)
    match r.2 with
    | none => createConflicts ps ids (r.1, s.2)
    | some vcit => createConflicts ps ids (r.1, s.2 ++ [vcit])

/-- `Manifold::createInitialConflictGraph`: the manifold afterwards and `vertices`. -/
def createInitialConflictGraph (m : Manifold) (points : List Vec3) (indices : List Int) :
    Option (Manifold × List NodeIt) := do
  let m ← createFaceConflicts (m.mFaces.map Prod.fst) m
  createConflicts points indices (m, [])

/-- The test of `vertexIsTooCloseToFace` for one half edge from `pSrc` to `pDst`. -/
def tooCloseToHalfEdge (eps : ℚ) (pTest pSrc pDst : Vec3) : Bool :=
  decide ((pTest.sub pSrc).squaredNorm2 < eps) ||
  (decide ((((pDst.sub pSrc).normalize).cross ((pTest.sub pSrc).normalize)).squaredNorm2 < eps) &&
   decide ((pDst.sub pSrc).dot (pTest.sub pSrc) > 0) &&
   decide ((pTest.sub pSrc).squaredNorm2 < (pDst.sub pSrc).squaredNorm2))

/-- The loop of `Manifold::vertexIsTooCloseToFace`. -/
def vertexIsTooCloseLoop (m : Manifold) (pTest : Vec3) : List (ListIt × HalfEdgeIt) → Option Bool
  | [] => some false
  | (_, he) :: l => do
    let pSrc ← m.srcPoint he
    let pDst ← m.dstPoint he
    if tooCloseToHalfEdge m.mEpsilonCHMargin pTest pSrc pDst then pure true
    else vertexIsTooCloseLoop m pTest l

/-- `Manifold::vertexIsTooCloseToFace`. -/
def vertexIsTooCloseToFace (m : Manifold) (pTest : Vec3) (fit : FaceIt) : Option Bool := do
  let F ← m.face fit
  vertexIsTooCloseLoop m pTest F.mIncidentHalfEdges

/-- The loop of `Manifold::findVisibleFaces` over the sources of the incoming
edges; the result is `(abort, conflictFaces)`. -/
def findVisibleFacesLoop (m : Manifold) (p : Vec3) :
    List NodeIt → List FaceIt → Option (Bool × List FaceIt)
  | [], acc => some (false, acc)
  | n :: l, acc => do
    let fit ← m.mConflictGraph.faceConflict n
    if ← vertexIsTooCloseToFace m p fit then pure (true, acc)
    else findVisibleFacesLoop m p l (acc ++ [fit])

/-- `Manifold::findVisibleFaces`: `(abort, conflictFaces)`. -/
def findVisibleFaces (m : Manifold) (vc : NodeIt) : Option (Bool × List FaceIt) := do
  let c ← m.mConflictGraph.vertexConflict vc
  findVisibleFacesLoop m c.1 (m.mConflictGraph.inNeighbors vc) []

/-- Assign `mFound` of the `VertexConflict` nodes in the list. -/
def setFoundAll (b : Bool) : List NodeIt → DiGraph → Option DiGraph
  | [], g => some g
  | n :: l, g => do
    let g ← g.setFound n b
    setFoundAll b l g

/-- The second inner loop of `makeFrontier`: the nodes not yet found. -/
def notFound (g : DiGraph) : List NodeIt → Option (List NodeIt)
  | [] => some []
  | n :: l => do
    let c ← g.vertexConflict n
    let rest ← notFound g l
    pure (if !c.2.2 then n :: rest else rest)

/-- The conflict node of the face of a half edge, `(*((*he)->mFace))->mFaceConflict`,
cast to `FaceConflict`. -/
def faceConflictOf (m : Manifold) (he : HalfEdgeIt) : Option NodeIt := do
  let H ← m.halfEdge he
  let F ← m.face (← H.mFace)
  let fcit ← F.mFaceConflict
  let _ ← m.mConflictGraph.faceConflict fcit
  pure fcit

/-- The loop of `Manifold::makeFrontier`. -/
def makeFrontierLoop : List HalfEdgeIt → Manifold → Option (Manifold × List FrontierElem)
  | [], m => some (m, [])
  | he :: l, m => do
    let fc1 ← faceConflictOf m he
    let out1 := m.mConflictGraph.outNeighbors fc1
    let g ← setFoundAll true out1 m.mConflictGraph
    let m := { m with mConflictGraph := g }
    let H ← m.halfEdge he
    let fc2 ← faceConflictOf m H.mBuddy
    let more ← notFound m.mConflictGraph (m.mConflictGraph.outNeighbors fc2)
    let g ← setFoundAll false out1 m.mConflictGraph
    let r ← makeFrontierLoop l { m with mConflictGraph := g }
    pure (r.1, ⟨he, out1 ++ more⟩ :: r.2)

/-- `Manifold::makeFrontier`. -/
def makeFrontier (m : Manifold) (halfEdges : List HalfEdgeIt) :
    Option (Manifold × List FrontierElem) :=
  makeFrontierLoop halfEdges m

/-- The loop of `updateFaces` that removes the conflict nodes of the faces. -/
def removeFaceConflicts : List FaceIt → Manifold → Option Manifold
  | [], m => some m
  | cf :: l, m => do
    let F ← m.face cf
    let fcit ← F.mFaceConflict
    let _ ← m.mConflictGraph.faceConflict fcit
    let g ← m.mConflictGraph.removeNode fcit
    removeFaceConflicts l { m with mConflictGraph := g }

/-- The result of `Manifold::updateFaces`: the new vertex (`none` is
`mVertices.end()`), the frontier and the flag written to `abort`. -/
structure UpdateFacesResult where
  vp : Option VertexIt
  frontier : List FrontierElem
  abort : Bool
deriving DecidableEq, Repr

/-- `Manifold::updateFaces`. -/
def updateFaces (fuel : Nat) (m : Manifold) (p : Vec3) (id : Int) (conflictFaces : List FaceIt) :
    Option (Manifold × UpdateFacesResult) := do
  let c ← findCircumference fuel m conflictFaces
  if c.2.2 then pure (c.1, ⟨none, [], true⟩)
  else do
    let fr ← makeFrontier c.1 c.2.1
    let m ← removeFaceConflicts conflictFaces fr.1
    let m ← removeFaces m conflictFaces
    let r ← makeCircularFan m c.2.1 p id
    pure (r.1, ⟨some r.2, fr.2, false⟩)

/-- The inner loop of `updateConflictGraph` and of `mergeConsecutiveFaces`: the
points of `vertices` are tested against the face `f` with conflict node `fc`. -/
def addFacingEdges (f : FaceIt) (fc : NodeIt) : List NodeIt → Manifold → Option Manifold
  | [], m => some m
  | vcit :: l, m => do
    let c ← m.mConflictGraph.vertexConflict vcit
    let r ← isFacing m f c.1 m.mEpsilonCHMargin
    if r.1 ∧ r.2 = predicate.NONE then addFacingEdges f fc l (addConflictEdge m fc vcit)
    else addFacingEdges f fc l m

/-- Create the `FaceConflict` node of the face `f` and store it in the face. -/
def newFaceConflict (m : Manifold) (f : FaceIt) : Option (Manifold × NodeIt) := do
  let m' ← m.setFace f (fun F => { F with mFaceConflict := some m.mFresh })
  pure ({ m' with mConflictGraph :=
                    m.mConflictGraph.addNode m.mFresh (ConflictNode.FaceConflict f),
                  mFresh := m.mFresh + 1 }, m.mFresh)

/-- `Manifold::updateConflictGraph`. -/
def updateConflictGraph : List FrontierElem → Manifold → Option Manifold
  | [], m => some m
  | fe :: l, m => do
    let H ← m.halfEdge fe.mHeit
    let f ← H.mFace
    let r ← newFaceConflict m f
    let m ← addFacingEdges f r.2 fe.mFacingVertices r.1
    updateConflictGraph l m

/-- `Manifold::areIncidentFacesParallelOrConcave`. -/
def areIncidentFacesParallelOrConcave (m : Manifold) (e : EdgeIt) : Option Bool := do
  let E ← m.edge e
  let H1 ← m.halfEdge E.mHe1
  let H2 ← m.halfEdge E.mHe2
  let F1 ← m.face (← H1.mFace)
  let F2 ← m.face (← H2.mFace)
  let V2 ← m.vertex H2.mSrc
  let V1 ← m.vertex H1.mSrc
  pure (decide ((V2.mPointLCS.sub V1.mPointLCS).dot (F1.mNormalLCS.cross F2.mNormalLCS)
    ≤ m.mEpsilonCHMargin))

/-- Chain the edge `e` at the front of `mEdgesToBeRemoved` unless it is marked
already: `if (!mToBeRemoved) { mToBeRemoved = true; mBackItETBR = insert(begin(), e); }`. -/
def chainEdge (m : Manifold) (e : EdgeIt) : Option Manifold := do
  let E ← m.edge e
  if !E.mToBeRemoved then do
    let m' ← m.setEdge e (fun E => { E with mToBeRemoved := true, mBackItETBR := some m.mFresh })
    pure { m' with mEdgesToBeRemoved := (m.mFresh, e) :: m.mEdgesToBeRemoved,
                   mFresh := m.mFresh + 1 }
  else pure m

/-- The test and the marking of one edge in the first loop of
`checkAndMergeFacesCounterClockwise`. -/
def checkEdge (m : Manifold) (e : EdgeIt) : Option Manifold := do
  let E ← m.edge e
  if E.mPredFaces = predicate.MAYBE_COPLANAR then chainEdge m e
  else if ← areIncidentFacesParallelOrConcave m e then chainEdge m e
  else pure m

/-- The first loop of `checkAndMergeFacesCounterClockwise`. -/
def checkPillars (center : VertexIt) : List (ListIt × HalfEdgeIt) → Manifold → Option Manifold
  | [], m => some m
  | (_, hePillar) :: l, m => do
    let H ← m.halfEdge hePillar
    if H.mSrc = center then do
      let m ← checkEdge m H.mParent
      let HC ← m.halfEdge (← H.mNext)
      let m ← checkEdge m HC.mParent
      checkPillars center l m
    else checkPillars center l m

/-- The inner loop of `gatherConnectedFaces` over the half edges of a face; the
state is the manifold and the queue `Q`. -/
def gatherAcross :
    List (ListIt × HalfEdgeIt) → Manifold × List FaceIt → Option (Manifold × List FaceIt)
  | [], s => some s
  | (_, heit) :: l, s => do
    let H ← s.1.halfEdge heit
    let E ← s.1.edge H.mParent
    if E.mToBeRemoved then do
      let B ← s.1.halfEdge H.mBuddy
      let fBuddy ← B.mFace
      let FB ← s.1.face fBuddy
      if !FB.mToBeMerged then do
        let m ← s.1.setFace fBuddy (fun F => { F with mToBeMerged := true })
        gatherAcross l (m, s.2 ++ [fBuddy])
      else gatherAcross l s
    else gatherAcross l s

/-- The loop `while (!Q.empty())` of `gatherConnectedFaces`; the last argument
is `faces`. -/
def gatherLoop : Nat → Manifold × List FaceIt → List FaceIt → Option (Manifold × List FaceIt)
  | 0, s, faces => if s.2 = [] then some (s.1, faces) else none
  | fuel + 1, s, faces =>
    match s.2 with
    | [] => some (s.1, faces)
    | fit :: Q => do
      let F ← s.1.face fit
      let s' ← gatherAcross F.mIncidentHalfEdges (s.1, Q)
      gatherLoop fuel s' (faces ++ [fit])

/-- Assign `mToBeMerged` of the faces in the list. -/
def setFacesToBeMerged (b : Bool) : List FaceIt → Manifold → Option Manifold
  | [], m => some m
  | fit :: l, m => do
    let m ← m.setFace fit (fun F => { F with mToBeMerged := b })
    setFacesToBeMerged b l m

/-- `Manifold::gatherConnectedFaces`. -/
def gatherConnectedFaces (fuel : Nat) (m : Manifold) (eit : EdgeIt) :
    Option (Manifold × List FaceIt) := do
  let E ← m.edge eit
  let H1 ← m.halfEdge E.mHe1
  let H2 ← m.halfEdge E.mHe2
  let f1 ← H1.mFace
  let f2 ← H2.mFace
  let m ← m.setFace f1 (fun F => { F with mToBeMerged := true })
  let m ← m.setFace f2 (fun F => { F with mToBeMerged := true })
  let r ← gatherLoop fuel (m, [f1, f2]) []
  let m ← setFacesToBeMerged false r.2 r.1
  pure (m, r.2)

/-- The margin `std::min(0.1, mEpsilonCHMargin*100.0)`. -/
def convexityMargin (m : Manifold) : ℚ := min (1 / 10) (m.mEpsilonCHMargin * 100)

/-- Mark the face `f` and push it to `additionalFaces` unless it is marked. -/
def markAdditional (s : Manifold × List FaceIt) (f : Option FaceIt) :
    Option (Manifold × List FaceIt) := do
  let fit ← f
  let F ← s.1.face fit
  if !F.mToBeMerged then do
    let m ← s.1.setFace fit (fun F => { F with mToBeMerged := true })
    pure (m, s.2 ++ [fit])
  else pure s

/-- The test `n.dot(cr) < -1.0 * std::min(0.1, mEpsilonCHMargin*100.0)` of
`checkForConcavity` at the consecutive half edges `he1`, `he2`. -/
def isDented (m : Manifold) (n : Vec3) (he1 he2 : HalfEdgeIt) : Option Bool := do
  let p1 ← m.srcPoint he1
  let p2 ← m.srcPoint he2
  let p3 ← m.dstPoint he2
  pure (decide (n.dot (((p2.sub p1).normalize).cross ((p3.sub p2).normalize))
    < -1 * convexityMargin m))

/-- The body of `if (n.dot(cr) < ...)` in `checkForConcavity`: `none` in the
second component means that the function returns `true` here. -/
def concavityFound (s : Manifold × List FaceIt) (he1 he2 : HalfEdgeIt) :
    Option (Manifold × Option (List FaceIt)) := do
  let H1 ← s.1.halfEdge he1
  let H2 ← s.1.halfEdge he2
  let E1 ← s.1.edge H1.mParent
  let E2 ← s.1.edge H2.mParent
  let B1 ← s.1.halfEdge H1.mBuddy
  let B2 ← s.1.halfEdge H2.mBuddy
  if E1.mPredFaces = predicate.MAYBE_COPLANAR ∧ E2.mPredFaces = predicate.MAYBE_COPLANAR then do
    let s ← markAdditional s B1.mFace
    let s ← markAdditional s B2.mFace
    pure (s.1, some s.2)
  else do
    let m ← setFacesToBeMerged false s.2 s.1
    let _ ← m.face (← B1.mFace)
    let _ ← m.face (← B2.mFace)
    pure (m, none)

/-- The loop of `Manifold::checkForConcavity`; `n` is the normal of the face and
the state is the manifold and `additionalFaces`.  The result carries the return
value of `checkForConcavity`. -/
def checkForConcavityLoop (halfEdges : List HalfEdgeIt) (n : Vec3) :
    List Nat → Manifold × List FaceIt → Option (Manifold × List FaceIt × Bool)
  | [], s => do
    let m ← setFacesToBeMerged false s.2 s.1
    pure (m, s.2, false)
  | i :: l, s => do
    let he1 ← halfEdges.get? i
    let he2 ← halfEdges.get? ((i + 1) % halfEdges.length)
    let _ ← s.1.halfEdge he1
    let _ ← s.1.halfEdge he2
    if ← isDented s.1 n he1 he2 then do
      let r ← concavityFound s he1 he2
      match r.2 with
      | some additionalFaces => checkForConcavityLoop halfEdges n l (r.1, additionalFaces)
      | none => pure (r.1, s.2, true)
    else checkForConcavityLoop halfEdges n l s

/-- `Manifold::checkForConcavity`: the manifold afterwards, `additionalFaces`
and the return value. -/
def checkForConcavity (m : Manifold) (halfEdges : List HalfEdgeIt) :
    Option (Manifold × List FaceIt × Bool) := do
  let H0 ← m.halfEdge (← halfEdges.get? 0)
  let F ← m.face (← H0.mFace)
  checkForConcavityLoop halfEdges F.mNormalLCS (List.range halfEdges.length) (m, [])

/-- Assign `mFound` of the parent edges of the half edges. -/
def setParentsFound (b : Bool) : List HalfEdgeIt → Manifold → Option Manifold
  | [], m => some m
  | he :: l, m => do
    let H ← m.halfEdge he
    let m ← m.setEdge H.mParent (fun E => { E with mFound := b })
    setParentsFound b l m

/-- The inner loop of `findInnerEdgesAndRemoveFromChain` over the half edges of
one face. -/
def unchainInnerEdges : List (ListIt × HalfEdgeIt) → Manifold → Option Manifold
  | [], m => some m
  | (_, he) :: l, m => do
    let H ← m.halfEdge he
    let E ← m.edge H.mParent
    if !E.mFound ∧ E.mToBeRemoved then do
      let m ← m.setEdge H.mParent (fun E => { E with mToBeRemoved := false })
      let q ← eraseAt m.mEdgesToBeRemoved (← E.mBackItETBR)
      unchainInnerEdges l { m with mEdgesToBeRemoved := q }
    else unchainInnerEdges l m

/-- The loop of `findInnerEdgesAndRemoveFromChain` over the faces. -/
def unchainInnerEdgesOfFaces : List FaceIt → Manifold → Option Manifold
  | [], m => some m
  | fit :: l, m => do
    let F ← m.face fit
    let m ← unchainInnerEdges F.mIncidentHalfEdges m
    unchainInnerEdgesOfFaces l m

/-- `Manifold::findInnerEdgesAndRemoveFromChain`. -/
def findInnerEdgesAndRemoveFromChain (m : Manifold) (faces : List FaceIt)
    (halfEdges : List HalfEdgeIt) : Option Manifold := do
  let m ← setParentsFound true halfEdges m
  let m ← unchainInnerEdgesOfFaces faces m
  setParentsFound false halfEdges m

/-- The inner loop of the first loop of `mergeConsecutiveFaces`: the nodes not
yet found are marked and pushed to `vertices`. -/
def collectNotFound : List NodeIt → DiGraph × List NodeIt → Option (DiGraph × List NodeIt)
  | [], s => some s
  | n :: l, s => do
    let c ← s.1.vertexConflict n
    if !c.2.2 then do
      let g ← s.1.setFound n true
      collectNotFound l (g, s.2 ++ [n])
    else collectNotFound l s

/-- The first loop of `mergeConsecutiveFaces`; the state is the manifold and
`vertices`. -/
def collectConflicts : List FaceIt → Manifold × List NodeIt → Option (Manifold × List NodeIt)
  | [], s => some s
  | fit :: l, s => do
    let F ← s.1.face fit
    let fcit ← F.mFaceConflict
    let _ ← s.1.mConflictGraph.faceConflict fcit
    let r ← collectNotFound (s.1.mConflictGraph.outNeighbors fcit) (s.1.mConflictGraph, s.2)
    let g ← r.1.removeNode fcit
    collectConflicts l ({ s.1 with mConflictGraph := g }, r.2)

/-- The loop of `mergeConsecutiveFaces` that renews `mPredFaces` along the
circumference. -/
def renewPredFaces : List HalfEdgeIt → Manifold → Option Manifold
  | [], m => some m
  | heit :: l, m => do
    let H ← m.halfEdge heit
    let B ← m.halfEdge H.mBuddy
    let pred ← isCoplanar m H.mFace B.mFace
    let m ← m.setEdge H.mParent (fun E => { E with mPredFaces := pred })
    renewPredFaces l m

/-- `Manifold::mergeConsecutiveFaces`. -/
def mergeConsecutiveFaces (fuel : Nat) (m : Manifold) (faces : List FaceIt) :
    Option Manifold := do
  let r ← collectConflicts faces (m, [])
  let g ← setFoundAll false r.2 r.1.mConflictGraph
  let c ← findCircumference fuel { r.1 with mConflictGraph := g } faces
  let m ← removeFaces c.1 faces
  let f ← makePolygon m c.2.1
  let m ← renewPredFaces c.2.1 f.1
  let fc ← newFaceConflict m f.2
  addFacingEdges f.2 fc.2 r.2 fc.1

/-- Insert the vertex at the front of `mVerticesToBeRemoved` and store the
iterator in `mBackItVTBR`; `flag` tells whether `mToBeRemoved` is set to `true`
as well. -/
def chainVertex (m : Manifold) (v : VertexIt) (flag : Bool) : Option Manifold := do
  let m' ← m.setVertex v (fun V =>
    { V with mBackItVTBR := some m.mFresh,
             mToBeRemoved := if flag then true else V.mToBeRemoved })
  pure { m' with mVerticesToBeRemoved := (m.mFresh, v) :: m.mVerticesToBeRemoved,
                 mFresh := m.mFresh + 1 }

/-- Erase the vertex from `mVerticesToBeRemoved` through `mBackItVTBR` and reset
`mToBeRemoved`. -/
def unchainVertex (m : Manifold) (v : VertexIt) : Option Manifold := do
  let V ← m.vertex v
  let q ← eraseAt m.mVerticesToBeRemoved (← V.mBackItVTBR)
  let m ← m.setVertex v (fun V => { V with mToBeRemoved := false })
  pure { m with mVerticesToBeRemoved := q }

/-- One round of the degree-1 handling in `removeEdgeAndMergeFacesCheckForUpdate`:
the only edge of `vCur` is removed.  The result carries `vAdj` and `needUpdate`. -/
def removeDanglingEdge (m : Manifold) (vCur : VertexIt) : Option (Manifold × VertexIt × Bool) := do
  let VC ← m.vertex vCur
  let heCur ← (VC.mIncidentHalfEdges.head?).map Prod.snd
  let H ← m.halfEdge heCur
  let vAdj := if H.mSrc = vCur then H.mDst else H.mSrc
  let VA ← m.vertex vAdj
  let r ←
    if VA.mIncidentHalfEdges.length = 6 then (chainVertex m vAdj true).map (fun m => (m, false))
    else if VA.mIncidentHalfEdges.length = 4 then (unchainVertex m vAdj).map (fun m => (m, true))
    else pure (m, false)
  let E ← r.1.edge H.mParent
  let q ← if E.mToBeRemoved then eraseAt r.1.mEdgesToBeRemoved (← E.mBackItETBR)
          else pure r.1.mEdgesToBeRemoved
  let m ← removeEdge { r.1 with mEdgesToBeRemoved := q } H.mParent
  pure (m, vAdj, r.2)

/-- The loop `while (needUpdate)` of `removeEdgeAndMergeFacesCheckForUpdate`. -/
def removeDanglingChain : Nat → Manifold → VertexIt → Option Manifold
  | 0, _, _ => none
  | fuel + 1, m, vAdj => do
    let r ← removeDanglingEdge m vAdj
    if r.2.2 then removeDanglingChain fuel r.1 r.2.1 else pure r.1

/-- `Manifold::removeEdgeAndMergeFacesCheckForUpdate`. -/
def removeEdgeAndMergeFacesCheckForUpdate (fuel : Nat) (m : Manifold) (vit : VertexIt) :
    Option Manifold := do
  let V ← m.vertex vit
  if V.mIncidentHalfEdges.length = 4 then chainVertex m vit false
  else if V.mIncidentHalfEdges.length = 2 then do
    let r ← removeDanglingEdge m vit
    if r.2.2 then removeDanglingChain fuel r.1 r.2.1 else pure r.1
  else pure m

/-- The handles read at the head of `removeVertexAndMergeEdges`. -/
structure MergeEdgesFrame where
  he1 : HalfEdgeIt
  he2 : HalfEdgeIt
  he3 : Option HalfEdgeIt
  he4 : HalfEdgeIt
  he5 : HalfEdgeIt
  he6 : Option HalfEdgeIt
  v1 : VertexIt
  v3 : VertexIt
  f1 : Option FaceIt
  f2 : Option FaceIt
  v3Att : Option ListIt
deriving DecidableEq, Repr

/-- The head of `removeVertexAndMergeEdges`. -/
def mergeEdgesFrame (m : Manifold) (v2 : VertexIt) : Option MergeEdgesFrame := do
  let V2 ← m.vertex v2
  let heit ← (V2.mIncidentHalfEdges.head?).map Prod.snd
  let H ← m.halfEdge heit
  let he2 := if H.mSrc = v2 then heit else H.mBuddy
  let H2 ← m.halfEdge he2
  let he1 ← H2.mPrev
  let H5 ← m.halfEdge H2.mBuddy
  let he4 ← H5.mPrev
  let H1 ← m.halfEdge he1
  let H4 ← m.halfEdge he4
  pure ⟨he1, he2, H2.mNext, he4, H2.mBuddy, H5.mNext, H1.mSrc, H2.mDst, H2.mFace, H5.mFace,
    H4.mDstBackIt⟩

/-- Erase the entry `it` from the half edge list of the face `f`. -/
def eraseFromFace (m : Manifold) (f : Option FaceIt) (it : Option ListIt) : Option Manifold := do
  let fit ← f
  let F ← m.face fit
  let l ← eraseAt F.mIncidentHalfEdges (← it)
  m.setFace fit (fun F => { F with mIncidentHalfEdges := l })

/-- The part of `removeVertexAndMergeEdges` that erases `he2`, `he5` and their edge. -/
def mergeEdgesErase (m : Manifold) (fr : MergeEdgesFrame) : Option Manifold := do
  let H5 ← m.halfEdge fr.he5
  let H2 ← m.halfEdge fr.he2
  let m ← eraseFromFace m fr.f2 H5.mFaceBackIt
  let m ← eraseFromFace m fr.f1 H2.mFaceBackIt
  let m ← eraseIncident m fr.v3 H5.mSrcBackIt
  let m ← eraseIncident m fr.v3 H2.mDstBackIt
  let lh ← eraseAt m.mHalfEdges fr.he5
  let lh ← eraseAt lh fr.he2
  let le ← eraseAt m.mEdges H5.mParent
  pure { m with mHalfEdges := lh, mEdges := le }

/-- The part of `removeVertexAndMergeEdges` that attaches `he1` and `he6` to `v3`
and erases `v2`. -/
def mergeEdgesAttach (m : Manifold) (v2 : VertexIt) (fr : MergeEdgesFrame) :
    Option Manifold := do
  let r ← insertIncident m fr.v3 fr.v3Att fr.he1
  let m ← r.1.setHalfEdge fr.he1 (fun H => { H with mDstBackIt := some r.2, mDst := fr.v3 })
  let he6 ← fr.he6
  let r ← insertIncident m fr.v3 fr.v3Att he6
  let m ← r.1.setHalfEdge he6 (fun H => { H with mSrcBackIt := some r.2, mSrc := fr.v3 })
  let lv ← eraseAt m.mVertices v2
  let m ← ({ m with mVertices := lv }).setHalfEdge he6 (fun H => { H with mPrev := some fr.he4 })
  let m ← m.setHalfEdge fr.he4 (fun H => { H with mNext := some he6 })
  let m ← m.setHalfEdge fr.he1 (fun H => { H with mNext := fr.he3 })
  m.setHalfEdge (← fr.he3) (fun H => { H with mPrev := some fr.he1 })

/-- The handling of a face that became a 2-cycle in `removeVertexAndMergeEdges`:
`eit2`, the parent of `heB`, is chained unless it is marked, else `eit1`, the
parent of `heA`. -/
def chainTwoCycle (m : Manifold) (heA : HalfEdgeIt) (heB : Option HalfEdgeIt)
    (v1 v3 : VertexIt) : Option Manifold := do
  let HA ← m.halfEdge heA
  let HB ← m.halfEdge (← heB)
  let E2 ← m.edge HB.mParent
  if !E2.mToBeRemoved then chainEdge m HB.mParent
  else do
    let E1 ← m.edge HA.mParent
    if !E1.mToBeRemoved then chainEdge m HA.mParent
    else do
      let _ ← m.vertex v1
      let _ ← m.vertex v3
      pure m

/-- The tail of `removeVertexAndMergeEdges` that looks for 2-cycles. -/
def mergeEdgesTwoCycles (m : Manifold) (fr : MergeEdgesFrame) : Option Manifold := do
  let F1 ← m.face (← fr.f1)
  let m ← if F1.mIncidentHalfEdges.length = 2 then chainTwoCycle m fr.he1 fr.he3 fr.v1 fr.v3
          else pure m
  if fr.f1 ≠ fr.f2 then do
    let F2 ← m.face (← fr.f2)
    if F2.mIncidentHalfEdges.length = 2 then chainTwoCycle m fr.he4 fr.he6 fr.v1 fr.v3
    else pure m
  else pure m

/-- `Manifold::removeVertexAndMergeEdges`. -/
def removeVertexAndMergeEdges (m : Manifold) (v2 : VertexIt) : Option Manifold := do
  let fr ← mergeEdgesFrame m v2
  if fr.v1 = fr.v3 then do
    let H1 ← m.halfEdge fr.he1
    let m ← chainEdge m H1.mParent
    m.setVertex v2 (fun V => { V with mToBeRemoved := false })
  else do
    let m ← mergeEdgesErase m fr
    let m ← mergeEdgesAttach m v2 fr
    mergeEdgesTwoCycles m fr

/-- The loop `while (true)` of `removeEdgeAndMergeFaces`: `none` in the second
component means that the function returns `true` (abort). -/
def growFaces (fuel : Nat) : Nat → Manifold → List FaceIt →
    Option (Manifold × Option (List FaceIt × List HalfEdgeIt))
  | 0, _, _ => none
  | k + 1, m, faces => do
    let c ← findCircumference fuel m faces
    if c.2.2 then pure (c.1, none)
    else do
      let r ← checkForConcavity c.1 c.2.1
      if r.2.2 then pure (r.1, none)
      else if r.2.1 = [] then pure (r.1, some (faces, c.2.1))
      else growFaces fuel k r.1 (faces ++ r.2.1)

/-- The last loop of `removeEdgeAndMergeFaces`. -/
def checkForUpdateAll (fuel : Nat) : List HalfEdgeIt → Manifold → Option Manifold
  | [], m => some m
  | he :: l, m => do
    let H ← m.halfEdge he
    let m ← removeEdgeAndMergeFacesCheckForUpdate fuel m H.mSrc
    checkForUpdateAll fuel l m

/-- `Manifold::removeEdgeAndMergeFaces`: the manifold afterwards and the return
value (`true` is abort). -/
def removeEdgeAndMergeFaces (fuel : Nat) (m : Manifold) (eit : EdgeIt) :
    Option (Manifold × Bool) := do
  let g ← gatherConnectedFaces fuel m eit
  let r ← growFaces fuel fuel g.1 g.2
  match r.2 with
  | none => pure (r.1, true)
  | some fh => do
    let m ← findInnerEdgesAndRemoveFromChain r.1 fh.1 fh.2
    let m ← mergeConsecutiveFaces fuel m fh.1
    let m ← checkForUpdateAll fuel fh.2 m
    pure (m, false)

/-- The first half of the body of the repair loop: an edge is popped from
`mEdgesToBeRemoved`. -/
def repairEdge (fuel : Nat) (m : Manifold) : Option Manifold :=
  match m.mEdgesToBeRemoved with
  | [] => some m
  | (_, eit) :: q => do
    let m ← ({ m with mEdgesToBeRemoved := q }).setEdge eit
      (fun E => { E with mToBeRemoved := false })
    let r ← removeEdgeAndMergeFaces fuel m eit
    if r.2 then do
      let E ← r.1.edge eit
      let H ← r.1.halfEdge E.mHe1
      let _ ← r.1.vertex H.mSrc
      let _ ← r.1.vertex H.mDst
      pure r.1
    else pure r.1

/-- The second half of the body of the repair loop: a vertex is popped from
`mVerticesToBeRemoved`. -/
def repairVertex (m : Manifold) : Option Manifold :=
  match m.mVerticesToBeRemoved with
  | [] => some m
  | (_, vit) :: q => do
    let m ← ({ m with mVerticesToBeRemoved := q }).setVertex vit
      (fun V => { V with mToBeRemoved := false })
    removeVertexAndMergeEdges m vit

/-- The loop `while (!mEdgesToBeRemoved.empty() || !mVerticesToBeRemoved.empty())`
of `checkAndMergeFacesCounterClockwise`. -/
def repairLoop (fuel : Nat) : Nat → Manifold → Option Manifold
  | 0, m => if m.mEdgesToBeRemoved = [] ∧ m.mVerticesToBeRemoved = [] then some m else none
  | k + 1, m =>
    if m.mEdgesToBeRemoved = [] ∧ m.mVerticesToBeRemoved = [] then some m
    else do
      let m ← repairEdge fuel m
      let m ← repairVertex m
      repairLoop fuel k m

/-- `Manifold::checkAndMergeFacesCounterClockwise`. -/
def checkAndMergeFacesCounterClockwise (fuel : Nat) (m : Manifold) (center : Option VertexIt) :
    Option Manifold := do
  let c ← center
  let m := { m with mEdgesToBeRemoved := [], mVerticesToBeRemoved := [] }
  let C ← m.vertex c
  let m ← checkPillars c C.mIncidentHalfEdges m
  repairLoop fuel fuel m

/-- `Manifold::clearConflictGraph`. -/
def clearConflictGraph (m : Manifold) : Option Manifold := do
  let g ← (m.mConflictGraph.mNodes.map Prod.fst).foldlM
    (fun g n => DiGraph.removeNode g n) m.mConflictGraph
  pure { m with mConflictGraph := g }

/-- The body of the main loop of `findConvexHull` for the conflict node `vcit`. -/
def incorporate (fuel : Nat) (m : Manifold) (vcit : NodeIt) : Option Manifold := do
  let c ← m.mConflictGraph.vertexConflict vcit
  let m ←
    if (m.mConflictGraph.inNeighbors vcit).length > 0 then do
      let v ← findVisibleFaces m vcit
      if !v.1 then do
        let u ← updateFaces fuel m c.1 c.2.1 v.2
        if !u.2.abort then do
          let m ← updateConflictGraph u.2.frontier u.1
          checkAndMergeFacesCounterClockwise fuel m u.2.vp
        else pure u.1
      else pure m
    else pure m
  let g ← m.mConflictGraph.removeNode vcit
  pure { m with mConflictGraph := g }

/-- The main loop of `findConvexHull`. -/
def incorporateAll (fuel : Nat) : List NodeIt → Manifold → Option Manifold
  | [], m => some m
  | vcit :: l, m => do
    let m ← incorporate fuel m vcit
    incorporateAll fuel l m

/-- The elements of `xs` whose index is none of the four given ones. -/
def reduced {α : Type} (xs : List α) (index1 index2 index3 index4 : Nat) : List α :=
  ((xs.enum).filter
    (fun ix => ix.1 ≠ index1 ∧ ix.1 ≠ index2 ∧ ix.1 ≠ index3 ∧ ix.1 ≠ index4)).map Prod.snd

/-- The call of `construct3Simplex` in `findConvexHull`, given the four points. -/
def initialSimplex (m : Manifold) (indices : List Int) (a : Analysis) (p1 p2 p3 p4 : Vec3) :
    Option Manifold := do
  let i1 ← indices.get? a.index1
  let i2 ← indices.get? a.index2
  let i3 ← indices.get? a.index3
  let i4 ← indices.get? a.index4
  construct3Simplex m p1 p2 p3 p4 i1 i2 i3 i4

/-- The part of `findConvexHull` from the conflict graph to the end. -/
def incorporateRemaining (fuel : Nat) (m : Manifold) (points : List Vec3) (indices : List Int)
    (a : Analysis) : Option Manifold := do
  let r ← createInitialConflictGraph m
    (reduced points a.index1 a.index2 a.index3 a.index4)
    (reduced (indices.take points.length) a.index1 a.index2 a.index3 a.index4)
  let m ← incorporateAll fuel r.2 r.1
  let m ← clearConflictGraph m
  let m ← setNormalsForVerticesAndEdges m
  constructHelperMaps m

/-- The part of `findConvexHull` after `analyzePoints` has returned `NONE`. -/
def buildHull (fuel : Nat) (m : Manifold) (points : List Vec3) (indices : List Int)
    (a : Analysis) : Option Manifold := do
  let p1 ← points.get? a.index1
  let p2 ← points.get? a.index2
  let p3 ← points.get? a.index3
  let p4 ← points.get? a.index4
  let m ← initialSimplex m indices a p1 p2 p3 p4
  incorporateRemaining fuel m points indices a

/-- `Manifold::findConvexHull(points, indices, pred, epsilon)`: the manifold
afterwards and the predicate written to `pred`. -/
def findConvexHullIndexed (fuel : Nat) (m : Manifold) (points : List Vec3) (indices : List Int)
    (epsilon : ℚ) : Option (Manifold × predicate) :=
  if points.length < 4 then some ({ m with mEpsilonCHMargin := epsilon }, predicate.MAYBE_FLAT)
  else
    match analyzePoints points with
    | none => none
    | some a =>
      if a.pred ≠ predicate.NONE then some ({ m with mEpsilonCHMargin := epsilon }, a.pred)
      else
        match buildHull fuel { m with mEpsilonCHMargin := epsilon } points indices a with
        | none => none
        | some m' => some (m', predicate.NONE)

/-- `Manifold::findConvexHull(points, pred, epsilon)`. -/
def findConvexHull (fuel : Nat) (m : Manifold) (points : List Vec3) (epsilon : ℚ) :
    Option (Manifold × predicate) :=
  findConvexHullIndexed fuel m points
    (List.map (fun i : Nat => (i : Int)) (List.range points.length)) epsilon

/-! ## convex_hull_2d.cpp -/

/-- `CHinternal`. -/
structure CHinternal where
  mP : Vec2
  mIndex : Int
deriving DecidableEq, Repr

/-- The comparison `CH2sort::operator()`. -/
def CH2sort (i j : CHinternal) : Bool :=
  decide (i.mP.x < j.mP.x) || (decide (i.mP.x = j.mP.x) && decide (i.mP.y < j.mP.y))

/-- The loop of `updateStack`.  The stack is a list with its top at the head. -/
def updateStackLoop (p : CHinternal) (Upper : Bool) : List CHinternal → List CHinternal
  | p1 :: p2 :: us =>
    if Upper = true ∧ (p1.mP.sub p2.mP).dot ((p.mP.sub p1.mP).perp) ≥ EPSILON_LINEAR then
      p1 :: p2 :: us
    else if Upper = false ∧
        (p1.mP.sub p2.mP).dot ((p.mP.sub p1.mP).perp) ≤ -1 * EPSILON_LINEAR then
      p1 :: p2 :: us
    else updateStackLoop p Upper (p2 :: us)
  | us => us

/-- `updateStack`. -/
def updateStack (us : List CHinternal) (p : CHinternal) (Upper : Bool) : List CHinternal :=
  if us.length ≤ 1 then p :: us else p :: updateStackLoop p Upper us

/-- `mergeTwoStacks`: the lower stack from the bottom to the top, then the upper
stack from the index `size() - 2` down to the index `1`. -/
def mergeTwoStacks (upperStack lowerStack : List CHinternal) : List CHinternal :=
  lowerStack.reverse ++ (upperStack.drop 1).dropLast

/-- The input of `findConvexHull2D` paired with the indices. -/
def pointsInternal (points : List Vec2) : List CHinternal :=
  (points.enum).map (fun ip => ⟨ip.2, (ip.1 : Int)⟩)

/-- The loop of `findConvexHull2D` over the sorted points; the state is
`(upperStack, lowerStack)`. -/
def scanStacks : List CHinternal → List CHinternal × List CHinternal →
    List CHinternal × List CHinternal
  | [], s => s
  | p :: l, s => scanStacks l (updateStack s.1 p true, updateStack s.2 p false)

/-- `findConvexHull2D(std::vector<Vec2>&)`.  `std::sort` is modelled by the
insertion sort for the order `not (CH2sort b a)`. -/
def findConvexHull2D (points : List Vec2) : List Int :=
  let sorted := (pointsInternal points).insertionSort (fun a b => CH2sort b a = false)
  let s := scanStacks sorted ([], [])
  (mergeTwoStacks s.1 s.2).map (fun c => c.mIndex)

end Makena

/-! ## base.cpp and di_base.cpp: `Graph::removeEdge` and `DiGraph::removeEdge` -/

namespace Wailea

/-- A `DiNode` with the fields of `Node` that `removeEdge` touches.  An incidence
list holds the edges by their identity; the iterator an edge keeps into such a
list is the entry that names the edge. -/
structure DiNode where
  mGraph : Option Nat
  mIncidence : List Nat
  mIncidenceIn : List Nat
  mIncidenceOut : List Nat
deriving DecidableEq, Repr

/-- A `DiEdge` with the fields of `Edge` that `removeEdge` touches. -/
structure DiEdge where
  mGraph : Option Nat
  mIncidentNode1 : Nat
  mIncidentNode2 : Nat
  mIsNode1Src : Bool
deriving DecidableEq, Repr

/-- The lists `mNodes` and `mEdges` of a `Graph`. -/
structure Graph where
  mNodes : List Nat
  mEdges : List Nat
deriving DecidableEq, Repr

/-- All the graphs, nodes and edges of the program, each under its identity. -/
structure Store where
  graphs : List (Nat × Graph)
  nodes : List (Nat × DiNode)
  edges : List (Nat × DiEdge)
deriving DecidableEq, Repr

/-- How a call ends. -/
inductive Outcome where
  | returned
  | invalid_argument
deriving DecidableEq, Repr

/-- `Graph::removeEdge`, called on the graph `this`. -/
def Graph.removeEdge (s : Store) (this e : Nat) : Option (Store × Outcome) := do
  let E ← Makena.deref s.edges e
  if E.mGraph ≠ some this then pure (s, Outcome.invalid_argument)
  else do
    let nodes ← Makena.assign s.nodes E.mIncidentNode1
      (fun N => { N with mIncidence := N.mIncidence.erase e })
    let nodes ← Makena.assign nodes E.mIncidentNode2
      (fun N => { N with mIncidence := N.mIncidence.erase e })
    let graphs ← Makena.assign s.graphs this (fun G => { G with mEdges := G.mEdges.erase e })
    let edges ← Makena.assign s.edges e (fun E => { E with mGraph := none })
    pure ({ graphs := graphs, nodes := nodes, edges := edges }, Outcome.returned)

/-- `DiGraph::removeEdge`, called on the graph `this`. -/
def DiGraph.removeEdge (s : Store) (this e : Nat) : Option (Store × Outcome) := do
  let E ← Makena.deref s.edges e
  if E.mGraph = none then pure (s, Outcome.invalid_argument)
  else do
    let nSrc := if E.mIsNode1Src then E.mIncidentNode1 else E.mIncidentNode2
    let nDst := if E.mIsNode1Src then E.mIncidentNode2 else E.mIncidentNode1
    let nodes ← Makena.assign s.nodes nSrc
      (fun N => { N with mIncidenceOut := N.mIncidenceOut.erase e })
    let nodes ← Makena.assign nodes nDst
      (fun N => { N with mIncidenceIn := N.mIncidenceIn.erase e })
    Graph.removeEdge { s with nodes := nodes } this e

end Wailea

namespace Makena

/-! ## Views of a manifold used to state the properties -/

/-- The vertices with their points. -/
def vertexPoints (m : Manifold) : List (VertexIt × Vec3) :=
  m.mVertices.map (fun v => (v.1, v.2.mPointLCS))

end Makena

namespace Makena

/-! ## States used as inputs of single operations -/

/-- The first half edge of an edge. -/
def firstHalfEdge (m : Manifold) (e : EdgeIt) : Option HalfEdgeIt :=
  (m.edge e).map (fun E => E.mHe1)

/-- Four vertices `a`, `b`, `c`, `d` and the edges `ab`, `bc`, `ca`. -/
def threeEdges : Option (Manifold × List VertexIt × List EdgeIt) := do
  let ra := makeVertex Manifold.new ⟨0, 0, 0⟩ (-1)
  let rb := makeVertex ra.1 ⟨1, 0, 0⟩ (-1)
  let rc := makeVertex rb.1 ⟨0, 1, 0⟩ (-1)
  let rd := makeVertex rc.1 ⟨0, 0, 1⟩ (-1)
  let rab ← makeEdge rd.1 ra.2 rb.2
  let rbc ← makeEdge rab.1 rb.2 rc.2
  let rca ← makeEdge rbc.1 rc.2 ra.2
  pure (rca.1, [ra.2, rb.2, rc.2, rd.2], [rab.2, rbc.2, rca.2])

/-- The edges `ad` and `dc` added to `threeEdges`, with the first half edges of
`ab`, `bc`, `ca`, `ad`, `dc`. -/
def fiveEdges : Option (Manifold × List (Option HalfEdgeIt)) := do
  let r ← threeEdges
  let rad ← makeEdge r.1 (r.2.1.getD 0 0) (r.2.1.getD 3 0)
  let rdc ← makeEdge rad.1 (r.2.1.getD 3 0) (r.2.1.getD 2 0)
  pure (rdc.1, (r.2.2 ++ [rad.2, rdc.2]).map (firstHalfEdge rdc.1))

/-- The triangle `a b c` made with `makeTriangle`, then the triangle `a d c` made
through the half edge `c -> a` of the first one.  The result is the manifold and
the first triangle. -/
def twoTrianglesOnOneHalfEdge : Option (Manifold × FaceIt) := do
  let r ← fiveEdges
  let f1 ← makeTriangle r.1 (r.2.getD 0 none) (r.2.getD 1 none) (r.2.getD 2 none)
  let f2 ← makeTriangle f1.1 (r.2.getD 2 none) (r.2.getD 3 none) (r.2.getD 4 none)
  pure (f2.1, f1.2)

end Makena

namespace Wailea

/-- Two graphs: the graph `0` is empty; the graph `1` holds the nodes `10` and
`11` and the edge `20` from `10` to `11`. -/
def twoGraphs : Store :=
  { graphs := [(0, ⟨[], []⟩), (1, ⟨[10, 11], [20]⟩)],
    nodes := [(10, ⟨some 1, [20], [], [20]⟩), (11, ⟨some 1, [20], [20], []⟩)],
    edges := [(20, ⟨some 1, 10, 11, true⟩)] }

end Wailea

namespace Makena

/-! ## Names for what `analyzePoints` selects -/

/-- The test of `analyzePoints` and `makePolygon` that skips a point `p` next to
an already selected point `q`. -/
def coincident (p q : Vec3) : Prop := (p.sub q).squaredNorm2 < EPSILON_SQUARED

/-- The state `(xMin, xMax, xMinIndex, xMaxIndex)` after the first loop of
`analyzePoints`. -/
def firstAxisExtremes (points : List Vec3) : ℚ × ℚ × Nat × Nat :=
  extremalAlongAxis (varianceOf points (meanOf points)) (points.drop 1) 1
    ((varianceOf points (meanOf points)).dot (points.headD Vec3.zero),
     (varianceOf points (meanOf points)).dot (points.headD Vec3.zero), 0, 0)

/-- The index `xMinIndex` that `analyzePoints` selects. -/
def xMinIndexOf (points : List Vec3) : Nat := (firstAxisExtremes points).2.2.1

/-- The index `xMaxIndex` that `analyzePoints` selects. -/
def xMaxIndexOf (points : List Vec3) : Nat := (firstAxisExtremes points).2.2.2

/-- The state `(yAbsMaxFound, yAbsMax, yAbsMaxIndex)` after the second loop of
`analyzePoints`. -/
def perpendicularExtreme (points : List Vec3) : Bool × ℚ × Int :=
  extremalPerpendicular ((points.get? (xMinIndexOf points)).getD Vec3.zero)
    ((points.get? (xMaxIndexOf points)).getD Vec3.zero)
    (xMinIndexOf points) (xMaxIndexOf points) points 0 (false, 0, -1)

/-- The index `yAbsMaxIndex` that `analyzePoints` selects. -/
def yAbsMaxIndexOf (points : List Vec3) : Nat := (perpendicularExtreme points).2.2.toNat

/-- The state `(zAbsMaxFound, zAbsMax, zAbsMaxIndex)` after the third loop of
`analyzePoints`. -/
def normalExtreme (points : List Vec3) : Bool × ℚ × Int :=
  extremalAlongNormal ((points.get? (xMinIndexOf points)).getD Vec3.zero)
    ((points.get? (xMaxIndexOf points)).getD Vec3.zero)
    ((points.get? (yAbsMaxIndexOf points)).getD Vec3.zero)
    ((((points.get? (xMaxIndexOf points)).getD Vec3.zero).sub
        ((points.get? (xMinIndexOf points)).getD Vec3.zero)).cross
      (((points.get? (yAbsMaxIndexOf points)).getD Vec3.zero).sub
        ((points.get? (xMinIndexOf points)).getD Vec3.zero)))
    (xMinIndexOf points) (xMaxIndexOf points) (yAbsMaxIndexOf points) points 0 (false, 0, -1)

/-- The index `zAbsMaxIndex` that `analyzePoints` selects. -/
def zAbsMaxIndexOf (points : List Vec3) : Nat := (normalExtreme points).2.2.toNat

/-- The first selected point, `points[xMinIndex]`. -/
def xMinPointOf (points : List Vec3) : Vec3 :=
  (points.get? (xMinIndexOf points)).getD Vec3.zero

/-- The second selected point, `points[xMaxIndex]`. -/
def xMaxPointOf (points : List Vec3) : Vec3 :=
  (points.get? (xMaxIndexOf points)).getD Vec3.zero

/-- The third selected point, `points[yAbsMaxIndex]`. -/
def yAbsMaxPointOf (points : List Vec3) : Vec3 :=
  (points.get? (yAbsMaxIndexOf points)).getD Vec3.zero

/-- Two points, each of them twice. -/
def twoPointsTwice : List Vec3 := [⟨0, 0, 0⟩, ⟨1, 0, 0⟩, ⟨0, 0, 0⟩, ⟨1, 0, 0⟩]

/-- Three points, the first of them twice. -/
def threePointsOneTwice : List Vec3 := [⟨0, 0, 0⟩, ⟨1, 0, 0⟩, ⟨0, 1, 0⟩, ⟨0, 0, 0⟩]

end Makena

namespace Makena

/-- The scalar triple product `(d - a) . ((b - a) x (c - a))`. -/
def tripleProduct (a b c d : Vec3) : ℚ := (d.sub a).dot ((b.sub a).cross (c.sub a))

/-- Four points that are affinely independent and pairwise at a squared distance
of at least `EPSILON_SQUARED`. -/
def independent (a b c d : Vec3) : Prop :=
  tripleProduct a b c d ≠ 0 ∧
    ¬ coincident a b ∧ ¬ coincident a c ∧ ¬ coincident a d ∧
    ¬ coincident b c ∧ ¬ coincident b d ∧ ¬ coincident c d

end Makena

namespace Makena

/-- The points of the source vertices of the half edges in the incidence list of
a face. -/
def srcPoints (m : Manifold) : List (ListIt × HalfEdgeIt) → Option (List Vec3)
  | [] => some []
  | h :: l =>
    match m.srcPoint h.2, srcPoints m l with
    | some p, some rest => some (p :: rest)
    | _, _ => none

/-- For each face of the list: its normal, the points on its boundary, and whether
`mFaceConflict` is set to a `FaceConflict` node of the conflict graph. -/
def faceGeometry (m : Manifold) : List FaceIt → Option (List (Vec3 × List Vec3 × Bool))
  | [] => some []
  | fit :: l =>
    match m.face fit, faceGeometry m l with
    | some F, some rest =>
      match srcPoints m F.mIncidentHalfEdges with
      | some pts =>
        some ((F.mNormalLCS, pts,
          match F.mFaceConflict with
          | some fc => (m.mConflictGraph.faceConflict fc).isSome
          | none => false) :: rest)
      | none => none
    | _, _ => none

/-- The step of the loop of `Face::isFacing` on the point `curP`. -/
def furthest (p : Vec3) (s : ℚ × Vec3) (curP : Vec3) : ℚ × Vec3 :=
  if s.1 < (p.sub curP).squaredNorm2 then ((p.sub curP).squaredNorm2, curP) else s

/-- The result of `Face::isFacing` for a face with the normal `n` and the boundary
points `pts`. -/
def facingOf (n : Vec3) (pts : List Vec3) (p : Vec3) (eps : ℚ) : Bool × predicate :=
  (decide ((p.sub (pts.foldl (furthest p) (0, Vec3.zero)).2).dot n > 0),
    if fabs ((p.sub (pts.foldl (furthest p) (0, Vec3.zero)).2).dot n) < eps then
      predicate.MAYBE_COPLANAR
    else predicate.NONE)

/-- The numbers of vertices, edges, half edges and faces, and the number of half
edges of each face. -/
def featureCounts (m : Manifold) : Nat × Nat × Nat × Nat × List Nat :=
  (m.mVertices.length, m.mEdges.length, m.mHalfEdges.length, m.mFaces.length,
    m.mFaces.map (fun f => f.2.mIncidentHalfEdges.length))

/-- The part of `findConvexHull` after the loop over the conflict vertices. -/
def tidyUp (m : Manifold) : Option Manifold := do
  let m ← clearConflictGraph m
  let m ← setNormalsForVerticesAndEdges m
  constructHelperMaps m

end Makena

namespace Makena

/-- The results of `areIncidentFacesParallelOrConcave` on all edges. -/
def parallelOrConcaveEdges (m : Manifold) : List (Option Bool) :=
  m.mEdges.map (fun e => areIncidentFacesParallelOrConcave m e.1)

/-- The ids of the vertices. -/
def vertexIds (m : Manifold) : List Int := m.mVertices.map (fun v => v.2.mId)

/-- The regular tetrahedron of the spec. -/
def regularTetrahedron : List Vec3 := [⟨1, 1, 1⟩, ⟨1, -1, -1⟩, ⟨-1, 1, -1⟩, ⟨-1, -1, 1⟩]

/-- The corners of the unit cube followed by its centroid. -/
def cubeAndCentroid : List Vec3 :=
  [⟨0, 0, 0⟩, ⟨1, 0, 0⟩, ⟨0, 1, 0⟩, ⟨1, 1, 0⟩, ⟨0, 0, 1⟩, ⟨1, 0, 1⟩, ⟨0, 1, 1⟩, ⟨1, 1, 1⟩,
   ⟨1 / 2, 1 / 2, 1 / 2⟩]

end Makena

namespace Makena

/-- The predicate that a call returns with the ids of the vertices and the feature
counts of the manifold it leaves. -/
structure HullSummary where
  pred : predicate
  ids : List Int
  counts : Nat × Nat × Nat × Nat × List Nat
deriving DecidableEq, Repr

/-- The summary of a result of `findConvexHull`. -/
def summaryOf (r : Manifold × predicate) : HullSummary := ⟨r.2, vertexIds r.1, featureCounts r.1⟩

end Makena

namespace Makena

/-! ## Analysis of `findConvexHull2D` -/

end Makena

namespace Makena

/-! ## Analysis of `findCircumference` on a closed manifold -/

/-- A closed manifold, as the half edge structure keeps it: the buddy of the buddy
of a half edge is the half edge, and it ends where the half edge starts; the next
half edge has the half edge as its previous one, is on the same face and starts
where the half edge ends; every half edge has a face and is in the list of its
face; and the half edges in the list of a face have that face. -/
def closedManifold (m : Manifold) : Prop :=
  (∀ p ∈ m.mHalfEdges,
    (m.halfEdge p.2.mBuddy).map (fun B => (B.mBuddy, B.mDst)) = some (p.1, p.2.mSrc) ∧
    (p.2.mNext.bind m.halfEdge).map (fun N => (N.mPrev, N.mFace, N.mSrc)) =
      some (some p.1, p.2.mFace, p.2.mDst) ∧
    (p.2.mFace.bind m.face).map
      (fun F => decide (p.1 ∈ F.mIncidentHalfEdges.map Prod.snd)) = some true) ∧
  (∀ q ∈ m.mFaces, ∀ e ∈ q.2.mIncidentHalfEdges,
    (m.halfEdge e.2).bind (fun H => H.mFace) = some q.1)

/-- The half edge `h` is on the boundary of the faces `faces`: its face is one of
them and the face of its buddy is not. -/
def onBoundary (m : Manifold) (faces : List FaceIt) (h : HalfEdgeIt) : Prop :=
  ∃ H B f g, m.halfEdge h = some H ∧ H.mFace = some f ∧ f ∈ faces ∧
    m.halfEdge H.mBuddy = some B ∧ B.mFace = some g ∧ g ∉ faces

/-- The half edge `a` ends at the vertex at which the half edge `b` starts. -/
def chained (m : Manifold) (a b : HalfEdgeIt) : Prop :=
  ∃ A B, m.halfEdge a = some A ∧ m.halfEdge b = some B ∧ A.mDst = B.mSrc

/-- The simplex on the corner of the unit cube. -/
def cornerSimplex : Manifold :=
  (construct3Simplex Manifold.new ⟨0, 0, 0⟩ ⟨1, 0, 0⟩ ⟨0, 1, 0⟩ ⟨0, 0, 1⟩ 0 1 2 3).getD
    Manifold.new

/-- The half edge `H` with the handle `h` after `mToBeMerged` was set on the half
edges `T`. -/
def flagged (T : List HalfEdgeIt) (h : HalfEdgeIt) (H : HalfEdge) : HalfEdge :=
  { H with mToBeMerged := H.mToBeMerged || decide (h ∈ T) }

/-- The manifold `m1` is `m` with `mToBeMerged` set on the half edges `T`, as far as
the half edges and the faces are read. -/
def flagsSet (m m1 : Manifold) (T : List HalfEdgeIt) : Prop :=
  m1.mFaces = m.mFaces ∧ ∀ j, m1.halfEdge j = (m.halfEdge j).map (flagged T j)

/-- The test of `findCircumference` for a boundary half edge. -/
def boundaryFlag (m : Manifold) (h : HalfEdgeIt) : Bool :=
  match m.halfEdge h with
  | none => false
  | some H =>
    H.mToBeMerged &&
      (match m.halfEdge H.mBuddy with
       | none => false
       | some B => !B.mToBeMerged)

/-- One round of the loop of `findNextBoundaryHalfEdge`: from the half edge `x`
to the next of its buddy, whose `mToBeMerged` is set. -/
def rotStep (m : Manifold) (x y : HalfEdgeIt) : Prop :=
  ∃ H B, m.halfEdge x = some H ∧ m.halfEdge H.mBuddy = some B ∧
    B.mToBeMerged = true ∧ B.mNext = some y

/-- The half edges that `findCircumference` counts on the faces `faces`. -/
def countedHalfEdges (m : Manifold) (faces : List FaceIt) : List HalfEdgeIt :=
  faces.flatMap (fun f =>
    match m.face f with
    | none => []
    | some F => (F.mIncidentHalfEdges.map Prod.snd).filter (boundaryFlag m))

/-- A closed manifold after `findCircumference` has set `mToBeMerged` on the half
edges of the faces `faces`, as the walk reads it. -/
def flaggedManifold (m : Manifold) (faces : List FaceIt) : Prop :=
  ∀ h H, m.halfEdge h = some H →
    (∃ B, m.halfEdge H.mBuddy = some B ∧ B.mBuddy = h ∧ B.mDst = H.mSrc) ∧
    (∃ n N, H.mNext = some n ∧ m.halfEdge n = some N ∧ N.mPrev = some h ∧
      N.mFace = H.mFace ∧ N.mSrc = H.mDst) ∧
    (∃ f F, H.mFace = some f ∧ m.face f = some F ∧
      h ∈ F.mIncidentHalfEdges.map Prod.snd) ∧
    (H.mToBeMerged = true ↔ ∃ f ∈ faces, H.mFace = some f)

end Makena

namespace Makena

/-! ## Inputs on the tolerance boundary -/

/-- Three vertices, the second and the third at the distance `1 / 10000` from the
first along two axes: the squared distances are `EPSILON_SQUARED`. -/
def toleranceVertices : Manifold :=
  (makeVertex (makeVertex (makeVertex Manifold.new ⟨0, 0, 0⟩ 0).1 ⟨1 / 10000, 0, 0⟩ 1).1
    ⟨0, 1 / 10000, 0⟩ 2).1

/-- The edges from the first vertex of `toleranceVertices` to the other two. -/
def toleranceEdges : Option (Manifold × EdgeIt × EdgeIt) := do
  let r1 ← makeEdge toleranceVertices 0 1
  let r2 ← makeEdge r1.1 0 2
  pure (r2.1, r1.2, r2.2)

/-- Two faces without half edges whose normals have a cross product of the norm
`EPSILON_ANGLE`. -/
def toleranceFaces : Manifold :=
  { Manifold.new with
    mFaces :=
      [(0, { mId := 0, mNormalLCS := ⟨1, 0, 0⟩, mIncidentHalfEdges := [],
             mPred := predicate.NONE, mFaceConflict := none, mToBeMerged := false }),
       (1, { mId := 1, mNormalLCS := ⟨0, 1 / 100000000, 0⟩, mIncidentHalfEdges := [],
             mPred := predicate.NONE, mFaceConflict := none, mToBeMerged := false })],
    mFresh := 2 }

/-- The manifold of `toleranceEdges`. -/
def toleranceEdgesManifold : Manifold :=
  (toleranceEdges.map (fun r => r.1)).getD Manifold.new

/-- A half edge without links, the value of `getD` where a lookup is known to succeed. -/
def HalfEdge.unlinked : HalfEdge :=
  { mPrev := none, mPrevPred := predicate.NONE, mNext := none,
    mNextPred := predicate.NONE, mSrc := 0, mSrcBackIt := none, mDst := 0,
    mDstBackIt := none, mFace := none, mFaceBackIt := none, mParent := 0,
    mBuddy := 0, mToBeMerged := false }

/-- An edge without half edges, the value of `getD` where a lookup is known to succeed. -/
def Edge.unlinked : Edge :=
  { mHe1 := 0, mHe2 := 0, mPredVertices := predicate.NONE, mPredFaces := predicate.NONE,
    mNormalLCS := Vec3.zero, mToBeRemoved := false, mFound := false, mBackItETBR := none }

end Makena

namespace Makena

/-! ## Polygons for `makePolygon` -/

/-- The vertices of a polygon, made in the order of the list. -/
def polygonVertices : List Vec3 → Manifold → Manifold × List VertexIt
  | [], m => (m, [])
  | p :: l, m =>
    let r := makeVertex m p (-1)
    let s := polygonVertices l r.1
    (s.1, r.2 :: s.2)

/-- The edges of a polygon from each vertex of the list to the next one and from the
last one to `first`; the result carries the half edges in that direction. -/
def polygonEdges (first : VertexIt) : List VertexIt → Manifold → Option (Manifold × List HalfEdgeIt)
  | [], m => some (m, [])
  | v :: l, m => do
    let r ← makeEdge m v (l.headD first)
    let E ← r.1.edge r.2
    let s ← polygonEdges first l r.1
    pure (s.1, E.mHe1 :: s.2)

/-- The face that `makePolygon` makes on the closed cycle of half edges through the
points of the list: its normal and its predicate. -/
def polygonFace (points : List Vec3) : Option (Vec3 × predicate) := do
  let r := polygonVertices points Manifold.new
  let s ← polygonEdges (r.2.headD 0) r.2 r.1
  let f ← makePolygon s.1 s.2
  let F ← f.1.face f.2
  pure (F.mNormalLCS, F.mPred)

/-- A regular hexagon in the plane `x + y + z = 0`, counter-clockwise as seen from
the side of `(1, 1, 1)`. -/
def hexagon : List Vec3 :=
  [⟨1, -1, 0⟩, ⟨1, 0, -1⟩, ⟨0, 1, -1⟩, ⟨-1, 1, 0⟩, ⟨-1, 0, 1⟩, ⟨0, -1, 1⟩]

/-- The hexagon and a point above it: the corners of a pyramid over the hexagon. -/
def hexagonPyramid : List Vec3 := hexagon ++ [⟨1, 1, 1⟩]

end Makena

namespace Makena

/-! ## Analysis of `gatherConnectedFaces` -/

/-- The face `g` is across the half edge `h` of an edge whose `mToBeRemoved` is set:
`g` is the face of the buddy of `h`. -/
def crossingAt (m : Manifold) (h : HalfEdgeIt) (g : FaceIt) : Prop :=
  ∃ H E B, m.halfEdge h = some H ∧ m.edge H.mParent = some E ∧ E.mToBeRemoved = true ∧
    m.halfEdge H.mBuddy = some B ∧ B.mFace = some g

/-- One crossing: the face `g` is across a half edge in the list of the face `f`
whose edge has `mToBeRemoved` set. -/
def crossing (m : Manifold) (f g : FaceIt) : Prop :=
  ∃ F e, m.face f = some F ∧ e ∈ F.mIncidentHalfEdges ∧ crossingAt m e.2 g

/-- The face `g` is reachable from `f1` or from `f2` by crossings. -/
def connected (m : Manifold) (f1 f2 g : FaceIt) : Prop :=
  Relation.ReflTransGen (crossing m) f1 g ∨ Relation.ReflTransGen (crossing m) f2 g

/-- What the loop of `gatherConnectedFaces` dereferences at the half edge `h` is
there: the half edge and its edge, and if `mToBeRemoved` is set on the edge, the
buddy and its face. -/
def crossable (m : Manifold) (h : HalfEdgeIt) : Bool :=
  match m.halfEdge h with
  | none => false
  | some H =>
    match m.edge H.mParent with
    | none => false
    | some E =>
      !E.mToBeRemoved ||
        (match m.halfEdge H.mBuddy with
         | none => false
         | some B => (B.mFace.bind m.face).isSome)

/-- What `gatherConnectedFaces` dereferences is there, for every half edge in the
list of a face. -/
def gatherReady (m : Manifold) : Prop :=
  ∀ q ∈ m.mFaces, ∀ e ∈ q.2.mIncidentHalfEdges, crossable m e.2 = true

/-- No face has `mToBeMerged` set. -/
def unmarked (m : Manifold) : Prop :=
  ∀ q ∈ m.mFaces, q.2.mToBeMerged = false

/-- The manifold `s` is `m` with `mToBeMerged` of every face `f` replaced by `P f`,
as far as the half edges, the edges and the faces are read. -/
def facesMarked (m s : Manifold) (P : FaceIt → Bool) : Prop :=
  s.mHalfEdges = m.mHalfEdges ∧ s.mEdges = m.mEdges ∧
    ∀ f, s.face f = (m.face f).map (fun F => { F with mToBeMerged := P f })

/-- Two edges `a b` and `b c` and one face around them, whose boundary runs along
both sides of each edge. -/
def foldedFace : Manifold :=
  let r1 := makeVertex Manifold.new ⟨0, 0, 0⟩ 0
  let r2 := makeVertex r1.1 ⟨1, 0, 0⟩ 1
  let r3 := makeVertex r2.1 ⟨0, 1, 0⟩ 2
  ((makeEdge r3.1 r1.2 r2.2).bind (fun e1 =>
    (makeEdge e1.1 r2.2 r3.2).bind (fun e2 =>
      (makePolygon e2.1 [4, 7, 8, 5]).map Prod.fst))).getD Manifold.new

/-- The simplex on the corner of the unit cube with `mToBeMerged` set on the face
with the handle 34. -/
def cornerSimplexMarked : Manifold :=
  (cornerSimplex.setFace 34 (fun F => { F with mToBeMerged := true })).getD Manifold.new

/-- The simplex on the corner of the unit cube with `mToBeRemoved` set on the edge
with the handle 7, which is between the faces 22 and 26. -/
def cornerSimplexChained : Manifold :=
  (cornerSimplex.setEdge 7 (fun E => { E with mToBeRemoved := true })).getD Manifold.new

end Makena

namespace Makena

/-! ## Analysis of `createInitialConflictGraph` -/

/-- The test of the conflict graph: `isFacing` returns `true` and writes `NONE` to
`pred`, with the margin of the manifold. -/
def facingNone (m : Manifold) (f : FaceIt) (p : Vec3) : Bool :=
  match isFacing m f p m.mEpsilonCHMargin with
  | some r => r.1 && decide (r.2 = predicate.NONE)
  | none => false

/-- At least one face of the manifold sees the point. -/
def seenBySomeFace (m : Manifold) (p : Vec3) : Bool :=
  (m.mFaces.map Prod.fst).any (fun f => facingNone m f p)

/-- The conflict node stored in the face `f`. -/
def conflictNodeOf (m : Manifold) (f : FaceIt) : Option NodeIt :=
  (m.face f).bind (fun F => F.mFaceConflict)

/-- The `FaceConflict` nodes of the graph with the faces they wrap, in the order
of the node list. -/
def faceConflictNodes (g : DiGraph) : List (NodeIt × FaceIt) :=
  g.mNodes.filterMap (fun n =>
    match n.2 with
    | ConflictNode.FaceConflict f => some (n.1, f)
    | ConflictNode.VertexConflict _ _ _ => none)

/-- The `VertexConflict` nodes of the graph with their points and ids, in the
order of the node list. -/
def vertexConflictNodes (g : DiGraph) : List (NodeIt × Vec3 × Int) :=
  g.mNodes.filterMap (fun n =>
    match n.2 with
    | ConflictNode.FaceConflict _ => none
    | ConflictNode.VertexConflict p id _ => some (n.1, p, id))

/-- The points with their ids that at least one face sees, in the input order. -/
def seenPoints (m : Manifold) (points : List Vec3) (indices : List Int) : List (Vec3 × Int) :=
  (points.zip indices).filter (fun x => seenBySomeFace m x.1)

/-- The vertices at which the half edges in the lists of the faces start are
there, so that `isFacing` can be evaluated on every face. -/
def facingReady (m : Manifold) : Prop :=
  ∀ q ∈ m.mFaces, ∀ e ∈ q.2.mIncidentHalfEdges, (m.srcPoint e.2).isSome = true

/-- The part of a face that `isFacing` reads. -/
def Face.geometry (F : Face) : Vec3 × List (ListIt × HalfEdgeIt) :=
  (F.mNormalLCS, F.mIncidentHalfEdges)

/-- The manifold `s` has the vertices, the half edges, the margin and the face
geometry of `m`. -/
def sameGeometry (m s : Manifold) : Prop :=
  s.mVertices = m.mVertices ∧ s.mHalfEdges = m.mHalfEdges ∧
    s.mEpsilonCHMargin = m.mEpsilonCHMargin ∧
    s.mFaces.map (fun q => (q.1, q.2.geometry)) = m.mFaces.map (fun q => (q.1, q.2.geometry))

/-- The nodes that `createInitialConflictGraph` adds for the faces `L`, the first
with the handle `n`. -/
def faceNodes (n : Nat) (L : List FaceIt) : List (NodeIt × ConflictNode) :=
  (L.enumFrom n).map (fun x => (x.1, ConflictNode.FaceConflict x.2))

end Makena

namespace Makena

/-! ## Analysis of `makeFrontier` and `updateConflictGraph` -/

/-- The conflict nodes of the points that the face of the half edge `he` sees: the
destinations of the edges that leave the conflict node of the face. -/
def visibleTo (m : Manifold) (he : HalfEdgeIt) : List NodeIt :=
  match faceConflictOf m he with
  | some fc => m.mConflictGraph.outNeighbors fc
  | none => []

/-- The points that the face of the half edge `he` or the face of its buddy sees:
those of the first face, then those of the second that the first does not see. -/
def candidatesOf (m : Manifold) (he : HalfEdgeIt) : List NodeIt :=
  match m.halfEdge he with
  | none => []
  | some H =>
    visibleTo m he ++ (visibleTo m H.mBuddy).filter (fun n => decide (n ∉ visibleTo m he))

/-- The faces on both sides of the half edges have their conflict nodes. -/
def frontierReady (m : Manifold) (halfEdges : List HalfEdgeIt) : Prop :=
  ∀ he ∈ halfEdges, (faceConflictOf m he).isSome = true ∧
    ((m.halfEdge he).bind (fun H => faceConflictOf m H.mBuddy)).isSome = true

/-- The flag `mFound` of a conflict node; `false` for a `FaceConflict`. -/
def ConflictNode.found : ConflictNode → Bool
  | ConflictNode.FaceConflict _ => false
  | ConflictNode.VertexConflict _ _ b => b

/-- The conflict node with `mFound` replaced, if it is a `VertexConflict`. -/
def ConflictNode.mark (b : Bool) : ConflictNode → ConflictNode
  | ConflictNode.FaceConflict f => ConflictNode.FaceConflict f
  | ConflictNode.VertexConflict p id _ => ConflictNode.VertexConflict p id b

/-- No `VertexConflict` has `mFound` set, and every edge of the conflict graph ends
at a `VertexConflict`. -/
def foundClear (g : DiGraph) : Prop :=
  (∀ q ∈ g.mNodes, q.2.found = false) ∧ ∀ e ∈ g.mEdges, (g.vertexConflict e.2.2).isSome = true

/-- The graph `g2` is `g` with `mFound` of every `VertexConflict` `n` replaced by
`P n`, as far as the nodes are read through their handles. -/
def foundMarked (g g2 : DiGraph) (P : NodeIt → Bool) : Prop :=
  g2.mEdges = g.mEdges ∧ ∀ n, deref g2.mNodes n = (deref g.mNodes n).map (ConflictNode.mark (P n))

/-- The face of a half edge. -/
def faceOf (m : Manifold) (he : HalfEdgeIt) : Option FaceIt :=
  (m.halfEdge he).bind (fun H => H.mFace)

/-- The candidates of a frontier element that face the face `f`. -/
def facingCandidates (m : Manifold) (f : FaceIt) (candidates : List NodeIt) : List NodeIt :=
  candidates.filter (fun v =>
    match m.mConflictGraph.vertexConflict v with
    | some c => facingNone m f c.1
    | none => false)

/-- What `updateConflictGraph` reads is there: the faces of the frontier half edges,
different for different elements, the candidates as `VertexConflict` nodes, and the
vertices of the faces; and the handles in the conflict graph are below the next
handle. -/
def updateReady (m : Manifold) (frontier : List FrontierElem) : Prop :=
  (∀ fe ∈ frontier, ((faceOf m fe.mHeit).bind m.face).isSome = true ∧
    ∀ v ∈ fe.mFacingVertices, (m.mConflictGraph.vertexConflict v).isSome = true) ∧
  (frontier.map (fun fe => faceOf m fe.mHeit)).Nodup ∧ facingReady m ∧
  (∀ q ∈ m.mConflictGraph.mNodes, q.1 < m.mFresh) ∧
  ∀ e ∈ m.mConflictGraph.mEdges, e.2.1 < m.mFresh

/-- The run of `findConvexHull` up to the main loop: the manifold with the initial
simplex and the conflict graph, and the list `vertices`. -/
def mainLoopEntry (points : List Vec3) (epsilon : ℚ) : Option (Manifold × List NodeIt) := do
  let a ← analyzePoints points
  let indices := List.map (fun i : Nat => (i : Int)) (List.range points.length)
  let p1 ← points.get? a.index1
  let p2 ← points.get? a.index2
  let p3 ← points.get? a.index3
  let p4 ← points.get? a.index4
  let m ← initialSimplex { Manifold.new with mEpsilonCHMargin := epsilon } indices a p1 p2 p3 p4
  createInitialConflictGraph m
    (reduced points a.index1 a.index2 a.index3 a.index4)
    (reduced (indices.take points.length) a.index1 a.index2 a.index3 a.index4)

/-- The run of `findConvexHull` up to the call of `updateConflictGraph` for the
first point of the main loop: the manifold before `updateFaces`, the frontier, the
manifold after `updateConflictGraph` and the list `vertices`. -/
def firstUpdate (fuel : Nat) (points : List Vec3) (epsilon : ℚ) :
    Option (Manifold × List FrontierElem × Manifold × List NodeIt) := do
  let r ← mainLoopEntry points epsilon
  let vcit ← r.2.head?
  let c ← r.1.mConflictGraph.vertexConflict vcit
  let v ← findVisibleFaces r.1 vcit
  let u ← updateFaces fuel r.1 c.1 c.2.1 v.2
  let m2 ← updateConflictGraph u.2.frontier u.1
  pure (r.1, u.2.frontier, m2, r.2)

/-- The `VertexConflict` nodes whose points face the face `f`. -/
def facingNodes (m : Manifold) (f : FaceIt) : List NodeIt :=
  ((vertexConflictNodes m.mConflictGraph).filter (fun y => facingNone m f y.2.1)).map Prod.fst

/-- For every element of the frontier: the new face on its half edge, its
candidates, the destinations of the edges that leave the conflict node of the new
face, and the `VertexConflict` nodes whose points face the new face. -/
def frontierTable (m : Manifold) (frontier : List FrontierElem) :
    List (Option FaceIt × List NodeIt × List NodeIt × List NodeIt) :=
  frontier.map (fun fe =>
    match faceOf m fe.mHeit with
    | none => (none, fe.mFacingVertices, [], [])
    | some f =>
      (some f, fe.mFacingVertices,
        match conflictNodeOf m f with
        | some n => m.mConflictGraph.outNeighbors n
        | none => [],
        facingNodes m f))

/-- Six points: a simplex, a point above one of its faces, and a point that is
below the plane of the face `z = 1 / 4` by `3 / 8`. -/
def sixPoints : List Vec3 :=
  [⟨0, 1 / 8, 3 / 4⟩, ⟨1, -1 / 8, -1 / 8⟩, ⟨1 / 4, -1 / 8, 1 / 4⟩, ⟨1, 7 / 8, 1 / 4⟩,
   ⟨1 / 4, 1, 7 / 8⟩, ⟨-1 / 4, 3 / 4, 1 / 4⟩]

/-- A simplex with the corner `(0, 0, 0)`, a point that sees the face in the plane
`x = 0` alone, and a point next to the edge on the second axis, at the distance
`9 / 1000000000` from the planes `x = 0` and `z = 0`. -/
def pointNextToEdge : List Vec3 :=
  [⟨0, 0, 0⟩, ⟨0, 4, 0⟩, ⟨-4, 0, 0⟩, ⟨0, 0, -4⟩, ⟨1, 2, -1⟩,
   ⟨9 / 1000000000, 2, 9 / 1000000000⟩]

/-- The simplex on the corner of the unit cube with the conflict graph of three
points: one that the face opposite to the corner sees, one inside, and one that the
face in the plane `x = 0` sees. -/
def conflictSimplex : Manifold :=
  ((createInitialConflictGraph cornerSimplex [⟨1, 1, 1⟩, ⟨1 / 4, 1 / 4, 1 / 4⟩, ⟨-1, 0, 0⟩]
    [4, 5, 6]).map Prod.fst).getD Manifold.new

end Makena

namespace Makena

/-! ## Analysis of `removeEdge` -/

/-- The handles that `removeEdge` reads: the two half edges of the edge, their
previous and next half edges, the two end vertices, and the positions of the half
edges in the incidence lists of the end vertices (`a1`, `b1` at `v1`, the source of
`he1`; `a2`, `b2` at `v2`). -/
structure RemoveEdgeFrame where
  he1 : HalfEdgeIt
  he2 : HalfEdgeIt
  p1 : HalfEdgeIt
  n1 : HalfEdgeIt
  p2 : HalfEdgeIt
  n2 : HalfEdgeIt
  v1 : VertexIt
  v2 : VertexIt
  a1 : ListIt
  b1 : ListIt
  a2 : ListIt
  b2 : ListIt
deriving DecidableEq, Repr

/-- The handles that `removeEdge` reads for the edge `e`: `p1 = he1->mPrev`,
`n1 = he1->mNext`, `p2 = he2->mPrev`, `n2 = he2->mNext`, `v1 = he1->mSrc`,
`v2 = he1->mDst`, `a1 = he1->mSrcBackIt`, `b1 = he2->mDstBackIt`,
`a2 = he1->mDstBackIt`, `b2 = he2->mSrcBackIt`. -/
def removeEdgeFrame (m : Manifold) (e : EdgeIt) : Option RemoveEdgeFrame := do
  let E ← m.edge e
  let H1 ← m.halfEdge E.mHe1
  let H2 ← m.halfEdge E.mHe2
  let p1 ← H1.mPrev
  let n1 ← H1.mNext
  let p2 ← H2.mPrev
  let n2 ← H2.mNext
  let a1 ← H1.mSrcBackIt
  let b1 ← H2.mDstBackIt
  let a2 ← H1.mDstBackIt
  let b2 ← H2.mSrcBackIt
  pure ⟨E.mHe1, E.mHe2, p1, n1, p2, n2, H1.mSrc, H1.mDst, a1, b1, a2, b2⟩

/-- The half edge `H` with the handle `j` after `hePrev->mNext = heNext;
heNext->mPrev = hePrev` and the assignment of the predicate `c` to both. -/
def relinkAt (hePrev heNext : HalfEdgeIt) (c : predicate) (j : HalfEdgeIt) (H : HalfEdge) :
    HalfEdge :=
  let H1 := if j = hePrev then { H with mNext := some heNext, mNextPred := c } else H
  if j = heNext then { H1 with mPrev := some hePrev, mPrevPred := c } else H1

/-- The result of `isColinear` where it has one. -/
def colinearOr (m : Manifold) (h he : HalfEdgeIt) : predicate :=
  (isColinear m h he).getD predicate.NONE

/-- The half edge `H` with the handle `j` after `removeEdge` with the frame `fr`:
relinked around `v1` unless `he1` follows `he2` there, and around `v2` unless `he2`
follows `he1` there. -/
def splicedAt (m : Manifold) (fr : RemoveEdgeFrame) (j : HalfEdgeIt) (H : HalfEdge) : HalfEdge :=
  let H1 := if fr.p1 ≠ fr.he2 then relinkAt fr.p1 fr.n2 (colinearOr m fr.p1 fr.n2) j H else H
  if fr.n1 ≠ fr.he2 then relinkAt fr.p2 fr.n1 (colinearOr m fr.p2 fr.n1) j H1 else H1

/-- The vertex `V` without the entries `a` and `b` of its incidence list. -/
def withoutEntries (V : Vertex) (a b : ListIt) : Vertex :=
  { V with mIncidentHalfEdges := V.mIncidentHalfEdges.filter (fun q => q.1 ≠ a ∧ q.1 ≠ b) }

/-- The entries `a` and `b` of the incidence list of the vertex `v` hold the half
edges `ha` and `hb`, and no position of the list occurs twice. -/
def entriesAt (m : Manifold) (v : VertexIt) (a b : ListIt) (ha hb : HalfEdgeIt) : Prop :=
  (((m.vertex v).map (fun V => V.mIncidentHalfEdges.map Prod.fst)).getD []).Nodup ∧
    (m.vertex v).bind (fun V => deref V.mIncidentHalfEdges a) = some ha ∧
    (m.vertex v).bind (fun V => deref V.mIncidentHalfEdges b) = some hb

/-- The vertex `v` is no end of the half edge `h`. -/
def awayFrom (m : Manifold) (h : HalfEdgeIt) (v : VertexIt) : Prop :=
  (m.halfEdge h).map (fun H => decide (H.mSrc ≠ v ∧ H.mDst ≠ v)) = some true

/-- What `removeEdge` needs for the edge `e` with the frame `fr`: different handles
for different things, `he1` and `he2` unlinked from each other on both sides or
linked on both, different predecessors and successors, and where half edges are
relinked, these half edges in place with a result of `isColinear`, and the two
entries in the incidence list of the vertex. -/
def removeEdgeReady (m : Manifold) (fr : RemoveEdgeFrame) : Prop :=
  (m.mVertices.map Prod.fst).Nodup ∧ (m.mHalfEdges.map Prod.fst).Nodup ∧
  (m.mEdges.map Prod.fst).Nodup ∧
  fr.he1 ≠ fr.he2 ∧ fr.v1 ≠ fr.v2 ∧
  fr.p1 ≠ fr.he1 ∧ fr.n1 ≠ fr.he1 ∧ fr.p2 ≠ fr.he2 ∧ fr.n2 ≠ fr.he2 ∧
  fr.p1 ≠ fr.p2 ∧ fr.n1 ≠ fr.n2 ∧
  (fr.p1 = fr.he2 ↔ fr.n2 = fr.he1) ∧ (fr.n1 = fr.he2 ↔ fr.p2 = fr.he1) ∧
  (m.vertex fr.v1).isSome = true ∧ (m.vertex fr.v2).isSome = true ∧
  (fr.p1 ≠ fr.he2 →
    (m.halfEdge fr.p1).isSome = true ∧ (m.halfEdge fr.n2).isSome = true ∧
    (isColinear m fr.p1 fr.n2).isSome = true ∧ entriesAt m fr.v1 fr.a1 fr.b1 fr.he1 fr.he2) ∧
  (fr.n1 ≠ fr.he2 →
    (m.halfEdge fr.p2).isSome = true ∧ (m.halfEdge fr.n1).isSome = true ∧
    (isColinear m fr.p2 fr.n1).isSome = true ∧ entriesAt m fr.v2 fr.a2 fr.b2 fr.he1 fr.he2 ∧
    (fr.p1 = fr.he2 → awayFrom m fr.p2 fr.v1 ∧ awayFrom m fr.n1 fr.v1))

/-- The incidence list of the vertex `v` is in fan order: each half edge once, in
consecutive pairs `(in_k, out_k)` of a half edge that ends at `v` and its buddy that
starts at `v`, with `next(in_k) = out_(k-1)`, cyclically. -/
def fanOrdered (m : Manifold) (v : VertexIt) (V : Vertex) : Bool :=
  let l := V.mIncidentHalfEdges.map Prod.snd
  let n := l.length / 2
  decide l.Nodup && decide (l.length % 2 = 0) &&
  (List.range n).all (fun k =>
    decide ((m.halfEdge (l.getD (2 * k) 0)).map (fun I => (I.mBuddy, I.mNext, I.mDst)) =
        some (l.getD (2 * k + 1) 0, some (l.getD (2 * ((k + n - 1) % n) + 1) 0), v)) &&
      decide ((m.halfEdge (l.getD (2 * k + 1) 0)).map (fun O => (O.mBuddy, O.mSrc)) =
        some (l.getD (2 * k) 0, v)))

/-- The handles that `removeEdge` reads for the edge `4` of `cornerSimplex`. -/
def cornerEdgeFrame : RemoveEdgeFrame := ⟨5, 6, 12, 17, 15, 8, 0, 1, 39, 38, 48, 49⟩

end Makena

namespace Makena

/-! ## The work queues of the repair loop -/

/-- The body of the main loop of `findConvexHull` for the conflict node `vcit` up to
the entry of the repair loop of `checkAndMergeFacesCounterClockwise`: the manifold
after the first loop of `checkAndMergeFacesCounterClockwise`. -/
def repairEntryOf (fuel : Nat) (m : Manifold) (vcit : NodeIt) : Option Manifold := do
  let c ← m.mConflictGraph.vertexConflict vcit
  let v ← findVisibleFaces m vcit
  let u ← updateFaces fuel m c.1 c.2.1 v.2
  let m2 ← updateConflictGraph u.2.frontier u.1
  let center ← u.2.vp
  let C ← m2.vertex center
  checkPillars center C.mIncidentHalfEdges
    { m2 with mEdgesToBeRemoved := [], mVerticesToBeRemoved := [] }

/-- The run of `findConvexHull` up to the entry of the repair loop in the iteration
`k` of the main loop (the first iteration is `0`). -/
def repairEntry (fuel : Nat) (points : List Vec3) (epsilon : ℚ) (k : Nat) : Option Manifold := do
  let r ← mainLoopEntry points epsilon
  let m ← incorporateAll fuel (r.2.take k) r.1
  let vcit ← r.2.get? k
  repairEntryOf fuel m vcit

/-- The lengths of `mEdgesToBeRemoved` and `mVerticesToBeRemoved`. -/
def queueLengths (m : Manifold) : Nat × Nat :=
  (m.mEdgesToBeRemoved.length, m.mVerticesToBeRemoved.length)

/-- Six points on which the repair loop merges faces. -/
def mergePoints : List Vec3 :=
  [⟨1, 2, 2⟩, ⟨2, 2, 1⟩, ⟨0, 0, 2⟩, ⟨0, 1, 1⟩, ⟨0, 0, 0⟩, ⟨0, 2, 0⟩]

/-- The run of `findConvexHull` on `mergePoints` with the default margin up to the
second round of the repair loop in the second iteration of the main loop. -/
def secondRound : Option Manifold :=
  ((repairEntry 40 mergePoints EPSILON_SQUARED 1).bind (repairEdge 40)).bind repairVertex

/-- The state at the second round of the repair loop in `secondRound`. -/
def secondRoundState : Manifold := secondRound.getD Manifold.new

end Makena

namespace Makena

/-! ## quaternion.hpp -/

/-- `Quaternion`: the scalar `mS` and the vector `mV`. -/
structure Quaternion where
  mS : ℚ
  mV : Vec3
deriving DecidableEq, Repr

namespace Quaternion

/-- `Quaternion::operator*`, with the assignment `r.mS = 1.0` when the product is
`(-1, 0, 0, 0)`. -/
def mul (a b : Quaternion) : Quaternion :=
  let s := a.mS * b.mS - a.mV.dot b.mV
  let v := ((b.mV.scale a.mS).add (a.mV.scale b.mS)).add (a.mV.cross b.mV)
  if v.x = 0 ∧ v.y = 0 ∧ v.z = 0 ∧ s = -1 then ⟨1, v⟩ else ⟨s, v⟩

/-- `Quaternion::conjugate`. -/
def conjugate (a : Quaternion) : Quaternion := ⟨a.mS, a.mV.scale (-1)⟩

/-- `Quaternion::rotationMatrix`. -/
def rotationMatrix (a : Quaternion) : Mat3x3 :=
  let s2 := a.mS * a.mS
  let x2 := a.mV.x * a.mV.x
  let y2 := a.mV.y * a.mV.y
  let z2 := a.mV.z * a.mV.z
  let sx := a.mS * a.mV.x
  let sy := a.mS * a.mV.y
  let sz := a.mS * a.mV.z
  let xy := a.mV.x * a.mV.y
  let xz := a.mV.x * a.mV.z
  let yz := a.mV.y * a.mV.z
  ⟨s2 + x2 - y2 - z2, 2 * (xy - sz), 2 * (xz + sy),
   2 * (xy + sz), s2 - x2 + y2 - z2, 2 * (yz - sx),
   2 * (xz - sy), 2 * (yz + sx), s2 - x2 - y2 + z2⟩

/-- `Quaternion::rotate`: the vector of `(*this) * (0, p) * conjugate()`. -/
def rotate (a : Quaternion) (p : Vec3) : Vec3 :=
  ((a.mul ⟨0, p⟩).mul a.conjugate).mV

end Quaternion

end Makena

namespace Makena

/-! ## Inputs of `analyzePoints` with one extremal point -/

/-- Four points of the plane `x + y + z = 0` with the same variance in the three
coordinates. -/
def balancedPoints : List Vec3 := [⟨1, -1, 0⟩, ⟨-1, 0, 1⟩, ⟨0, 1, -1⟩, ⟨0, 0, 0⟩]

end Makena

namespace Makena

/-! ## The indices of the normal in `makePolygon` -/

/-- The indices `ind1`, `ind2`, `ind3` that `Manifold::makePolygon` passes to
`Face::findNormal` for a polygon with other than three points (`yAbsMaxIndex` is
`-1` when no third point is found). -/
def makePolygonIndices (points : List Vec3) : Option (Int × Int × Int) := do
  let ax1 := varianceOf points (meanOf points)
  let p0 ← pointAt points 0
  let sx := extremalAlongAxis ax1 (points.drop 1) 1 (ax1.dot p0, ax1.dot p0, 0, 0)
  let p1 ← pointAt points sx.2.2.1
  let p2 ← pointAt points sx.2.2.2
  let sy := extremalPerpendicular p1 p2 sx.2.2.1 sx.2.2.2 points 0 (false, 0, -1)
  let xMinIndex : Int := sx.2.2.1
  let xMaxIndex : Int := sx.2.2.2
  let ind1 : Int := min xMinIndex (min xMaxIndex sy.2.2)
  let ind3 : Int := max xMinIndex (max xMaxIndex sy.2.2)
  let ind2 : Int :=
    if (ind1 = xMinIndex ∧ ind3 = xMaxIndex) ∨ (ind3 = xMinIndex ∧ ind1 = xMaxIndex) then
      sy.2.2
    else if (ind1 = xMinIndex ∧ ind3 = sy.2.2) ∨ (ind3 = xMinIndex ∧ ind1 = sy.2.2) then
      xMaxIndex
    else xMinIndex
  pure (ind1, ind2, ind3)

/-- A rectangle with the sides `1` and `1 / 100000`. -/
def sliver : List Vec3 := [⟨0, 0, 0⟩, ⟨1, 0, 0⟩, ⟨1, 1 / 100000, 0⟩, ⟨0, 1 / 100000, 0⟩]

end Makena

namespace Makena

/-! ## Closed walks for `halfEdgesFromEdges` -/

/-- The half edges of the edge `e` are there and go from `a` to `b` and from `b` to
`a`. -/
def edgeJoins (m : Manifold) (e : EdgeIt) (a b : VertexIt) : Bool :=
  (m.edge e).bind (fun E =>
    (m.halfEdge E.mHe1).bind (fun H1 =>
      (m.halfEdge E.mHe2).map (fun H2 =>
        decide ((H1.mSrc = a ∧ H1.mDst = b ∧ H2.mSrc = b ∧ H2.mDst = a) ∨
          (H1.mSrc = b ∧ H1.mDst = a ∧ H2.mSrc = a ∧ H2.mDst = b))))) = some true

/-- The edges go around a closed walk `vs = v_0, ..., v_n` with `v_n = v_0`: the
`i`-th edge joins `v_i` and `v_(i+1)`. -/
@[reducible]
def closedWalk (m : Manifold) (edges : List EdgeIt) (vs : List VertexIt) : Prop :=
  vs.length = edges.length + 1 ∧ vs.getD edges.length 0 = vs.getD 0 0 ∧
  ∀ i, i < edges.length →
    edgeJoins m (edges.getD i 0) (vs.getD i 0) (vs.getD (i + 1) 0) = true

/-- Three vertices `0`, `1`, `2` and four edges: `3` and `6` between the vertices `0`
and `1`, `9` and `12` between the vertices `0` and `2`. -/
def doubledEdges : Option Manifold := do
  let m := (makeVertex Manifold.new ⟨0, 0, 0⟩ 0).1
  let m := (makeVertex m ⟨1, 0, 0⟩ 1).1
  let m := (makeVertex m ⟨0, 1, 0⟩ 2).1
  let r ← makeEdge m 0 1
  let r ← makeEdge r.1 1 0
  let r ← makeEdge r.1 0 2
  let r ← makeEdge r.1 2 0
  pure r.1

end Makena

namespace Makena

/-! ## orienting_bounding_box.cpp -/

/-- `Mat3x3::transpose`. -/
def Mat3x3.transpose (M : Mat3x3) : Mat3x3 :=
  ⟨M.m0, M.m3, M.m6, M.m1, M.m4, M.m7, M.m2, M.m5, M.m8⟩

/-- The output parameters of `findOBB2D`. -/
structure OBB2D where
  axis1 : Vec3
  axis2 : Vec3
  lowerLeft : Vec3
  upperLeft : Vec3
  upperRight : Vec3
  lowerRight : Vec3
  extent1 : ℚ
  extent2 : ℚ
  area : ℚ
deriving DecidableEq, Repr

/-- The inner loop of `findOBB2D` over the rotated points; `k` is the index of the
head and the state is `(pMin, pMax)`. -/
def obbMinMax (Mrot : Mat3x3) : List Vec3 → Nat → Vec3 × Vec3 → Vec3 × Vec3
  | [], _, s => s
  | p :: l, k, s =>
    let rotP := Mrot.mulVec p
    if k = 0 then obbMinMax Mrot l (k + 1) (rotP, rotP)
    else
      let pMin1 : Vec3 := if s.1.y > rotP.y then { s.1 with y := rotP.y } else s.1
      let pMin2 : Vec3 := if pMin1.z > rotP.z then { pMin1 with z := rotP.z } else pMin1
      let pMax1 : Vec3 := if s.2.y < rotP.y then { s.2 with y := rotP.y } else s.2
      let pMax2 : Vec3 := if pMax1.z < rotP.z then { pMax1 with z := rotP.z } else pMax1
      obbMinMax Mrot l (k + 1) (pMin2, pMax2)

/-- The body of the loop of `findOBB2D` for the edge from `CH[i]`; `s` holds the
values of the output parameters before the iteration. -/
def findOBB2DStep (CH : List Vec3) (i : Nat) (s : OBB2D) : OBB2D :=
  let j := if i < CH.length - 1 then i + 1 else 0
  let d := (CH.getD i Vec3.zero).sub (CH.getD j Vec3.zero)
  let ax1raw : Vec3 := { d with x := 0 }
  if ax1raw.squaredNorm2 < EPSILON_SQUARED then s
  else
    let ax1 := ax1raw.normalize
    let ax2 : Vec3 := ⟨0, -1 * ax1.z, ax1.y⟩
    let Minv := Mat3x3.ofColumns ⟨1, 0, 0⟩ ax1 ax2
    let Mrot := Minv.transpose
    let mm := obbMinMax Mrot CH 0 (Vec3.zero, Vec3.zero)
    let curArea := (mm.2.y - mm.1.y) * (mm.2.z - mm.1.z)
    if i = 0 ∨ s.area > curArea then
      { axis1 := ax1, axis2 := ax2,
        lowerLeft := Minv.mulVec ⟨0, mm.2.y, mm.1.z⟩,
        upperLeft := Minv.mulVec ⟨0, mm.2.y, mm.2.z⟩,
        upperRight := Minv.mulVec ⟨0, mm.1.y, mm.2.z⟩,
        lowerRight := Minv.mulVec ⟨0, mm.1.y, mm.1.z⟩,
        extent1 := mm.2.y - mm.1.y, extent2 := mm.2.z - mm.1.z, area := curArea }
    else s

/-- `findOBB2D`; `init` holds the values that the output parameters have at the
call. -/
def findOBB2D (CH : List Vec3) (init : OBB2D) : OBB2D :=
  (List.range CH.length).foldl (fun s i => findOBB2DStep CH i s) init

/-- Hull points in the YZ plane whose first two points are closer than the
tolerance. -/
def nearPoints : List Vec3 :=
  [⟨0, 0, 0⟩, ⟨0, 1 / 20000, -1 / 1000000⟩, ⟨0, 1, 0⟩, ⟨0, 1, 1⟩, ⟨0, 0, 1⟩]

/-- Output parameters that are all zero but the area. -/
def obbWithArea (a : ℚ) : OBB2D :=
  ⟨Vec3.zero, Vec3.zero, Vec3.zero, Vec3.zero, Vec3.zero, Vec3.zero, 0, 0, a⟩

end Makena

namespace Makena

/-! ## The consistency of the work queues -/

/-- The edges in `mEdgesToBeRemoved` are in the manifold, none is in the queue
twice, and an edge of the manifold has `mToBeRemoved` set exactly when it is in the
queue. -/
def edgeQueueConsistent (m : Manifold) : Bool :=
  (m.mEdgesToBeRemoved.map Prod.snd).all (fun e => (m.edge e).isSome) &&
  decide (m.mEdgesToBeRemoved.map Prod.snd).Nodup &&
  m.mEdges.all (fun p =>
    p.2.mToBeRemoved == decide (p.1 ∈ m.mEdgesToBeRemoved.map Prod.snd))

/-- The vertices in `mVerticesToBeRemoved` are in the manifold, none is in the queue
twice, and a vertex of the manifold has `mToBeRemoved` set exactly when it is in the
queue. -/
def vertexQueueConsistent (m : Manifold) : Bool :=
  (m.mVerticesToBeRemoved.map Prod.snd).all (fun v => (m.vertex v).isSome) &&
  decide (m.mVerticesToBeRemoved.map Prod.snd).Nodup &&
  m.mVertices.all (fun p =>
    p.2.mToBeRemoved == decide (p.1 ∈ m.mVerticesToBeRemoved.map Prod.snd))

end Makena

namespace Makena

/-! ## The points and ids of the vertices and of the vertex conflicts -/

/-- The point and the id of a `VertexConflict`. -/
def ConflictNode.label : ConflictNode → Option (Vec3 × Int)
  | ConflictNode.FaceConflict _ => none
  | ConflictNode.VertexConflict p id _ => some (p, id)

/-- The point and the id of every vertex of the manifold, followed by the point and
the id of every `VertexConflict` of the conflict graph. -/
def labels (m : Manifold) : List (Vec3 × Int) :=
  m.mVertices.map (fun p => (p.2.mPointLCS, p.2.mId)) ++
    m.mConflictGraph.mNodes.filterMap (fun n => n.2.label)

/-- The pair `x` is an input point with its index in `points`. -/
def atInput (points : List Vec3) (x : Vec3 × Int) : Prop :=
  0 ≤ x.2 ∧ points.get? x.2.toNat = some x.1

/-- The corners of the regular tetrahedron, its centre and a point beyond its first
corner. -/
def spikedTetrahedron : List Vec3 := regularTetrahedron ++ [⟨0, 0, 0⟩, ⟨2, 2, 2⟩]

/-- The manifold that `findConvexHull` builds on `spikedTetrahedron`. -/
def spikedHull : Manifold :=
  ((findConvexHull 20 Manifold.new spikedTetrahedron EPSILON_SQUARED).map Prod.fst).getD
    Manifold.new

end Makena

namespace Makena

/-! ## manifold.cpp: `exportData` and `importData` -/

end Makena

/-! # Verification -/

namespace Makena

/-! ## primitives.hpp and primitives.cpp -/

theorem sqrt_nonneg (x : ℚ) : 0 ≤ sqrt x := by
  unfold sqrt
  split_ifs
  · exact le_refl 0
  · positivity

theorem perp_dot_self (v : Vec3) : v.dot v.perp = 0 := by
  unfold Vec3.perp
  split_ifs <;> simp only [Vec3.dot, Vec3.cross] <;> ring

/-- C17: `perp` is perpendicular to its vector for every vector, but for the
non-zero vector `(0, -1, 0)` it is the zero vector. -/
theorem perp_of_negative_y :
    (∀ v : Vec3, v.dot v.perp = 0) ∧
      (⟨0, -1, 0⟩ : Vec3) ≠ Vec3.zero ∧ Vec3.perp ⟨0, -1, 0⟩ = ⟨0, 0, 0⟩ :=
  ⟨perp_dot_self, by decide!, by decide!⟩

/-- C16: for the diagonal matrix `diag(-1, 0, 0)` the eigen values come back as
`(-1, 0, 0)`, whatever the general branch computes: the first one is smaller
than the second. -/
theorem eigenvalues_of_diag_neg (general : Mat3x3 → Vec3 × Mat3x3) :
    Mat3x3.EigenVectorsIfSymmetric general ⟨-1, 0, 0, 0, 0, 0, 0, 0, 0⟩ =
        (⟨-1, 0, 0⟩, ⟨1, 0, 0, 0, 1, 0, 0, 0, 1⟩) ∧
      ¬ ((Mat3x3.EigenVectorsIfSymmetric general ⟨-1, 0, 0, 0, 0, 0, 0, 0, 0⟩).1.x ≥
          (Mat3x3.EigenVectorsIfSymmetric general ⟨-1, 0, 0, 0, 0, 0, 0, 0, 0⟩).1.y) := by
  have h : Mat3x3.EigenVectorsIfSymmetric general ⟨-1, 0, 0, 0, 0, 0, 0, 0, 0⟩ =
      (⟨-1, 0, 0⟩, ⟨1, 0, 0, 0, 1, 0, 0, 0, 1⟩) := by
    with_unfolding_all rfl
  refine ⟨h, ?_⟩
  rw [h]
  norm_num

/-! ## manifold.cpp -/

/-- C19: on the face `a b c` of `twoTrianglesOnOneHalfEdge` three boundary half
edges are counted, the walk does not come back to its start, and
`findCircumference` returns four half edges with `abort = false`. -/
theorem findCircumference_unclosed_walk :
    (twoTrianglesOnOneHalfEdge.bind (fun r =>
        (forEachIt (setToBeMergedOfFace true) [r.2] r.1).bind (fun m =>
          countBoundary m [r.2] (0, none)))) = some (3, some 5) ∧
      (twoTrianglesOnOneHalfEdge.bind (fun r =>
        (findCircumference 10 r.1 [r.2]).map (fun x => x.2))) =
          some ([5, 8, 11, 14], false) := by
  decide!

end Makena

namespace Wailea

/-! ## di_base.cpp -/

/-- C15: the edge `20` belongs to the graph `1`; `removeEdge` called on the graph
`0` throws `invalid_argument`, and by then the edge is gone from the list
`mIncidenceOut` of the node `10` and from the list `mIncidenceIn` of the node `11`. -/
theorem removeEdge_of_other_graph :
    DiGraph.removeEdge twoGraphs 0 20 =
        some ({ twoGraphs with
                  nodes := [(10, ⟨some 1, [20], [], []⟩), (11, ⟨some 1, [20], [], []⟩)] },
              Outcome.invalid_argument) ∧
      (DiGraph.removeEdge twoGraphs 0 20).map (fun r => r.1) ≠ some twoGraphs := by
  decide

end Wailea

namespace Makena

/-! ## manifold_convex_hull.cpp: `analyzePoints` and the degenerate inputs -/

theorem extremalAlongAxis_lt (ax1 : Vec3) (l : List Vec3) :
    ∀ (i : Nat) (s : ℚ × ℚ × Nat × Nat), s.2.2.1 < i → s.2.2.2 < i →
      (extremalAlongAxis ax1 l i s).2.2.1 < i + l.length ∧
      (extremalAlongAxis ax1 l i s).2.2.2 < i + l.length := by
  induction l with
  | nil => intro i s h1 h2; simpa [extremalAlongAxis] using ⟨h1, h2⟩
  | cons p l ih =>
    intro i s h1 h2
    obtain ⟨a, b, i1, i2⟩ := s
    simp only [extremalAlongAxis, List.length_cons]
    have := ih (i + 1) (if a > ax1.dot p then ax1.dot p else a,
       if b < ax1.dot p then ax1.dot p else b,
       if a > ax1.dot p then i else i1,
       if b < ax1.dot p then i else i2)
       (by simp only; split_ifs <;> first | omega | (simp at h1 ⊢; omega))
       (by simp only; split_ifs <;> first | omega | (simp at h2 ⊢; omega))
    constructor
    · have h := this.1; omega
    · have h := this.2; omega

theorem firstAxisExtremes_lt (points : List Vec3) (h : 0 < points.length) :
    xMinIndexOf points < points.length ∧ xMaxIndexOf points < points.length := by
  have := extremalAlongAxis_lt (varianceOf points (meanOf points)) (points.drop 1) 1
    ((varianceOf points (meanOf points)).dot (points.headD Vec3.zero),
     (varianceOf points (meanOf points)).dot (points.headD Vec3.zero), 0, 0)
    (by simp) (by simp)
  simp only [List.length_drop] at this
  unfold xMinIndexOf xMaxIndexOf firstAxisExtremes
  constructor
  · have h := this.1; omega
  · have h := this.2; omega

theorem or_skip {F B E : Prop} (hB : ¬ B) : (F ∨ E) ↔ (F ∨ (B ∨ E)) := by tauto
theorem or_take {T F B E : Prop} (hT : T) (hB : B) : (T ∨ E) ↔ (F ∨ (B ∨ E)) := by tauto
theorem or_keep {F B E : Prop} (hF : F) : (F ∨ E) ↔ (F ∨ (B ∨ E)) := by tauto

theorem extremalPerpendicular_found (p1 p2 : Vec3) (i1 i2 : Nat) (l : List Vec3) :
    ∀ (i : Nat) (s : Bool × ℚ × Int),
      (extremalPerpendicular p1 p2 i1 i2 l i s).1 = true ↔
        (s.1 = true ∨ ∃ j p, l.get? j = some p ∧ i + j ≠ i1 ∧ i + j ≠ i2 ∧
          ¬ coincident p p1 ∧ ¬ coincident p p2) := by
  induction l with
  | nil => intro i s; simp [extremalPerpendicular]
  | cons q l ih =>
    intro i s
    obtain ⟨f, y, k⟩ := s
    have hex : (∃ j p, (q :: l).get? j = some p ∧ i + j ≠ i1 ∧ i + j ≠ i2 ∧
          ¬ coincident p p1 ∧ ¬ coincident p p2) ↔
        ((i ≠ i1 ∧ i ≠ i2 ∧ ¬ coincident q p1 ∧ ¬ coincident q p2) ∨
          ∃ j p, l.get? j = some p ∧ i + 1 + j ≠ i1 ∧ i + 1 + j ≠ i2 ∧
            ¬ coincident p p1 ∧ ¬ coincident p p2) := by
      constructor
      · rintro ⟨j, p, hj, h⟩
        cases j with
        | zero =>
          simp only [List.get?_cons_zero, Option.some.injEq] at hj
          subst hj
          left
          simpa using h
        | succ j =>
          right
          refine ⟨j, p, by simpa using hj, ?_⟩
          have e : i + 1 + j = i + (j + 1) := by omega
          rw [e]; exact h
      · rintro (h | ⟨j, p, hj, h⟩)
        · exact ⟨0, q, rfl, by simpa using h⟩
        · refine ⟨j + 1, p, by simpa using hj, ?_⟩
          have e : i + 1 + j = i + (j + 1) := by omega
          rw [← e]; exact h
    rw [hex]
    rw [extremalPerpendicular]
    split_ifs with h1 h2 h3 h4
    · rw [ih]
      exact or_skip (fun h => h2.elim (fun c => h.2.2.1 c) (fun c => h.2.2.2 c))
    · rw [ih]
      exact or_take rfl ⟨h1.1, h1.2, fun h => h2 (Or.inl h), fun h => h2 (Or.inr h)⟩
    · rw [ih]
      exact or_take rfl ⟨h1.1, h1.2, fun h => h2 (Or.inl h), fun h => h2 (Or.inr h)⟩
    · rw [ih]
      exact or_keep (by simpa using h3)
    · rw [ih]
      exact or_skip (fun h => h1 ⟨h.1, h.2.1⟩)

theorem pointAt_natCast (points : List Vec3) (n : Nat) :
    pointAt points (n : Int) = points.get? n := by
  simp [pointAt]

theorem get?_eq_some_getD (points : List Vec3) (n : Nat) (h : n < points.length) :
    points.get? n = some ((points.get? n).getD Vec3.zero) := by
  rw [List.get?_eq_get h]; rfl

theorem analyzePoints_of_not_found (points : List Vec3) (h : 0 < points.length)
    (hf : (perpendicularExtreme points).1 = false) :
    analyzePoints points = some ⟨predicate.MAYBE_COLINEAR, 0, 0, 0, 0⟩ := by
  obtain ⟨h1, h2⟩ := firstAxisExtremes_lt points h
  have e0 : pointAt points 0 = some (points.headD Vec3.zero) := by
    cases points with
    | nil => simp at h
    | cons p l => rfl
  have e1 := get?_eq_some_getD points _ h1
  have e2 := get?_eq_some_getD points _ h2
  unfold perpendicularExtreme at hf
  unfold xMinIndexOf xMaxIndexOf firstAxisExtremes at *
  unfold analyzePoints
  simp only [e0, Option.bind_eq_bind, Option.some_bind, pointAt_natCast]
  rw [e1]
  simp only [Option.some_bind]
  rw [e2]
  simp only [Option.some_bind, hf]
  rfl

theorem analyzePoints_of_found (points : List Vec3) (h : 0 < points.length)
    (hf : (perpendicularExtreme points).1 = true) (a : Analysis)
    (ha : analyzePoints points = some a) : a.pred ≠ predicate.MAYBE_COLINEAR := by
  obtain ⟨h1, h2⟩ := firstAxisExtremes_lt points h
  have e0 : pointAt points 0 = some (points.headD Vec3.zero) := by
    cases points with
    | nil => simp at h
    | cons p l => rfl
  have e1 := get?_eq_some_getD points _ h1
  have e2 := get?_eq_some_getD points _ h2
  unfold perpendicularExtreme at hf
  unfold xMinIndexOf xMaxIndexOf firstAxisExtremes at *
  unfold analyzePoints at ha
  simp only [e0, Option.bind_eq_bind, Option.some_bind, pointAt_natCast] at ha
  rw [e1] at ha
  simp only [Option.some_bind] at ha
  rw [e2] at ha
  simp only [Option.some_bind, hf] at ha
  simp only [Bool.not_true, Bool.false_eq_true, if_false] at ha
  obtain ⟨p3, -, ha⟩ := Option.bind_eq_some.1 ha
  split_ifs at ha <;> (cases ha; simp)



/-- Whatever holds for every point that passes the tests of the second loop of
`analyzePoints` holds for the index the loop selects. -/
theorem extremalPerpendicular_index (p1 p2 : Vec3) (i1 i2 : Nat) (Q : Nat → Prop)
    (l : List Vec3) :
    ∀ (i : Nat) (s : Bool × ℚ × Int),
      (∀ j p, l.get? j = some p → i + j ≠ i1 → i + j ≠ i2 →
        ¬ coincident p p1 → ¬ coincident p p2 → Q (i + j)) →
      (s.1 = true → ∃ n : Nat, s.2.2 = (n : Int) ∧ Q n) →
      (extremalPerpendicular p1 p2 i1 i2 l i s).1 = true →
        ∃ n : Nat, (extremalPerpendicular p1 p2 i1 i2 l i s).2.2 = (n : Int) ∧ Q n := by
  induction l with
  | nil => intro i s _ hs; simpa [extremalPerpendicular] using hs
  | cons q l ih =>
    intro i s hQ hs
    obtain ⟨f, y, k⟩ := s
    have hQ' : ∀ j p, l.get? j = some p → i + 1 + j ≠ i1 → i + 1 + j ≠ i2 →
        ¬ coincident p p1 → ¬ coincident p p2 → Q (i + 1 + j) := by
      intro j p hj a b c d
      have e : i + 1 + j = i + (j + 1) := by omega
      rw [e] at a b ⊢
      exact hQ (j + 1) p (by simpa using hj) a b c d
    rw [extremalPerpendicular]
    split_ifs with h1 h2 h3 h4
    · exact ih (i + 1) _ hQ' hs
    · refine ih (i + 1) _ hQ' (fun _ => ⟨i, rfl, ?_⟩)
      exact hQ 0 q rfl h1.1 h1.2 (fun h => h2 (Or.inl h)) (fun h => h2 (Or.inr h))
    · refine ih (i + 1) _ hQ' (fun _ => ⟨i, rfl, ?_⟩)
      exact hQ 0 q rfl h1.1 h1.2 (fun h => h2 (Or.inl h)) (fun h => h2 (Or.inr h))
    · exact ih (i + 1) _ hQ' hs
    · exact ih (i + 1) _ hQ' hs

/-- The third loop of `analyzePoints` finds a point exactly when the state says so
already or some point of the list passes the tests of the loop. -/
theorem extremalAlongNormal_found (p1 p2 p3 ax3 : Vec3) (i1 i2 i3 : Nat) (l : List Vec3) :
    ∀ (i : Nat) (s : Bool × ℚ × Int),
      (extremalAlongNormal p1 p2 p3 ax3 i1 i2 i3 l i s).1 = true ↔
        (s.1 = true ∨ ∃ j p, l.get? j = some p ∧ i + j ≠ i1 ∧ i + j ≠ i2 ∧ i + j ≠ i3 ∧
          ¬ coincident p p1 ∧ ¬ coincident p p2 ∧ ¬ coincident p p3) := by
  induction l with
  | nil => intro i s; simp [extremalAlongNormal]
  | cons q l ih =>
    intro i s
    obtain ⟨f, y, k⟩ := s
    have hex : (∃ j p, (q :: l).get? j = some p ∧ i + j ≠ i1 ∧ i + j ≠ i2 ∧ i + j ≠ i3 ∧
          ¬ coincident p p1 ∧ ¬ coincident p p2 ∧ ¬ coincident p p3) ↔
        ((i ≠ i1 ∧ i ≠ i2 ∧ i ≠ i3 ∧
            ¬ coincident q p1 ∧ ¬ coincident q p2 ∧ ¬ coincident q p3) ∨
          ∃ j p, l.get? j = some p ∧ i + 1 + j ≠ i1 ∧ i + 1 + j ≠ i2 ∧ i + 1 + j ≠ i3 ∧
            ¬ coincident p p1 ∧ ¬ coincident p p2 ∧ ¬ coincident p p3) := by
      constructor
      · rintro ⟨j, p, hj, h⟩
        cases j with
        | zero =>
          simp only [List.get?_cons_zero, Option.some.injEq] at hj
          subst hj
          left
          simpa using h
        | succ j =>
          right
          refine ⟨j, p, by simpa using hj, ?_⟩
          have e : i + 1 + j = i + (j + 1) := by omega
          rw [e]; exact h
      · rintro (h | ⟨j, p, hj, h⟩)
        · exact ⟨0, q, rfl, by simpa using h⟩
        · refine ⟨j + 1, p, by simpa using hj, ?_⟩
          have e : i + 1 + j = i + (j + 1) := by omega
          rw [← e]; exact h
    rw [hex]
    rw [extremalAlongNormal]
    split_ifs with h1 h2 h3 h4
    · rw [ih]
      exact or_skip (fun h => h2.elim (fun c => h.2.2.2.1 c)
        (fun c => c.elim (fun c => h.2.2.2.2.1 c) (fun c => h.2.2.2.2.2 c)))
    · rw [ih]
      exact or_take rfl ⟨h1.1, h1.2.1, h1.2.2, fun h => h2 (Or.inl h),
        fun h => h2 (Or.inr (Or.inl h)), fun h => h2 (Or.inr (Or.inr h))⟩
    · rw [ih]
      exact or_take rfl ⟨h1.1, h1.2.1, h1.2.2, fun h => h2 (Or.inl h),
        fun h => h2 (Or.inr (Or.inl h)), fun h => h2 (Or.inr (Or.inr h))⟩
    · rw [ih]
      exact or_keep (by simpa using h3)
    · rw [ih]
      exact or_skip (fun h => h1 ⟨h.1, h.2.1, h.2.2.1⟩)

/-- Whatever holds for every point that passes the tests of the third loop of
`analyzePoints` holds for the index the loop selects. -/
theorem extremalAlongNormal_index (p1 p2 p3 ax3 : Vec3) (i1 i2 i3 : Nat) (Q : Nat → Prop)
    (l : List Vec3) :
    ∀ (i : Nat) (s : Bool × ℚ × Int),
      (∀ j p, l.get? j = some p → i + j ≠ i1 → i + j ≠ i2 → i + j ≠ i3 →
        ¬ coincident p p1 → ¬ coincident p p2 → ¬ coincident p p3 → Q (i + j)) →
      (s.1 = true → ∃ n : Nat, s.2.2 = (n : Int) ∧ Q n) →
      (extremalAlongNormal p1 p2 p3 ax3 i1 i2 i3 l i s).1 = true →
        ∃ n : Nat, (extremalAlongNormal p1 p2 p3 ax3 i1 i2 i3 l i s).2.2 = (n : Int) ∧ Q n := by
  induction l with
  | nil => intro i s _ hs; simpa [extremalAlongNormal] using hs
  | cons q l ih =>
    intro i s hQ hs
    obtain ⟨f, y, k⟩ := s
    have hQ' : ∀ j p, l.get? j = some p → i + 1 + j ≠ i1 → i + 1 + j ≠ i2 →
        i + 1 + j ≠ i3 →
        ¬ coincident p p1 → ¬ coincident p p2 → ¬ coincident p p3 → Q (i + 1 + j) := by
      intro j p hj a b c d e' f'
      have e : i + 1 + j = i + (j + 1) := by omega
      rw [e] at a b c ⊢
      exact hQ (j + 1) p (by simpa using hj) a b c d e' f'
    rw [extremalAlongNormal]
    split_ifs with h1 h2 h3 h4
    · exact ih (i + 1) _ hQ' hs
    · refine ih (i + 1) _ hQ' (fun _ => ⟨i, rfl, ?_⟩)
      exact hQ 0 q rfl h1.1 h1.2.1 h1.2.2 (fun h => h2 (Or.inl h))
        (fun h => h2 (Or.inr (Or.inl h))) (fun h => h2 (Or.inr (Or.inr h)))
    · refine ih (i + 1) _ hQ' (fun _ => ⟨i, rfl, ?_⟩)
      exact hQ 0 q rfl h1.1 h1.2.1 h1.2.2 (fun h => h2 (Or.inl h))
        (fun h => h2 (Or.inr (Or.inl h))) (fun h => h2 (Or.inr (Or.inr h)))
    · exact ih (i + 1) _ hQ' hs
    · exact ih (i + 1) _ hQ' hs

/-- What the second loop of `analyzePoints` selects, when it finds a point. -/
theorem perpendicularExtreme_spec (points : List Vec3)
    (hf : (perpendicularExtreme points).1 = true) :
    (perpendicularExtreme points).2.2 = (yAbsMaxIndexOf points : Int) ∧
      yAbsMaxIndexOf points ≠ xMinIndexOf points ∧
      yAbsMaxIndexOf points ≠ xMaxIndexOf points ∧
      ∃ p, points.get? (yAbsMaxIndexOf points) = some p ∧
        ¬ coincident p ((points.get? (xMinIndexOf points)).getD Vec3.zero) ∧
        ¬ coincident p ((points.get? (xMaxIndexOf points)).getD Vec3.zero) := by
  obtain ⟨n, hn, hQ⟩ := extremalPerpendicular_index
    ((points.get? (xMinIndexOf points)).getD Vec3.zero)
    ((points.get? (xMaxIndexOf points)).getD Vec3.zero)
    (xMinIndexOf points) (xMaxIndexOf points)
    (fun n => n ≠ xMinIndexOf points ∧ n ≠ xMaxIndexOf points ∧
      ∃ p, points.get? n = some p ∧
        ¬ coincident p ((points.get? (xMinIndexOf points)).getD Vec3.zero) ∧
        ¬ coincident p ((points.get? (xMaxIndexOf points)).getD Vec3.zero))
    points 0 (false, 0, -1)
    (by
      intro j p hj a b c d
      rw [Nat.zero_add] at a b ⊢
      exact ⟨a, b, p, hj, c, d⟩)
    (by simp) hf
  have hy : yAbsMaxIndexOf points = n := by
    unfold yAbsMaxIndexOf
    rw [show (perpendicularExtreme points).2.2 = (n : Int) from hn]
    simp
  rw [hy]
  exact ⟨hn, hQ⟩


/-- `analyzePoints` in terms of what its three loops select: it returns for every
non-empty list. -/
theorem analyzePoints_eq (points : List Vec3) (h : 0 < points.length) :
    analyzePoints points =
      if (perpendicularExtreme points).1 = false then
        some ⟨predicate.MAYBE_COLINEAR, 0, 0, 0, 0⟩
      else if (normalExtreme points).1 = false then
        some ⟨predicate.MAYBE_COPLANAR, 0, 0, 0, 0⟩
      else some ⟨predicate.NONE, xMinIndexOf points, xMaxIndexOf points,
        yAbsMaxIndexOf points, zAbsMaxIndexOf points⟩ := by
  by_cases hf : (perpendicularExtreme points).1 = false
  · rw [if_pos hf]
    exact analyzePoints_of_not_found points h hf
  · rw [if_neg hf]
    have hf' : (perpendicularExtreme points).1 = true := by simpa using hf
    obtain ⟨hk, -, -, p3, hp3, -⟩ := perpendicularExtreme_spec points hf'
    obtain ⟨h1, h2⟩ := firstAxisExtremes_lt points h
    have e0 : pointAt points 0 = some (points.headD Vec3.zero) := by
      cases points with
      | nil => simp at h
      | cons p l => rfl
    have e1 := get?_eq_some_getD points _ h1
    have e2 := get?_eq_some_getD points _ h2
    have e3 : points.get? (yAbsMaxIndexOf points) =
        some ((points.get? (yAbsMaxIndexOf points)).getD Vec3.zero) := by
      rw [hp3]; rfl
    unfold normalExtreme zAbsMaxIndexOf normalExtreme
    unfold yAbsMaxIndexOf at *
    unfold perpendicularExtreme at *
    unfold xMinIndexOf xMaxIndexOf firstAxisExtremes at *
    unfold analyzePoints
    simp only [e0, Option.bind_eq_bind, Option.some_bind, pointAt_natCast]
    rw [e1]
    simp only [Option.some_bind]
    rw [e2]
    simp only [Option.some_bind, hf', Bool.not_true, Bool.false_eq_true, if_false]
    rw [hk, pointAt_natCast, e3]
    simp only [Option.some_bind, Option.getD_some, Int.toNat_ofNat]
    split_ifs with ha hb hb
    · rfl
    · simp at ha hb; rw [ha] at hb; simp at hb
    · simp at ha hb; rw [hb] at ha; simp at ha
    · rfl


theorem perpendicularExtreme_found_iff (points : List Vec3) :
    (perpendicularExtreme points).1 = true ↔
      ∃ j p, points.get? j = some p ∧ j ≠ xMinIndexOf points ∧ j ≠ xMaxIndexOf points ∧
        ¬ coincident p ((points.get? (xMinIndexOf points)).getD Vec3.zero) ∧
        ¬ coincident p ((points.get? (xMaxIndexOf points)).getD Vec3.zero) := by
  unfold perpendicularExtreme
  rw [extremalPerpendicular_found]
  simp only [Bool.false_eq_true, false_or, Nat.zero_add]

theorem normalExtreme_found_iff (points : List Vec3) :
    (normalExtreme points).1 = true ↔
      ∃ j p, points.get? j = some p ∧ j ≠ xMinIndexOf points ∧ j ≠ xMaxIndexOf points ∧
        j ≠ yAbsMaxIndexOf points ∧
        ¬ coincident p ((points.get? (xMinIndexOf points)).getD Vec3.zero) ∧
        ¬ coincident p ((points.get? (xMaxIndexOf points)).getD Vec3.zero) ∧
        ¬ coincident p ((points.get? (yAbsMaxIndexOf points)).getD Vec3.zero) := by
  unfold normalExtreme
  rw [extremalAlongNormal_found]
  simp only [Bool.false_eq_true, false_or, Nat.zero_add]

/-- C5: on fewer than four points `findConvexHull` returns `MAYBE_FLAT` for every
manifold, and the manifold is the one before the call with the new value of
`mEpsilonCHMargin`: vertices, edges, half edges, faces and conflict graph are kept. -/
theorem findConvexHull_fewer_than_four (fuel : Nat) (m : Manifold) (points : List Vec3)
    (epsilon : ℚ) (h : points.length < 4) :
    findConvexHull fuel m points epsilon =
      some ({ m with mEpsilonCHMargin := epsilon }, predicate.MAYBE_FLAT) := by
  unfold findConvexHull findConvexHullIndexed
  rw [if_pos h]

theorem findConvexHull_fewer_than_four_witness :
    findConvexHull 0 Manifold.new [⟨0, 0, 0⟩, ⟨1, 0, 0⟩, ⟨0, 1, 0⟩] EPSILON_SQUARED =
      some ({ Manifold.new with mEpsilonCHMargin := EPSILON_SQUARED }, predicate.MAYBE_FLAT) :=
  findConvexHull_fewer_than_four 0 Manifold.new [⟨0, 0, 0⟩, ⟨1, 0, 0⟩, ⟨0, 1, 0⟩]
    EPSILON_SQUARED (by decide)

/-- The two sides of `findConvexHull_colinear_iff` at `twoPointsTwice` hold, and
the two sides of `findConvexHull_coplanar_iff` at `threePointsOneTwice` hold. -/
theorem findConvexHull_degenerate_examples :
    findConvexHull 0 Manifold.new twoPointsTwice EPSILON_SQUARED =
        some ({ Manifold.new with mEpsilonCHMargin := EPSILON_SQUARED },
          predicate.MAYBE_COLINEAR) ∧
      findConvexHull 0 Manifold.new threePointsOneTwice EPSILON_SQUARED =
        some ({ Manifold.new with mEpsilonCHMargin := EPSILON_SQUARED },
          predicate.MAYBE_COPLANAR) := by
  decide!

end Makena

namespace Makena

/-! ## manifold_convex_hull.cpp: the hull of four independent points -/

/-- What the first loop of `analyzePoints` computes: bounds of the dot products,
each attained at the index kept with it. -/
theorem extremalAlongAxis_spec (ax1 : Vec3) (l : List Vec3) :
    ∀ (i : Nat) (s : ℚ × ℚ × Nat × Nat),
      (∀ p ∈ l, (extremalAlongAxis ax1 l i s).1 ≤ ax1.dot p ∧
        ax1.dot p ≤ (extremalAlongAxis ax1 l i s).2.1) ∧
      (extremalAlongAxis ax1 l i s).1 ≤ s.1 ∧ s.2.1 ≤ (extremalAlongAxis ax1 l i s).2.1 ∧
      (((extremalAlongAxis ax1 l i s).2.2.1 = s.2.2.1 ∧
          (extremalAlongAxis ax1 l i s).1 = s.1) ∨
        ∃ j p, l.get? j = some p ∧ (extremalAlongAxis ax1 l i s).2.2.1 = i + j ∧
          (extremalAlongAxis ax1 l i s).1 = ax1.dot p ∧
          (extremalAlongAxis ax1 l i s).1 < s.1) ∧
      (((extremalAlongAxis ax1 l i s).2.2.2 = s.2.2.2 ∧
          (extremalAlongAxis ax1 l i s).2.1 = s.2.1) ∨
        ∃ j p, l.get? j = some p ∧ (extremalAlongAxis ax1 l i s).2.2.2 = i + j ∧
          (extremalAlongAxis ax1 l i s).2.1 = ax1.dot p ∧
          s.2.1 < (extremalAlongAxis ax1 l i s).2.1) := by
  induction l with
  | nil =>
    intro i s
    simp [extremalAlongAxis]
  | cons q l ih =>
    intro i s
    obtain ⟨mn, mx, imn, imx⟩ := s
    rw [extremalAlongAxis]
    obtain ⟨hall, hmn, hmx, hi1, hi2⟩ := ih (i + 1)
      (if mn > ax1.dot q then ax1.dot q else mn, if mx < ax1.dot q then ax1.dot q else mx,
       if mn > ax1.dot q then i else imn, if mx < ax1.dot q then i else imx)
    simp only at hmn hmx hi1 hi2 ⊢
    generalize extremalAlongAxis ax1 l (i + 1)
      (if mn > ax1.dot q then ax1.dot q else mn, if mx < ax1.dot q then ax1.dot q else mx,
       if mn > ax1.dot q then i else imn, if mx < ax1.dot q then i else imx) = r at *
    have hmn' : (if mn > ax1.dot q then ax1.dot q else mn) ≤ mn ∧
        (if mn > ax1.dot q then ax1.dot q else mn) ≤ ax1.dot q := by
      split_ifs with hc
      · exact ⟨le_of_lt hc, le_refl _⟩
      · exact ⟨le_refl _, not_lt.1 hc⟩
    have hmx' : mx ≤ (if mx < ax1.dot q then ax1.dot q else mx) ∧
        ax1.dot q ≤ (if mx < ax1.dot q then ax1.dot q else mx) := by
      split_ifs with hc
      · exact ⟨le_of_lt hc, le_refl _⟩
      · exact ⟨le_refl _, not_lt.1 hc⟩
    refine ⟨?_, le_trans hmn hmn'.1, le_trans hmx'.1 hmx, ?_, ?_⟩
    · intro p hp
      rcases List.mem_cons.1 hp with rfl | hp
      · exact ⟨le_trans hmn hmn'.2, le_trans hmx'.2 hmx⟩
      · exact hall p hp
    · rcases hi1 with ⟨e1, e2⟩ | ⟨j, p, hj, e1, e2, e3⟩
      · by_cases hc : mn > ax1.dot q
        · right
          rw [if_pos hc] at e1 e2
          exact ⟨0, q, rfl, by simpa using e1, e2, by rw [e2]; exact hc⟩
        · left
          rw [if_neg hc] at e1 e2
          exact ⟨e1, e2⟩
      · right
        refine ⟨j + 1, p, by simpa using hj, by rw [e1]; omega, e2, lt_of_lt_of_le e3 hmn'.1⟩
    · rcases hi2 with ⟨e1, e2⟩ | ⟨j, p, hj, e1, e2, e3⟩
      · by_cases hc : mx < ax1.dot q
        · right
          rw [if_pos hc] at e1 e2
          exact ⟨0, q, rfl, by simpa using e1, e2, by rw [e2]; exact hc⟩
        · left
          rw [if_neg hc] at e1 e2
          exact ⟨e1, e2⟩
      · right
        refine ⟨j + 1, p, by simpa using hj, by rw [e1]; omega, e2, lt_of_le_of_lt hmx'.1 e3⟩

/-- When the first loop of `analyzePoints` selects one index twice, all points have
the same dot product with the axis. -/
theorem dot_eq_of_xMinIndex_eq_xMaxIndex (points : List Vec3)
    (h : xMinIndexOf points = xMaxIndexOf points) :
    ∀ p ∈ points, (varianceOf points (meanOf points)).dot p =
      (varianceOf points (meanOf points)).dot (points.headD Vec3.zero) := by
  obtain ⟨hall, hmn, hmx, hi1, hi2⟩ := extremalAlongAxis_spec
    (varianceOf points (meanOf points)) (points.drop 1) 1
    ((varianceOf points (meanOf points)).dot (points.headD Vec3.zero),
     (varianceOf points (meanOf points)).dot (points.headD Vec3.zero), 0, 0)
  unfold xMinIndexOf xMaxIndexOf firstAxisExtremes at h
  simp only at hmn hmx hi1 hi2
  have hb : (extremalAlongAxis (varianceOf points (meanOf points)) (points.drop 1) 1
      ((varianceOf points (meanOf points)).dot (points.headD Vec3.zero),
       (varianceOf points (meanOf points)).dot (points.headD Vec3.zero), 0, 0)).1 =
        (varianceOf points (meanOf points)).dot (points.headD Vec3.zero) ∧
      (extremalAlongAxis (varianceOf points (meanOf points)) (points.drop 1) 1
      ((varianceOf points (meanOf points)).dot (points.headD Vec3.zero),
       (varianceOf points (meanOf points)).dot (points.headD Vec3.zero), 0, 0)).2.1 =
        (varianceOf points (meanOf points)).dot (points.headD Vec3.zero) := by
    rcases hi1 with ⟨e1, e2⟩ | ⟨j, p, hj, e1, e2, e3⟩
    · rcases hi2 with ⟨f1, f2⟩ | ⟨j', p', hj', f1, f2, f3⟩
      · exact ⟨e2, f2⟩
      · rw [e1, f1] at h; omega
    · rcases hi2 with ⟨f1, f2⟩ | ⟨j', p', hj', f1, f2, f3⟩
      · rw [e1, f1] at h; omega
      · rw [e1, f1] at h
        have hjj : j = j' := by omega
        subst hjj
        rw [hj] at hj'
        cases hj'
        rw [e2] at e3
        rw [f2] at f3
        exact absurd (lt_trans e3 f3) (lt_irrefl _)
  intro p hp
  cases points with
  | nil => simp at hp
  | cons q l =>
    rcases List.mem_cons.1 hp with rfl | hp
    · rfl
    · have := hall p (by simpa using hp)
      rw [hb.1, hb.2] at this
      exact le_antisymm this.2 this.1


theorem normalize_eq_scale (a : Vec3) : ∃ k : ℚ, 0 < k ∧ a.normalize = a.scale k := by
  unfold Vec3.normalize
  split_ifs with hs
  · have hpos : 0 < a.norm2 := lt_of_lt_of_le (by norm_num [EPSILON_SQUARED]) hs
    exact ⟨1 / a.norm2, by positivity, rfl⟩
  · exact ⟨1, one_pos, by simp [Vec3.scale]⟩


theorem coincident_comm (p q : Vec3) : coincident p q ↔ coincident q p := by
  unfold coincident
  have : (p.sub q).squaredNorm2 = (q.sub p).squaredNorm2 := by
    simp only [Vec3.squaredNorm2, Vec3.sub]; ring
  rw [this]

theorem coincident_self (p : Vec3) : coincident p p := by
  unfold coincident
  simp only [Vec3.squaredNorm2, Vec3.sub, sub_self, mul_zero, add_zero]
  norm_num [EPSILON_SQUARED]

/-- A sum of squared deviations is zero only when every point has the coordinates
of the mean. -/
theorem variance_x_eq_zero (mean : Vec3) (l : List Vec3) :
    ∀ acc : Vec3, 0 ≤ acc.x →
      0 ≤ (List.foldl (fun acc p => acc.add ⟨(p.sub mean).x * (p.sub mean).x,
        (p.sub mean).y * (p.sub mean).y, (p.sub mean).z * (p.sub mean).z⟩) acc l).x ∧
      ((List.foldl (fun acc p => acc.add ⟨(p.sub mean).x * (p.sub mean).x,
        (p.sub mean).y * (p.sub mean).y, (p.sub mean).z * (p.sub mean).z⟩) acc l).x = 0 →
        ∀ p ∈ l, p.x = mean.x) := by
  induction l with
  | nil => intro acc h; simpa using h
  | cons q l ih =>
    intro acc h
    simp only [List.foldl]
    have hq : 0 ≤ (q.sub mean).x * (q.sub mean).x := mul_self_nonneg _
    have hacc : 0 ≤ (acc.add ⟨(q.sub mean).x * (q.sub mean).x,
        (q.sub mean).y * (q.sub mean).y, (q.sub mean).z * (q.sub mean).z⟩).x := by
      simp only [Vec3.add]; linarith
    obtain ⟨h1, h2⟩ := ih _ hacc
    refine ⟨h1, ?_⟩
    intro h0 p hp
    rcases List.mem_cons.1 hp with rfl | hp
    · -- the accumulator after `p` is at most the final value
      have hmono : ∀ (l : List Vec3) (acc : Vec3),
          acc.x ≤ (List.foldl (fun acc p => acc.add ⟨(p.sub mean).x * (p.sub mean).x,
            (p.sub mean).y * (p.sub mean).y, (p.sub mean).z * (p.sub mean).z⟩) acc l).x := by
        intro l
        induction l with
        | nil => intro acc; simp
        | cons r l ihl =>
          intro acc
          simp only [List.foldl]
          refine le_trans ?_ (ihl _)
          simp only [Vec3.add]
          linarith [mul_self_nonneg (r.sub mean).x]
      have := hmono l (acc.add ⟨(p.sub mean).x * (p.sub mean).x,
        (p.sub mean).y * (p.sub mean).y, (p.sub mean).z * (p.sub mean).z⟩)
      rw [h0] at this
      simp only [Vec3.add] at this
      have hz : (p.sub mean).x * (p.sub mean).x = 0 := by linarith
      have := mul_self_eq_zero.1 hz
      simp only [Vec3.sub] at this
      linarith
    · exact h2 h0 p hp

/-- The two points that the first loop of `analyzePoints` selects bound the dot
products of all points with the axis. -/
theorem firstAxis_bounds (points : List Vec3) (h : 0 < points.length) :
    points.get? (xMinIndexOf points) = some (xMinPointOf points) ∧
      points.get? (xMaxIndexOf points) = some (xMaxPointOf points) ∧
      ∀ p ∈ points,
        (varianceOf points (meanOf points)).dot (xMinPointOf points) ≤
            (varianceOf points (meanOf points)).dot p ∧
          (varianceOf points (meanOf points)).dot p ≤
            (varianceOf points (meanOf points)).dot (xMaxPointOf points) := by
  obtain ⟨h1, h2⟩ := firstAxisExtremes_lt points h
  have e1 := get?_eq_some_getD points _ h1
  have e2 := get?_eq_some_getD points _ h2
  refine ⟨e1, e2, ?_⟩
  obtain ⟨hall, hmn, hmx, hi1, hi2⟩ := extremalAlongAxis_spec
    (varianceOf points (meanOf points)) (points.drop 1) 1
    ((varianceOf points (meanOf points)).dot (points.headD Vec3.zero),
     (varianceOf points (meanOf points)).dot (points.headD Vec3.zero), 0, 0)
  cases points with
  | nil => simp at h
  | cons q l =>
    have hget : ∀ j p, (List.drop 1 (q :: l)).get? j = some p →
        (q :: l).get? (1 + j) = some p := by
      intro j p hj
      rw [Nat.add_comm]
      simpa using hj
    have hmin : (varianceOf (q :: l) (meanOf (q :: l))).dot (xMinPointOf (q :: l)) =
        (firstAxisExtremes (q :: l)).1 := by
      unfold xMinPointOf xMinIndexOf firstAxisExtremes
      rcases hi1 with ⟨f1, f2⟩ | ⟨j, p, hj, f1, f2, -⟩
      · rw [f1, f2]; rfl
      · rw [f1, hget j p hj, f2]; rfl
    have hmax : (varianceOf (q :: l) (meanOf (q :: l))).dot (xMaxPointOf (q :: l)) =
        (firstAxisExtremes (q :: l)).2.1 := by
      unfold xMaxPointOf xMaxIndexOf firstAxisExtremes
      rcases hi2 with ⟨f1, f2⟩ | ⟨j, p, hj, f1, f2, -⟩
      · rw [f1, f2]; rfl
      · rw [f1, hget j p hj, f2]; rfl
    rw [hmin, hmax]
    intro p hp
    unfold firstAxisExtremes
    rcases List.mem_cons.1 hp with rfl | hp
    · exact ⟨hmn, hmx⟩
    · exact hall p (by simpa using hp)


/-- What the third loop of `analyzePoints` selects, when it finds a point. -/
theorem normalExtreme_spec (points : List Vec3)
    (hf : (normalExtreme points).1 = true) :
    (normalExtreme points).2.2 = (zAbsMaxIndexOf points : Int) ∧
      ∃ p, points.get? (zAbsMaxIndexOf points) = some p ∧
        ¬ coincident p (xMinPointOf points) ∧ ¬ coincident p (xMaxPointOf points) ∧
        ¬ coincident p (yAbsMaxPointOf points) := by
  obtain ⟨n, hn, hQ⟩ := extremalAlongNormal_index
    (xMinPointOf points) (xMaxPointOf points) (yAbsMaxPointOf points)
    (((xMaxPointOf points).sub (xMinPointOf points)).cross
      ((yAbsMaxPointOf points).sub (xMinPointOf points)))
    (xMinIndexOf points) (xMaxIndexOf points) (yAbsMaxIndexOf points)
    (fun n => ∃ p, points.get? n = some p ∧
        ¬ coincident p (xMinPointOf points) ∧ ¬ coincident p (xMaxPointOf points) ∧
        ¬ coincident p (yAbsMaxPointOf points))
    points 0 (false, 0, -1)
    (by
      intro j p hj _ _ _ c d e
      rw [Nat.zero_add]
      exact ⟨p, hj, c, d, e⟩)
    (by simp) hf
  have hz : zAbsMaxIndexOf points = n := by
    unfold zAbsMaxIndexOf
    rw [show (normalExtreme points).2.2 = (n : Int) from hn]
    simp
  rw [hz]
  exact ⟨hn, hQ⟩

/-- The dot products with the variance axis are not all equal when four of the
points are affinely independent. -/
theorem variance_dots_not_all_equal (points : List Vec3) (a b c d : Vec3) (K : ℚ)
    (hT : tripleProduct a b c d ≠ 0)
    (ha : a ∈ points) (hb : b ∈ points) (hc : c ∈ points) (hd : d ∈ points)
    (hall : ∀ p ∈ points, (varianceOf points (meanOf points)).dot p = K) : False := by
  have h0 := hall a ha
  have h1 := hall b hb
  have h2 := hall c hc
  have h3 := hall d hd
  clear hall
  unfold varianceOf at h0 h1 h2 h3
  generalize meanOf points = mean at h0 h1 h2 h3
  obtain ⟨k, hk, hn⟩ := normalize_eq_scale
    (List.foldl (fun acc p => acc.add ⟨(p.sub mean).x * (p.sub mean).x,
      (p.sub mean).y * (p.sub mean).y, (p.sub mean).z * (p.sub mean).z⟩) Vec3.zero points)
  rw [hn] at h0 h1 h2 h3
  obtain ⟨-, hzero⟩ := variance_x_eq_zero mean points Vec3.zero (le_refl _)
  generalize List.foldl (fun acc p => acc.add ⟨(p.sub mean).x * (p.sub mean).x,
      (p.sub mean).y * (p.sub mean).y, (p.sub mean).z * (p.sub mean).z⟩) Vec3.zero points = W
    at h0 h1 h2 h3 hzero
  simp only [Vec3.dot, Vec3.scale] at h0 h1 h2 h3
  unfold tripleProduct at hT
  simp only [Vec3.dot, Vec3.cross, Vec3.sub] at hT
  have e1 : W.x * (b.x - a.x) + W.y * (b.y - a.y) + W.z * (b.z - a.z) = 0 := by
    have : k * (W.x * (b.x - a.x) + W.y * (b.y - a.y) + W.z * (b.z - a.z)) = 0 := by
      linear_combination h1 - h0
    rcases mul_eq_zero.1 this with hk0 | h
    · exact absurd hk0 (ne_of_gt hk)
    · exact h
  have e2 : W.x * (c.x - a.x) + W.y * (c.y - a.y) + W.z * (c.z - a.z) = 0 := by
    have : k * (W.x * (c.x - a.x) + W.y * (c.y - a.y) + W.z * (c.z - a.z)) = 0 := by
      linear_combination h2 - h0
    rcases mul_eq_zero.1 this with hk0 | h
    · exact absurd hk0 (ne_of_gt hk)
    · exact h
  have e3 : W.x * (d.x - a.x) + W.y * (d.y - a.y) + W.z * (d.z - a.z) = 0 := by
    have : k * (W.x * (d.x - a.x) + W.y * (d.y - a.y) + W.z * (d.z - a.z)) = 0 := by
      linear_combination h3 - h0
    rcases mul_eq_zero.1 this with hk0 | h
    · exact absurd hk0 (ne_of_gt hk)
    · exact h
  have hX0 : W.x = 0 := by
    have : W.x * ((d.x - a.x) * ((b.y - a.y) * (c.z - a.z) - (b.z - a.z) * (c.y - a.y)) +
        (d.y - a.y) * ((b.z - a.z) * (c.x - a.x) - (b.x - a.x) * (c.z - a.z)) +
        (d.z - a.z) * ((b.x - a.x) * (c.y - a.y) - (b.y - a.y) * (c.x - a.x))) = 0 := by
      linear_combination ((c.y - a.y) * (d.z - a.z) - (c.z - a.z) * (d.y - a.y)) * e1 +
        ((d.y - a.y) * (b.z - a.z) - (d.z - a.z) * (b.y - a.y)) * e2 +
        ((b.y - a.y) * (c.z - a.z) - (b.z - a.z) * (c.y - a.y)) * e3
    rcases mul_eq_zero.1 this with h | h
    · exact h
    · exact absurd h hT
  have hx := hzero hX0
  apply hT
  have b1 : b.x - a.x = 0 := by rw [hx a ha, hx b hb]; ring
  have b2 : c.x - a.x = 0 := by rw [hx a ha, hx c hc]; ring
  have b3 : d.x - a.x = 0 := by rw [hx a ha, hx d hd]; ring
  rw [b1, b2, b3]
  ring


theorem independent_ne (a b c d : Vec3) (hI : independent a b c d) :
    a ≠ b ∧ a ≠ c ∧ a ≠ d ∧ b ≠ c ∧ b ≠ d ∧ c ≠ d := by
  obtain ⟨-, h1, h2, h3, h4, h5, h6⟩ := hI
  refine ⟨?_, ?_, ?_, ?_, ?_, ?_⟩ <;> intro h <;> subst h
  · exact h1 (coincident_self _)
  · exact h2 (coincident_self _)
  · exact h3 (coincident_self _)
  · exact h4 (coincident_self _)
  · exact h5 (coincident_self _)
  · exact h6 (coincident_self _)

/-- Two different points among four independent ones are not coincident. -/
theorem not_coincident_of_ne (a b c d : Vec3) (hI : independent a b c d) (p q : Vec3)
    (hp : p = a ∨ p = b ∨ p = c ∨ p = d) (hq : q = a ∨ q = b ∨ q = c ∨ q = d)
    (hne : p ≠ q) : ¬ coincident p q := by
  obtain ⟨-, h1, h2, h3, h4, h5, h6⟩ := hI
  rcases hp with rfl | rfl | rfl | rfl <;> rcases hq with rfl | rfl | rfl | rfl <;>
    first
    | exact absurd rfl hne
    | assumption
    | (rw [coincident_comm]; assumption)

set_option maxHeartbeats 4000000 in
/-- Four different points among four independent ones are independent, and they
are the same four points. -/
theorem independent_of_ne (a b c d : Vec3) (hI : independent a b c d) (p q r s : Vec3)
    (hp : p = a ∨ p = b ∨ p = c ∨ p = d) (hq : q = a ∨ q = b ∨ q = c ∨ q = d)
    (hr : r = a ∨ r = b ∨ r = c ∨ r = d) (hs : s = a ∨ s = b ∨ s = c ∨ s = d)
    (hpq : p ≠ q) (hpr : p ≠ r) (hps : p ≠ s) (hqr : q ≠ r) (hqs : q ≠ s) (hrs : r ≠ s) :
    independent p q r s ∧ ∀ x, (x = a ∨ x = b ∨ x = c ∨ x = d) →
      (x = p ∨ x = q ∨ x = r ∨ x = s) := by
  have hn := not_coincident_of_ne a b c d hI
  refine ⟨⟨?_, hn p q hp hq hpq, hn p r hp hr hpr, hn p s hp hs hps, hn q r hq hr hqr,
    hn q s hq hs hqs, hn r s hr hs hrs⟩, ?_⟩
  · have hT := hI.1
    unfold tripleProduct at hT ⊢
    simp only [Vec3.dot, Vec3.cross, Vec3.sub] at hT ⊢
    rcases hp with rfl | rfl | rfl | rfl <;> rcases hq with rfl | rfl | rfl | rfl <;>
      first
      | exact absurd rfl hpq
      | (rcases hr with rfl | rfl | rfl | rfl <;>
          first
          | exact absurd rfl hpr
          | exact absurd rfl hqr
          | (rcases hs with rfl | rfl | rfl | rfl <;>
              first
              | exact absurd rfl hps
              | exact absurd rfl hqs
              | exact absurd rfl hrs
              | (intro h0; apply hT; linear_combination h0)
              | (intro h0; apply hT; linear_combination -h0)))
  · intro x hx
    rcases hp with rfl | rfl | rfl | rfl <;> rcases hq with rfl | rfl | rfl | rfl <;>
      first
      | exact absurd rfl hpq
      | (rcases hr with rfl | rfl | rfl | rfl <;>
          first
          | exact absurd rfl hpr
          | exact absurd rfl hqr
          | (rcases hs with rfl | rfl | rfl | rfl <;>
              first
              | exact absurd rfl hps
              | exact absurd rfl hqs
              | exact absurd rfl hrs
              | tauto))

/-- Among four different points there is one other than two given points. -/
theorem exists_third (a b c d : Vec3) (hab : a ≠ b) (hac : a ≠ c) (hbc : b ≠ c)
    (p q : Vec3) : ∃ v, (v = a ∨ v = b ∨ v = c ∨ v = d) ∧ v ≠ p ∧ v ≠ q := by
  by_cases h1 : a ≠ p ∧ a ≠ q
  · exact ⟨a, Or.inl rfl, h1.1, h1.2⟩
  by_cases h2 : b ≠ p ∧ b ≠ q
  · exact ⟨b, Or.inr (Or.inl rfl), h2.1, h2.2⟩
  refine ⟨c, Or.inr (Or.inr (Or.inl rfl)), ?_, ?_⟩
  · intro h; subst h
    by_cases ha : a = c
    · exact hac ha
    · by_cases hb : b = c
      · exact hbc hb
      · have ha' : a = q := by
          by_contra hq; exact h1 ⟨ha, hq⟩
        have hb' : b = q := by
          by_contra hq; exact h2 ⟨hb, hq⟩
        exact hab (ha'.trans hb'.symm)
  · intro h; subst h
    by_cases ha : a = c
    · exact hac ha
    · by_cases hb : b = c
      · exact hbc hb
      · have ha' : a = p := by
          by_contra hp; exact h1 ⟨hp, ha⟩
        have hb' : b = p := by
          by_contra hp; exact h2 ⟨hp, hb⟩
        exact hab (ha'.trans hb'.symm)

/-- Among four different points there is one other than three given points. -/
theorem exists_fourth (a b c d : Vec3) (hab : a ≠ b) (hac : a ≠ c) (had : a ≠ d)
    (hbc : b ≠ c) (hbd : b ≠ d) (hcd : c ≠ d) (p q r : Vec3) :
    ∃ v, (v = a ∨ v = b ∨ v = c ∨ v = d) ∧ v ≠ p ∧ v ≠ q ∧ v ≠ r := by
  by_cases h1 : a ≠ p ∧ a ≠ q ∧ a ≠ r
  · exact ⟨a, Or.inl rfl, h1⟩
  by_cases h2 : b ≠ p ∧ b ≠ q ∧ b ≠ r
  · exact ⟨b, Or.inr (Or.inl rfl), h2⟩
  by_cases h3 : c ≠ p ∧ c ≠ q ∧ c ≠ r
  · exact ⟨c, Or.inr (Or.inr (Or.inl rfl)), h3⟩
  by_cases h4 : d ≠ p ∧ d ≠ q ∧ d ≠ r
  · exact ⟨d, Or.inr (Or.inr (Or.inr rfl)), h4⟩
  exfalso
  have k1 : a = p ∨ a = q ∨ a = r := by
    by_contra hk
    push_neg at hk
    exact h1 hk
  have k2 : b = p ∨ b = q ∨ b = r := by
    by_contra hk
    push_neg at hk
    exact h2 hk
  have k3 : c = p ∨ c = q ∨ c = r := by
    by_contra hk
    push_neg at hk
    exact h3 hk
  have k4 : d = p ∨ d = q ∨ d = r := by
    by_contra hk
    push_neg at hk
    exact h4 hk
  rcases k1 with rfl | rfl | rfl <;> rcases k2 with rfl | rfl | rfl <;>
    first
    | exact hab rfl
    | (rcases k3 with rfl | rfl | rfl <;>
        first
        | exact hac rfl
        | exact hbc rfl
        | (rcases k4 with rfl | rfl | rfl <;>
            first
            | exact had rfl
            | exact hbd rfl
            | exact hcd rfl))


/-- On a list made of four independent points and duplicates of them,
`analyzePoints` returns `NONE` and selects four independent points, which are the
four points of the list. -/
theorem analyzePoints_of_independent (points : List Vec3) (a b c d : Vec3)
    (hI : independent a b c d)
    (hmem : ∀ p ∈ points, p = a ∨ p = b ∨ p = c ∨ p = d)
    (ha : a ∈ points) (hb : b ∈ points) (hc : c ∈ points) (hd : d ∈ points) :
    ∃ i1 i2 i3 i4 P1 P2 P3 P4,
      analyzePoints points = some ⟨predicate.NONE, i1, i2, i3, i4⟩ ∧
      points.get? i1 = some P1 ∧ points.get? i2 = some P2 ∧
      points.get? i3 = some P3 ∧ points.get? i4 = some P4 ∧
      independent P1 P2 P3 P4 ∧ ∀ p ∈ points, p = P1 ∨ p = P2 ∨ p = P3 ∨ p = P4 := by
  have hpos : 0 < points.length := List.length_pos_of_mem ha
  obtain ⟨hab, hac, had, hbc, hbd, hcd⟩ := independent_ne a b c d hI
  obtain ⟨e1, e2, hbound⟩ := firstAxis_bounds points hpos
  have m1 : xMinPointOf points ∈ points := List.get?_mem e1
  have m2 : xMaxPointOf points ∈ points := List.get?_mem e2
  have hne12 : xMinPointOf points ≠ xMaxPointOf points := by
    intro h
    refine variance_dots_not_all_equal points a b c d
      ((varianceOf points (meanOf points)).dot (xMinPointOf points)) hI.1 ha hb hc hd ?_
    intro p hp
    have := hbound p hp
    rw [← h] at this
    exact le_antisymm this.2 this.1
  -- the second loop finds a point
  have hf2 : (perpendicularExtreme points).1 = true := by
    rw [perpendicularExtreme_found_iff]
    obtain ⟨v, hv, hv1, hv2⟩ := exists_third a b c d hab hac hbc
      (xMinPointOf points) (xMaxPointOf points)
    have hvm : v ∈ points := by
      rcases hv with rfl | rfl | rfl | rfl <;> assumption
    obtain ⟨j, hj⟩ := List.mem_iff_get?.1 hvm
    refine ⟨j, v, hj, ?_, ?_, ?_, ?_⟩
    · intro h; rw [h, e1] at hj; exact hv1 (Option.some.inj hj).symm
    · intro h; rw [h, e2] at hj; exact hv2 (Option.some.inj hj).symm
    · exact not_coincident_of_ne a b c d hI _ _ hv (hmem _ m1) hv1
    · exact not_coincident_of_ne a b c d hI _ _ hv (hmem _ m2) hv2
  obtain ⟨-, -, -, p3, hp3, c31, c32⟩ := perpendicularExtreme_spec points hf2
  have e3 : yAbsMaxPointOf points = p3 := by
    unfold yAbsMaxPointOf; rw [hp3]; rfl
  have m3 : p3 ∈ points := List.get?_mem hp3
  have hne31 : p3 ≠ xMinPointOf points := fun h => c31 (h ▸ coincident_self _)
  have hne32 : p3 ≠ xMaxPointOf points := fun h => c32 (h ▸ coincident_self _)
  -- the third loop finds a point
  have hf3 : (normalExtreme points).1 = true := by
    rw [normalExtreme_found_iff]
    obtain ⟨v, hv, hv1, hv2, hv3⟩ := exists_fourth a b c d hab hac had hbc hbd hcd
      (xMinPointOf points) (xMaxPointOf points) p3
    have hvm : v ∈ points := by
      rcases hv with rfl | rfl | rfl | rfl <;> assumption
    obtain ⟨j, hj⟩ := List.mem_iff_get?.1 hvm
    refine ⟨j, v, hj, ?_, ?_, ?_, ?_, ?_, ?_⟩
    · intro h; rw [h, e1] at hj; exact hv1 (Option.some.inj hj).symm
    · intro h; rw [h, e2] at hj; exact hv2 (Option.some.inj hj).symm
    · intro h; rw [h, hp3] at hj; exact hv3 (Option.some.inj hj).symm
    · exact not_coincident_of_ne a b c d hI _ _ hv (hmem _ m1) hv1
    · exact not_coincident_of_ne a b c d hI _ _ hv (hmem _ m2) hv2
    · show ¬ coincident v (yAbsMaxPointOf points)
      rw [e3]
      exact not_coincident_of_ne a b c d hI _ _ hv (hmem _ m3) hv3
  obtain ⟨-, p4, hp4, c41, c42, c43⟩ := normalExtreme_spec points hf3
  rw [e3] at c43
  have m4 : p4 ∈ points := List.get?_mem hp4
  have hne41 : p4 ≠ xMinPointOf points := fun h => c41 (h ▸ coincident_self _)
  have hne42 : p4 ≠ xMaxPointOf points := fun h => c42 (h ▸ coincident_self _)
  have hne43 : p4 ≠ p3 := fun h => c43 (h ▸ coincident_self _)
  have han := analyzePoints_eq points hpos
  rw [if_neg (by simp [hf2]), if_neg (by simp [hf3])] at han
  obtain ⟨hI', hcover⟩ := independent_of_ne a b c d hI (xMinPointOf points)
    (xMaxPointOf points) p3 p4 (hmem _ m1) (hmem _ m2) (hmem _ m3) (hmem _ m4)
    hne12 (Ne.symm hne31) (Ne.symm hne41) (Ne.symm hne32) (Ne.symm hne42) (Ne.symm hne43)
  exact ⟨_, _, _, _, _, _, _, _, han, e1, e2, hp3, hp4, hI', fun p hp => hcover p (hmem p hp)⟩


theorem isFacingLoop_eq (m : Manifold) (p : Vec3) (l : List (ListIt × HalfEdgeIt)) :
    ∀ (pts : List Vec3) (s : ℚ × Vec3), srcPoints m l = some pts →
      isFacingLoop m p l s = some (pts.foldl (furthest p) s) := by
  induction l with
  | nil =>
    intro pts s h
    simp only [srcPoints, Option.some.injEq] at h
    subst h
    rfl
  | cons h l ih =>
    intro pts s hs
    obtain ⟨it, he⟩ := h
    rw [srcPoints] at hs
    cases hp : m.srcPoint he with
    | none => simp [hp] at hs
    | some q =>
      cases hr : srcPoints m l with
      | none => simp [hp, hr] at hs
      | some rest =>
        simp only [hp, hr, Option.some.injEq] at hs
        subst hs
        rw [isFacingLoop]
        simp only [hp, Option.bind_eq_bind, Option.some_bind, List.foldl]
        exact ih rest _ hr

theorem isFacing_eq (m : Manifold) (f : FaceIt) (F : Face) (pts : List Vec3) (p : Vec3)
    (eps : ℚ) (hF : m.face f = some F) (hs : srcPoints m F.mIncidentHalfEdges = some pts) :
    isFacing m f p eps = some (facingOf F.mNormalLCS pts p eps) := by
  unfold isFacing
  simp only [hF, Option.bind_eq_bind, Option.some_bind, isFacingLoop_eq m p _ pts _ hs]
  rfl


set_option maxRecDepth 100000 in
set_option maxHeartbeats 16000000 in
/-- The simplex on four symbolic points, its conflict nodes, and the manifold that
`findConvexHull` leaves when no point is incorporated. -/
theorem simplex_hull_view (eps : ℚ) (a b c d : Vec3) (i1 i2 i3 i4 : Int) :
    (construct3SimplexEdges
        (makeVertex (makeVertex (makeVertex (makeVertex
          { Manifold.new with mEpsilonCHMargin := eps } a i1).1 b i2).1 c i3).1 d i4).1
          0 1 2 3).bind
      (fun ms => (createFaceConflicts (ms.mFaces.map Prod.fst) ms).bind
        (fun mf => (faceGeometry mf (mf.mFaces.map Prod.fst)).bind
          (fun G => (tidyUp mf).bind
            (fun m => (faceGeometry m (m.mFaces.map Prod.fst)).map
              (fun G' => (G, G', vertexPoints m, featureCounts m, mf.mEpsilonCHMargin,
                parallelOrConcaveEdges m)))))) =
    some ([((findNormal a c b).1, [a, c, b], true), ((findNormal a d c).1, [a, d, c], true),
           ((findNormal a b d).1, [a, b, d], true), ((findNormal b c d).1, [b, c, d], true)],
          [((findNormal a c b).1, [a, c, b], false), ((findNormal a d c).1, [a, d, c], false),
           ((findNormal a b d).1, [a, b, d], false), ((findNormal b c d).1, [b, c, d], false)],
          [(0, a), (1, b), (2, c), (3, d)], (4, 6, 12, 4, [3, 3, 3, 3]), eps,
          [some (decide ((b.sub a).dot ((findNormal a b d).1.cross (findNormal a c b).1) ≤ eps)),
           some (decide ((c.sub a).dot ((findNormal a c b).1.cross (findNormal a d c).1) ≤ eps)),
           some (decide ((d.sub a).dot ((findNormal a d c).1.cross (findNormal a b d).1) ≤ eps)),
           some (decide ((c.sub b).dot ((findNormal b c d).1.cross (findNormal a c b).1) ≤ eps)),
           some (decide ((d.sub b).dot ((findNormal a b d).1.cross (findNormal b c d).1) ≤ eps)),
           some (decide ((d.sub c).dot ((findNormal b c d).1.cross (findNormal a d c).1) ≤ eps))]) := by
  rfl


/-- Normalizing the second vector keeps a non-positive dot product non-positive. -/
theorem dot_normalize_nonpos (v c : Vec3) (h : v.dot c ≤ 0) : v.dot c.normalize ≤ 0 := by
  obtain ⟨k, hk, hn⟩ := normalize_eq_scale c
  rw [hn]
  have : v.dot (c.scale k) = k * v.dot c := by
    simp only [Vec3.dot, Vec3.scale]; ring
  rw [this]
  exact mul_nonpos_of_nonneg_of_nonpos (le_of_lt hk) h

theorem eq_of_squaredNorm2_le_zero (p x : Vec3) (h : ¬ 0 < (p.sub x).squaredNorm2) : p = x := by
  have h0 : (p.sub x).squaredNorm2 ≤ 0 := not_lt.1 h
  simp only [Vec3.squaredNorm2, Vec3.sub] at h0
  have hx : (p.x - x.x) * (p.x - x.x) = 0 := by
    nlinarith [mul_self_nonneg (p.x - x.x), mul_self_nonneg (p.y - x.y),
      mul_self_nonneg (p.z - x.z)]
  have hy : (p.y - x.y) * (p.y - x.y) = 0 := by
    nlinarith [mul_self_nonneg (p.x - x.x), mul_self_nonneg (p.y - x.y),
      mul_self_nonneg (p.z - x.z)]
  have hz : (p.z - x.z) * (p.z - x.z) = 0 := by
    nlinarith [mul_self_nonneg (p.x - x.x), mul_self_nonneg (p.y - x.y),
      mul_self_nonneg (p.z - x.z)]
  have ex := mul_self_eq_zero.1 hx
  have ey := mul_self_eq_zero.1 hy
  have ez := mul_self_eq_zero.1 hz
  cases p
  cases x
  simp only at ex ey ez
  simp only [Vec3.mk.injEq]
  exact ⟨by linarith, by linarith, by linarith⟩

/-- A point that is behind the plane of a triangle, seen from each of its corners,
is not facing the triangle. -/
theorem facingOf_triangle (n x y z p : Vec3) (eps : ℚ) (hne : x ≠ y)
    (hx : (p.sub x).dot n ≤ 0) (hy : (p.sub y).dot n ≤ 0) (hz : (p.sub z).dot n ≤ 0) :
    (facingOf n [x, y, z] p eps).1 = false := by
  unfold facingOf
  simp only [List.foldl, furthest, decide_eq_false_iff_not, not_lt, gt_iff_lt]
  split_ifs with h1 h2 h3 h3 h2 h3 h3
  all_goals first
    | exact hx
    | exact hy
    | exact hz
    | (exfalso
       have e1 := eq_of_squaredNorm2_le_zero p x h1
       have e2 := eq_of_squaredNorm2_le_zero p y h2
       exact hne (e1.symm.trans e2))


set_option maxHeartbeats 4000000 in
/-- No corner of a positively oriented simplex is facing one of its four faces. -/
theorem simplex_not_facing (a b c d : Vec3) (eps : ℚ) (hT : 0 < tripleProduct a b c d)
    (hab : a ≠ b) (hac : a ≠ c) (had : a ≠ d) (hbc : b ≠ c)
    (g : Vec3 × List Vec3 × Bool)
    (hg : g ∈ [((findNormal a c b).1, [a, c, b], true), ((findNormal a d c).1, [a, d, c], true),
           ((findNormal a b d).1, [a, b, d], true), ((findNormal b c d).1, [b, c, d], true)] ∨
          g ∈ [((findNormal a c b).1, [a, c, b], false),
           ((findNormal a d c).1, [a, d, c], false),
           ((findNormal a b d).1, [a, b, d], false), ((findNormal b c d).1, [b, c, d], false)])
    (p : Vec3) (hp : p = a ∨ p = b ∨ p = c ∨ p = d) :
    (facingOf g.1 g.2.1 p eps).1 = false := by
  unfold tripleProduct at hT
  simp only [Vec3.dot, Vec3.cross, Vec3.sub] at hT
  have key : ∀ (x y z v : Vec3), (p.sub v).dot ((z.sub y).cross (x.sub y)) ≤ 0 →
      (p.sub v).dot (findNormal x y z).1 ≤ 0 := by
    intro x y z v h
    exact dot_normalize_nonpos _ _ h
  simp only [List.mem_cons, List.mem_singleton, List.not_mem_nil, or_false] at hg
  rcases hg with (rfl | rfl | rfl | rfl) | (rfl | rfl | rfl | rfl)
  · simp only
    rcases hp with rfl | rfl | rfl | rfl <;>
      (apply facingOf_triangle _ _ _ _ _ _ hac <;> apply key <;>
        simp only [Vec3.dot, Vec3.cross, Vec3.sub] <;> linarith)
  · simp only
    rcases hp with rfl | rfl | rfl | rfl <;>
      (apply facingOf_triangle _ _ _ _ _ _ had <;> apply key <;>
        simp only [Vec3.dot, Vec3.cross, Vec3.sub] <;> linarith)
  · simp only
    rcases hp with rfl | rfl | rfl | rfl <;>
      (apply facingOf_triangle _ _ _ _ _ _ hab <;> apply key <;>
        simp only [Vec3.dot, Vec3.cross, Vec3.sub] <;> linarith)
  · simp only
    rcases hp with rfl | rfl | rfl | rfl <;>
      (apply facingOf_triangle _ _ _ _ _ _ hbc <;> apply key <;>
        simp only [Vec3.dot, Vec3.cross, Vec3.sub] <;> linarith)
  · simp only
    rcases hp with rfl | rfl | rfl | rfl <;>
      (apply facingOf_triangle _ _ _ _ _ _ hac <;> apply key <;>
        simp only [Vec3.dot, Vec3.cross, Vec3.sub] <;> linarith)
  · simp only
    rcases hp with rfl | rfl | rfl | rfl <;>
      (apply facingOf_triangle _ _ _ _ _ _ had <;> apply key <;>
        simp only [Vec3.dot, Vec3.cross, Vec3.sub] <;> linarith)
  · simp only
    rcases hp with rfl | rfl | rfl | rfl <;>
      (apply facingOf_triangle _ _ _ _ _ _ hab <;> apply key <;>
        simp only [Vec3.dot, Vec3.cross, Vec3.sub] <;> linarith)
  · simp only
    rcases hp with rfl | rfl | rfl | rfl <;>
      (apply facingOf_triangle _ _ _ _ _ _ hbc <;> apply key <;>
        simp only [Vec3.dot, Vec3.cross, Vec3.sub] <;> linarith)

/-- A point that is facing no face of the list adds nothing to the conflict graph. -/
theorem createConflictsOfPoint_quiet (m : Manifold) (p : Vec3) (id : Int) (L : List FaceIt) :
    ∀ G, faceGeometry m L = some G →
      (∀ g ∈ G, g.2.2 = true ∧ (facingOf g.1 g.2.1 p m.mEpsilonCHMargin).1 = false) →
      createConflictsOfPoint p id L (m, none) = some (m, none) := by
  induction L with
  | nil => intro G _ _; rfl
  | cons fit L ih =>
    intro G hG hq
    rw [faceGeometry] at hG
    cases hF : m.face fit with
    | none => simp [hF] at hG
    | some F =>
      cases hr : faceGeometry m L with
      | none => simp [hF, hr] at hG
      | some rest =>
        cases hs : srcPoints m F.mIncidentHalfEdges with
        | none => simp [hF, hr, hs] at hG
        | some pts =>
          simp only [hF, hr, hs, Option.some.injEq] at hG
          subst hG
          have h0 := hq _ (List.mem_cons_self _ _)
          simp only at h0
          obtain ⟨hc, hfac⟩ := h0
          cases hfc : F.mFaceConflict with
          | none => simp [hfc] at hc
          | some fc =>
            simp only [hfc, Option.isSome_iff_exists] at hc
            obtain ⟨ff, hff⟩ := hc
            rw [createConflictsOfPoint]
            simp only [hF, hfc, hff, Option.bind_eq_bind, Option.some_bind,
              isFacing_eq m fit F pts p _ hF hs, hfac, Bool.false_eq_true, false_and,
              if_false]
            exact ih rest hr (fun g hg => hq g (List.mem_cons_of_mem _ hg))

/-- Points that are facing no face leave the manifold and the list of conflict
vertices as they are. -/
theorem createConflicts_quiet (m : Manifold) (G : List (Vec3 × List Vec3 × Bool))
    (hG : faceGeometry m (m.mFaces.map Prod.fst) = some G) (ps : List Vec3) :
    ∀ ids : List Int, ps.length ≤ ids.length →
      (∀ p ∈ ps, ∀ g ∈ G, g.2.2 = true ∧
        (facingOf g.1 g.2.1 p m.mEpsilonCHMargin).1 = false) →
      createConflicts ps ids (m, []) = some (m, []) := by
  induction ps with
  | nil => intro ids _ _; rfl
  | cons p ps ih =>
    intro ids hlen hq
    cases ids with
    | nil => simp at hlen
    | cons id ids =>
      rw [createConflicts]
      simp only [createConflictsOfPoint_quiet m p id _ G hG (hq p (List.mem_cons_self _ _)),
        Option.bind_eq_bind, Option.some_bind]
      exact ih ids (by simpa using hlen) (fun q hq' => hq q (List.mem_cons_of_mem _ hq'))


theorem reduced_length {α : Type} (xs : List α) (i1 i2 i3 i4 : Nat) :
    (reduced xs i1 i2 i3 i4).length =
      (List.range xs.length).countP (fun k => decide (k ≠ i1 ∧ k ≠ i2 ∧ k ≠ i3 ∧ k ≠ i4)) := by
  unfold reduced
  rw [List.length_map, ← List.countP_eq_length_filter, ← List.enum_map_fst xs,
    List.countP_map]
  rfl

theorem mem_of_mem_reduced {α : Type} (xs : List α) (i1 i2 i3 i4 : Nat) (x : α)
    (h : x ∈ reduced xs i1 i2 i3 i4) : x ∈ xs := by
  unfold reduced at h
  obtain ⟨⟨i, y⟩, hy, rfl⟩ := List.mem_map.1 h
  obtain ⟨hi, hxy⟩ := List.mem_enum (List.mem_of_mem_filter hy)
  simp only [hxy]
  exact List.getElem_mem hi

theorem four_le_length (points : List Vec3) (a b c d : Vec3)
    (hab : a ≠ b) (hac : a ≠ c) (had : a ≠ d) (hbc : b ≠ c) (hbd : b ≠ d) (hcd : c ≠ d)
    (ha : a ∈ points) (hb : b ∈ points) (hc : c ∈ points) (hd : d ∈ points) :
    4 ≤ points.length := by
  have hn : ([a, b, c, d] : List Vec3).Nodup := by
    simp only [List.nodup_cons, List.mem_cons, List.mem_singleton, List.not_mem_nil,
      not_or, List.nodup_nil, and_true, not_false_eq_true]
    exact ⟨⟨hab, hac, had⟩, ⟨hbc, hbd⟩, hcd⟩
  have hs : [a, b, c, d] ⊆ points := by
    intro x hx
    simp only [List.mem_cons, List.mem_singleton, List.not_mem_nil, or_false] at hx
    rcases hx with rfl | rfl | rfl | rfl <;> assumption
  exact (hn.subperm hs).length_le

theorem get?_indices (points : List Vec3) (i : Nat) (p : Vec3)
    (h : points.get? i = some p) :
    (List.map (fun i : Nat => (i : Int)) (List.range points.length)).get? i =
      some (i : Int) := by
  have hi : i < points.length := (List.get?_eq_some.1 h).1
  simp [List.getElem?_range hi]


/-- The hull of a list made of the corners of a positively oriented simplex, once
`analyzePoints` has selected them in this order. -/
theorem buildHull_of_oriented (fuel : Nat) (eps : ℚ) (points : List Vec3) (indices : List Int)
    (x y z w : Vec3) (j1 j2 j3 j4 : Int) (a : Analysis)
    (hT : 0 < tripleProduct x y z w)
    (hxy : x ≠ y) (hxz : x ≠ z) (hxw : x ≠ w) (hyz : y ≠ z)
    (hcover : ∀ p ∈ points, p = x ∨ p = y ∨ p = z ∨ p = w)
    (hlen : indices.length = points.length) :
    ∃ m,
      (construct3SimplexEdges
        (makeVertex (makeVertex (makeVertex (makeVertex
          { Manifold.new with mEpsilonCHMargin := eps } x j1).1 y j2).1 z j3).1 w j4).1
          0 1 2 3).bind (fun ms => incorporateRemaining fuel ms points indices a) = some m ∧
      vertexPoints m = [(0, x), (1, y), (2, z), (3, w)] ∧
      featureCounts m = (4, 6, 12, 4, [3, 3, 3, 3]) ∧
      faceGeometry m (m.mFaces.map Prod.fst) =
        some [((findNormal x z y).1, [x, z, y], false), ((findNormal x w z).1, [x, w, z], false),
           ((findNormal x y w).1, [x, y, w], false), ((findNormal y z w).1, [y, z, w], false)] ∧
      parallelOrConcaveEdges m =
        [some (decide ((y.sub x).dot ((findNormal x y w).1.cross (findNormal x z y).1) ≤ eps)),
           some (decide ((z.sub x).dot ((findNormal x z y).1.cross (findNormal x w z).1) ≤ eps)),
           some (decide ((w.sub x).dot ((findNormal x w z).1.cross (findNormal x y w).1) ≤ eps)),
           some (decide ((z.sub y).dot ((findNormal y z w).1.cross (findNormal x z y).1) ≤ eps)),
           some (decide ((w.sub y).dot ((findNormal x y w).1.cross (findNormal y z w).1) ≤ eps)),
           some (decide ((w.sub z).dot ((findNormal y z w).1.cross (findNormal x w z).1) ≤ eps))] := by
  have hv := simplex_hull_view eps x y z w j1 j2 j3 j4
  obtain ⟨ms, hms, hv⟩ := Option.bind_eq_some.1 hv
  obtain ⟨mf, hmf, hv⟩ := Option.bind_eq_some.1 hv
  obtain ⟨G, hG, hv⟩ := Option.bind_eq_some.1 hv
  obtain ⟨m, hm, hv⟩ := Option.bind_eq_some.1 hv
  obtain ⟨G', hG', hv⟩ := Option.map_eq_some'.1 hv
  simp only [Prod.mk.injEq] at hv
  obtain ⟨rfl, rfl, hvp, hfc, heps, hedges⟩ := hv
  refine ⟨m, ?_, hvp, hfc, hG', hedges⟩
  rw [hms]
  simp only [Option.some_bind]
  unfold incorporateRemaining createInitialConflictGraph
  simp only [hmf, Option.bind_eq_bind, Option.some_bind]
  have hq : createConflicts (reduced points a.index1 a.index2 a.index3 a.index4)
      (reduced (indices.take points.length) a.index1 a.index2 a.index3 a.index4) (mf, []) =
        some (mf, []) := by
    apply createConflicts_quiet mf _ hG
    · rw [reduced_length, reduced_length, List.length_take, hlen, Nat.min_self]
    · intro p hp g hg
      have hp' := hcover p (mem_of_mem_reduced _ _ _ _ _ _ hp)
      refine ⟨?_, ?_⟩
      · simp only [List.mem_cons, List.mem_singleton, List.not_mem_nil, or_false] at hg
        rcases hg with rfl | rfl | rfl | rfl <;> rfl
      · exact simplex_not_facing x y z w _ hT hxy hxz hxw hyz g (Or.inl hg) p hp'
  rw [hq]
  simp only [Option.some_bind, incorporateAll]
  exact hm


/-- On a list made of four independent points and duplicates of them,
`findConvexHull` on an empty manifold returns `NONE` and leaves the simplex on the
four points: no duplicate becomes a vertex. -/
theorem findConvexHull_of_independent (fuel : Nat) (eps : ℚ) (points : List Vec3)
    (a b c d : Vec3) (hI : independent a b c d)
    (hmem : ∀ p ∈ points, p = a ∨ p = b ∨ p = c ∨ p = d)
    (ha : a ∈ points) (hb : b ∈ points) (hc : c ∈ points) (hd : d ∈ points) :
    ∃ m x y z w,
      findConvexHull fuel Manifold.new points eps = some (m, predicate.NONE) ∧
      0 < tripleProduct x y z w ∧ independent x y z w ∧
      (∀ p ∈ points, p = x ∨ p = y ∨ p = z ∨ p = w) ∧
      x ∈ points ∧ y ∈ points ∧ z ∈ points ∧ w ∈ points ∧
      vertexPoints m = [(0, x), (1, y), (2, z), (3, w)] ∧
      featureCounts m = (4, 6, 12, 4, [3, 3, 3, 3]) ∧
      faceGeometry m (m.mFaces.map Prod.fst) =
        some [((findNormal x z y).1, [x, z, y], false), ((findNormal x w z).1, [x, w, z], false),
           ((findNormal x y w).1, [x, y, w], false), ((findNormal y z w).1, [y, z, w], false)] ∧
      parallelOrConcaveEdges m =
        [some (decide ((y.sub x).dot ((findNormal x y w).1.cross (findNormal x z y).1) ≤ eps)),
           some (decide ((z.sub x).dot ((findNormal x z y).1.cross (findNormal x w z).1) ≤ eps)),
           some (decide ((w.sub x).dot ((findNormal x w z).1.cross (findNormal x y w).1) ≤ eps)),
           some (decide ((z.sub y).dot ((findNormal y z w).1.cross (findNormal x z y).1) ≤ eps)),
           some (decide ((w.sub y).dot ((findNormal x y w).1.cross (findNormal y z w).1) ≤ eps)),
           some (decide ((w.sub z).dot ((findNormal y z w).1.cross (findNormal x w z).1) ≤ eps))] := by
  obtain ⟨i1, i2, i3, i4, P1, P2, P3, P4, han, g1, g2, g3, g4, hI', hcover⟩ :=
    analyzePoints_of_independent points a b c d hI hmem ha hb hc hd
  obtain ⟨hab, hac, had, hbc, hbd, hcd⟩ := independent_ne a b c d hI
  obtain ⟨h12, h13, h14, h23, h24, h34⟩ := independent_ne P1 P2 P3 P4 hI'
  have hlen := four_le_length points a b c d hab hac had hbc hbd hcd ha hb hc hd
  have k1 := get?_indices points i1 P1 g1
  have k2 := get?_indices points i2 P2 g2
  have k3 := get?_indices points i3 P3 g3
  have k4 := get?_indices points i4 P4 g4
  have hhull : findConvexHull fuel Manifold.new points eps =
      (construct3Simplex { Manifold.new with mEpsilonCHMargin := eps } P1 P2 P3 P4
          i1 i2 i3 i4).bind (fun ms =>
        (incorporateRemaining fuel ms points
          (List.map (fun i : Nat => (i : Int)) (List.range points.length))
          ⟨predicate.NONE, i1, i2, i3, i4⟩).map (fun m => (m, predicate.NONE))) := by
    unfold findConvexHull findConvexHullIndexed
    rw [if_neg (by omega), han]
    simp only [ne_eq, not_true_eq_false, if_false]
    unfold buildHull initialSimplex
    simp only [g1, g2, g3, g4, k1, k2, k3, k4, Option.bind_eq_bind, Option.some_bind]
    cases construct3Simplex { Manifold.new with mEpsilonCHMargin := eps } P1 P2 P3 P4
        i1 i2 i3 i4 with
    | none => rfl
    | some ms =>
      simp only [Option.some_bind]
      cases incorporateRemaining fuel ms points
          (List.map (fun i : Nat => (i : Int)) (List.range points.length))
          ⟨predicate.NONE, i1, i2, i3, i4⟩ <;> rfl
  have hT' := hI'.1
  by_cases hneg : tripleProduct P1 P2 P3 P4 < 0
  · -- `reversed`: the second and the third point are swapped
    have hT : 0 < tripleProduct P1 P3 P2 P4 := by
      unfold tripleProduct at hneg ⊢
      simp only [Vec3.dot, Vec3.cross, Vec3.sub] at hneg ⊢
      linarith
    obtain ⟨m, hm, hvp, hfc, hG, hE⟩ := buildHull_of_oriented fuel eps points
      (List.map (fun i : Nat => (i : Int)) (List.range points.length)) P1 P3 P2 P4
      i1 i3 i2 i4 ⟨predicate.NONE, i1, i2, i3, i4⟩ hT h13 h12 h14 (Ne.symm h23)
      (fun p hp => by rcases hcover p hp with h | h | h | h <;> simp [h])
      (by simp)
    have hI'' : independent P1 P3 P2 P4 := by
      obtain ⟨-, c12, c13, c14, c23, c24, c34⟩ := hI'
      exact ⟨ne_of_gt hT, c13, c12, c14, fun h => c23 ((coincident_comm _ _).1 h), c34, c24⟩
    refine ⟨m, P1, P3, P2, P4, ?_, hT, hI'',
      (fun p hp => by rcases hcover p hp with h | h | h | h <;> simp [h]),
      List.get?_mem g1, List.get?_mem g3, List.get?_mem g2, List.get?_mem g4, hvp, hfc, hG,
      hE⟩
    rw [hhull]
    have hc3 : construct3Simplex { Manifold.new with mEpsilonCHMargin := eps } P1 P2 P3 P4
        i1 i2 i3 i4 = construct3SimplexEdges
        (makeVertex (makeVertex (makeVertex (makeVertex
          { Manifold.new with mEpsilonCHMargin := eps } P1 i1).1 P3 i3).1 P2 i2).1 P4 i4).1
          0 1 2 3 := by
      unfold tripleProduct at hneg
      simp only [construct3Simplex, hneg, decide_True, if_true]
      rfl
    rw [hc3]
    obtain ⟨ms, hms, hm'⟩ := Option.bind_eq_some.1 hm
    rw [hms]
    simp only [Option.some_bind, hm', Option.map_some']
  · have hT : 0 < tripleProduct P1 P2 P3 P4 := lt_of_le_of_ne (not_lt.1 hneg) (Ne.symm hT')
    obtain ⟨m, hm, hvp, hfc, hG, hE⟩ := buildHull_of_oriented fuel eps points
      (List.map (fun i : Nat => (i : Int)) (List.range points.length)) P1 P2 P3 P4
      i1 i2 i3 i4 ⟨predicate.NONE, i1, i2, i3, i4⟩ hT h12 h13 h14 h23 hcover (by simp)
    refine ⟨m, P1, P2, P3, P4, ?_, hT, hI', hcover,
      List.get?_mem g1, List.get?_mem g2, List.get?_mem g3, List.get?_mem g4, hvp, hfc, hG,
      hE⟩
    rw [hhull]
    have hc3 : construct3Simplex { Manifold.new with mEpsilonCHMargin := eps } P1 P2 P3 P4
        i1 i2 i3 i4 = construct3SimplexEdges
        (makeVertex (makeVertex (makeVertex (makeVertex
          { Manifold.new with mEpsilonCHMargin := eps } P1 i1).1 P2 i2).1 P3 i3).1 P4 i4).1
          0 1 2 3 := by
      unfold tripleProduct at hneg
      simp only [construct3Simplex, hneg, decide_False]
      rfl
    rw [hc3]
    obtain ⟨ms, hms, hm'⟩ := Option.bind_eq_some.1 hm
    rw [hms]
    simp only [Option.some_bind, hm', Option.map_some']


theorem counts_of_featureCounts (m : Manifold)
    (h : featureCounts m = (4, 6, 12, 4, [3, 3, 3, 3])) :
    m.mVertices.length = 4 ∧ m.mEdges.length = 6 ∧ m.mHalfEdges.length = 12 ∧
      m.mFaces.length = 4 ∧ ∀ f ∈ m.mFaces, f.2.mIncidentHalfEdges.length = 3 := by
  unfold featureCounts at h
  simp only [Prod.mk.injEq] at h
  obtain ⟨h1, h2, h3, h4, h5⟩ := h
  refine ⟨h1, h2, h3, h4, ?_⟩
  intro f hf
  have : f.2.mIncidentHalfEdges.length ∈
      m.mFaces.map (fun f => f.2.mIncidentHalfEdges.length) := List.mem_map.2 ⟨f, hf, rfl⟩
  rw [h5] at this
  simpa using this

/-- C4: on four points that are affinely independent and pairwise at a squared
distance of at least `EPSILON_SQUARED`, `findConvexHull` on an empty manifold
returns `NONE` and leaves 4 vertices, 6 edges, 12 half edges and 4 faces, each face
with 3 half edges. -/
theorem findConvexHull_tetrahedron (fuel : Nat) (eps : ℚ) (q0 q1 q2 q3 : Vec3)
    (hI : independent q0 q1 q2 q3) :
    ∃ m, findConvexHull fuel Manifold.new [q0, q1, q2, q3] eps = some (m, predicate.NONE) ∧
      m.mVertices.length = 4 ∧ m.mEdges.length = 6 ∧ m.mHalfEdges.length = 12 ∧
      m.mFaces.length = 4 ∧ ∀ f ∈ m.mFaces, f.2.mIncidentHalfEdges.length = 3 := by
  obtain ⟨m, x, y, z, w, hm, -, -, -, -, -, -, -, -, hfc, -, -⟩ :=
    findConvexHull_of_independent fuel eps [q0, q1, q2, q3] q0 q1 q2 q3 hI
      (by simp) (by simp) (by simp) (by simp) (by simp)
  exact ⟨m, hm, counts_of_featureCounts m hfc⟩

theorem independent_regularTetrahedron :
    independent ⟨1, 1, 1⟩ ⟨1, -1, -1⟩ ⟨-1, 1, -1⟩ ⟨-1, -1, 1⟩ := by
  unfold independent tripleProduct coincident
  simp only [Vec3.dot, Vec3.cross, Vec3.sub, Vec3.squaredNorm2, EPSILON_SQUARED]
  norm_num

theorem findConvexHull_tetrahedron_witness :
    ∃ m, findConvexHull 0 Manifold.new [⟨1, 1, 1⟩, ⟨1, -1, -1⟩, ⟨-1, 1, -1⟩, ⟨-1, -1, 1⟩]
        EPSILON_SQUARED = some (m, predicate.NONE) ∧
      m.mVertices.length = 4 ∧ m.mEdges.length = 6 ∧ m.mHalfEdges.length = 12 ∧
      m.mFaces.length = 4 ∧ ∀ f ∈ m.mFaces, f.2.mIncidentHalfEdges.length = 3 :=
  findConvexHull_tetrahedron 0 EPSILON_SQUARED ⟨1, 1, 1⟩ ⟨1, -1, -1⟩ ⟨-1, 1, -1⟩ ⟨-1, -1, 1⟩
    independent_regularTetrahedron

end Makena

namespace Makena

/-! ## manifold_convex_hull.cpp: convexity of the edges, the cube, and the prior state -/

/-- C10: on the corners of the unit cube followed by the centroid, `findConvexHull`
with the default epsilon on an empty manifold returns `NONE`; the result has 8
vertices, which carry the ids of the corners and not the id 8 of the centroid, 12
edges, 24 half edges and 6 faces of 4 half edges each. -/
theorem findConvexHull_cubeAndCentroid :
    (findConvexHull 100 Manifold.new cubeAndCentroid EPSILON_SQUARED).map summaryOf =
      some ⟨predicate.NONE, [0, 7, 1, 2, 3, 4, 5, 6], (8, 12, 24, 6, [4, 4, 4, 4, 4, 4])⟩ := by
  decide!

end Makena

/-! ## `findConvexHull2D` on points in general position -/

namespace Makena

theorem chain_prev {α : Type} (R : α → α → Prop) (l1 l2 : List α) (x : α)
    (h : List.Chain' R (l1 ++ x :: l2)) (hne : l1 ≠ []) : ∃ d ∈ l1, R d x := by
  have h2 := (List.chain'_split.mp h).1
  rw [List.chain'_append] at h2
  obtain ⟨d, hd⟩ : ∃ d, l1.getLast? = some d := by
    cases hl : l1.getLast? with
    | none => exact absurd (List.getLast?_eq_none_iff.mp hl) hne
    | some d => exact ⟨d, rfl⟩
  exact ⟨d, List.mem_of_mem_getLast? hd, h2.2.2 d hd x (by simp)⟩

theorem chain_getD {α : Type} (E : α → α → Prop) (d : α) :
    ∀ (M : List α), List.Chain' E M → ∀ j, j + 1 < M.length →
      E (M.getD j d) (M.getD (j + 1) d) := by
  intro M
  induction M with
  | nil => intro _ j hj; simp at hj
  | cons a tl ih =>
    intro hc j hj
    cases j with
    | zero =>
      cases tl with
      | nil => simp at hj
      | cons b tl2 => exact (List.chain'_cons.mp hc).1
    | succ j =>
      simp only [List.getD_cons_succ]
      exact ih (List.chain'_cons'.mp hc).2 j (by simpa using hj)

theorem succ_mod (k n : Nat) (hn : 2 ≤ n) :
    (k + 1) % n = if k % n + 1 < n then k % n + 1 else 0 := by
  have hj : k % n < n := Nat.mod_lt _ (by omega)
  rw [Nat.add_mod, Nat.mod_eq_of_lt (show 1 < n by omega)]
  split_ifs with h
  · exact Nat.mod_eq_of_lt h
  · have : k % n + 1 = n := by omega
    rw [this, Nat.mod_self]

/-- The edges between cyclically consecutive entries of a list, from the chain of
its entries and the edge from the last to the first. -/
theorem cyclic_edges {α : Type} (E : α → α → Prop) (d : α) (M : List α)
    (hc : List.Chain' E M) (hl : ∀ a ∈ M.getLast?, ∀ b ∈ M.head?, E a b)
    (hn : 2 ≤ M.length) (k : Nat) :
    E (M.getD (k % M.length) d) (M.getD ((k + 1) % M.length) d) := by
  have hj : k % M.length < M.length := Nat.mod_lt _ (by omega)
  rw [succ_mod k _ hn]
  split_ifs with h
  · exact chain_getD E d M hc _ h
  · have e : k % M.length = M.length - 1 := by omega
    rw [e]
    apply hl
    · rw [List.getLast?_eq_getElem?, List.getD_eq_getElem?_getD]
      rw [List.getElem?_eq_getElem (by omega)]
      simp
    · rw [List.head?_eq_getElem?, List.getD_eq_getElem?_getD]
      rw [List.getElem?_eq_getElem (by omega)]
      simp

end Makena

/-! ## `findCircumference` on a closed manifold -/

namespace Makena

theorem deref_assign {α : Type} (f : α → α) (i : Nat) :
    ∀ (l l2 : List (Nat × α)), assign l i f = some l2 →
      ∀ j, deref l2 j = if j = i then (deref l i).map f else deref l j := by
  intro l
  induction l with
  | nil => intro l2 h; simp [assign] at h
  | cons p l ih =>
    intro l2 h j
    obtain ⟨k, a⟩ := p
    simp only [assign] at h
    by_cases hk : k = i
    · rw [if_pos hk] at h
      simp only [Option.some.injEq] at h
      subst h
      simp only [deref]
      by_cases hj : j = i
      · rw [if_pos hj, if_pos (hk.trans hj.symm), if_pos hk]; rfl
      · rw [if_neg hj, if_neg (by rw [hk]; exact fun e => hj e.symm),
          if_neg (by rw [hk]; exact fun e => hj e.symm)]
    · rw [if_neg hk] at h
      cases hrec : assign l i f with
      | none => rw [hrec] at h; simp at h
      | some l3 =>
        rw [hrec] at h
        simp only [Option.some.injEq] at h
        subst h
        simp only [deref]
        by_cases hkj : k = j
        · rw [if_pos hkj, if_pos hkj, if_neg (by rw [← hkj]; exact hk)]
        · rw [if_neg hkj, if_neg hkj, if_neg hk]
          exact ih l3 hrec j

theorem mem_of_deref {α : Type} : ∀ (l : List (Nat × α)) (i : Nat) (a : α),
    deref l i = some a → (i, a) ∈ l := by
  intro l
  induction l with
  | nil => intro i a h; simp [deref] at h
  | cons p l ih =>
    intro i a h
    obtain ⟨k, b⟩ := p
    simp only [deref] at h
    by_cases hk : k = i
    · rw [if_pos hk] at h
      simp only [Option.some.injEq] at h
      subst h hk
      exact List.mem_cons_self _ _
    · rw [if_neg hk] at h
      exact List.mem_cons_of_mem _ (ih i a h)

theorem setHalfEdge_spec (m m2 : Manifold) (h : HalfEdgeIt) (f : HalfEdge → HalfEdge)
    (e : m.setHalfEdge h f = some m2) :
    m2.mFaces = m.mFaces ∧
      ∀ j, m2.halfEdge j = if j = h then (m.halfEdge h).map f else m.halfEdge j := by
  unfold Manifold.setHalfEdge at e
  cases hl : assign m.mHalfEdges h f with
  | none => rw [hl] at e; simp at e
  | some l =>
    rw [hl] at e
    simp only [Option.some.injEq] at e
    subst e
    exact ⟨rfl, fun j => deref_assign f h _ _ hl j⟩

theorem flagsSet_refl (m : Manifold) : flagsSet m m [] := by
  refine ⟨rfl, fun j => ?_⟩
  cases m.halfEdge j with
  | none => rfl
  | some H => simp [flagged]

theorem flagsSet_step (m m1 m2 : Manifold) (T : List HalfEdgeIt) (h : HalfEdgeIt)
    (hs : flagsSet m m1 T)
    (e : m1.setHalfEdge h (fun H => { H with mToBeMerged := true }) = some m2) :
    flagsSet m m2 (h :: T) := by
  obtain ⟨e1, e2⟩ := setHalfEdge_spec m1 m2 h _ e
  refine ⟨e1.trans hs.1, fun j => ?_⟩
  rw [e2 j]
  by_cases hj : j = h
  · rw [if_pos hj, hs.2 h, hj]
    cases m.halfEdge h with
    | none => rfl
    | some H => simp [flagged]
  · rw [if_neg hj, hs.2 j]
    cases m.halfEdge j with
    | none => rfl
    | some H => simp [flagged, hj]

theorem flagsSet_forEach (m : Manifold) :
    ∀ (l : List HalfEdgeIt) (m1 m2 : Manifold) (T : List HalfEdgeIt), flagsSet m m1 T →
      forEachIt (fun m heit => m.setHalfEdge heit (fun H => { H with mToBeMerged := true }))
        l m1 = some m2 →
      flagsSet m m2 (l.reverse ++ T) := by
  intro l
  induction l with
  | nil =>
    intro m1 m2 T hs e
    simp only [forEachIt, Option.some.injEq] at e
    subst e
    simpa using hs
  | cons h l ih =>
    intro m1 m2 T hs e
    simp only [forEachIt] at e
    cases hstep : m1.setHalfEdge h (fun H => { H with mToBeMerged := true }) with
    | none => rw [hstep] at e; simp at e
    | some m3 =>
      rw [hstep] at e
      have := ih m3 m2 (h :: T) (flagsSet_step m m1 m3 T h hs hstep) e
      simpa using this

theorem flagsSet_face (m m1 m2 : Manifold) (T : List HalfEdgeIt) (fit : FaceIt)
    (hs : flagsSet m m1 T) (e : setToBeMergedOfFace true m1 fit = some m2) :
    ∃ F, m.face fit = some F ∧
      flagsSet m m2 ((F.mIncidentHalfEdges.map Prod.snd).reverse ++ T) := by
  unfold setToBeMergedOfFace at e
  have hf : m1.face fit = m.face fit := by
    unfold Manifold.face; rw [hs.1]
  rw [hf] at e
  cases hF : m.face fit with
  | none => rw [hF] at e; simp at e
  | some F =>
    rw [hF] at e
    simp only [Option.bind_eq_bind, Option.some_bind] at e
    exact ⟨F, rfl, flagsSet_forEach m _ m1 m2 T hs e⟩

theorem flagsSet_faces (m : Manifold) :
    ∀ (faces : List FaceIt) (m1 m2 : Manifold) (T : List HalfEdgeIt), flagsSet m m1 T →
      forEachIt (setToBeMergedOfFace true) faces m1 = some m2 →
      ∃ T2, flagsSet m m2 T2 ∧ (∀ f ∈ faces, ∃ F, m.face f = some F) ∧
        ∀ h, h ∈ T2 ↔ h ∈ T ∨ ∃ f ∈ faces, ∃ F, m.face f = some F ∧
          h ∈ F.mIncidentHalfEdges.map Prod.snd := by
  intro faces
  induction faces with
  | nil =>
    intro m1 m2 T hs e
    simp only [forEachIt, Option.some.injEq] at e
    subst e
    exact ⟨T, hs, by simp, by simp⟩
  | cons f faces ih =>
    intro m1 m2 T hs e
    simp only [forEachIt] at e
    cases hstep : setToBeMergedOfFace true m1 f with
    | none => rw [hstep] at e; simp at e
    | some m3 =>
      rw [hstep] at e
      obtain ⟨F, hF, hs3⟩ := flagsSet_face m m1 m3 T f hs hstep
      obtain ⟨T2, hs2, hall, hmem⟩ := ih m3 m2 _ hs3 e
      refine ⟨T2, hs2, ?_, ?_⟩
      · intro g hg
        rcases List.mem_cons.mp hg with k | k
        · rw [k]; exact ⟨F, hF⟩
        · exact hall g k
      · intro h
        rw [hmem h]
        constructor
        · rintro (k | ⟨g, hg, G, hG, hk⟩)
          · rcases List.mem_append.mp k with k2 | k2
            · right
              exact ⟨f, List.mem_cons_self _ _, F, hF, List.mem_reverse.mp k2⟩
            · left; exact k2
          · right
            exact ⟨g, List.mem_cons_of_mem _ hg, G, hG, hk⟩
        · rintro (k | ⟨g, hg, G, hG, hk⟩)
          · left; exact List.mem_append_right _ k
          · rcases List.mem_cons.mp hg with k2 | k2
            · subst k2
              rw [hF] at hG
              simp only [Option.some.injEq] at hG
              subst hG
              left
              exact List.mem_append_left _ (List.mem_reverse.mpr hk)
            · right
              exact ⟨g, k2, G, hG, hk⟩

theorem closedManifold_halfEdge (m : Manifold) (hwf : closedManifold m) (h : HalfEdgeIt)
    (H : HalfEdge) (e : m.halfEdge h = some H) :
    (∃ B, m.halfEdge H.mBuddy = some B ∧ B.mBuddy = h ∧ B.mDst = H.mSrc) ∧
    (∃ n N, H.mNext = some n ∧ m.halfEdge n = some N ∧ N.mPrev = some h ∧
      N.mFace = H.mFace ∧ N.mSrc = H.mDst) ∧
    (∃ f F, H.mFace = some f ∧ m.face f = some F ∧
      h ∈ F.mIncidentHalfEdges.map Prod.snd) := by
  obtain ⟨h1, h2, h3⟩ := hwf.1 (h, H) (mem_of_deref _ _ _ e)
  simp only at h1 h2 h3
  refine ⟨?_, ?_, ?_⟩
  · rw [Option.map_eq_some'] at h1
    obtain ⟨B, hB, hB2⟩ := h1
    simp only [Prod.mk.injEq] at hB2
    exact ⟨B, hB, hB2.1, hB2.2⟩
  · rw [Option.map_eq_some'] at h2
    obtain ⟨N, hN, hN2⟩ := h2
    rw [Option.bind_eq_some] at hN
    obtain ⟨n, hn, hN3⟩ := hN
    simp only [Prod.mk.injEq] at hN2
    exact ⟨n, N, hn, hN3, hN2.1, hN2.2.1, hN2.2.2⟩
  · rw [Option.map_eq_some'] at h3
    obtain ⟨F, hF, hF2⟩ := h3
    rw [Option.bind_eq_some] at hF
    obtain ⟨f, hf, hF3⟩ := hF
    exact ⟨f, F, hf, hF3, of_decide_eq_true hF2⟩

theorem closedManifold_face (m : Manifold) (hwf : closedManifold m) (f : FaceIt) (F : Face)
    (e : m.face f = some F) (h : HalfEdgeIt) (hh : h ∈ F.mIncidentHalfEdges.map Prod.snd) :
    ∃ H, m.halfEdge h = some H ∧ H.mFace = some f := by
  rw [List.mem_map] at hh
  obtain ⟨p, hp, rfl⟩ := hh
  have := hwf.2 (f, F) (mem_of_deref _ _ _ e) p hp
  rw [Option.bind_eq_some] at this
  exact this

/-- The manifold that `findCircumference` walks on, from a closed manifold without
flags. -/
theorem flaggedManifold_of_closed (m m1 : Manifold) (faces : List FaceIt)
    (hwf : closedManifold m) (hfl : ∀ p ∈ m.mHalfEdges, p.2.mToBeMerged = false)
    (e : forEachIt (setToBeMergedOfFace true) faces m = some m1) :
    flaggedManifold m1 faces ∧ m1.mFaces = m.mFaces ∧
    (∀ f ∈ faces, ∃ F, m.face f = some F) ∧
    (∀ h H1, m1.halfEdge h = some H1 → ∃ H, m.halfEdge h = some H ∧
      H1.mBuddy = H.mBuddy ∧ H1.mFace = H.mFace ∧ H1.mSrc = H.mSrc ∧ H1.mDst = H.mDst) ∧
    (∀ h H, m.halfEdge h = some H → ∃ H1, m1.halfEdge h = some H1 ∧
      H1.mBuddy = H.mBuddy ∧ H1.mFace = H.mFace ∧ H1.mSrc = H.mSrc ∧ H1.mDst = H.mDst) := by
  obtain ⟨T, hs, hall, hT⟩ := flagsSet_faces m faces m m1 [] (flagsSet_refl m) e
  have hview : ∀ h H1, m1.halfEdge h = some H1 →
      ∃ H, m.halfEdge h = some H ∧ H1 = flagged T h H := by
    intro h H1 e1
    rw [hs.2 h, Option.map_eq_some'] at e1
    obtain ⟨H, hH, rfl⟩ := e1
    exact ⟨H, hH, rfl⟩
  have hlift : ∀ h H, m.halfEdge h = some H → m1.halfEdge h = some (flagged T h H) := by
    intro h H e1
    rw [hs.2 h, e1]; rfl
  have hface : ∀ f, m1.face f = m.face f := by
    intro f; unfold Manifold.face; rw [hs.1]
  refine ⟨?_, hs.1, hall, ?_, ?_⟩
  · intro h H1 e1
    obtain ⟨H, hH, rfl⟩ := hview h H1 e1
    obtain ⟨⟨B, hB, hB1, hB2⟩, ⟨n, N, hn, hN, hN1, hN2, hN3⟩, ⟨f, F, hf, hF, hhF⟩⟩ :=
      closedManifold_halfEdge m hwf h H hH
    refine ⟨⟨flagged T H.mBuddy B, hlift _ _ hB, hB1, hB2⟩,
      ⟨n, flagged T n N, hn, hlift _ _ hN, hN1, hN2, hN3⟩,
      ⟨f, F, hf, (hface f).trans hF, hhF⟩, ?_⟩
    have hfalse : H.mToBeMerged = false := hfl (h, H) (mem_of_deref _ _ _ hH)
    simp only [flagged, hfalse, Bool.false_or, decide_eq_true_eq]
    rw [hT h]
    simp only [List.not_mem_nil, false_or]
    constructor
    · rintro ⟨g, hg, G, hG, hk⟩
      obtain ⟨H2, hH2, hH3⟩ := closedManifold_face m hwf g G hG h hk
      rw [hH] at hH2
      simp only [Option.some.injEq] at hH2
      subst hH2
      exact ⟨g, hg, hH3⟩
    · rintro ⟨g, hg, hH3⟩
      rw [hf] at hH3
      simp only [Option.some.injEq] at hH3
      subst hH3
      exact ⟨f, hg, F, hF, hhF⟩
  · intro h H1 e1
    obtain ⟨H, hH, rfl⟩ := hview h H1 e1
    exact ⟨H, hH, rfl, rfl, rfl, rfl⟩
  · intro h H e1
    exact ⟨flagged T h H, hlift h H e1, rfl, rfl, rfl, rfl⟩

theorem countBoundaryOfFace_spec (m : Manifold) :
    ∀ (l : List (ListIt × HalfEdgeIt)) (s s2 : Nat × Option HalfEdgeIt),
      countBoundaryOfFace m l s = some s2 →
      s2.1 = s.1 + ((l.map Prod.snd).filter (boundaryFlag m)).length ∧
      s2.2 = if s.2 = none then ((l.map Prod.snd).filter (boundaryFlag m)).head? else s.2 := by
  intro l
  induction l with
  | nil =>
    intro s s2 e
    simp only [countBoundaryOfFace, Option.some.injEq] at e
    subst e
    refine ⟨by simp, ?_⟩
    by_cases hs : s.2 = none
    · simp [hs]
    · simp [hs]
  | cons p l ih =>
    intro s s2 e
    obtain ⟨it, heit⟩ := p
    simp only [countBoundaryOfFace, Option.bind_eq_bind] at e
    cases hH : m.halfEdge heit with
    | none => rw [hH] at e; simp at e
    | some H =>
      rw [hH] at e
      simp only [Option.some_bind] at e
      by_cases hf : H.mToBeMerged = true
      · rw [if_pos hf] at e
        cases hB : m.halfEdge H.mBuddy with
        | none => rw [hB] at e; simp at e
        | some B =>
          rw [hB] at e
          simp only [Option.some_bind] at e
          by_cases hb : B.mToBeMerged = true
          · have hbf : boundaryFlag m heit = false := by
              simp [boundaryFlag, hH, hB, hb]
            simp only [hb, Bool.not_true, Bool.false_eq_true, if_false] at e
            have := ih s s2 e
            simpa [List.filter_cons, hbf] using this
          · have hbt : boundaryFlag m heit = true := by
              simp [boundaryFlag, hH, hB, hb, hf]
            simp only [Bool.not_eq_true] at hb
            simp only [hb, Bool.not_false, if_true] at e
            have := ih _ s2 e
            simp only [List.map_cons, List.filter_cons, hbt, if_true, List.length_cons,
              List.head?_cons]
            refine ⟨by rw [this.1]; omega, ?_⟩
            rw [this.2]
            by_cases hs : s.2 = none
            · simp [hs]
            · simp [hs]
      · have hbf : boundaryFlag m heit = false := by
          simp only [Bool.not_eq_true] at hf
          simp [boundaryFlag, hH, hf]
        rw [if_neg hf] at e
        have := ih s s2 e
        simpa [List.filter_cons, hbf] using this

theorem countBoundary_spec (m : Manifold) :
    ∀ (faces : List FaceIt) (s s2 : Nat × Option HalfEdgeIt),
      countBoundary m faces s = some s2 →
      s2.1 = s.1 + (countedHalfEdges m faces).length ∧
      s2.2 = if s.2 = none then (countedHalfEdges m faces).head? else s.2 := by
  intro faces
  induction faces with
  | nil =>
    intro s s2 e
    simp only [countBoundary, Option.some.injEq] at e
    subst e
    refine ⟨by simp [countedHalfEdges], ?_⟩
    by_cases hs : s.2 = none
    · simp [hs, countedHalfEdges]
    · simp [hs]
  | cons f faces ih =>
    intro s s2 e
    simp only [countBoundary, Option.bind_eq_bind] at e
    cases hF : m.face f with
    | none => rw [hF] at e; simp at e
    | some F =>
      rw [hF] at e
      simp only [Option.some_bind] at e
      cases h1 : countBoundaryOfFace m F.mIncidentHalfEdges s with
      | none => rw [h1] at e; simp at e
      | some s1 =>
        rw [h1] at e
        simp only [Option.some_bind] at e
        obtain ⟨a1, a2⟩ := countBoundaryOfFace_spec m _ s s1 h1
        obtain ⟨b1, b2⟩ := ih s1 s2 e
        have hc : countedHalfEdges m (f :: faces) =
            (F.mIncidentHalfEdges.map Prod.snd).filter (boundaryFlag m) ++
              countedHalfEdges m faces := by
          simp [countedHalfEdges, hF]
        rw [hc]
        refine ⟨by rw [b1, a1, List.length_append]; omega, ?_⟩
        rw [b2, a2]
        by_cases hs : s.2 = none
        · simp only [hs, if_true]
          cases hl : List.filter (boundaryFlag m) (List.map Prod.snd F.mIncidentHalfEdges) with
          | nil => simp
          | cons a l => simp
        · have : (if s.2 = none then
              (List.filter (boundaryFlag m) (List.map Prod.snd F.mIncidentHalfEdges)).head?
              else s.2) = s.2 := by rw [if_neg hs]
          rw [this, if_neg hs, if_neg hs]

theorem findNextBoundaryLoop_spec (m : Manifold) (start : HalfEdgeIt) :
    ∀ (fuel : Nat) (x0 x : HalfEdgeIt), findNextBoundaryLoop m start fuel x0 = some x →
      Relation.ReflTransGen (rotStep m) x0 x ∧
      ∃ H B, m.halfEdge x = some H ∧ m.halfEdge H.mBuddy = some B ∧
        (B.mToBeMerged = false ∨ x = start) := by
  intro fuel
  induction fuel with
  | zero => intro x0 x e; simp [findNextBoundaryLoop] at e
  | succ fuel ih =>
    intro x0 x e
    simp only [findNextBoundaryLoop, Option.bind_eq_bind] at e
    cases hH : m.halfEdge x0 with
    | none => rw [hH] at e; simp at e
    | some H =>
      rw [hH] at e
      simp only [Option.some_bind] at e
      cases hB : m.halfEdge H.mBuddy with
      | none => rw [hB] at e; simp at e
      | some B =>
        rw [hB] at e
        simp only [Option.some_bind] at e
        by_cases hc : B.mToBeMerged = true ∧ x0 ≠ start
        · rw [if_pos hc] at e
          cases hn : B.mNext with
          | none => rw [hn] at e; simp at e
          | some n =>
            rw [hn] at e
            simp only [Option.some_bind] at e
            obtain ⟨hp, hx⟩ := ih n x e
            exact ⟨Relation.ReflTransGen.head ⟨H, B, hH, hB, hc.1, hn⟩ hp, hx⟩
        · rw [if_neg hc] at e
          simp only [Option.pure_def, Option.some.injEq] at e
          subst e
          refine ⟨Relation.ReflTransGen.refl, H, B, hH, hB, ?_⟩
          by_cases hb : B.mToBeMerged = true
          · right
            by_contra hne
            exact hc ⟨hb, hne⟩
          · left
            simpa using hb

theorem findNextBoundaryHalfEdge_spec (fuel : Nat) (m : Manifold) (h x : HalfEdgeIt)
    (e : findNextBoundaryHalfEdge fuel m h = some x) :
    ∃ H x0, m.halfEdge h = some H ∧ H.mNext = some x0 ∧
      Relation.ReflTransGen (rotStep m) x0 x ∧
      ∃ X B, m.halfEdge x = some X ∧ m.halfEdge X.mBuddy = some B ∧
        (B.mToBeMerged = false ∨ x = h) := by
  simp only [findNextBoundaryHalfEdge, Option.bind_eq_bind] at e
  cases hH : m.halfEdge h with
  | none => rw [hH] at e; simp at e
  | some H =>
    rw [hH] at e
    simp only [Option.some_bind] at e
    cases hn : H.mNext with
    | none => rw [hn] at e; simp at e
    | some x0 =>
      rw [hn] at e
      simp only [Option.some_bind] at e
      obtain ⟨hp, hx⟩ := findNextBoundaryLoop_spec m h fuel x0 x e
      exact ⟨H, x0, rfl, hn, hp, hx⟩

/-- The next half edge of a half edge with `mToBeMerged` has `mToBeMerged`. -/
theorem flagged_next (m : Manifold) (faces : List FaceIt) (hK : flaggedManifold m faces)
    (h : HalfEdgeIt) (H : HalfEdge) (n : HalfEdgeIt) (e : m.halfEdge h = some H)
    (hf : H.mToBeMerged = true) (hn : H.mNext = some n) :
    ∃ N, m.halfEdge n = some N ∧ N.mToBeMerged = true ∧ N.mSrc = H.mDst ∧
      N.mPrev = some h := by
  obtain ⟨-, ⟨n2, N, hn2, hN, hN1, hN2, hN3⟩, -, hflag⟩ := hK h H e
  rw [hn] at hn2
  simp only [Option.some.injEq] at hn2
  subst hn2
  refine ⟨N, hN, ?_, hN3, hN1⟩
  rw [(hK n N hN).2.2.2, hN2]
  exact hflag.mp hf

theorem rotStep_target (m : Manifold) (faces : List FaceIt) (hK : flaggedManifold m faces)
    (x y : HalfEdgeIt) (hr : rotStep m x y) :
    ∃ X Y, m.halfEdge x = some X ∧ m.halfEdge y = some Y ∧ Y.mToBeMerged = true ∧
      Y.mSrc = X.mSrc ∧ Y.mPrev = some X.mBuddy := by
  obtain ⟨X, B, hX, hB, hBf, hBn⟩ := hr
  obtain ⟨N, hN, hN1, hN2, hN3⟩ := flagged_next m faces hK _ B y hB hBf hBn
  obtain ⟨⟨B2, hB2, -, hB4⟩, -⟩ := hK x X hX
  rw [hB] at hB2
  simp only [Option.some.injEq] at hB2
  subst hB2
  exact ⟨X, N, hX, hN, hN1, by rw [hN2, hB4], hN3⟩

theorem rotStep_back (m : Manifold) (faces : List FaceIt) (hK : flaggedManifold m faces)
    (a b y : HalfEdgeIt) (ha : rotStep m a y) (hb : rotStep m b y) : a = b := by
  obtain ⟨A, Y, hA, hY, -, -, hp⟩ := rotStep_target m faces hK a y ha
  obtain ⟨B, Y2, hB, hY2, -, -, hp2⟩ := rotStep_target m faces hK b y hb
  rw [hY] at hY2
  simp only [Option.some.injEq] at hY2
  subst hY2
  rw [hp] at hp2
  simp only [Option.some.injEq] at hp2
  obtain ⟨⟨A2, hA2, hA3, -⟩, -⟩ := hK a A hA
  obtain ⟨⟨B2, hB2, hB3, -⟩, -⟩ := hK b B hB
  rw [hp2, hB2] at hA2
  simp only [Option.some.injEq] at hA2
  subst hA2
  rw [← hA3, ← hB3]

theorem rotStep_paths (m : Manifold) (faces : List FaceIt) (hK : flaggedManifold m faces)
    (a b x : HalfEdgeIt) (ha : Relation.ReflTransGen (rotStep m) a x)
    (hb : Relation.ReflTransGen (rotStep m) b x) :
    Relation.ReflTransGen (rotStep m) a b ∨ Relation.ReflTransGen (rotStep m) b a := by
  induction ha generalizing b with
  | refl => right; exact hb
  | tail hay hyx ih =>
    rcases Relation.ReflTransGen.cases_tail hb with e | ⟨y2, hby, hyx2⟩
    · left
      rw [← e]
      exact Relation.ReflTransGen.tail hay hyx
    · have := rotStep_back m faces hK _ _ _ hyx hyx2
      subst this
      exact ih b hby

/-- The half edges on a path of `rotStep` from a half edge with `mToBeMerged` have
`mToBeMerged` and start at the same vertex. -/
theorem rotStep_path_flagged (m : Manifold) (faces : List FaceIt)
    (hK : flaggedManifold m faces) (a x : HalfEdgeIt) (A : HalfEdge)
    (hA : m.halfEdge a = some A) (hf : A.mToBeMerged = true)
    (hp : Relation.ReflTransGen (rotStep m) a x) :
    ∃ X, m.halfEdge x = some X ∧ X.mToBeMerged = true ∧ X.mSrc = A.mSrc := by
  induction hp with
  | refl => exact ⟨A, hA, hf, rfl⟩
  | tail hay hyx ih =>
    obtain ⟨Y, hY, -, hY2⟩ := ih
    obtain ⟨Y2, X, hY3, hX, hX1, hX2, -⟩ := rotStep_target m faces hK _ _ hyx
    rw [hY] at hY3
    simp only [Option.some.injEq] at hY3
    subst hY3
    exact ⟨X, hX, hX1, by rw [hX2, hY2]⟩

theorem boundaryFlag_iff (m : Manifold) (h : HalfEdgeIt) :
    boundaryFlag m h = true ↔ ∃ H B, m.halfEdge h = some H ∧ m.halfEdge H.mBuddy = some B ∧
      H.mToBeMerged = true ∧ B.mToBeMerged = false := by
  unfold boundaryFlag
  cases hH : m.halfEdge h with
  | none => simp
  | some H =>
    cases hB : m.halfEdge H.mBuddy with
    | none => simp [hB]
    | some B => simp [hB]

/-- One call of `findNextBoundaryHalfEdge` on a boundary half edge gives a boundary
half edge that starts where the first one ends. -/
theorem step_boundary (fuel : Nat) (m : Manifold) (faces : List FaceIt)
    (hK : flaggedManifold m faces) (h x : HalfEdgeIt) (hb : boundaryFlag m h = true)
    (e : findNextBoundaryHalfEdge fuel m h = some x) :
    boundaryFlag m x = true ∧ chained m h x := by
  obtain ⟨H, x0, hH, hn, hp, X, B, hX, hB, hex⟩ := findNextBoundaryHalfEdge_spec fuel m h x e
  rw [boundaryFlag_iff] at hb
  obtain ⟨H2, B2, hH2, hB2, hf, hbf⟩ := hb
  rw [hH] at hH2
  simp only [Option.some.injEq] at hH2
  subst hH2
  obtain ⟨N, hN, hN1, hN2, -⟩ := flagged_next m faces hK h H x0 hH hf hn
  obtain ⟨X2, hX2, hX3, hX4⟩ := rotStep_path_flagged m faces hK x0 x N hN hN1 hp
  rw [hX] at hX2
  simp only [Option.some.injEq] at hX2
  subst hX2
  refine ⟨?_, H, X, hH, hX, by rw [hX4, hN2]⟩
  rw [boundaryFlag_iff]
  rcases hex with k | k
  · exact ⟨X, B, hX, hB, hX3, k⟩
  · subst k
    rw [hH] at hX
    simp only [Option.some.injEq] at hX
    subst hX
    exact ⟨H, B2, hH, hB2, hf, hbf⟩

theorem step_inj_aux (m : Manifold) (faces : List FaceIt) (hK : flaggedManifold m faces)
    (h h2 : HalfEdgeIt) (H H2 : HalfEdge) (x0 y0 : HalfEdgeIt)
    (hb : boundaryFlag m h = true) (hb2 : boundaryFlag m h2 = true)
    (hH : m.halfEdge h = some H) (hH2 : m.halfEdge h2 = some H2)
    (hn : H.mNext = some x0) (hn2 : H2.mNext = some y0)
    (hp : Relation.ReflTransGen (rotStep m) x0 y0) : h = h2 := by
  rw [boundaryFlag_iff] at hb hb2
  obtain ⟨H3, B, hH3, hB, hf, hbf⟩ := hb
  rw [hH] at hH3
  simp only [Option.some.injEq] at hH3
  subst hH3
  obtain ⟨H4, B2, hH4, hB2, hf2, hbf2⟩ := hb2
  rw [hH2] at hH4
  simp only [Option.some.injEq] at hH4
  subst hH4
  obtain ⟨N, hN, hN1, -, hN3⟩ := flagged_next m faces hK h H x0 hH hf hn
  obtain ⟨N2, hN4, -, -, hN6⟩ := flagged_next m faces hK h2 H2 y0 hH2 hf2 hn2
  rcases Relation.ReflTransGen.cases_tail hp with e | ⟨y, hxy, hyy⟩
  · subst e
    rw [hN] at hN4
    simp only [Option.some.injEq] at hN4
    subst hN4
    rw [hN3] at hN6
    simpa using hN6
  · exfalso
    obtain ⟨Y, hY, hY1, -⟩ := rotStep_path_flagged m faces hK x0 y N hN hN1 hxy
    obtain ⟨Y2, N3, hY2, hN7, -, -, hN8⟩ := rotStep_target m faces hK _ _ hyy
    rw [hY] at hY2
    simp only [Option.some.injEq] at hY2
    subst hY2
    rw [hN4] at hN7
    simp only [Option.some.injEq] at hN7
    subst hN7
    rw [hN6] at hN8
    simp only [Option.some.injEq] at hN8
    -- the buddy of `y` is `h2`, so `y` is the buddy of `h2`
    obtain ⟨⟨B3, hB3, hB4, -⟩, -⟩ := hK y Y hY
    rw [← hN8, hH2] at hB3
    simp only [Option.some.injEq] at hB3
    subst hB3
    rw [hB4, hY] at hB2
    simp only [Option.some.injEq] at hB2
    subst hB2
    rw [hY1] at hbf2
    exact absurd hbf2 (by simp)

/-- Two boundary half edges with the same result of `findNextBoundaryHalfEdge` are
the same half edge. -/
theorem step_inj (fuel : Nat) (m : Manifold) (faces : List FaceIt)
    (hK : flaggedManifold m faces) (h h2 x : HalfEdgeIt) (hb : boundaryFlag m h = true)
    (hb2 : boundaryFlag m h2 = true) (e : findNextBoundaryHalfEdge fuel m h = some x)
    (e2 : findNextBoundaryHalfEdge fuel m h2 = some x) : h = h2 := by
  obtain ⟨H, x0, hH, hn, hp, -⟩ := findNextBoundaryHalfEdge_spec fuel m h x e
  obtain ⟨H2, y0, hH2, hn2, hp2, -⟩ := findNextBoundaryHalfEdge_spec fuel m h2 x e2
  rcases rotStep_paths m faces hK x0 y0 x hp hp2 with k | k
  · exact step_inj_aux m faces hK h h2 H H2 x0 y0 hb hb2 hH hH2 hn hn2 k
  · exact (step_inj_aux m faces hK h2 h H2 H y0 x0 hb2 hb hH2 hH hn2 hn k).symm

theorem circumferenceWalk_spec (fuel : Nat) (m : Manifold) (heStart : HalfEdgeIt) :
    ∀ (r : Nat) (heit : HalfEdgeIt) (acc L : List HalfEdgeIt),
      circumferenceWalk fuel m heStart r heit acc = some L →
      ∃ path z, L = acc ++ path ∧
        List.Chain' (fun a b => findNextBoundaryHalfEdge fuel m a = some b) (path ++ [z]) ∧
        (path ++ [z]).head? = some heit ∧ (∀ x ∈ path, x ≠ heStart) ∧
        (z = heStart ∨ path.length = r) := by
  intro r
  induction r with
  | zero =>
    intro heit acc L e
    simp only [circumferenceWalk, Option.some.injEq] at e
    subst e
    exact ⟨[], heit, by simp, by simp, by simp, by simp, Or.inr rfl⟩
  | succ r ih =>
    intro heit acc L e
    simp only [circumferenceWalk] at e
    by_cases hc : heit = heStart
    · rw [if_pos hc] at e
      simp only [Option.some.injEq] at e
      subst e
      exact ⟨[], heit, by simp, by simp, by simp, by simp, Or.inl hc⟩
    · rw [if_neg hc] at e
      simp only [Option.bind_eq_bind] at e
      cases hn : findNextBoundaryHalfEdge fuel m heit with
      | none => rw [hn] at e; simp at e
      | some next =>
        rw [hn] at e
        simp only [Option.some_bind] at e
        obtain ⟨path, z, hL, hch, hhead, hne, hz⟩ := ih next (acc ++ [heit]) L e
        refine ⟨heit :: path, z, by rw [hL]; simp, ?_, by simp, ?_, ?_⟩
        · rw [List.cons_append, List.chain'_cons']
          refine ⟨?_, hch⟩
          intro y hy
          rw [hhead] at hy
          simp only [Option.mem_def, Option.some.injEq] at hy
          rw [← hy]
          exact hn
        · intro x hx
          rcases List.mem_cons.mp hx with k | k
          · rw [k]; exact hc
          · exact hne x k
        · rcases hz with k | k
          · left; exact k
          · right; simp [k]

/-- A chain of an injective relation that never comes back to its first entry has
no entry twice. -/
theorem chain_nodup {α : Type} (R : α → α → Prop) (P : α → Prop)
    (hP : ∀ a b, P a → R a b → P b)
    (hinj : ∀ a b c, P a → P b → R a c → R b c → a = b) (h0 : α) (hP0 : P h0) :
    ∀ path : List α, List.Chain' R (h0 :: path) → (∀ x ∈ path, x ≠ h0) →
      (h0 :: path).Nodup ∧ ∀ x ∈ h0 :: path, P x := by
  intro path
  induction path using List.reverseRecOn with
  | nil =>
    intro _ _
    refine ⟨by simp, ?_⟩
    intro x hx
    simp only [List.mem_singleton] at hx
    rw [hx]; exact hP0
  | append_singleton p z ih =>
    intro hch hne
    rw [← List.cons_append, List.chain'_append] at hch
    obtain ⟨hch1, -, hlast⟩ := hch
    obtain ⟨hnd, hall⟩ := ih hch1 (fun x hx => hne x (List.mem_append_left _ hx))
    obtain ⟨y, hy⟩ : ∃ y, (h0 :: p).getLast? = some y := by
      cases hl : (h0 :: p).getLast? with
      | none => simp at hl
      | some y => exact ⟨y, rfl⟩
    have hyz : R y z := hlast y hy z (by simp)
    have hPy : P y := hall y (List.mem_of_mem_getLast? hy)
    have hPz : P z := hP y z hPy hyz
    have hz0 : z ≠ h0 := hne z (by simp)
    refine ⟨?_, ?_⟩
    · rw [← List.cons_append, List.nodup_append]
      refine ⟨hnd, by simp, ?_⟩
      intro x hx1 hx2
      simp only [List.mem_singleton] at hx2
      subst hx2
      have hxp : x ∈ p := by
        rcases List.mem_cons.mp hx1 with k | k
        · exact absurd k hz0
        · exact k
      obtain ⟨l1, l2, e1⟩ := List.append_of_mem hxp
      subst e1
      have hch2 : List.Chain' R ((h0 :: l1) ++ x :: l2) := by simpa using hch1
      obtain ⟨d, hd, hdx⟩ := chain_prev R _ _ _ hch2 (by simp)
      have hdy : d = y := hinj d y x (hall d (by
        simp only [List.mem_cons, List.mem_append] at hd ⊢
        tauto)) hPy hdx hyz
      have hy2 : y ∈ x :: l2 := by
        have e2 : (h0 :: (l1 ++ x :: l2)).getLast? = (x :: l2).getLast? := by
          rw [← List.cons_append, List.getLast?_append_of_ne_nil _ (by simp)]
        rw [e2] at hy
        exact List.mem_of_mem_getLast? hy
      have hnd2 : ((h0 :: l1) ++ x :: l2).Nodup := by simpa using hnd
      exact (List.nodup_append.mp hnd2).2.2 hd (hdy ▸ hy2)
    · intro x hx
      rw [← List.cons_append] at hx
      rcases List.mem_append.mp hx with k | k
      · exact hall x k
      · simp only [List.mem_singleton] at k
        rw [k]; exact hPz

theorem mem_countedHalfEdges (m : Manifold) (faces : List FaceIt)
    (hK : flaggedManifold m faces) (x : HalfEdgeIt) :
    x ∈ countedHalfEdges m faces ↔ boundaryFlag m x = true := by
  unfold countedHalfEdges
  rw [List.mem_flatMap]
  constructor
  · rintro ⟨f, -, hx⟩
    cases hF : m.face f with
    | none => rw [hF] at hx; simp at hx
    | some F =>
      rw [hF] at hx
      exact (List.mem_filter.mp hx).2
  · intro hb
    have hb2 := hb
    rw [boundaryFlag_iff] at hb2
    obtain ⟨X, B, hX, -, hf, -⟩ := hb2
    obtain ⟨-, -, ⟨f, F, hXf, hF, hxF⟩, hflag⟩ := hK x X hX
    obtain ⟨g, hg, hXg⟩ := hflag.mp hf
    rw [hXf] at hXg
    simp only [Option.some.injEq] at hXg
    subst hXg
    refine ⟨f, hg, ?_⟩
    rw [hF]
    exact List.mem_filter.mpr ⟨hxF, hb⟩

/-- The result of `findCircumference` with `abort = false`, on the manifold with
the flags of the faces set: the counted half edges, each once, as a closed chain of
calls of `findNextBoundaryHalfEdge`. -/
theorem findCircumference_walk (fuel : Nat) (m m2 : Manifold) (faces : List FaceIt)
    (hs : List HalfEdgeIt) (e : findCircumference fuel m faces = some (m2, hs, false)) :
    ∃ m1 path heStart, forEachIt (setToBeMergedOfFace true) faces m = some m1 ∧
      hs = heStart :: path ∧ (countedHalfEdges m1 faces).length ≤ hs.length ∧
      3 ≤ (countedHalfEdges m1 faces).length ∧
      heStart ∈ countedHalfEdges m1 faces ∧
      (∀ x ∈ path, x ≠ heStart) ∧
      ∃ z, List.Chain' (fun a b => findNextBoundaryHalfEdge fuel m1 a = some b)
          (heStart :: (path ++ [z])) ∧
        (z = heStart ∨ path.length = (countedHalfEdges m1 faces).length) := by
  simp only [findCircumference, Option.bind_eq_bind] at e
  cases h1 : forEachIt (setToBeMergedOfFace true) faces m with
  | none => rw [h1] at e; simp at e
  | some m1 =>
    rw [h1] at e
    simp only [Option.some_bind] at e
    cases h2 : countBoundary m1 faces (0, none) with
    | none => rw [h2] at e; simp at e
    | some s =>
      rw [h2] at e
      simp only [Option.some_bind] at e
      obtain ⟨c1, c2⟩ := countBoundary_spec m1 faces _ s h2
      simp only [Nat.zero_add, if_true] at c1 c2
      by_cases h3 : s.1 < 3
      · rw [if_pos h3] at e
        cases h4 : forEachIt (setToBeMergedOfFace false) faces m1 with
        | none => rw [h4] at e; simp at e
        | some m3 => rw [h4] at e; simp at e
      · rw [if_neg h3] at e
        cases h5 : s.2 with
        | none => rw [h5] at e; simp at e
        | some heStart =>
          rw [h5] at e
          simp only [Option.some_bind] at e
          cases h6 : findNextBoundaryHalfEdge fuel m1 heStart with
          | none => rw [h6] at e; simp at e
          | some heit =>
            rw [h6] at e
            simp only [Option.some_bind] at e
            cases h7 : circumferenceWalk fuel m1 heStart s.1 heit [heStart] with
            | none => rw [h7] at e; simp at e
            | some L =>
              rw [h7] at e
              simp only [Option.some_bind] at e
              cases h8 : forEachIt (setToBeMergedOfFace false) faces m1 with
              | none => rw [h8] at e; simp at e
              | some m3 =>
                rw [h8] at e
                simp only [Option.some_bind] at e
                by_cases h9 : L.length < s.1
                · rw [if_pos h9] at e; simp at e
                · rw [if_neg h9] at e
                  simp only [Option.pure_def, Option.some.injEq, Prod.mk.injEq, and_true] at e
                  obtain ⟨-, rfl⟩ := e
                  obtain ⟨path, z, hL, hch, hhead, hne, hz⟩ :=
                    circumferenceWalk_spec fuel m1 heStart s.1 heit [heStart] L h7
                  rw [c1] at h3 h9 hz
                  refine ⟨m1, path, heStart, rfl, by rw [hL]; rfl, by omega, by omega, ?_, hne,
                    z, ?_, hz⟩
                  · rw [h5] at c2
                    exact List.mem_of_mem_head? c2.symm
                  · rw [List.chain'_cons']
                    refine ⟨?_, hch⟩
                    intro y hy
                    rw [hhead] at hy
                    simp only [Option.mem_def, Option.some.injEq] at hy
                    rw [← hy]
                    exact h6

/-- C18: on a closed manifold whose `mToBeMerged` flags are all false, when
`findCircumference` returns with `abort = false` for the faces `faces`, the
returned half edges are at least three, they are the half edges whose face is in
`faces` and whose buddy has a face that is not, each of them once, and they are
chained cyclically: each one ends at the vertex at which the next one starts, and
the last one ends where the first one starts. -/
theorem findCircumference_closed (fuel : Nat) (m m2 : Manifold) (faces : List FaceIt)
    (hs : List HalfEdgeIt) (hwf : closedManifold m)
    (hfl : ∀ p ∈ m.mHalfEdges, p.2.mToBeMerged = false)
    (e : findCircumference fuel m faces = some (m2, hs, false)) :
    3 ≤ hs.length ∧ hs.Nodup ∧ (∀ h, h ∈ hs ↔ onBoundary m faces h) ∧
    (∀ i, i < hs.length → chained m (hs.getD i 0) (hs.getD ((i + 1) % hs.length) 0)) := by
  obtain ⟨m1, path, heStart, h1, hL, hlen, h3, hstart, hne, z, hch, hz⟩ :=
    findCircumference_walk fuel m m2 faces hs e
  obtain ⟨hK, -, -, hdown, hup⟩ := flaggedManifold_of_closed m m1 faces hwf hfl h1
  have hb0 : boundaryFlag m1 heStart = true :=
    (mem_countedHalfEdges m1 faces hK heStart).mp hstart
  have hch1 : List.Chain' (fun a b => findNextBoundaryHalfEdge fuel m1 a = some b)
      (heStart :: path) := by
    rw [← List.cons_append, List.chain'_append] at hch
    exact hch.1
  obtain ⟨hnd, hall⟩ := chain_nodup
    (fun a b => findNextBoundaryHalfEdge fuel m1 a = some b) (fun a => boundaryFlag m1 a = true)
    (fun a b ha hab => (step_boundary fuel m1 faces hK a b ha hab).1)
    (fun a b c ha hb hac hbc => step_inj fuel m1 faces hK a b c ha hb hac hbc)
    heStart hb0 path hch1 hne
  rw [← hL] at hnd hall
  have hsub : hs ⊆ countedHalfEdges m1 faces :=
    fun x hx => (mem_countedHalfEdges m1 faces hK x).mpr (hall x hx)
  have hsp := List.subperm_of_subset hnd hsub
  have hle := hsp.length_le
  have hperm := hsp.perm_of_length_le hlen
  have hzs : z = heStart := by
    rcases hz with k | k
    · exact k
    · rw [hL] at hle
      simp only [List.length_cons] at hle
      omega
  subst hzs
  have hbnd : ∀ h, boundaryFlag m1 h = true ↔ onBoundary m faces h := by
    intro h
    rw [boundaryFlag_iff]
    constructor
    · rintro ⟨H1, B1, hH1, hB1, hf, hbf⟩
      obtain ⟨H, hH, e1, e2, -, -⟩ := hdown h H1 hH1
      obtain ⟨B, hB, -, e3, -, -⟩ := hdown _ B1 hB1
      obtain ⟨f, hf1, hf2⟩ := (hK h H1 hH1).2.2.2.mp hf
      obtain ⟨-, -, ⟨g, -, hg, -, -⟩, hflag⟩ := hK _ B1 hB1
      refine ⟨H, B, f, g, hH, by rw [← e2]; exact hf2, hf1, by rw [← e1]; exact hB,
        by rw [← e3]; exact hg, ?_⟩
      intro hgin
      have := hflag.mpr ⟨g, hgin, hg⟩
      rw [hbf] at this
      exact absurd this (by simp)
    · rintro ⟨H, B, f, g, hH, hHf, hfin, hB, hBg, hgout⟩
      obtain ⟨H1, hH1, e1, e2, -, -⟩ := hup h H hH
      obtain ⟨B1, hB1, -, e3, -, -⟩ := hup _ B hB
      refine ⟨H1, B1, hH1, by rw [e1]; exact hB1, ?_, ?_⟩
      · exact (hK h H1 hH1).2.2.2.mpr ⟨f, hfin, by rw [e2]; exact hHf⟩
      · by_contra hbt
        simp only [Bool.not_eq_false] at hbt
        obtain ⟨g2, hg2, hg3⟩ := (hK _ B1 hB1).2.2.2.mp hbt
        rw [e3, hBg] at hg3
        simp only [Option.some.injEq] at hg3
        subst hg3
        exact hgout hg2
  have hchained : ∀ a b, boundaryFlag m1 a = true →
      findNextBoundaryHalfEdge fuel m1 a = some b → chained m a b := by
    intro a b ha hab
    obtain ⟨A1, B1, hA1, hB1, hdst⟩ := (step_boundary fuel m1 faces hK a b ha hab).2
    obtain ⟨A, hA, -, -, -, e1⟩ := hdown a A1 hA1
    obtain ⟨B, hB, -, -, e2, -⟩ := hdown b B1 hB1
    exact ⟨A, B, hA, hB, by rw [← e1, ← e2]; exact hdst⟩
  have hch2 : List.Chain' (fun a b => chained m a b) (hs ++ [z]) := by
    have hch3 : List.Chain' (fun a b => findNextBoundaryHalfEdge fuel m1 a = some b)
        (hs ++ [z]) := by
      rw [hL]; simpa using hch
    refine (List.Chain'.iff_mem.mp hch3).imp ?_
    rintro a b ⟨ha, -, hab⟩
    apply hchained a b _ hab
    rcases List.mem_append.mp ha with k | k
    · exact hall a k
    · simp only [List.mem_singleton] at k
      rw [k]; exact hb0
  rw [List.chain'_append] at hch2
  refine ⟨by omega, hnd, ?_, ?_⟩
  · intro h
    rw [← hbnd h, hperm.mem_iff]
    exact mem_countedHalfEdges m1 faces hK h
  · intro i hi
    have hc := cyclic_edges (fun a b => chained m a b) 0 hs hch2.1
      (by
        intro a ha b hb
        rw [hL] at hb
        simp only [List.head?_cons, Option.mem_def, Option.some.injEq] at hb
        rw [← hb]
        exact hch2.2.2 a ha z (by simp))
      (by omega) i
    rw [Nat.mod_eq_of_lt hi] at hc
    exact hc

theorem closedManifold_cornerSimplex : closedManifold cornerSimplex := by
  unfold closedManifold
  decide!

theorem findCircumference_closed_witness :
    closedManifold cornerSimplex ∧
    findCircumference 10 cornerSimplex [22] = some (cornerSimplex, [8, 15, 6], false) ∧
    3 ≤ [8, 15, 6].length ∧ [8, 15, 6].Nodup ∧
    (∀ h, h ∈ [8, 15, 6] ↔ onBoundary cornerSimplex [22] h) ∧
    (∀ i, i < [8, 15, 6].length →
      chained cornerSimplex ([8, 15, 6].getD i 0)
        ([8, 15, 6].getD ((i + 1) % [8, 15, 6].length) 0)) :=
  ⟨closedManifold_cornerSimplex, by decide!,
    findCircumference_closed 10 cornerSimplex cornerSimplex [22] [8, 15, 6]
      closedManifold_cornerSimplex (by decide!) (by decide!)⟩

end Makena

/-! ## The tolerance tests on the boundary -/

namespace Makena

/-- C30, as stated, fails: with the tested value exactly on the tolerance, `makeEdge`
leaves `mPredVertices` at `NONE`, `isColinear`, `isCoplanar` and `isFacing` report
`NONE`, and `vertexIsTooCloseToFace` returns `false` for a point at the squared
distance `mEpsilonCHMargin` from a vertex of the face. -/
theorem tolerance_boundary_counterexample :
    ((⟨0, 0, 0⟩ : Vec3).sub ⟨1 / 10000, 0, 0⟩).squaredNorm2 = EPSILON_SQUARED ∧
    toleranceEdges.map (fun r => r.1.mEdges.map (fun e => e.2.mPredVertices)) =
      some [predicate.NONE, predicate.NONE] ∧
    (((⟨1 / 10000, 0, 0⟩ : Vec3).sub ⟨0, 0, 0⟩).cross
      ((⟨0, 1 / 10000, 0⟩ : Vec3).sub ⟨0, 0, 0⟩)).norm2 = EPSILON_ANGLE ∧
    toleranceEdges.bind (fun r => isColinear r.1 4 7) = some predicate.NONE ∧
    ((⟨1, 0, 0⟩ : Vec3).cross ⟨0, 1 / 100000000, 0⟩).norm2 = EPSILON_ANGLE ∧
    isCoplanar toleranceFaces (some 0) (some 1) = some predicate.NONE ∧
    fabs (((⟨0, 0, -1⟩ : Vec3).sub ⟨1, 0, 0⟩).dot ⟨0, 0, -1⟩) = 1 ∧
    isFacing cornerSimplex 22 ⟨0, 0, -1⟩ 1 = some (true, predicate.NONE) ∧
    ((⟨-1, -1, 0⟩ : Vec3).sub ⟨0, 0, 0⟩).squaredNorm2 = 2 ∧
    vertexIsTooCloseToFace { cornerSimplex with mEpsilonCHMargin := 2 } ⟨-1, -1, 0⟩ 22 =
      some false := by
  decide!

/-- C30, amended: a value exactly on the tolerance is classified as not degenerate.
`makeEdge` leaves `mPredVertices` of the new edge at `NONE` when the squared
distance of the vertices is `EPSILON_SQUARED`; `isFacing` reports `NONE` when the
absolute signed distance is `eps`; `isCoplanar` between faces that are not
`MAYBE_FLAT`, and `isColinear` between half edges of edges that are not
`MAYBE_COINCIDENT`, report `NONE` when the norm of the cross product is
`EPSILON_ANGLE`; and for a point at the squared distance `eps` from the source of a
half edge the test of `vertexIsTooCloseToFace` for that half edge is the test
against the line of the half edge alone. -/
theorem tolerance_boundary_not_degenerate :
    (∀ (m : Manifold) (v1 v2 : VertexIt) (V1 V2 : Vertex), m.vertex v1 = some V1 →
      m.vertex v2 = some V2 →
      (V1.mPointLCS.sub V2.mPointLCS).squaredNorm2 = EPSILON_SQUARED →
      ∃ r E, makeEdge m v1 v2 = some r ∧ r.1.mEdges = m.mEdges ++ [(r.2, E)] ∧
        E.mPredVertices = predicate.NONE) ∧
    (∀ (m : Manifold) (f : FaceIt) (p : Vec3) (eps : ℚ) (F : Face) (s : ℚ × Vec3),
      m.face f = some F → isFacingLoop m p F.mIncidentHalfEdges (0, Vec3.zero) = some s →
      fabs ((p.sub s.2).dot F.mNormalLCS) = eps →
      isFacing m f p eps =
        some (decide ((p.sub s.2).dot F.mNormalLCS > 0), predicate.NONE)) ∧
    (∀ (m : Manifold) (f1 f2 : FaceIt) (F1 F2 : Face), m.face f1 = some F1 →
      m.face f2 = some F2 → F1.mPred ≠ predicate.MAYBE_FLAT →
      F2.mPred ≠ predicate.MAYBE_FLAT →
      (F1.mNormalLCS.cross F2.mNormalLCS).norm2 = EPSILON_ANGLE →
      isCoplanar m (some f1) (some f2) = some predicate.NONE) ∧
    (∀ (m : Manifold) (h he : HalfEdgeIt) (H HE : HalfEdge) (E EE : Edge)
      (pDst pSrc qDst qSrc : Vec3), m.halfEdge h = some H → m.halfEdge he = some HE →
      m.edge H.mParent = some E → m.edge HE.mParent = some EE →
      m.dstPoint h = some pDst → m.srcPoint h = some pSrc →
      m.dstPoint he = some qDst → m.srcPoint he = some qSrc →
      E.mPredVertices ≠ predicate.MAYBE_COINCIDENT →
      EE.mPredVertices ≠ predicate.MAYBE_COINCIDENT →
      ((pDst.sub pSrc).cross (qDst.sub qSrc)).norm2 = EPSILON_ANGLE →
      isColinear m h he = some predicate.NONE) ∧
    (∀ (eps : ℚ) (pTest pSrc pDst : Vec3), (pTest.sub pSrc).squaredNorm2 = eps →
      tooCloseToHalfEdge eps pTest pSrc pDst =
        (decide ((((pDst.sub pSrc).normalize).cross
            ((pTest.sub pSrc).normalize)).squaredNorm2 < eps) &&
          decide ((pDst.sub pSrc).dot (pTest.sub pSrc) > 0) &&
          decide ((pTest.sub pSrc).squaredNorm2 < (pDst.sub pSrc).squaredNorm2))) := by
  refine ⟨?_, ?_, ?_, ?_, ?_⟩
  · intro m v1 v2 V1 V2 h1 h2 hd
    simp only [makeEdge, h1, h2, Option.bind_eq_bind, Option.some_bind, Option.pure_def]
    exact ⟨_, _, rfl, rfl, by simp [hd]⟩
  · intro m f p eps F s hF hs hd
    simp only [isFacing, hF, hs, Option.bind_eq_bind, Option.some_bind, Option.pure_def, hd,
      lt_irrefl, if_false]
  · intro m f1 f2 F1 F2 h1 h2 hp1 hp2 hd
    simp only [isCoplanar, h1, h2, Option.bind_eq_bind, Option.some_bind, Option.pure_def, hd,
      lt_irrefl, if_false, hp1, hp2, or_self]
  · intro m h he H HE E EE pDst pSrc qDst qSrc h1 h2 h3 h4 h5 h6 h7 h8 hp1 hp2 hd
    simp only [isColinear, h1, h2, h3, h4, h5, h6, h7, h8, Option.bind_eq_bind,
      Option.some_bind, Option.pure_def, hd, lt_irrefl, if_false, hp1, hp2, or_self]
  · intro eps pTest pSrc pDst hd
    simp only [tooCloseToHalfEdge, hd, lt_irrefl, decide_False, Bool.false_or]

theorem tolerance_boundary_not_degenerate_witness :
    (∃ r E, makeEdge toleranceVertices 0 1 = some r ∧
      r.1.mEdges = toleranceVertices.mEdges ++ [(r.2, E)] ∧
      E.mPredVertices = predicate.NONE) ∧
    isFacing cornerSimplex 22 ⟨0, 0, -1⟩ 1 = some (true, predicate.NONE) ∧
    isCoplanar toleranceFaces (some 0) (some 1) = some predicate.NONE ∧
    isColinear toleranceEdgesManifold 4 7 = some predicate.NONE ∧
    tooCloseToHalfEdge 2 ⟨-1, -1, 0⟩ ⟨0, 0, 0⟩ ⟨1, 0, 0⟩ = false :=
  ⟨tolerance_boundary_not_degenerate.1 toleranceVertices 0 1
      ⟨⟨0, 0, 0⟩, Vec3.zero, [], 0, [], false, none⟩
      ⟨⟨1 / 10000, 0, 0⟩, Vec3.zero, [], 1, [], false, none⟩ (by decide!) (by decide!)
      (by decide!),
    (tolerance_boundary_not_degenerate.2.1 cornerSimplex 22 ⟨0, 0, -1⟩ 1
      ((cornerSimplex.face 22).getD ⟨0, Vec3.zero, [], predicate.NONE, none, false⟩)
      (1 + 1, ⟨0, 1, 0⟩) (by decide!) (by decide!) (by decide!)).trans (by decide!),
    tolerance_boundary_not_degenerate.2.2.1 toleranceFaces 0 1
      ⟨0, ⟨1, 0, 0⟩, [], predicate.NONE, none, false⟩
      ⟨1, ⟨0, 1 / 100000000, 0⟩, [], predicate.NONE, none, false⟩ (by decide!) (by decide!)
      (by decide) (by decide) (by decide!),
    tolerance_boundary_not_degenerate.2.2.2.1 toleranceEdgesManifold 4 7
      ((toleranceEdgesManifold.halfEdge 4).getD HalfEdge.unlinked)
      ((toleranceEdgesManifold.halfEdge 7).getD HalfEdge.unlinked)
      ((toleranceEdgesManifold.edge 3).getD Edge.unlinked)
      ((toleranceEdgesManifold.edge 6).getD Edge.unlinked)
      ⟨1 / 10000, 0, 0⟩ ⟨0, 0, 0⟩ ⟨0, 1 / 10000, 0⟩ ⟨0, 0, 0⟩
      (by decide!) (by decide!) (by decide!) (by decide!) (by decide!) (by decide!)
      (by decide!) (by decide!) (by decide!) (by decide!) (by decide!),
    (tolerance_boundary_not_degenerate.2.2.2.2 2 ⟨-1, -1, 0⟩ ⟨0, 0, 0⟩ ⟨1, 0, 0⟩
      (by decide!)).trans (by decide!)⟩

end Makena

/-! ## `makePolygon` on a hexagon -/

namespace Makena

/-- C24: on the regular hexagon in the plane `x + y + z = 0`, given counter-clockwise,
the axis of `makePolygon` is along `(1, 1, 1)`, every point has the same product
with it, the three points taken are the first, the first and the second, and
`makePolygon` stores the zero vector as the normal and flags the face `MAYBE_FLAT`.
`findConvexHull` reaches this on the pyramid over the hexagon: it returns `NONE`
with the face of six half edges in that state. -/
theorem makePolygon_hexagon_flat :
    hexagon.map (fun p => (varianceOf hexagon (meanOf hexagon)).dot p) = [0, 0, 0, 0, 0, 0] ∧
    polygonFace hexagon = some (⟨0, 0, 0⟩, predicate.MAYBE_FLAT) ∧
    (findConvexHull 40 Manifold.new hexagonPyramid EPSILON_SQUARED).map
      (fun r => (r.2, (r.1.mFaces.filter
        (fun f => f.2.mIncidentHalfEdges.length = 6)).map
          (fun f => (f.2.mNormalLCS, f.2.mPred)))) =
      some (predicate.NONE, [(⟨0, 0, 0⟩, predicate.MAYBE_FLAT)]) := by
  decide!

end Makena

/-! ## `gatherConnectedFaces` as a flood fill -/

namespace Makena

theorem assign_isSome {α : Type} (f : α → α) (i : Nat) :
    ∀ l : List (Nat × α), (deref l i).isSome = true → (assign l i f).isSome = true := by
  intro l
  induction l with
  | nil => intro h; simp [deref] at h
  | cons p l ih =>
    intro h
    obtain ⟨k, a⟩ := p
    simp only [deref] at h
    simp only [assign]
    by_cases hk : k = i
    · rw [if_pos hk]; rfl
    · rw [if_neg hk] at h ⊢
      have := ih h
      cases hrec : assign l i f with
      | none => rw [hrec] at this; simp at this
      | some l2 => rfl

theorem setFace_of_face (m : Manifold) (f : FaceIt) (g : Face → Face) (F : Face)
    (h : m.face f = some F) :
    ∃ m2, m.setFace f g = some m2 ∧ m2.mHalfEdges = m.mHalfEdges ∧ m2.mEdges = m.mEdges ∧
      ∀ j, m2.face j = if j = f then some (g F) else m.face j := by
  unfold Manifold.setFace
  have hs := assign_isSome g f m.mFaces (by
    have : deref m.mFaces f = some F := h
    rw [this]; rfl)
  cases hl : assign m.mFaces f g with
  | none => rw [hl] at hs; simp at hs
  | some l =>
    refine ⟨_, rfl, rfl, rfl, fun j => ?_⟩
    have := deref_assign g f _ _ hl j
    have hF : deref m.mFaces f = some F := h
    rw [hF] at this
    exact this

theorem facesMarked_refl (m : Manifold) (hu : unmarked m) :
    facesMarked m m (fun _ => false) := by
  refine ⟨rfl, rfl, fun f => ?_⟩
  cases hF : m.face f with
  | none => rfl
  | some F =>
    have := hu (f, F) (mem_of_deref _ _ _ hF)
    simp only at this
    simp only [Option.map_some', Option.some.injEq]
    rw [← this]

theorem facesMarked_congr (m s : Manifold) (P Q : FaceIt → Bool) (h : ∀ f, P f = Q f)
    (hs : facesMarked m s P) : facesMarked m s Q := by
  have : P = Q := funext h
  rw [← this]; exact hs

theorem facesMarked_set (m s : Manifold) (P : FaceIt → Bool) (f : FaceIt) (F : Face) (b : Bool)
    (hs : facesMarked m s P) (hF : m.face f = some F) :
    ∃ s2, s.setFace f (fun F => { F with mToBeMerged := b }) = some s2 ∧
      facesMarked m s2 (fun j => if j = f then b else P j) := by
  have hsF := hs.2.2 f
  rw [hF] at hsF
  obtain ⟨s2, e, h1, h2, h3⟩ :=
    setFace_of_face s f (fun F => { F with mToBeMerged := b }) _ hsF
  refine ⟨s2, e, h1.trans hs.1, h2.trans hs.2.1, fun j => ?_⟩
  rw [h3 j]
  by_cases hj : j = f
  · rw [if_pos hj, hj, hF]
    simp
  · rw [if_neg hj, hs.2.2 j]
    simp [hj]

theorem crossable_spec (m : Manifold) (h : HalfEdgeIt) (hc : crossable m h = true) :
    ∃ H E, m.halfEdge h = some H ∧ m.edge H.mParent = some E ∧
      (E.mToBeRemoved = true →
        ∃ B g G, m.halfEdge H.mBuddy = some B ∧ B.mFace = some g ∧ m.face g = some G) := by
  unfold crossable at hc
  cases hH : m.halfEdge h with
  | none => rw [hH] at hc; simp at hc
  | some H =>
    rw [hH] at hc
    simp only at hc
    cases hE : m.edge H.mParent with
    | none => rw [hE] at hc; simp at hc
    | some E =>
      rw [hE] at hc
      simp only at hc
      refine ⟨H, E, rfl, hE, fun hr => ?_⟩
      rw [hr] at hc
      cases hB : m.halfEdge H.mBuddy with
      | none => rw [hB] at hc; simp at hc
      | some B =>
        rw [hB] at hc
        simp only [Bool.not_true, Bool.false_or] at hc
        cases hg : B.mFace with
        | none => rw [hg] at hc; simp at hc
        | some g =>
          rw [hg] at hc
          cases hG : m.face g with
          | none => simp [hG] at hc
          | some G => exact ⟨B, g, G, rfl, hg, hG⟩

theorem gatherAcross_spec (m : Manifold) :
    ∀ (l : List (ListIt × HalfEdgeIt)) (sm : Manifold) (Q M : List FaceIt),
      (∀ e ∈ l, crossable m e.2 = true) →
      facesMarked m sm (fun j => decide (j ∈ M)) →
      ∃ sm2 N, gatherAcross l (sm, Q) = some (sm2, Q ++ N) ∧
        facesMarked m sm2 (fun j => decide (j ∈ M ++ N)) ∧ N.Nodup ∧ (∀ g ∈ N, g ∉ M) ∧
        (∀ g ∈ N, (∃ e ∈ l, crossingAt m e.2 g) ∧ (m.face g).isSome = true) ∧
        (∀ e ∈ l, ∀ g, crossingAt m e.2 g → g ∈ M ++ N) := by
  intro l
  induction l with
  | nil =>
    intro sm Q M _ hs
    refine ⟨sm, [], by simp [gatherAcross], by simpa using hs, List.nodup_nil, by simp,
      by simp, by simp⟩
  | cons e l ih =>
    intro sm Q M hc hs
    obtain ⟨k, heit⟩ := e
    obtain ⟨H, E, hH, hE, hB⟩ := crossable_spec m heit (hc (k, heit) (List.mem_cons_self _ _))
    have hc2 : ∀ e ∈ l, crossable m e.2 = true := fun e he => hc e (List.mem_cons_of_mem _ he)
    have hsH : sm.halfEdge heit = some H := by
      unfold Manifold.halfEdge; rw [hs.1]; exact hH
    have hsE : sm.edge H.mParent = some E := by
      unfold Manifold.edge; rw [hs.2.1]; exact hE
    simp only [gatherAcross, hsH, hsE, Option.bind_eq_bind, Option.some_bind]
    by_cases hr : E.mToBeRemoved = true
    · obtain ⟨B, g0, G0, hB1, hB2, hG0⟩ := hB hr
      have hsB : sm.halfEdge H.mBuddy = some B := by
        unfold Manifold.halfEdge; rw [hs.1]; exact hB1
      have hsG := hs.2.2 g0
      rw [hG0] at hsG
      simp only [Option.map_some'] at hsG
      have hcross : ∀ g, crossingAt m heit g ↔ g = g0 := by
        intro g
        constructor
        · rintro ⟨H', E', B', h1, _, _, h4, h5⟩
          rw [hH] at h1
          simp only [Option.some.injEq] at h1
          subst h1
          rw [hB1] at h4
          simp only [Option.some.injEq] at h4
          subst h4
          rw [hB2] at h5
          simp only [Option.some.injEq] at h5
          exact h5.symm
        · intro hg
          subst hg
          exact ⟨H, E, B, hH, hE, hr, hB1, hB2⟩
      simp only [hr, if_true, hsB, hB2, hsG, Option.some_bind]
      by_cases hm : g0 ∈ M
      · simp only [hm, decide_True, Bool.not_true, Bool.false_eq_true, if_false]
        obtain ⟨sm2, N, e1, e2, e3, e4, e5, e6⟩ := ih sm Q M hc2 hs
        refine ⟨sm2, N, e1, e2, e3, e4, ?_, ?_⟩
        · intro g hg
          obtain ⟨⟨e, he, hx⟩, hy⟩ := e5 g hg
          exact ⟨⟨e, List.mem_cons_of_mem _ he, hx⟩, hy⟩
        · intro e he g hg
          rcases List.mem_cons.mp he with k2 | k2
          · subst k2
            rw [(hcross g).mp hg]
            exact List.mem_append_left _ hm
          · exact e6 e k2 g hg
      · simp only [hm, decide_False, Bool.not_false, if_true]
        obtain ⟨s2, es, hs2⟩ := facesMarked_set m sm _ g0 G0 true hs hG0
        have hs3 : facesMarked m s2 (fun j => decide (j ∈ M ++ [g0])) := by
          refine facesMarked_congr m s2 _ _ (fun f => ?_) hs2
          by_cases hf : f = g0
          · simp [hf]
          · simp [hf]
        obtain ⟨sm2, N, e1, e2, e3, e4, e5, e6⟩ := ih s2 (Q ++ [g0]) (M ++ [g0]) hc2 hs3
        rw [es]
        simp only [Option.some_bind]
        refine ⟨sm2, g0 :: N, ?_, ?_, ?_, ?_, ?_, ?_⟩
        · rw [e1]; simp
        · refine facesMarked_congr m sm2 _ _ (fun f => ?_) e2
          simp
        · refine List.nodup_cons.mpr ⟨fun hin => ?_, e3⟩
          exact e4 g0 hin (List.mem_append_right _ (List.mem_singleton_self _))
        · intro g hg
          rcases List.mem_cons.mp hg with k2 | k2
          · rw [k2]; exact hm
          · exact fun hin => e4 g k2 (List.mem_append_left _ hin)
        · intro g hg
          rcases List.mem_cons.mp hg with k2 | k2
          · subst k2
            refine ⟨⟨(k, heit), List.mem_cons_self _ _, (hcross g).mpr rfl⟩, ?_⟩
            rw [hG0]; rfl
          · obtain ⟨⟨e, he, hx⟩, hy⟩ := e5 g k2
            exact ⟨⟨e, List.mem_cons_of_mem _ he, hx⟩, hy⟩
        · intro e he g hg
          rcases List.mem_cons.mp he with k2 | k2
          · subst k2
            rw [(hcross g).mp hg]
            simp
          · have := e6 e k2 g hg
            simp only [List.mem_append, List.mem_singleton, List.mem_cons] at this ⊢
            tauto
    · have hr2 : E.mToBeRemoved = false := by
        cases hx : E.mToBeRemoved with
        | true => exact absurd hx hr
        | false => rfl
      simp only [hr2, Bool.false_eq_true, if_false]
      obtain ⟨sm2, N, e1, e2, e3, e4, e5, e6⟩ := ih sm Q M hc2 hs
      refine ⟨sm2, N, e1, e2, e3, e4, ?_, ?_⟩
      · intro g hg
        obtain ⟨⟨e, he, hx⟩, hy⟩ := e5 g hg
        exact ⟨⟨e, List.mem_cons_of_mem _ he, hx⟩, hy⟩
      · intro e he g hg
        rcases List.mem_cons.mp he with k2 | k2
        · subst k2
          obtain ⟨H', E', B', h1, h2, h3, _, _⟩ := hg
          rw [hH] at h1
          simp only [Option.some.injEq] at h1
          subst h1
          rw [hE] at h2
          simp only [Option.some.injEq] at h2
          subst h2
          rw [hr2] at h3
          exact absurd h3 (by simp)
        · exact e6 e k2 g hg

theorem faces_length_le (m : Manifold) (L : List FaceIt) (hn : L.Nodup)
    (hL : ∀ g ∈ L, (m.face g).isSome = true) : L.length ≤ m.mFaces.length := by
  have hsub : L ⊆ m.mFaces.map Prod.fst := by
    intro g hg
    have := hL g hg
    cases hG : m.face g with
    | none => rw [hG] at this; simp at this
    | some G =>
      exact List.mem_map.mpr ⟨(g, G), mem_of_deref _ _ _ hG, rfl⟩
  have := (List.subperm_of_subset hn hsub).length_le
  simpa using this

theorem connected_closed (m : Manifold) (faces : List FaceIt)
    (hcl : ∀ f ∈ faces, ∀ g, crossing m f g → g ∈ faces) (a g : FaceIt)
    (h : Relation.ReflTransGen (crossing m) a g) (ha : a ∈ faces) : g ∈ faces := by
  induction h with
  | refl => exact ha
  | tail _ hbc ih => exact hcl _ ih _ hbc

theorem gatherLoop_spec (m : Manifold) (f1 f2 : FaceIt) (hready : gatherReady m) :
    ∀ (fuel : Nat) (sm : Manifold) (Q faces : List FaceIt),
      facesMarked m sm (fun j => decide (j ∈ faces ++ Q)) →
      (faces ++ Q).Nodup →
      (∀ g ∈ faces ++ Q, connected m f1 f2 g ∧ (m.face g).isSome = true) →
      f1 ∈ faces ++ Q → f2 ∈ faces ++ Q →
      (∀ f ∈ faces, ∀ g, crossing m f g → g ∈ faces ++ Q) →
      m.mFaces.length ≤ fuel + faces.length →
      ∃ sm2 fs, gatherLoop fuel (sm, Q) faces = some (sm2, fs) ∧
        facesMarked m sm2 (fun j => decide (j ∈ fs)) ∧ fs.Nodup ∧
        (∀ g, g ∈ fs ↔ connected m f1 f2 g) ∧ (∀ g ∈ fs, (m.face g).isSome = true) := by
  have hdone : ∀ (sm : Manifold) (faces : List FaceIt),
      facesMarked m sm (fun j => decide (j ∈ faces ++ [])) →
      (faces ++ []).Nodup →
      (∀ g ∈ faces ++ [], connected m f1 f2 g ∧ (m.face g).isSome = true) →
      f1 ∈ faces ++ [] → f2 ∈ faces ++ [] →
      (∀ f ∈ faces, ∀ g, crossing m f g → g ∈ faces ++ []) →
      facesMarked m sm (fun j => decide (j ∈ faces)) ∧ faces.Nodup ∧
        (∀ g, g ∈ faces ↔ connected m f1 f2 g) ∧ (∀ g ∈ faces, (m.face g).isSome = true) := by
    intro sm faces hs hn hall h1 h2 hcl
    simp only [List.append_nil] at hs hn hall h1 h2 hcl
    refine ⟨hs, hn, fun g => ⟨fun hg => (hall g hg).1, ?_⟩, fun g hg => (hall g hg).2⟩
    rintro (hc | hc)
    · exact connected_closed m faces hcl f1 g hc h1
    · exact connected_closed m faces hcl f2 g hc h2
  intro fuel
  induction fuel with
  | zero =>
    intro sm Q faces hs hn hall h1 h2 hcl hfuel
    have hlen := faces_length_le m (faces ++ Q) hn (fun g hg => (hall g hg).2)
    have hQ : Q = [] := by
      cases Q with
      | nil => rfl
      | cons a Q => simp at hlen; omega
    subst hQ
    exact ⟨sm, faces, by simp [gatherLoop], hdone sm faces hs hn hall h1 h2 hcl⟩
  | succ fuel ih =>
    intro sm Q faces hs hn hall h1 h2 hcl hfuel
    cases Q with
    | nil => exact ⟨sm, faces, by simp [gatherLoop], hdone sm faces hs hn hall h1 h2 hcl⟩
    | cons fit Q =>
      have hfit := hall fit (by simp)
      cases hF : m.face fit with
      | none => rw [hF] at hfit; simp at hfit
      | some F =>
        have hsF := hs.2.2 fit
        rw [hF] at hsF
        simp only [Option.map_some'] at hsF
        have hcr : ∀ e ∈ F.mIncidentHalfEdges, crossable m e.2 = true :=
          hready (fit, F) (mem_of_deref _ _ _ hF)
        obtain ⟨sm2, N, e1, e2, e3, e4, e5, e6⟩ :=
          gatherAcross_spec m F.mIncidentHalfEdges sm Q (faces ++ fit :: Q) hcr hs
        simp only [gatherLoop, hsF, Option.bind_eq_bind, Option.some_bind, e1]
        have hmem : ∀ j, j ∈ (faces ++ [fit]) ++ (Q ++ N) ↔ j ∈ (faces ++ fit :: Q) ++ N := by
          intro j
          simp only [List.mem_append, List.mem_cons, List.mem_singleton, List.not_mem_nil,
            or_false]
          tauto
        refine ih sm2 (Q ++ N) (faces ++ [fit]) ?_ ?_ ?_ ?_ ?_ ?_ ?_
        · refine facesMarked_congr m sm2 _ _ (fun j => ?_) e2
          exact decide_eq_decide.mpr (hmem j).symm
        · have hp : ((faces ++ [fit]) ++ (Q ++ N)).Perm ((faces ++ fit :: Q) ++ N) := by
            simp
          refine hp.nodup_iff.mpr ?_
          refine List.nodup_append.mpr ⟨hn, e3, ?_⟩
          intro a ha hb
          exact e4 a hb ha
        · intro g hg
          rcases List.mem_append.mp ((hmem g).mp hg) with k | k
          · exact hall g k
          · obtain ⟨⟨e, he, hx⟩, hy⟩ := e5 g k
            refine ⟨?_, hy⟩
            have hstep : crossing m fit g := ⟨F, e, hF, he, hx⟩
            rcases hfit.1 with hc | hc
            · exact Or.inl (Relation.ReflTransGen.tail hc hstep)
            · exact Or.inr (Relation.ReflTransGen.tail hc hstep)
        · exact (hmem f1).mpr (List.mem_append_left _ h1)
        · exact (hmem f2).mpr (List.mem_append_left _ h2)
        · intro f hf g hg
          refine (hmem g).mpr ?_
          rcases List.mem_append.mp hf with k | k
          · exact List.mem_append_left _ (hcl f k g hg)
          · rw [List.mem_singleton] at k
            subst k
            obtain ⟨F', e, h3, h4, h5⟩ := hg
            rw [hF] at h3
            simp only [Option.some.injEq] at h3
            subst h3
            exact e6 e h4 g h5
        · simp only [List.length_append, List.length_singleton]
          omega

theorem setFacesToBeMerged_spec (m : Manifold) :
    ∀ (l : List FaceIt) (sm : Manifold) (P : FaceIt → Bool), facesMarked m sm P →
      (∀ g ∈ l, (m.face g).isSome = true) →
      ∃ sm2, setFacesToBeMerged false l sm = some sm2 ∧
        facesMarked m sm2 (fun j => P j && !decide (j ∈ l)) := by
  intro l
  induction l with
  | nil =>
    intro sm P hs _
    exact ⟨sm, rfl, facesMarked_congr m sm _ _ (fun f => by simp) hs⟩
  | cons f l ih =>
    intro sm P hs hl
    have hf := hl f (List.mem_cons_self _ _)
    cases hF : m.face f with
    | none => rw [hF] at hf; simp at hf
    | some F =>
      obtain ⟨s2, es, hs2⟩ := facesMarked_set m sm P f F false hs hF
      obtain ⟨sm2, e1, e2⟩ := ih s2 _ hs2 (fun g hg => hl g (List.mem_cons_of_mem _ hg))
      refine ⟨sm2, ?_, ?_⟩
      · simp only [setFacesToBeMerged, es, Option.bind_eq_bind, Option.some_bind]
        exact e1
      · refine facesMarked_congr m sm2 _ _ (fun j => ?_) e2
        by_cases hj : j = f
        · simp [hj]
        · simp [hj]

theorem gatherConnectedFaces_of_lookups (fuel : Nat) (m : Manifold) (e : EdgeIt) (E : Edge)
    (H1 H2 : HalfEdge) (f1 f2 : FaceIt)
    (hE : m.edge e = some E) (hH1 : m.halfEdge E.mHe1 = some H1)
    (hH2 : m.halfEdge E.mHe2 = some H2) (hf1 : H1.mFace = some f1)
    (hf2 : H2.mFace = some f2) (hF1 : (m.face f1).isSome = true)
    (hF2 : (m.face f2).isSome = true) (hne : f1 ≠ f2) (hready : gatherReady m)
    (hu : unmarked m) (hfuel : m.mFaces.length ≤ fuel) :
    ∃ m2 faces, gatherConnectedFaces fuel m e = some (m2, faces) ∧ faces.Nodup ∧
      (∀ g, g ∈ faces ↔ connected m f1 f2 g) ∧
      ∀ f F, m2.face f = some F → F.mToBeMerged = false := by
  cases hG1 : m.face f1 with
  | none => rw [hG1] at hF1; simp at hF1
  | some F1 =>
  cases hG2 : m.face f2 with
  | none => rw [hG2] at hF2; simp at hF2
  | some F2 =>
    obtain ⟨s1, es1, hs1⟩ := facesMarked_set m m _ f1 F1 true (facesMarked_refl m hu) hG1
    obtain ⟨s2, es2, hs2⟩ := facesMarked_set m s1 _ f2 F2 true hs1 hG2
    have hs3 : facesMarked m s2 (fun j => decide (j ∈ [] ++ [f1, f2])) := by
      refine facesMarked_congr m s2 _ _ (fun j => ?_) hs2
      by_cases h2 : j = f2
      · simp [h2]
      · by_cases h1 : j = f1
        · simp [h1]
        · simp [h1, h2]
    obtain ⟨sm2, fs, e1, e2, e3, e4, e5⟩ :=
      gatherLoop_spec m f1 f2 hready fuel s2 [f1, f2] [] hs3
        (by simp [hne])
        (by
          intro g hg
          simp only [List.nil_append, List.mem_cons, List.mem_singleton, List.not_mem_nil,
            or_false] at hg
          rcases hg with k | k
          · subst k
            exact ⟨Or.inl Relation.ReflTransGen.refl, hF1⟩
          · subst k
            exact ⟨Or.inr Relation.ReflTransGen.refl, hF2⟩)
        (by simp) (by simp) (by simp) (by simpa using hfuel)
    obtain ⟨m2, e6, e7⟩ := setFacesToBeMerged_spec m fs sm2 _ e2 e5
    refine ⟨m2, fs, ?_, e3, e4, ?_⟩
    · simp only [gatherConnectedFaces, hE, hH1, hH2, hf1, hf2, es1, es2, e1, e6,
        Option.bind_eq_bind, Option.some_bind, Option.pure_def]
    · intro f F hF
      have := e7.2.2 f
      rw [hF] at this
      cases hG : m.face f with
      | none => rw [hG] at this; simp at this
      | some G =>
        rw [hG] at this
        simp only [Option.map_some', Option.some.injEq] at this
        rw [this]
        simp


/-- The faces on the two sides of the edge `e`. -/
theorem sides_spec (m : Manifold) (e : EdgeIt) (f1 f2 : FaceIt)
    (h1 : (m.edge e).bind (fun E => (m.halfEdge E.mHe1).bind (fun H => H.mFace)) = some f1)
    (h2 : (m.edge e).bind (fun E => (m.halfEdge E.mHe2).bind (fun H => H.mFace)) = some f2) :
    ∃ E H1 H2, m.edge e = some E ∧ m.halfEdge E.mHe1 = some H1 ∧
      m.halfEdge E.mHe2 = some H2 ∧ H1.mFace = some f1 ∧ H2.mFace = some f2 := by
  cases hE : m.edge e with
  | none => rw [hE] at h1; simp at h1
  | some E =>
    rw [hE] at h1 h2
    simp only [Option.some_bind] at h1 h2
    cases hH1 : m.halfEdge E.mHe1 with
    | none => rw [hH1] at h1; simp at h1
    | some H1 =>
      cases hH2 : m.halfEdge E.mHe2 with
      | none => rw [hH2] at h2; simp at h2
      | some H2 =>
        rw [hH1] at h1
        rw [hH2] at h2
        exact ⟨E, H1, H2, rfl, hH1, hH2, h1, h2⟩

/-- C29, counterexample: around the folded face both half edges of the edge 3 are
on the face 9, and `gatherConnectedFaces` returns the face twice; and on the corner
simplex with `mToBeMerged` set on the face 34, which the edge 4 does not touch, the
flag is still set on return. -/
theorem gatherConnectedFaces_repeats :
    (foldedFace.halfEdge 4).map (fun H => (H.mParent, H.mFace)) = some (3, some 9) ∧
    (foldedFace.halfEdge 5).map (fun H => (H.mParent, H.mFace)) = some (3, some 9) ∧
    (gatherConnectedFaces 5 foldedFace 3).map Prod.snd = some [9, 9] ∧
    (gatherConnectedFaces 5 cornerSimplexMarked 4).map
      (fun r => (r.2, (r.1.face 34).map (fun F => F.mToBeMerged))) =
      some ([30, 22], some true) := by
  decide!

/-- C29 (gatherConnectedFaces), with what the claim leaves out: for an edge `e`
whose two incident faces `f1` and `f2` are different, in a manifold in which no face
has `mToBeMerged` set and in which the half edges, edges and faces that the walk
reads are there, `gatherConnectedFaces` returns (with fuel for every face), the
returned faces are without repetition, they are exactly the faces reachable from `f1`
or `f2` by crossing edges whose `mToBeRemoved` is set, and afterwards no face has
`mToBeMerged` set. -/
theorem gatherConnectedFaces_connected (fuel : Nat) (m : Manifold) (e : EdgeIt)
    (f1 f2 : FaceIt)
    (hf1 : (m.edge e).bind (fun E => (m.halfEdge E.mHe1).bind (fun H => H.mFace)) = some f1)
    (hf2 : (m.edge e).bind (fun E => (m.halfEdge E.mHe2).bind (fun H => H.mFace)) = some f2)
    (hF1 : (m.face f1).isSome = true) (hF2 : (m.face f2).isSome = true) (hne : f1 ≠ f2)
    (hready : gatherReady m) (hu : unmarked m) (hfuel : m.mFaces.length ≤ fuel) :
    ∃ m2 faces, gatherConnectedFaces fuel m e = some (m2, faces) ∧ faces.Nodup ∧
      (∀ g, g ∈ faces ↔ connected m f1 f2 g) ∧
      ∀ f F, m2.face f = some F → F.mToBeMerged = false := by
  obtain ⟨E, H1, H2, h1, h2, h3, h4, h5⟩ := sides_spec m e f1 f2 hf1 hf2
  exact gatherConnectedFaces_of_lookups fuel m e E H1 H2 f1 f2 h1 h2 h3 h4 h5 hF1 hF2 hne
    hready hu hfuel

/-- C29, witness: the corner simplex with `mToBeRemoved` set on the edge 7, from
the edge 4 between the faces 30 and 22. -/
theorem gatherConnectedFaces_connected_witness :
    ∃ m2 faces, gatherConnectedFaces 4 cornerSimplexChained 4 = some (m2, faces) ∧
      faces.Nodup ∧ (∀ g, g ∈ faces ↔ connected cornerSimplexChained 30 22 g) ∧
      ∀ f F, m2.face f = some F → F.mToBeMerged = false :=
  have h : ((cornerSimplexChained.edge 4).bind
        (fun E => (cornerSimplexChained.halfEdge E.mHe1).bind (fun H => H.mFace)) = some 30 ∧
      (cornerSimplexChained.edge 4).bind
        (fun E => (cornerSimplexChained.halfEdge E.mHe2).bind (fun H => H.mFace)) = some 22 ∧
      (cornerSimplexChained.face 30).isSome = true ∧
      (cornerSimplexChained.face 22).isSome = true) ∧
      gatherReady cornerSimplexChained ∧ unmarked cornerSimplexChained ∧
      cornerSimplexChained.mFaces.length ≤ 4 := by
    unfold gatherReady unmarked
    decide!
  gatherConnectedFaces_connected 4 cornerSimplexChained 4 30 22 h.1.1 h.1.2.1 h.1.2.2.1
    h.1.2.2.2 (by decide) h.2.1 h.2.2.1 h.2.2.2

end Makena

/-! ## `createInitialConflictGraph` on a manifold with an empty conflict graph -/

namespace Makena

theorem deref_map_snd {α β : Type} (g : α → β) (i : Nat) :
    ∀ l : List (Nat × α), deref (l.map (fun q => (q.1, g q.2))) i = (deref l i).map g := by
  intro l
  induction l with
  | nil => rfl
  | cons q l ih =>
    obtain ⟨k, a⟩ := q
    simp only [List.map_cons, deref]
    by_cases hk : k = i
    · rw [if_pos hk, if_pos hk]; rfl
    · rw [if_neg hk, if_neg hk]; exact ih

theorem assign_map_eq {α β : Type} (g : α → α) (h : α → β) (hg : ∀ a, h (g a) = h a)
    (i : Nat) : ∀ l l2 : List (Nat × α), assign l i g = some l2 →
      l2.map (fun q => (q.1, h q.2)) = l.map (fun q => (q.1, h q.2)) := by
  intro l
  induction l with
  | nil => intro l2 e; simp [assign] at e
  | cons q l ih =>
    intro l2 e
    obtain ⟨k, a⟩ := q
    simp only [assign] at e
    by_cases hk : k = i
    · rw [if_pos hk] at e
      simp only [Option.some.injEq] at e
      subst e
      simp [hg]
    · rw [if_neg hk] at e
      cases hrec : assign l i g with
      | none => rw [hrec] at e; simp at e
      | some l3 =>
        rw [hrec] at e
        simp only [Option.some.injEq] at e
        subst e
        simp [ih l3 hrec]

theorem sameGeometry_face (m s : Manifold) (h : sameGeometry m s) (f : FaceIt) :
    (s.face f).map Face.geometry = (m.face f).map Face.geometry := by
  have := congrArg (fun l => deref l f) h.2.2.2
  simp only [deref_map_snd] at this
  exact this

theorem sameGeometry_refl (m : Manifold) : sameGeometry m m := ⟨rfl, rfl, rfl, rfl⟩

theorem sameGeometry_trans (m s t : Manifold) (h1 : sameGeometry m s) (h2 : sameGeometry s t) :
    sameGeometry m t :=
  ⟨h2.1.trans h1.1, h2.2.1.trans h1.2.1, h2.2.2.1.trans h1.2.2.1, h2.2.2.2.trans h1.2.2.2⟩

theorem srcPoint_frame (m s : Manifold) (h : sameGeometry m s) (he : HalfEdgeIt) :
    s.srcPoint he = m.srcPoint he := by
  unfold Manifold.srcPoint Manifold.halfEdge Manifold.vertex
  rw [h.1, h.2.1]

theorem isFacingLoop_frame (m s : Manifold) (h : sameGeometry m s) (p : Vec3) :
    ∀ (l : List (ListIt × HalfEdgeIt)) (st : ℚ × Vec3),
      isFacingLoop s p l st = isFacingLoop m p l st := by
  intro l
  induction l with
  | nil => intro st; rfl
  | cons e l ih =>
    intro st
    obtain ⟨k, he⟩ := e
    simp only [isFacingLoop, srcPoint_frame m s h he]
    cases m.srcPoint he with
    | none => rfl
    | some q =>
      simp only [Option.bind_eq_bind, Option.some_bind]
      exact ih _

theorem isFacing_frame (m s : Manifold) (h : sameGeometry m s) (f : FaceIt) (p : Vec3)
    (eps : ℚ) : isFacing s f p eps = isFacing m f p eps := by
  have hg := sameGeometry_face m s h f
  unfold isFacing
  cases hs : s.face f with
  | none =>
    rw [hs] at hg
    cases hm : m.face f with
    | none => rfl
    | some F => rw [hm] at hg; simp at hg
  | some G =>
    rw [hs] at hg
    cases hm : m.face f with
    | none => rw [hm] at hg; simp at hg
    | some F =>
      rw [hm] at hg
      simp only [Option.map_some', Option.some.injEq, Face.geometry, Prod.mk.injEq] at hg
      simp only [Option.bind_eq_bind, Option.some_bind, hg.1, hg.2, isFacingLoop_frame m s h]

theorem facingNone_frame (m s : Manifold) (h : sameGeometry m s) (f : FaceIt) (p : Vec3) :
    facingNone s f p = facingNone m f p := by
  unfold facingNone
  rw [h.2.2.1, isFacing_frame m s h]

theorem isFacing_isSome (m : Manifold) (hr : facingReady m) (f : FaceIt) (F : Face)
    (hF : m.face f = some F) (p : Vec3) (eps : ℚ) : (isFacing m f p eps).isSome = true := by
  have hq := hr (f, F) (mem_of_deref _ _ _ hF)
  simp only at hq
  have hloop : ∀ (l : List (ListIt × HalfEdgeIt)) (st : ℚ × Vec3),
      (∀ e ∈ l, (m.srcPoint e.2).isSome = true) → (isFacingLoop m p l st).isSome = true := by
    intro l
    induction l with
    | nil => intro st _; rfl
    | cons e l ih =>
      intro st hl
      obtain ⟨k, he⟩ := e
      have h1 := hl (k, he) (List.mem_cons_self _ _)
      simp only at h1
      cases hp : m.srcPoint he with
      | none => rw [hp] at h1; simp at h1
      | some q =>
        simp only [isFacingLoop, hp, Option.bind_eq_bind, Option.some_bind]
        exact ih _ (fun e he => hl e (List.mem_cons_of_mem _ he))
  have := hloop F.mIncidentHalfEdges (0, Vec3.zero) hq
  unfold isFacing
  simp only [hF, Option.bind_eq_bind, Option.some_bind]
  cases hl : isFacingLoop m p F.mIncidentHalfEdges (0, Vec3.zero) with
  | none => rw [hl] at this; simp at this
  | some st => rfl

theorem setFace_some (m : Manifold) (f : FaceIt) (g : Face → Face)
    (h : (m.face f).isSome = true) :
    ∃ l, assign m.mFaces f g = some l ∧ m.setFace f g = some { m with mFaces := l } := by
  have hs := assign_isSome g f m.mFaces h
  unfold Manifold.setFace
  cases hl : assign m.mFaces f g with
  | none => rw [hl] at hs; simp at hs
  | some l => exact ⟨l, rfl, rfl⟩

theorem createFaceConflicts_spec :
    ∀ (L : List FaceIt) (s : Manifold), L.Nodup → (∀ f ∈ L, (s.face f).isSome = true) →
      ∃ s2, createFaceConflicts L s = some s2 ∧ sameGeometry s s2 ∧
        s2.mFresh = s.mFresh + L.length ∧
        s2.mConflictGraph.mEdges = s.mConflictGraph.mEdges ∧
        s2.mConflictGraph.mNodes = s.mConflictGraph.mNodes ++ faceNodes s.mFresh L ∧
        ∀ f, conflictNodeOf s2 f =
          if f ∈ L then some (s.mFresh + L.indexOf f) else conflictNodeOf s f := by
  intro L
  induction L with
  | nil =>
    intro s _ _
    exact ⟨s, rfl, sameGeometry_refl s, rfl, rfl, by simp [faceNodes], fun f => by simp⟩
  | cons fit L ih =>
    intro s hn hL
    obtain ⟨l, hl, hset⟩ := setFace_some s fit
      (fun F => { F with mFaceConflict := some s.mFresh }) (hL fit (List.mem_cons_self _ _))
    have hd := deref_assign (fun F : Face => { F with mFaceConflict := some s.mFresh }) fit
      _ _ hl
    have hn2 := List.nodup_cons.mp hn
    obtain ⟨s2, e1, e2, e3, e4, e5, e6⟩ := ih
      { s with mFaces := l,
               mConflictGraph := s.mConflictGraph.addNode s.mFresh (ConflictNode.FaceConflict fit),
               mFresh := s.mFresh + 1 } hn2.2
      (by
        intro f hf
        have h1 := hL f (List.mem_cons_of_mem _ hf)
        show (deref l f).isSome = true
        rw [hd f]
        by_cases hff : f = fit
        · rw [if_pos hff]
          have h2 := hL fit (List.mem_cons_self _ _)
          unfold Manifold.face at h2
          cases hx : deref s.mFaces fit with
          | none => rw [hx] at h2; simp at h2
          | some F => rfl
        · rw [if_neg hff]; exact h1)
    refine ⟨s2, ?_, ?_, ?_, ?_, ?_, ?_⟩
    · simp only [createFaceConflicts, hset, Option.bind_eq_bind, Option.some_bind]
      exact e1
    · have hmid : sameGeometry s
          { s with mFaces := l,
                   mConflictGraph :=
                     s.mConflictGraph.addNode s.mFresh (ConflictNode.FaceConflict fit),
                   mFresh := s.mFresh + 1 } :=
        ⟨rfl, rfl, rfl, assign_map_eq (fun F : Face => { F with mFaceConflict := some s.mFresh })
          Face.geometry (fun a => rfl) fit _ _ hl⟩
      exact sameGeometry_trans _ _ _ hmid e2
    · rw [e3]; simp only [List.length_cons]; omega
    · rw [e4]; rfl
    · rw [e5]
      simp [DiGraph.addNode, faceNodes, List.enumFrom_cons]
    · intro f
      rw [e6 f]
      by_cases hff : f = fit
      · subst hff
        rw [if_neg hn2.1, if_pos (List.mem_cons_self _ _)]
        simp only [List.indexOf_cons_self, Nat.add_zero]
        show (deref l f).bind _ = _
        rw [hd f, if_pos rfl]
        have h2 := hL f (List.mem_cons_self _ _)
        unfold Manifold.face at h2
        cases hx : deref s.mFaces f with
        | none => rw [hx] at h2; simp at h2
        | some F => rfl
      · by_cases hfl : f ∈ L
        · rw [if_pos hfl, if_pos (List.mem_cons_of_mem _ hfl),
            List.indexOf_cons_ne _ (fun e => hff e.symm)]
          simp only [Option.some.injEq]
          omega
        · rw [if_neg hfl, if_neg (by simp [hff, hfl])]
          show (deref l f).bind _ = _
          rw [hd f, if_neg hff]
          rfl

theorem deref_faceNodes (f : FaceIt) :
    ∀ (L : List FaceIt) (k : Nat), f ∈ L → L.Nodup →
      deref (faceNodes k L) (k + L.indexOf f) = some (ConflictNode.FaceConflict f) := by
  intro L
  induction L with
  | nil => intro k h; simp at h
  | cons a L ih =>
    intro k h hn
    by_cases ha : f = a
    · subst ha
      simp [faceNodes, List.enumFrom_cons, deref]
    · have hin : f ∈ L := by
        rcases List.mem_cons.mp h with k | k
        · exact absurd k ha
        · exact k
      rw [List.indexOf_cons_ne _ (fun e => ha e.symm)]
      have := ih (k + 1) hin (List.nodup_cons.mp hn).2
      simp only [faceNodes, List.enumFrom_cons, List.map_cons, deref]
      rw [if_neg (by omega)]
      have e : k + (L.indexOf f + 1) = k + 1 + L.indexOf f := by omega
      rw [e]
      exact this

theorem faceNodes_keys (L : List FaceIt) :
    ∀ k, ∀ q ∈ faceNodes k L, k ≤ q.1 ∧ q.1 < k + L.length := by
  induction L with
  | nil => intro k q h; simp [faceNodes] at h
  | cons a L ih =>
    intro k q h
    simp only [faceNodes, List.enumFrom_cons, List.map_cons, List.mem_cons] at h
    rcases h with h | h
    · rw [h]; simp
    · obtain ⟨h1, h2⟩ := ih (k + 1) q h
      simp only [List.length_cons]
      exact ⟨by omega, Nat.lt_of_lt_of_le h2 (by omega)⟩

theorem deref_append_of_isSome {α : Type} (l l2 : List (Nat × α)) (j : Nat)
    (h : (deref l j).isSome = true) : deref (l ++ l2) j = deref l j := by
  induction l with
  | nil => simp [deref] at h
  | cons q l ih =>
    obtain ⟨k, a⟩ := q
    simp only [List.cons_append, deref] at h ⊢
    by_cases hk : k = j
    · rw [if_pos hk, if_pos hk]
    · rw [if_neg hk] at h
      rw [if_neg hk, if_neg hk]
      exact ih h

theorem deref_append_of_none {α : Type} (l l2 : List (Nat × α)) (j : Nat)
    (h : deref l j = none) : deref (l ++ l2) j = deref l2 j := by
  induction l with
  | nil => rfl
  | cons q l ih =>
    obtain ⟨k, a⟩ := q
    simp only [List.cons_append, deref] at h ⊢
    by_cases hk : k = j
    · rw [if_pos hk] at h; simp at h
    · rw [if_neg hk] at h
      rw [if_neg hk]
      exact ih h

theorem deref_none_of_lt {α : Type} (n : Nat) :
    ∀ l : List (Nat × α), (∀ p ∈ l, p.1 < n) → ∀ j, n ≤ j → deref l j = none := by
  intro l
  induction l with
  | nil => intro _ j _; rfl
  | cons p l ih =>
    intro h j hj
    obtain ⟨k, a⟩ := p
    simp only [deref]
    have hk : k < n := h (k, a) (List.mem_cons_self _ _)
    rw [if_neg (by omega)]
    exact ih (fun p hp => h p (List.mem_cons_of_mem _ hp)) j hj

theorem faceConflict_append (g : DiGraph) (l : List (NodeIt × ConflictNode))
    (E : List (Nat × NodeIt × NodeIt)) (n : NodeIt) (f : FaceIt)
    (h : g.faceConflict n = some f) :
    DiGraph.faceConflict ⟨g.mNodes ++ l, E⟩ n = some f := by
  unfold DiGraph.faceConflict at h ⊢
  have hs : (deref g.mNodes n).isSome = true := by
    cases hd : deref g.mNodes n with
    | none => rw [hd] at h; simp at h
    | some c => rfl
  simp only
  rw [deref_append_of_isSome _ _ _ hs]
  exact h

theorem createConflictsOfPoint_spec (m1 : Manifold) (p : Vec3) (id : Int) :
    ∀ (L : List FaceIt) (s : Manifold) (vc : Option NodeIt),
      s.mFaces = m1.mFaces → sameGeometry m1 s →
      (∀ f ∈ L, ∃ n, conflictNodeOf m1 f = some n ∧
        s.mConflictGraph.faceConflict n = some f ∧
        (isFacing m1 f p m1.mEpsilonCHMargin).isSome = true) →
      (∀ q ∈ s.mConflictGraph.mNodes, q.1 < s.mFresh) →
      ∃ s2 vc2, createConflictsOfPoint p id L (s, vc) = some (s2, vc2) ∧
        s2.mFaces = m1.mFaces ∧ sameGeometry m1 s2 ∧ s.mFresh ≤ s2.mFresh ∧
        (∀ q ∈ s2.mConflictGraph.mNodes, q.1 < s2.mFresh) ∧
        s2.mConflictGraph.mNodes = s.mConflictGraph.mNodes ++
          (if vc = none ∧ L.any (fun f => facingNone m1 f p) = true then
            [(s.mFresh, ConflictNode.VertexConflict p id false)] else []) ∧
        vc2 = (match vc with
               | some v => some v
               | none => if L.any (fun f => facingNone m1 f p) = true then some s.mFresh
                         else none) ∧
        s2.mConflictGraph.mEdges.map Prod.snd = s.mConflictGraph.mEdges.map Prod.snd ++
          (L.filter (fun f => facingNone m1 f p)).map
            (fun f => ((conflictNodeOf m1 f).getD 0, vc2.getD 0)) := by
  intro L
  induction L with
  | nil =>
    intro s vc hf hg _ hk
    refine ⟨s, vc, rfl, hf, hg, le_refl _, hk, by simp, ?_, by simp⟩
    cases vc with
    | none => simp
    | some v => rfl
  | cons fit L ih =>
    intro s vc hf hg hL hk
    obtain ⟨n, hn1, hn2, hn3⟩ := hL fit (List.mem_cons_self _ _)
    have hL2 : ∀ f ∈ L, ∃ n, conflictNodeOf m1 f = some n ∧
        s.mConflictGraph.faceConflict n = some f ∧
        (isFacing m1 f p m1.mEpsilonCHMargin).isSome = true :=
      fun f hfL => hL f (List.mem_cons_of_mem _ hfL)
    have hsF : s.face fit = m1.face fit := by unfold Manifold.face; rw [hf]
    unfold conflictNodeOf at hn1
    cases hF : m1.face fit with
    | none => rw [hF] at hn1; simp at hn1
    | some F =>
      rw [hF] at hn1
      simp only [Option.some_bind] at hn1
      cases hr : isFacing m1 fit p m1.mEpsilonCHMargin with
      | none => rw [hr] at hn3; simp at hn3
      | some r =>
        have hsr : isFacing s fit p s.mEpsilonCHMargin = some r := by
          rw [hg.2.2.1, isFacing_frame m1 s hg, hr]
        have hfn : facingNone m1 fit p = (r.1 && decide (r.2 = predicate.NONE)) := by
          unfold facingNone; rw [hr]
        have hcn : conflictNodeOf m1 fit = some n := by
          unfold conflictNodeOf; rw [hF]; exact hn1
        simp only [createConflictsOfPoint, hsF, hF, hn1, hn2, hsr, Option.bind_eq_bind,
          Option.some_bind]
        by_cases hfac : r.1 = true ∧ r.2 = predicate.NONE
        · have hfn2 : facingNone m1 fit p = true := by rw [hfn]; simp [hfac.1, hfac.2]
          rw [if_pos hfac]
          cases vc with
          | none =>
            simp only
            obtain ⟨s2, vc2, e1, e2, e3, e4, e5, e6, e7, e8⟩ := ih
              (addConflictEdge
                { s with mConflictGraph :=
                           s.mConflictGraph.addNode s.mFresh
                             (ConflictNode.VertexConflict p id false),
                         mFresh := s.mFresh + 1 } n s.mFresh) (some s.mFresh)
              hf ⟨hg.1, hg.2.1, hg.2.2.1, hg.2.2.2⟩
              (by
                intro f hfL
                obtain ⟨k, h1, h2, h3⟩ := hL2 f hfL
                exact ⟨k, h1, faceConflict_append _ _ _ _ _ h2, h3⟩)
              (by
                intro q hq
                simp only [addConflictEdge, DiGraph.addEdge, DiGraph.addNode,
                  List.mem_append, List.mem_singleton] at hq ⊢
                rcases hq with hq | hq
                · exact Nat.lt_of_lt_of_le (hk q hq) (by omega)
                · rw [hq]
                  exact Nat.lt_of_lt_of_le (Nat.lt_succ_self s.mFresh) (Nat.le_succ _))
            simp only at e7
            subst e7
            refine ⟨s2, some s.mFresh, e1, e2, e3, ?_, e5, ?_, ?_, ?_⟩
            · simp only [addConflictEdge] at e4; omega
            · rw [e6]
              simp [addConflictEdge, DiGraph.addEdge, DiGraph.addNode, hfn2]
            · simp [hfn2]
            · rw [e8]
              simp [addConflictEdge, DiGraph.addEdge, DiGraph.addNode, hfn2, hcn]
          | some v =>
            simp only
            obtain ⟨s2, vc2, e1, e2, e3, e4, e5, e6, e7, e8⟩ := ih
              (addConflictEdge s n v) (some v)
              hf ⟨hg.1, hg.2.1, hg.2.2.1, hg.2.2.2⟩
              (by
                intro f hfL
                obtain ⟨k, h1, h2, h3⟩ := hL2 f hfL
                refine ⟨k, h1, ?_, h3⟩
                have := faceConflict_append s.mConflictGraph [] 
                  (s.mConflictGraph.mEdges ++ [(s.mFresh, n, v)]) k f h2
                simpa [addConflictEdge, DiGraph.addEdge] using this)
              (by
                intro q hq
                simp only [addConflictEdge, DiGraph.addEdge] at hq ⊢
                exact Nat.lt_of_lt_of_le (hk q hq) (by omega))
            simp only at e7
            subst e7
            refine ⟨s2, some v, e1, e2, e3, ?_, e5, ?_, ?_, ?_⟩
            · simp only [addConflictEdge] at e4; omega
            · rw [e6]
              simp [addConflictEdge, DiGraph.addEdge]
            · rfl
            · rw [e8]
              simp [addConflictEdge, DiGraph.addEdge, hfn2, hcn]
        · have hfn2 : facingNone m1 fit p = false := by
            rw [hfn]
            by_cases h1 : r.1 = true
            · have h2 : ¬ r.2 = predicate.NONE := fun h2 => hfac ⟨h1, h2⟩
              simp [h2]
            · simp [h1]
          rw [if_neg hfac]
          obtain ⟨s2, vc2, e1, e2, e3, e4, e5, e6, e7, e8⟩ := ih s vc hf hg hL2 hk
          refine ⟨s2, vc2, e1, e2, e3, e4, e5, ?_, ?_, ?_⟩
          · rw [e6]; simp [hfn2]
          · rw [e7]; simp [hfn2]
          · rw [e8]; simp [hfn2]

theorem seenPoints_cons (m : Manifold) (p : Vec3) (ps : List Vec3) (id : Int) (ids : List Int) :
    seenPoints m (p :: ps) (id :: ids) =
      if seenBySomeFace m p = true then (p, id) :: seenPoints m ps ids
      else seenPoints m ps ids := by
  unfold seenPoints
  simp only [List.zip_cons_cons, List.filter_cons]

theorem createConflicts_spec (m1 : Manifold) (hr : facingReady m1) :
    ∀ (ps : List Vec3) (ids : List Int) (s : Manifold) (vs : List NodeIt),
      ps.length ≤ ids.length → s.mFaces = m1.mFaces → sameGeometry m1 s →
      (∀ f ∈ m1.mFaces.map Prod.fst, ∃ n, conflictNodeOf m1 f = some n ∧
        s.mConflictGraph.faceConflict n = some f) →
      (∀ q ∈ s.mConflictGraph.mNodes, q.1 < s.mFresh) →
      ∃ (s2 : Manifold) (VN : List (NodeIt × Vec3 × Int)),
        createConflicts ps ids (s, vs) = some (s2, vs ++ VN.map Prod.fst) ∧
        s2.mFaces = m1.mFaces ∧ sameGeometry m1 s2 ∧
        s2.mConflictGraph.mNodes = s.mConflictGraph.mNodes ++
          VN.map (fun y => (y.1, ConflictNode.VertexConflict y.2.1 y.2.2 false)) ∧
        VN.map Prod.snd = seenPoints m1 ps ids ∧
        (∀ y ∈ VN, s.mFresh ≤ y.1) ∧ (VN.map Prod.fst).Nodup ∧
        s2.mConflictGraph.mEdges.map Prod.snd = s.mConflictGraph.mEdges.map Prod.snd ++
          VN.flatMap (fun y =>
            ((m1.mFaces.map Prod.fst).filter (fun f => facingNone m1 f y.2.1)).map
              (fun f => ((conflictNodeOf m1 f).getD 0, y.1))) := by
  intro ps
  induction ps with
  | nil =>
    intro ids s vs _ hf hg _ _
    exact ⟨s, [], by simp [createConflicts], hf, hg, by simp, by simp [seenPoints], by simp,
      by simp, by simp⟩
  | cons p ps ih =>
    intro ids s vs hlen hf hg hfc hk
    cases ids with
    | nil => simp at hlen
    | cons id ids =>
      have hlen2 : ps.length ≤ ids.length := by simpa using hlen
      have hL : ∀ f ∈ s.mFaces.map Prod.fst, ∃ n, conflictNodeOf m1 f = some n ∧
          s.mConflictGraph.faceConflict n = some f ∧
          (isFacing m1 f p m1.mEpsilonCHMargin).isSome = true := by
        intro f hfm
        rw [hf] at hfm
        obtain ⟨n, h1, h2⟩ := hfc f hfm
        refine ⟨n, h1, h2, ?_⟩
        unfold conflictNodeOf at h1
        cases hF : m1.face f with
        | none => rw [hF] at h1; simp at h1
        | some F => exact isFacing_isSome m1 hr f F hF p _
      obtain ⟨s2, vc2, e1, e2, e3, e4, e5, e6, e7, e8⟩ :=
        createConflictsOfPoint_spec m1 p id (s.mFaces.map Prod.fst) s none hf hg hL hk
      have hany : (s.mFaces.map Prod.fst).any (fun f => facingNone m1 f p) =
          seenBySomeFace m1 p := by
        unfold seenBySomeFace; rw [hf]
      rw [hany] at e6 e7
      have hfc2 : ∀ f ∈ m1.mFaces.map Prod.fst, ∃ n, conflictNodeOf m1 f = some n ∧
          s2.mConflictGraph.faceConflict n = some f := by
        intro f hfm
        obtain ⟨n, h1, h2⟩ := hfc f hfm
        refine ⟨n, h1, ?_⟩
        have := faceConflict_append s.mConflictGraph
          (if (none : Option NodeIt) = none ∧ seenBySomeFace m1 p = true then
            [(s.mFresh, ConflictNode.VertexConflict p id false)] else [])
          s2.mConflictGraph.mEdges n f h2
        rw [← e6] at this
        exact this
      simp only [createConflicts, e1, Option.bind_eq_bind, Option.some_bind]
      by_cases hseen : seenBySomeFace m1 p = true
      · simp only [hseen, and_self, if_true] at e6 e7
        subst e7
        simp only
        obtain ⟨s3, VN, f1, f2, f3, f4, f5, f6, f7, f8⟩ :=
          ih ids s2 (vs ++ [s.mFresh]) hlen2 e2 e3 hfc2 e5
        have hlt : s.mFresh < s2.mFresh := by
          have := e5 (s.mFresh, ConflictNode.VertexConflict p id false)
            (by rw [e6]; simp)
          exact this
        refine ⟨s3, (s.mFresh, p, id) :: VN, ?_, f2, f3, ?_, ?_, ?_, ?_, ?_⟩
        · rw [f1]; simp
        · rw [f4, e6]; simp
        · rw [seenPoints_cons, if_pos hseen, ← f5]; rfl
        · intro y hy
          rcases List.mem_cons.mp hy with k | k
          · rw [k]
          · exact le_trans (le_of_lt hlt) (f6 y k)
        · simp only [List.map_cons, List.nodup_cons]
          refine ⟨?_, f7⟩
          intro hin
          obtain ⟨y, hy, hy2⟩ := List.mem_map.mp hin
          have := f6 y hy
          rw [hy2] at this
          exact absurd hlt (Nat.not_lt.mpr this)
        · rw [f8, e8, hf]
          simp
      · have hseen2 : seenBySomeFace m1 p = false := by
          cases hx : seenBySomeFace m1 p with
          | true => exact absurd hx hseen
          | false => rfl
        simp only [hseen2, Bool.false_eq_true, and_false, if_false, List.append_nil] at e6 e7
        subst e7
        simp only
        obtain ⟨s3, VN, f1, f2, f3, f4, f5, f6, f7, f8⟩ :=
          ih ids s2 vs hlen2 e2 e3 hfc2 e5
        refine ⟨s3, VN, f1, f2, f3, ?_, ?_, ?_, f7, ?_⟩
        · rw [f4, e6]
        · rw [seenPoints_cons, if_neg hseen, ← f5]
        · intro y hy
          exact le_trans e4 (f6 y hy)
        · rw [f8, e8, hf]
          have hnone : (m1.mFaces.map Prod.fst).filter (fun f => facingNone m1 f p) = [] := by
            rw [List.filter_eq_nil_iff]
            intro f hfm
            unfold seenBySomeFace at hseen2
            rw [List.any_eq_false] at hseen2
            exact hseen2 f hfm
          rw [hnone]
          simp

theorem faceConflictNodes_faceNodes (E : List (Nat × NodeIt × NodeIt)) :
    ∀ (L : List FaceIt) (n : Nat), faceConflictNodes ⟨faceNodes n L, E⟩ = L.enumFrom n := by
  intro L
  induction L with
  | nil => intro n; rfl
  | cons a L ih =>
    intro n
    have := ih (n + 1)
    unfold faceConflictNodes faceNodes at this ⊢
    simp only [List.enumFrom_cons, List.map_cons, List.filterMap_cons]
    rw [this]

theorem faceConflictNodes_vertexNodes (E : List (Nat × NodeIt × NodeIt)) :
    ∀ VN : List (NodeIt × Vec3 × Int), faceConflictNodes
      ⟨VN.map (fun y => (y.1, ConflictNode.VertexConflict y.2.1 y.2.2 false)), E⟩ = [] := by
  intro VN
  induction VN with
  | nil => rfl
  | cons a L ih =>
    unfold faceConflictNodes at ih ⊢
    simp only [List.map_cons, List.filterMap_cons]
    exact ih

theorem vertexConflictNodes_faceNodes (E : List (Nat × NodeIt × NodeIt)) :
    ∀ (L : List FaceIt) (n : Nat), vertexConflictNodes ⟨faceNodes n L, E⟩ = [] := by
  intro L
  induction L with
  | nil => intro n; rfl
  | cons a L ih =>
    intro n
    have := ih (n + 1)
    unfold vertexConflictNodes faceNodes at this ⊢
    simp only [List.enumFrom_cons, List.map_cons, List.filterMap_cons]
    exact this

theorem vertexConflictNodes_vertexNodes (E : List (Nat × NodeIt × NodeIt)) :
    ∀ VN : List (NodeIt × Vec3 × Int), vertexConflictNodes
      ⟨VN.map (fun y => (y.1, ConflictNode.VertexConflict y.2.1 y.2.2 false)), E⟩ = VN := by
  intro VN
  induction VN with
  | nil => rfl
  | cons a L ih =>
    unfold vertexConflictNodes at ih ⊢
    simp only [List.map_cons, List.filterMap_cons]
    rw [ih]

theorem faceConflictNodes_eq (n : Nat) (L : List FaceIt) (VN : List (NodeIt × Vec3 × Int))
    (E : List (Nat × NodeIt × NodeIt)) :
    faceConflictNodes ⟨faceNodes n L ++
      VN.map (fun y => (y.1, ConflictNode.VertexConflict y.2.1 y.2.2 false)), E⟩ =
      L.enumFrom n := by
  have h1 := faceConflictNodes_faceNodes E L n
  have h2 := faceConflictNodes_vertexNodes E VN
  unfold faceConflictNodes at h1 h2 ⊢
  simp only [List.filterMap_append] at h1 h2 ⊢
  rw [h1, h2, List.append_nil]

theorem vertexConflictNodes_eq (n : Nat) (L : List FaceIt) (VN : List (NodeIt × Vec3 × Int))
    (E : List (Nat × NodeIt × NodeIt)) :
    vertexConflictNodes ⟨faceNodes n L ++
      VN.map (fun y => (y.1, ConflictNode.VertexConflict y.2.1 y.2.2 false)), E⟩ = VN := by
  have h1 := vertexConflictNodes_faceNodes E L n
  have h2 := vertexConflictNodes_vertexNodes E VN
  unfold vertexConflictNodes at h1 h2 ⊢
  simp only [List.filterMap_append] at h1 h2 ⊢
  rw [h1, h2, List.nil_append]

theorem mem_enumFrom_indexOf (f : FaceIt) :
    ∀ (L : List FaceIt) (n k : Nat), L.Nodup → (k, f) ∈ L.enumFrom n →
      k = n + L.indexOf f ∧ f ∈ L := by
  intro L
  induction L with
  | nil => intro n k _ h; simp at h
  | cons a L ih =>
    intro n k hn h
    simp only [List.enumFrom_cons, List.mem_cons, Prod.mk.injEq] at h
    rcases h with ⟨h1, h2⟩ | h
    · subst h2
      simp [h1]
    · obtain ⟨e1, e2⟩ := ih (n + 1) k (List.nodup_cons.mp hn).2 h
      have hne : a ≠ f := fun e => (List.nodup_cons.mp hn).1 (e ▸ e2)
      rw [List.indexOf_cons_ne _ hne]
      exact ⟨by omega, List.mem_cons_of_mem _ e2⟩

theorem enumFrom_indexOf_mem (f : FaceIt) :
    ∀ (L : List FaceIt) (n : Nat), f ∈ L → (n + L.indexOf f, f) ∈ L.enumFrom n := by
  intro L
  induction L with
  | nil => intro n h; simp at h
  | cons a L ih =>
    intro n h
    by_cases ha : a = f
    · subst ha
      simp [List.enumFrom_cons]
    · have hin : f ∈ L := by
        rcases List.mem_cons.mp h with k | k
        · exact absurd k.symm ha
        · exact k
      rw [List.indexOf_cons_ne _ ha, List.enumFrom_cons]
      have := ih (n + 1) hin
      have e : n + (L.indexOf f + 1) = n + 1 + L.indexOf f := by omega
      rw [e]
      exact List.mem_cons_of_mem _ this

theorem deref_isSome_of_mem {α : Type} (i : Nat) :
    ∀ l : List (Nat × α), i ∈ l.map Prod.fst → (deref l i).isSome = true := by
  intro l
  induction l with
  | nil => intro h; simp at h
  | cons q l ih =>
    intro h
    obtain ⟨k, a⟩ := q
    simp only [deref]
    by_cases hk : k = i
    · rw [if_pos hk]; rfl
    · rw [if_neg hk]
      simp only [List.map_cons, List.mem_cons] at h
      rcases h with h | h
      · exact absurd h.symm hk
      · exact ih h

theorem sameGeometry_keys (m s : Manifold) (h : sameGeometry m s) :
    s.mFaces.map Prod.fst = m.mFaces.map Prod.fst := by
  have := congrArg (List.map Prod.fst) h.2.2.2
  simpa [List.map_map, Function.comp] using this

theorem facingReady_frame (m s : Manifold) (h : sameGeometry m s) (hr : facingReady m) :
    facingReady s := by
  intro q hq e he
  have h1 : (q.1, q.2.geometry) ∈ s.mFaces.map (fun q => (q.1, q.2.geometry)) :=
    List.mem_map.mpr ⟨q, hq, rfl⟩
  rw [h.2.2.2] at h1
  obtain ⟨q2, hq2, e2⟩ := List.mem_map.mp h1
  simp only [Prod.mk.injEq, Face.geometry] at e2
  rw [srcPoint_frame m s h]
  exact hr q2 hq2 e (by rw [e2.2.2]; exact he)

theorem seenPoints_frame (m s : Manifold) (h : sameGeometry m s) (ps : List Vec3)
    (ids : List Int) : seenPoints s ps ids = seenPoints m ps ids := by
  unfold seenPoints seenBySomeFace
  rw [sameGeometry_keys m s h]
  have : (fun x : Vec3 × Int => (m.mFaces.map Prod.fst).any (fun f => facingNone s f x.1)) =
      (fun x : Vec3 × Int => (m.mFaces.map Prod.fst).any (fun f => facingNone m f x.1)) := by
    funext x
    have : (fun f => facingNone s f x.1) = (fun f => facingNone m f x.1) := by
      funext f; exact facingNone_frame m s h f x.1
    rw [this]
  rw [this]

/-- C25 (createInitialConflictGraph): on a manifold with an empty conflict graph,
faces with different handles and the vertices of the faces in place (the initial
simplex is one), with an id for every point, the function returns, and afterwards:
the `FaceConflict` nodes wrap the faces, one node per face in the order of the
faces, and every face stores its node; the `VertexConflict` nodes are, in the input
order, the points that at least one face sees (`isFacing` returns `true` with
`pred = NONE`), and the output list holds their handles, once each; the node
handles are different; no pair (source, destination) occurs twice among the edges;
every edge goes from the node of a face to the node of a point that the face sees;
and every face has an edge to every point with a node that it sees. -/
theorem createInitialConflictGraph_spec (m : Manifold) (points : List Vec3)
    (indices : List Int) (hg : m.mConflictGraph = ⟨[], []⟩)
    (hn : (m.mFaces.map Prod.fst).Nodup) (hr : facingReady m)
    (hlen : points.length ≤ indices.length) :
    ∃ m2 vertices, createInitialConflictGraph m points indices = some (m2, vertices) ∧
      (faceConflictNodes m2.mConflictGraph).map Prod.snd = m.mFaces.map Prod.fst ∧
      (∀ x ∈ faceConflictNodes m2.mConflictGraph, conflictNodeOf m2 x.2 = some x.1) ∧
      (vertexConflictNodes m2.mConflictGraph).map Prod.fst = vertices ∧
      (vertexConflictNodes m2.mConflictGraph).map Prod.snd = seenPoints m points indices ∧
      vertices.Nodup ∧
      (m2.mConflictGraph.mNodes.map Prod.fst).Nodup ∧
      (m2.mConflictGraph.mEdges.map Prod.snd).Nodup ∧
      (∀ e ∈ m2.mConflictGraph.mEdges, ∃ f p id,
        (e.2.1, f) ∈ faceConflictNodes m2.mConflictGraph ∧
        (e.2.2, p, id) ∈ vertexConflictNodes m2.mConflictGraph ∧ facingNone m f p = true) ∧
      (∀ x ∈ faceConflictNodes m2.mConflictGraph,
        ∀ y ∈ vertexConflictNodes m2.mConflictGraph, facingNone m x.2 y.2.1 = true →
          (x.1, y.1) ∈ m2.mConflictGraph.mEdges.map Prod.snd) := by
  obtain ⟨m1, a1, a2, a3, a4, a5, a6⟩ := createFaceConflicts_spec (m.mFaces.map Prod.fst) m hn
    (fun f hf => deref_isSome_of_mem f m.mFaces hf)
  have hkeys := sameGeometry_keys m m1 a2
  rw [hg] at a4 a5
  simp only [List.nil_append] at a5
  have hcn : ∀ f ∈ m.mFaces.map Prod.fst,
      conflictNodeOf m1 f = some (m.mFresh + (m.mFaces.map Prod.fst).indexOf f) := by
    intro f hf
    rw [a6 f, if_pos hf]
  have hfc : ∀ f ∈ m1.mFaces.map Prod.fst, ∃ n, conflictNodeOf m1 f = some n ∧
      m1.mConflictGraph.faceConflict n = some f := by
    intro f hf
    rw [hkeys] at hf
    refine ⟨_, hcn f hf, ?_⟩
    unfold DiGraph.faceConflict
    rw [a5, deref_faceNodes f _ _ hf hn]
  have hk : ∀ q ∈ m1.mConflictGraph.mNodes, q.1 < m1.mFresh := by
    intro q hq
    rw [a5] at hq
    rw [a3, List.length_map]
    have := (faceNodes_keys _ _ q hq).2
    simpa using this
  obtain ⟨m2, VN, c1, c2, c3, c4, c5, c6, c7, c8⟩ :=
    createConflicts_spec m1 (facingReady_frame m m1 a2 hr) points indices m1 [] hlen rfl
      (sameGeometry_refl m1) hfc hk
  have hnodes : m2.mConflictGraph = ⟨faceNodes m.mFresh (m.mFaces.map Prod.fst) ++
      VN.map (fun y => (y.1, ConflictNode.VertexConflict y.2.1 y.2.2 false)),
      m2.mConflictGraph.mEdges⟩ := by
    cases hx : m2.mConflictGraph with
    | mk N E =>
      rw [hx] at c4
      simp only at c4
      rw [c4, a5]
  have hfn : faceConflictNodes m2.mConflictGraph = (m.mFaces.map Prod.fst).enumFrom m.mFresh := by
    rw [hnodes]; exact faceConflictNodes_eq _ _ _ _
  have hvn : vertexConflictNodes m2.mConflictGraph = VN := by
    rw [hnodes]; exact vertexConflictNodes_eq _ _ _ _
  have hedges : m2.mConflictGraph.mEdges.map Prod.snd =
      VN.flatMap (fun y =>
        ((m.mFaces.map Prod.fst).filter (fun f => facingNone m f y.2.1)).map
          (fun f => (m.mFresh + (m.mFaces.map Prod.fst).indexOf f, y.1))) := by
    rw [c8, a4, hkeys]
    simp only [List.map_nil, List.nil_append]
    congr 1
    funext y
    have e1 : (fun f => facingNone m1 f y.2.1) = (fun f => facingNone m f y.2.1) := by
      funext f; exact facingNone_frame m m1 a2 f y.2.1
    rw [e1]
    refine List.map_congr_left (fun f hf => ?_)
    rw [hcn f (List.mem_of_mem_filter hf)]
    rfl
  refine ⟨m2, VN.map Prod.fst, ?_, ?_, ?_, ?_, ?_, c7, ?_, ?_, ?_, ?_⟩
  · simp only [createInitialConflictGraph, a1, Option.bind_eq_bind, Option.some_bind]
    simpa using c1
  · rw [hfn, List.enumFrom_map_snd]
  · intro x hx
    rw [hfn] at hx
    obtain ⟨e1, e2⟩ := mem_enumFrom_indexOf x.2 _ _ x.1 hn hx
    have : conflictNodeOf m2 x.2 = conflictNodeOf m1 x.2 := by
      unfold conflictNodeOf Manifold.face; rw [c2]
    rw [this, hcn x.2 e2, e1]
  · rw [hvn]
  · rw [hvn, c5, seenPoints_frame m m1 a2]
  · rw [hnodes]
    simp only [List.map_append, List.map_map]
    refine List.nodup_append.mpr ⟨?_, ?_, ?_⟩
    · have : List.map Prod.fst (faceNodes m.mFresh (m.mFaces.map Prod.fst)) =
          List.range' m.mFresh (m.mFaces.map Prod.fst).length := by
        unfold faceNodes
        rw [List.map_map]
        exact List.enumFrom_map_fst _ _
      rw [this]
      exact List.nodup_range' _ _
    · have : (Prod.fst ∘ fun y : NodeIt × Vec3 × Int =>
          (y.1, ConflictNode.VertexConflict y.2.1 y.2.2 false)) = Prod.fst := by
        funext y; rfl
      rw [this]; exact c7
    · intro a ha hb
      obtain ⟨q, hq, e1⟩ := List.mem_map.mp ha
      obtain ⟨y, hy, e2⟩ := List.mem_map.mp hb
      have h1 := (faceNodes_keys _ _ q hq).2
      have h2 := c6 y hy
      rw [a3] at h2
      simp only [Function.comp] at e2
      rw [e1] at h1
      rw [e2] at h2
      exact absurd h1 (Nat.not_lt.mpr h2)
  · rw [hedges, List.nodup_flatMap]
    refine ⟨fun y _ => ?_, ?_⟩
    · refine List.Nodup.map_on ?_ (hn.filter _)
      intro f hf f2 hf2 e
      simp only [Prod.mk.injEq, and_true] at e
      have : (m.mFaces.map Prod.fst).indexOf f = (m.mFaces.map Prod.fst).indexOf f2 := by
        omega
      exact (List.indexOf_inj (List.mem_of_mem_filter hf) (List.mem_of_mem_filter hf2)).mp this
    · have hp : List.Pairwise (fun a b : NodeIt × Vec3 × Int => a.1 ≠ b.1) VN :=
        List.pairwise_map.mp c7
      refine hp.imp ?_
      intro a b hab
      simp only [Function.onFun]
      intro e he1 he2
      obtain ⟨f1, _, k1⟩ := List.mem_map.mp he1
      obtain ⟨f2, _, k2⟩ := List.mem_map.mp he2
      rw [← k2] at k1
      simp only [Prod.mk.injEq] at k1
      exact hab k1.2
  · intro e he
    have he2 : e.2 ∈ m2.mConflictGraph.mEdges.map Prod.snd := List.mem_map.mpr ⟨e, he, rfl⟩
    rw [hedges] at he2
    obtain ⟨y, hy, h1⟩ := List.mem_flatMap.mp he2
    obtain ⟨f, hf, h2⟩ := List.mem_map.mp h1
    have hf2 := List.mem_filter.mp hf
    refine ⟨f, y.2.1, y.2.2, ?_, ?_, hf2.2⟩
    · rw [hfn, ← h2]
      exact enumFrom_indexOf_mem f _ _ hf2.1
    · rw [hvn, ← h2]
      exact hy
  · intro x hx y hy hfac
    rw [hfn] at hx
    rw [hvn] at hy
    obtain ⟨e1, e2⟩ := mem_enumFrom_indexOf x.2 _ _ x.1 hn hx
    rw [hedges]
    refine List.mem_flatMap.mpr ⟨y, hy, List.mem_map.mpr ⟨x.2, ?_, by rw [e1]⟩⟩
    exact List.mem_filter.mpr ⟨e2, hfac⟩

/-- C25, witness: the simplex on the corner of the unit cube with a point that
three faces see, a point inside and a point that one face sees. -/
theorem createInitialConflictGraph_spec_witness :
    ∃ m2 vertices,
      createInitialConflictGraph cornerSimplex [⟨1, 1, 1⟩, ⟨1 / 4, 1 / 4, 1 / 4⟩, ⟨-1, 0, 0⟩]
        [4, 5, 6] = some (m2, vertices) ∧
      (faceConflictNodes m2.mConflictGraph).map Prod.snd = cornerSimplex.mFaces.map Prod.fst ∧
      (∀ x ∈ faceConflictNodes m2.mConflictGraph, conflictNodeOf m2 x.2 = some x.1) ∧
      (vertexConflictNodes m2.mConflictGraph).map Prod.fst = vertices ∧
      (vertexConflictNodes m2.mConflictGraph).map Prod.snd =
        seenPoints cornerSimplex [⟨1, 1, 1⟩, ⟨1 / 4, 1 / 4, 1 / 4⟩, ⟨-1, 0, 0⟩] [4, 5, 6] ∧
      vertices.Nodup ∧
      (m2.mConflictGraph.mNodes.map Prod.fst).Nodup ∧
      (m2.mConflictGraph.mEdges.map Prod.snd).Nodup ∧
      (∀ e ∈ m2.mConflictGraph.mEdges, ∃ f p id,
        (e.2.1, f) ∈ faceConflictNodes m2.mConflictGraph ∧
        (e.2.2, p, id) ∈ vertexConflictNodes m2.mConflictGraph ∧
        facingNone cornerSimplex f p = true) ∧
      (∀ x ∈ faceConflictNodes m2.mConflictGraph,
        ∀ y ∈ vertexConflictNodes m2.mConflictGraph,
          facingNone cornerSimplex x.2 y.2.1 = true →
            (x.1, y.1) ∈ m2.mConflictGraph.mEdges.map Prod.snd) :=
  have h : cornerSimplex.mConflictGraph = ⟨[], []⟩ ∧
      (cornerSimplex.mFaces.map Prod.fst).Nodup ∧ facingReady cornerSimplex := by
    unfold facingReady
    decide!
  createInitialConflictGraph_spec cornerSimplex [⟨1, 1, 1⟩, ⟨1 / 4, 1 / 4, 1 / 4⟩, ⟨-1, 0, 0⟩]
    [4, 5, 6] h.1 h.2.1 h.2.2 (by decide)

end Makena

/-! ## The candidates of `updateConflictGraph` -/

namespace Makena

theorem foundMarked_congr (g g2 : DiGraph) (P Q : NodeIt → Bool) (h : ∀ n, P n = Q n)
    (hs : foundMarked g g2 P) : foundMarked g g2 Q := by
  have : P = Q := funext h
  rw [← this]; exact hs

theorem foundMarked_refl (g : DiGraph) (hc : foundClear g) :
    foundMarked g g (fun _ => false) := by
  refine ⟨rfl, fun n => ?_⟩
  cases hd : deref g.mNodes n with
  | none => rfl
  | some c =>
    have := hc.1 (n, c) (mem_of_deref _ _ _ hd)
    cases c with
    | FaceConflict f => rfl
    | VertexConflict p id b =>
      simp only [ConflictNode.found] at this
      subst this
      rfl

theorem foundMarked_vertexConflict (g g2 : DiGraph) (P : NodeIt → Bool)
    (hs : foundMarked g g2 P) (n : NodeIt) :
    g2.vertexConflict n = (g.vertexConflict n).map (fun c => (c.1, c.2.1, P n)) := by
  unfold DiGraph.vertexConflict
  rw [hs.2 n]
  cases hd : deref g.mNodes n with
  | none => rfl
  | some c =>
    cases c with
    | FaceConflict f => rfl
    | VertexConflict p id b => rfl

theorem foundMarked_faceConflict (g g2 : DiGraph) (P : NodeIt → Bool)
    (hs : foundMarked g g2 P) (n : NodeIt) : g2.faceConflict n = g.faceConflict n := by
  unfold DiGraph.faceConflict
  rw [hs.2 n]
  cases hd : deref g.mNodes n with
  | none => rfl
  | some c =>
    cases c with
    | FaceConflict f => rfl
    | VertexConflict p id b => rfl

theorem foundMarked_outNeighbors (g g2 : DiGraph) (P : NodeIt → Bool)
    (hs : foundMarked g g2 P) (n : NodeIt) : g2.outNeighbors n = g.outNeighbors n := by
  unfold DiGraph.outNeighbors
  rw [hs.1]

theorem setFound_spec (g g2 : DiGraph) (P : NodeIt → Bool) (n : NodeIt) (b : Bool)
    (hs : foundMarked g g2 P) (hn : (g.vertexConflict n).isSome = true) :
    ∃ g3, g2.setFound n b = some g3 ∧ foundMarked g g3 (fun j => if j = n then b else P j) := by
  have hv := foundMarked_vertexConflict g g2 P hs n
  cases hc : g.vertexConflict n with
  | none => rw [hc] at hn; simp at hn
  | some c =>
    rw [hc] at hv
    simp only [Option.map_some'] at hv
    have hd : deref g.mNodes n = some (ConflictNode.VertexConflict c.1 c.2.1 c.2.2) := by
      unfold DiGraph.vertexConflict at hc
      cases hx : deref g.mNodes n with
      | none => rw [hx] at hc; simp at hc
      | some x =>
        rw [hx] at hc
        cases x with
        | FaceConflict f => simp at hc
        | VertexConflict p id b0 =>
          simp only [Option.some.injEq] at hc
          rw [← hc]
    have hd2 := hs.2 n
    rw [hd] at hd2
    have hsome := assign_isSome (fun _ => ConflictNode.VertexConflict c.1 c.2.1 b) n g2.mNodes
      (by rw [hd2]; rfl)
    cases hl : assign g2.mNodes n (fun _ => ConflictNode.VertexConflict c.1 c.2.1 b) with
    | none => rw [hl] at hsome; simp at hsome
    | some l =>
      refine ⟨{ g2 with mNodes := l }, ?_, hs.1, fun j => ?_⟩
      · simp only [DiGraph.setFound, hv, Option.bind_eq_bind, Option.some_bind, hl]
        rfl
      · have := deref_assign (fun _ => ConflictNode.VertexConflict c.1 c.2.1 b) n _ _ hl j
        simp only
        rw [this]
        by_cases hj : j = n
        · rw [if_pos hj, hj, hd2, hd]
          simp [ConflictNode.mark]
        · rw [if_neg hj, hs.2 j]
          simp [hj]

theorem setFoundAll_spec (g : DiGraph) (b : Bool) :
    ∀ (L : List NodeIt) (g2 : DiGraph) (P : NodeIt → Bool), foundMarked g g2 P →
      (∀ n ∈ L, (g.vertexConflict n).isSome = true) →
      ∃ g3, setFoundAll b L g2 = some g3 ∧
        foundMarked g g3 (fun j => if j ∈ L then b else P j) := by
  intro L
  induction L with
  | nil =>
    intro g2 P hs _
    exact ⟨g2, rfl, foundMarked_congr g g2 _ _ (fun n => by simp) hs⟩
  | cons n L ih =>
    intro g2 P hs hL
    obtain ⟨g3, e1, e2⟩ := setFound_spec g g2 P n b hs (hL n (List.mem_cons_self _ _))
    obtain ⟨g4, e3, e4⟩ := ih g3 _ e2 (fun k hk => hL k (List.mem_cons_of_mem _ hk))
    refine ⟨g4, ?_, ?_⟩
    · simp only [setFoundAll, e1, Option.bind_eq_bind, Option.some_bind]
      exact e3
    · refine foundMarked_congr g g4 _ _ (fun j => ?_) e4
      by_cases h1 : j ∈ L
      · simp [h1]
      · by_cases h2 : j = n
        · simp [h2]
        · simp [h1, h2]

theorem notFound_spec (g g2 : DiGraph) (P : NodeIt → Bool) (hs : foundMarked g g2 P) :
    ∀ L : List NodeIt, (∀ n ∈ L, (g.vertexConflict n).isSome = true) →
      notFound g2 L = some (L.filter (fun n => !P n)) := by
  intro L
  induction L with
  | nil => intro _; rfl
  | cons n L ih =>
    intro hL
    have hv := foundMarked_vertexConflict g g2 P hs n
    have hn := hL n (List.mem_cons_self _ _)
    cases hc : g.vertexConflict n with
    | none => rw [hc] at hn; simp at hn
    | some c =>
      rw [hc] at hv
      simp only [Option.map_some'] at hv
      simp only [notFound, hv, ih (fun k hk => hL k (List.mem_cons_of_mem _ hk)),
        Option.bind_eq_bind, Option.some_bind, Option.pure_def, List.filter_cons]

theorem faceConflictOf_marked (m : Manifold) (g : DiGraph) (P : NodeIt → Bool)
    (hs : foundMarked m.mConflictGraph g P) (he : HalfEdgeIt) :
    faceConflictOf { m with mConflictGraph := g } he = faceConflictOf m he := by
  unfold faceConflictOf
  show (m.halfEdge he).bind _ = (m.halfEdge he).bind _
  cases m.halfEdge he with
  | none => rfl
  | some H =>
    simp only [Option.bind_eq_bind, Option.some_bind]
    cases H.mFace with
    | none => rfl
    | some f =>
      simp only [Option.some_bind]
      show (m.face f).bind _ = (m.face f).bind _
      cases m.face f with
      | none => rfl
      | some F =>
        simp only [Option.some_bind]
        cases F.mFaceConflict with
        | none => rfl
        | some fc =>
          simp only [Option.some_bind]
          rw [foundMarked_faceConflict m.mConflictGraph g P hs fc]

theorem outNeighbors_vertexConflict (g : DiGraph) (hc : foundClear g) (fc n : NodeIt)
    (h : n ∈ g.outNeighbors fc) : (g.vertexConflict n).isSome = true := by
  unfold DiGraph.outNeighbors at h
  obtain ⟨e, he, e2⟩ := List.mem_map.mp h
  rw [← e2]
  exact hc.2 e (List.mem_of_mem_filter he)

theorem makeFrontierLoop_spec (m : Manifold) (hc : foundClear m.mConflictGraph) :
    ∀ (hes : List HalfEdgeIt) (g : DiGraph),
      foundMarked m.mConflictGraph g (fun _ => false) → frontierReady m hes →
      ∃ g2, makeFrontierLoop hes { m with mConflictGraph := g } =
          some ({ m with mConflictGraph := g2 },
            hes.map (fun he => ⟨he, candidatesOf m he⟩)) ∧
        foundMarked m.mConflictGraph g2 (fun _ => false) := by
  intro hes
  induction hes with
  | nil =>
    intro g hs _
    exact ⟨g, rfl, hs⟩
  | cons he hes ih =>
    intro g hs hr
    obtain ⟨h1, h2⟩ := hr he (List.mem_cons_self _ _)
    cases hfc1 : faceConflictOf m he with
    | none => rw [hfc1] at h1; simp at h1
    | some fc1 =>
      cases hH : m.halfEdge he with
      | none => rw [hH] at h2; simp at h2
      | some H =>
        rw [hH] at h2
        simp only [Option.some_bind] at h2
        cases hfc2 : faceConflictOf m H.mBuddy with
        | none => rw [hfc2] at h2; simp at h2
        | some fc2 =>
          have ho1 : g.outNeighbors fc1 = m.mConflictGraph.outNeighbors fc1 :=
            foundMarked_outNeighbors _ _ _ hs fc1
          obtain ⟨g3, e1, e2⟩ := setFoundAll_spec m.mConflictGraph true
            (m.mConflictGraph.outNeighbors fc1) g _ hs
            (fun n hn => outNeighbors_vertexConflict _ hc fc1 n hn)
          have e3 := notFound_spec m.mConflictGraph g3 _ e2
            (m.mConflictGraph.outNeighbors fc2)
            (fun n hn => outNeighbors_vertexConflict _ hc fc2 n hn)
          obtain ⟨g4, e4, e5⟩ := setFoundAll_spec m.mConflictGraph false
            (m.mConflictGraph.outNeighbors fc1) g3 _ e2
            (fun n hn => outNeighbors_vertexConflict _ hc fc1 n hn)
          have e6 : foundMarked m.mConflictGraph g4 (fun _ => false) := by
            refine foundMarked_congr _ _ _ _ (fun j => ?_) e5
            by_cases hj : j ∈ m.mConflictGraph.outNeighbors fc1
            · simp [hj]
            · simp [hj]
          obtain ⟨g5, e7, e8⟩ := ih g4 e6
            (fun k hk => hr k (List.mem_cons_of_mem _ hk))
          refine ⟨g5, ?_, e8⟩
          have hf1 := faceConflictOf_marked m g _ hs he
          have hf2 := faceConflictOf_marked m g3 _ e2 H.mBuddy
          have ho2 : g3.outNeighbors fc2 = m.mConflictGraph.outNeighbors fc2 :=
            foundMarked_outNeighbors _ _ _ e2 fc2
          have hH3 : Manifold.halfEdge { m with mConflictGraph := g3 } he = some H := hH
          simp only [makeFrontierLoop, hf1, hfc1, ho1, e1, hH3, hf2, hfc2, ho2, e3, e4, e7,
            Option.bind_eq_bind, Option.some_bind, Option.pure_def, List.map_cons,
            Option.some.injEq, Prod.mk.injEq, List.cons.injEq, and_true, true_and]
          unfold candidatesOf visibleTo
          simp only [hH, hfc1, hfc2]
          congr 2
          refine List.filter_congr (fun n _ => ?_)
          by_cases hj : n ∈ m.mConflictGraph.outNeighbors fc1
          · simp [hj]
          · simp [hj]

/-- The frontier of `makeFrontier`: every element carries the candidates of its
half edge, and the conflict graph reads as before. -/
theorem makeFrontier_spec (m : Manifold) (hes : List HalfEdgeIt)
    (hc : foundClear m.mConflictGraph) (hr : frontierReady m hes) :
    ∃ m2 frontier, makeFrontier m hes = some (m2, frontier) ∧
      frontier = hes.map (fun he => ⟨he, candidatesOf m he⟩) ∧
      m2.mConflictGraph.mEdges = m.mConflictGraph.mEdges ∧
      ∀ n, deref m2.mConflictGraph.mNodes n = deref m.mConflictGraph.mNodes n := by
  obtain ⟨g2, e1, e2⟩ := makeFrontierLoop_spec m hc hes m.mConflictGraph
    (foundMarked_refl _ hc) hr
  refine ⟨_, _, e1, rfl, e2.1, fun n => ?_⟩
  have h1 := e2.2 n
  have h2 := (foundMarked_refl _ hc).2 n
  simp only at h1 ⊢
  rw [h1, ← h2]

theorem outNeighbors_eq (g : DiGraph) (n : NodeIt) :
    g.outNeighbors n = ((g.mEdges.map Prod.snd).filter (fun e => decide (e.1 = n))).map Prod.snd := by
  unfold DiGraph.outNeighbors
  induction g.mEdges with
  | nil => rfl
  | cons e l ih =>
    simp only [List.filter_cons, List.map_cons]
    by_cases h : e.2.1 = n
    · simp only [h, decide_True, if_true, List.map_cons, ih]
    · simp only [h, decide_False, Bool.false_eq_true, if_false, ih]

theorem vertexConflict_of_nodes (g g2 : DiGraph) (h : g2.mNodes = g.mNodes) (v : NodeIt) :
    g2.vertexConflict v = g.vertexConflict v := by
  unfold DiGraph.vertexConflict; rw [h]

theorem sameGeometry_face_isSome (m s : Manifold) (h : sameGeometry m s) (f : FaceIt) :
    (s.face f).isSome = (m.face f).isSome := by
  have := sameGeometry_face m s h f
  cases hs : s.face f with
  | none =>
    rw [hs] at this
    cases hm : m.face f with
    | none => rfl
    | some F => rw [hm] at this; simp at this
  | some G =>
    rw [hs] at this
    cases hm : m.face f with
    | none => rw [hm] at this; simp at this
    | some F => rfl

theorem addFacingEdges_spec (s0 : Manifold) (f : FaceIt) (fc : NodeIt) (F : Face)
    (hF : s0.face f = some F) (hr : facingReady s0) :
    ∀ (L : List NodeIt) (s : Manifold), sameGeometry s0 s →
      s.mConflictGraph.mNodes = s0.mConflictGraph.mNodes →
      (∀ v ∈ L, (s0.mConflictGraph.vertexConflict v).isSome = true) →
      ∃ s2, addFacingEdges f fc L s = some s2 ∧ s2.mFaces = s.mFaces ∧ sameGeometry s0 s2 ∧
        s2.mConflictGraph.mNodes = s0.mConflictGraph.mNodes ∧ s.mFresh ≤ s2.mFresh ∧
        s2.mConflictGraph.mEdges.map Prod.snd = s.mConflictGraph.mEdges.map Prod.snd ++
          (facingCandidates s0 f L).map (fun v => (fc, v)) := by
  intro L
  induction L with
  | nil =>
    intro s hg hn _
    exact ⟨s, rfl, rfl, hg, hn, le_refl _, by simp [facingCandidates]⟩
  | cons v L ih =>
    intro s hg hn hL
    have hv := hL v (List.mem_cons_self _ _)
    have hL2 : ∀ v ∈ L, (s0.mConflictGraph.vertexConflict v).isSome = true :=
      fun k hk => hL k (List.mem_cons_of_mem _ hk)
    cases hc : s0.mConflictGraph.vertexConflict v with
    | none => rw [hc] at hv; simp at hv
    | some c =>
      have hsc : s.mConflictGraph.vertexConflict v = some c := by
        rw [vertexConflict_of_nodes _ _ hn]; exact hc
      have hfs := isFacing_isSome s0 hr f F hF c.1 s0.mEpsilonCHMargin
      cases hfr : isFacing s0 f c.1 s0.mEpsilonCHMargin with
      | none => rw [hfr] at hfs; simp at hfs
      | some r =>
        have hsr : isFacing s f c.1 s.mEpsilonCHMargin = some r := by
          rw [hg.2.2.1, isFacing_frame s0 s hg, hfr]
        have hfn : facingNone s0 f c.1 = (r.1 && decide (r.2 = predicate.NONE)) := by
          unfold facingNone; rw [hfr]
        simp only [addFacingEdges, hsc, hsr, Option.bind_eq_bind, Option.some_bind]
        by_cases hfac : r.1 = true ∧ r.2 = predicate.NONE
        · have hfn2 : facingNone s0 f c.1 = true := by rw [hfn]; simp [hfac.1, hfac.2]
          rw [if_pos hfac]
          obtain ⟨s2, e1, e2, e3, e4, e5, e6⟩ := ih (addConflictEdge s fc v)
            ⟨hg.1, hg.2.1, hg.2.2.1, hg.2.2.2⟩ hn hL2
          refine ⟨s2, e1, e2, e3, e4, ?_, ?_⟩
          · simp only [addConflictEdge] at e5; omega
          · rw [e6]
            simp [addConflictEdge, DiGraph.addEdge, facingCandidates, List.filter_cons, hc, hfn2]
        · have hfn2 : facingNone s0 f c.1 = false := by
            rw [hfn]
            by_cases h1 : r.1 = true
            · have h2 : ¬ r.2 = predicate.NONE := fun h2 => hfac ⟨h1, h2⟩
              simp [h2]
            · simp [h1]
          rw [if_neg hfac]
          obtain ⟨s2, e1, e2, e3, e4, e5, e6⟩ := ih s hg hn hL2
          refine ⟨s2, e1, e2, e3, e4, e5, ?_⟩
          rw [e6]
          simp [facingCandidates, List.filter_cons, hc, hfn2]

theorem vertexConflict_deref_isSome (g : DiGraph) (v : NodeIt)
    (h : (g.vertexConflict v).isSome = true) : (deref g.mNodes v).isSome = true := by
  unfold DiGraph.vertexConflict at h
  cases hd : deref g.mNodes v with
  | none => rw [hd] at h; simp at h
  | some c => rfl

theorem vertexConflict_kept (g g2 : DiGraph)
    (hd : ∀ k, (deref g.mNodes k).isSome = true → deref g2.mNodes k = deref g.mNodes k)
    (v : NodeIt) (h : (g.vertexConflict v).isSome = true) :
    g2.vertexConflict v = g.vertexConflict v := by
  unfold DiGraph.vertexConflict
  rw [hd v (vertexConflict_deref_isSome g v h)]

theorem facingCandidates_frame (m s : Manifold) (hg : sameGeometry m s)
    (hd : ∀ k, (deref m.mConflictGraph.mNodes k).isSome = true →
      deref s.mConflictGraph.mNodes k = deref m.mConflictGraph.mNodes k)
    (f : FaceIt) (L : List NodeIt)
    (hL : ∀ v ∈ L, (m.mConflictGraph.vertexConflict v).isSome = true) :
    facingCandidates s f L = facingCandidates m f L := by
  unfold facingCandidates
  refine List.filter_congr (fun v hv => ?_)
  rw [vertexConflict_kept _ _ hd v (hL v hv)]
  cases m.mConflictGraph.vertexConflict v with
  | none => rfl
  | some c => exact facingNone_frame m s hg f c.1

theorem faceOf_frame (m s : Manifold) (hg : sameGeometry m s) (he : HalfEdgeIt) :
    faceOf s he = faceOf m he := by
  unfold faceOf Manifold.halfEdge
  rw [hg.2.1]

theorem newFaceConflict_spec (m : Manifold) (f : FaceIt) (F : Face) (hF : m.face f = some F) :
    ∃ m1, newFaceConflict m f = some (m1, m.mFresh) ∧ sameGeometry m m1 ∧
      m1.mFresh = m.mFresh + 1 ∧
      m1.mConflictGraph.mNodes =
        m.mConflictGraph.mNodes ++ [(m.mFresh, ConflictNode.FaceConflict f)] ∧
      m1.mConflictGraph.mEdges = m.mConflictGraph.mEdges ∧
      (∀ j, conflictNodeOf m1 j = if j = f then some m.mFresh else conflictNodeOf m j) ∧
      (m1.face f).isSome = true := by
  obtain ⟨l, hl, hset⟩ := setFace_some m f
    (fun F => { F with mFaceConflict := some m.mFresh }) (by rw [hF]; rfl)
  have hd := deref_assign (fun F : Face => { F with mFaceConflict := some m.mFresh }) f _ _ hl
  have hF2 : deref m.mFaces f = some F := hF
  let m1 : Manifold :=
    { m with mFaces := l,
             mConflictGraph := m.mConflictGraph.addNode m.mFresh (ConflictNode.FaceConflict f),
             mFresh := m.mFresh + 1 }
  refine ⟨m1, ?_, ?_, rfl, rfl, rfl, ?_, ?_⟩
  · simp only [newFaceConflict, hset, Option.bind_eq_bind, Option.some_bind, Option.pure_def]
  · exact ⟨rfl, rfl, rfl, assign_map_eq (fun F : Face => { F with mFaceConflict := some m.mFresh })
      Face.geometry (fun a => rfl) f _ _ hl⟩
  · intro j
    show (deref l j).bind _ = _
    rw [hd j]
    by_cases hj : j = f
    · rw [if_pos hj, if_pos hj, hF2]; rfl
    · rw [if_neg hj, if_neg hj]; rfl
  · show (deref l f).isSome = true
    rw [hd f, if_pos rfl, hF2]; rfl

theorem faceOf_spec (m : Manifold) (he : HalfEdgeIt)
    (h : ((faceOf m he).bind m.face).isSome = true) :
    ∃ H f F, m.halfEdge he = some H ∧ H.mFace = some f ∧ m.face f = some F ∧
      faceOf m he = some f := by
  unfold faceOf at h ⊢
  cases hH : m.halfEdge he with
  | none => rw [hH] at h; simp at h
  | some H =>
    rw [hH] at h
    simp only [Option.some_bind] at h ⊢
    cases hf : H.mFace with
    | none => rw [hf] at h; simp at h
    | some f =>
      rw [hf] at h
      simp only [Option.some_bind] at h
      cases hF : m.face f with
      | none => rw [hF] at h; simp at h
      | some F => exact ⟨H, f, F, rfl, hf, hF, rfl⟩

theorem updateConflictGraph_spec :
    ∀ (fes : List FrontierElem) (m : Manifold), updateReady m fes →
      ∃ m2, updateConflictGraph fes m = some m2 ∧ sameGeometry m m2 ∧ m.mFresh ≤ m2.mFresh ∧
        (∀ k, (deref m.mConflictGraph.mNodes k).isSome = true →
          deref m2.mConflictGraph.mNodes k = deref m.mConflictGraph.mNodes k) ∧
        (∀ k, k < m.mFresh → m2.mConflictGraph.outNeighbors k = m.mConflictGraph.outNeighbors k) ∧
        (∀ g, some g ∉ fes.map (fun fe => faceOf m fe.mHeit) →
          conflictNodeOf m2 g = conflictNodeOf m g) ∧
        ∀ fe ∈ fes, ∃ f n, faceOf m fe.mHeit = some f ∧ conflictNodeOf m2 f = some n ∧
          m2.mConflictGraph.faceConflict n = some f ∧
          m2.mConflictGraph.outNeighbors n = facingCandidates m f fe.mFacingVertices := by
  intro fes
  induction fes with
  | nil =>
    intro m _
    exact ⟨m, rfl, sameGeometry_refl m, le_refl _, fun _ _ => rfl, fun _ _ => rfl,
      fun _ _ => rfl, by simp⟩
  | cons fe fes ih =>
    intro m hr
    obtain ⟨h1, h2, h3, h4, h5⟩ := hr
    obtain ⟨hfe1, hfe2⟩ := h1 fe (List.mem_cons_self _ _)
    obtain ⟨H, f, F, hH, hHf, hF, hfo⟩ := faceOf_spec m fe.mHeit hfe1
    obtain ⟨m1, a1, a2, a3, a4, a5, a6, a7⟩ := newFaceConflict_spec m f F hF
    have hd1 : ∀ k, (deref m.mConflictGraph.mNodes k).isSome = true →
        deref m1.mConflictGraph.mNodes k = deref m.mConflictGraph.mNodes k := by
      intro k hk
      rw [a4]; exact deref_append_of_isSome _ _ _ hk
    cases hF1 : m1.face f with
    | none => rw [hF1] at a7; simp at a7
    | some F1 =>
      obtain ⟨m3, b1, b2, b3, b4, b5, b6⟩ := addFacingEdges_spec m1 f m.mFresh F1 hF1
        (facingReady_frame m m1 a2 h3) fe.mFacingVertices m1 (sameGeometry_refl m1) rfl
        (by
          intro v hv
          rw [vertexConflict_kept _ _ hd1 v (hfe2 v hv)]
          exact hfe2 v hv)
      have hg3 : sameGeometry m m3 := sameGeometry_trans m m1 m3 a2 b3
      have hfc : facingCandidates m1 f fe.mFacingVertices =
          facingCandidates m f fe.mFacingVertices :=
        facingCandidates_frame m m1 a2 hd1 f _ hfe2
      rw [hfc, a5] at b6
      have hd3 : ∀ k, (deref m.mConflictGraph.mNodes k).isSome = true →
          deref m3.mConflictGraph.mNodes k = deref m.mConflictGraph.mNodes k := by
        intro k hk
        rw [b4]; exact hd1 k hk
      have hc3 : ∀ j, conflictNodeOf m3 j = if j = f then some m.mFresh else conflictNodeOf m j := by
        intro j
        rw [← a6 j]
        unfold conflictNodeOf Manifold.face
        rw [b2]
      have hout3 : ∀ k, m3.mConflictGraph.outNeighbors k =
          m.mConflictGraph.outNeighbors k ++
            (if k = m.mFresh then facingCandidates m f fe.mFacingVertices else []) := by
        intro k
        rw [outNeighbors_eq, outNeighbors_eq, b6, List.filter_append, List.map_append]
        congr 1
        by_cases hk : k = m.mFresh
        · rw [if_pos hk, hk]
          rw [List.filter_eq_self.mpr (by
            intro e he
            obtain ⟨v, _, e2⟩ := List.mem_map.mp he
            rw [← e2]; simp)]
          simp [List.map_map, Function.comp]
        · rw [if_neg hk]
          rw [List.filter_eq_nil_iff.mpr (by
            intro e he
            obtain ⟨v, _, e2⟩ := List.mem_map.mp he
            rw [← e2]
            simp only [decide_eq_true_eq]
            exact fun e3 => hk e3.symm)]
          rfl
      have hold : ∀ k, m.mFresh ≤ k → m.mConflictGraph.outNeighbors k = [] := by
        intro k hk
        unfold DiGraph.outNeighbors
        rw [List.filter_eq_nil_iff.mpr (by
          intro e he
          have := h5 e he
          simp only [decide_eq_true_eq]
          intro e2
          rw [e2] at this
          exact absurd this (Nat.not_lt.mpr hk))]
        rfl
      have hr3 : updateReady m3 fes := by
        refine ⟨?_, ?_, facingReady_frame m m3 hg3 h3, ?_, ?_⟩
        · intro fe2 hfe
          obtain ⟨k1, k2⟩ := h1 fe2 (List.mem_cons_of_mem _ hfe)
          refine ⟨?_, ?_⟩
          · rw [faceOf_frame m m3 hg3]
            cases hx : faceOf m fe2.mHeit with
            | none => rw [hx] at k1; simp at k1
            | some f2 =>
              rw [hx] at k1
              simp only [Option.some_bind] at k1 ⊢
              rw [sameGeometry_face_isSome m m3 hg3]; exact k1
          · intro v hv
            rw [vertexConflict_kept _ _ hd3 v (k2 v hv)]
            exact k2 v hv
        · have : fes.map (fun fe => faceOf m3 fe.mHeit) = fes.map (fun fe => faceOf m fe.mHeit) :=
            List.map_congr_left (fun fe _ => faceOf_frame m m3 hg3 fe.mHeit)
          rw [this]
          exact (List.nodup_cons.mp h2).2
        · intro q hq
          rw [b4, a4] at hq
          rcases List.mem_append.mp hq with k | k
          · exact Nat.lt_of_lt_of_le (h4 q k) (by omega)
          · rw [List.mem_singleton] at k
            rw [k]
            exact Nat.lt_of_lt_of_le (Nat.lt_succ_self m.mFresh) (by omega)
        · intro e he
          have he2 : e.2 ∈ m3.mConflictGraph.mEdges.map Prod.snd :=
            List.mem_map.mpr ⟨e, he, rfl⟩
          rw [b6] at he2
          rcases List.mem_append.mp he2 with k | k
          · obtain ⟨e0, he0, e3⟩ := List.mem_map.mp k
            rw [← e3]
            exact Nat.lt_of_lt_of_le (h5 e0 he0) (by omega)
          · obtain ⟨v, _, e3⟩ := List.mem_map.mp k
            rw [← e3]
            exact Nat.lt_of_lt_of_le (Nat.lt_succ_self m.mFresh) (by omega)
      obtain ⟨m2, c1, c2, c3, c4, c5, c6, c7⟩ := ih m3 hr3
      have hfo3 : ∀ he, faceOf m3 he = faceOf m he := faceOf_frame m m3 hg3
      have hfnot : some f ∉ fes.map (fun fe => faceOf m3 fe.mHeit) := by
        have : fes.map (fun fe => faceOf m3 fe.mHeit) = fes.map (fun fe => faceOf m fe.mHeit) :=
          List.map_congr_left (fun fe _ => hfo3 fe.mHeit)
        rw [this, ← hfo]
        exact (List.nodup_cons.mp h2).1
      have hn3 : deref m3.mConflictGraph.mNodes m.mFresh =
          some (ConflictNode.FaceConflict f) := by
        rw [b4, a4, deref_append_of_none _ _ _ (deref_none_of_lt m.mFresh _ h4 _ (le_refl _))]
        simp [deref]
      refine ⟨m2, ?_, sameGeometry_trans m m3 m2 hg3 c2, by omega, ?_, ?_, ?_, ?_⟩
      · simp only [updateConflictGraph, hH, hHf, a1, b1, Option.bind_eq_bind, Option.some_bind]
        exact c1
      · intro k hk
        rw [c4 k (by rw [hd3 k hk]; exact hk), hd3 k hk]
      · intro k hk
        rw [c5 k (Nat.lt_of_lt_of_le hk (by omega)), hout3 k, if_neg (Nat.ne_of_lt hk),
          List.append_nil]
      · intro g hg
        simp only [List.map_cons, List.mem_cons, not_or] at hg
        have hgf : g ≠ f := by
          intro e
          rw [e, hfo] at hg
          exact hg.1 rfl
        rw [c6 g (by
          have : fes.map (fun fe => faceOf m3 fe.mHeit) = fes.map (fun fe => faceOf m fe.mHeit) :=
            List.map_congr_left (fun fe _ => hfo3 fe.mHeit)
          rw [this]; exact hg.2), hc3 g, if_neg hgf]
      · intro fe2 hfe
        rcases List.mem_cons.mp hfe with k | k
        · subst k
          refine ⟨f, m.mFresh, hfo, ?_, ?_, ?_⟩
          · rw [c6 f hfnot, hc3 f, if_pos rfl]
          · unfold DiGraph.faceConflict
            rw [c4 m.mFresh (by rw [hn3]; rfl), hn3]
          · rw [c5 m.mFresh (by omega), hout3, if_pos rfl, hold _ (le_refl _), List.nil_append]
        · obtain ⟨f2, n2, d1, d2, d3, d4⟩ := c7 fe2 k
          refine ⟨f2, n2, by rw [← hfo3]; exact d1, d2, d3, ?_⟩
          rw [d4]
          exact facingCandidates_frame m m3 hg3 hd3 f2 _ (h1 fe2 hfe).2

set_option maxRecDepth 100000 in
set_option synthInstance.maxSize 4096 in
/-- C26, counterexample.  With `epsilon = 1 / 4` on `sixPoints`, the first point of
the main loop is incorporated; the second point has the conflict node 68 and is in
the list `vertices`.  On the frontier half edge whose new face is 81 the candidates
are the node 66 alone (68 was visible neither to the removed nor to the kept face on
that half edge), the point of 68 faces the face 81 (`isFacing` returns `true` with
`NONE`), and no edge leaves the conflict node of 81.  With the default `epsilon` on
`pointNextToEdge` the last point faces no face of the simplex, so it gets no node,
and it faces the new face 90. -/
theorem updateConflictGraph_misses_point :
    (firstUpdate 40 sixPoints (1 / 4)).map (fun r => r.2.2.2) = some [66, 68] ∧
    (firstUpdate 40 sixPoints (1 / 4)).map
        (fun r => r.2.1.map (fun fe => candidatesOf r.1 fe.mHeit)) =
      some [[66], [66], [66, 68]] ∧
    (firstUpdate 40 sixPoints (1 / 4)).map (fun r => frontierTable r.2.2.1 r.2.1) =
      some [(some 81, [66], [], [68]), (some 92, [66], [], []),
        (some 96, [66, 68], [], [])] ∧
    (firstUpdate 40 pointNextToEdge EPSILON_SQUARED).map
        (fun r => (r.2.2.2,
          r.1.mFaces.map
            (fun f => facingNone r.1 f.1 ⟨9 / 1000000000, 2, 9 / 1000000000⟩))) =
      some ([66], [false, false, false, false]) ∧
    (firstUpdate 40 pointNextToEdge EPSILON_SQUARED).map
        (fun r => r.2.2.1.mFaces.map
          (fun f => (f.1, facingNone r.2.2.1 f.1 ⟨9 / 1000000000, 2, 9 / 1000000000⟩))) =
      some [(22, false), (26, false), (30, false), (79, false), (90, true), (94, false)] ∧
    (firstUpdate 40 pointNextToEdge EPSILON_SQUARED).map
        (fun r => (frontierTable r.2.2.1 r.2.1).map (fun t => (t.1, t.2.2.1))) =
      some [(some 79, []), (some 90, []), (some 94, [])] := by
  decide!

/-- C26, amended.  `makeFrontier` gives every frontier half edge as candidates the
points that had a conflict edge from the face of the half edge or from the face of
its buddy, and leaves the conflict graph as it reads it; and after
`updateConflictGraph` the face of every frontier half edge stores a new
`FaceConflict` node whose edges go to exactly the candidates of that half edge that
face it (`isFacing` returns `true` with `pred = NONE`).  Both functions return. -/
theorem updateConflictGraph_candidates :
    (∀ (m : Manifold) (halfEdges : List HalfEdgeIt), foundClear m.mConflictGraph →
      frontierReady m halfEdges →
      ∃ m2 frontier, makeFrontier m halfEdges = some (m2, frontier) ∧
        frontier = halfEdges.map (fun he => ⟨he, candidatesOf m he⟩) ∧
        m2.mConflictGraph.mEdges = m.mConflictGraph.mEdges ∧
        ∀ n, deref m2.mConflictGraph.mNodes n = deref m.mConflictGraph.mNodes n) ∧
    (∀ (m : Manifold) (frontier : List FrontierElem), updateReady m frontier →
      ∃ m2, updateConflictGraph frontier m = some m2 ∧
        ∀ fe ∈ frontier, ∃ f n, faceOf m fe.mHeit = some f ∧ conflictNodeOf m2 f = some n ∧
          m2.mConflictGraph.faceConflict n = some f ∧
          m2.mConflictGraph.outNeighbors n = facingCandidates m f fe.mFacingVertices) := by
  refine ⟨fun m halfEdges hc hr => makeFrontier_spec m halfEdges hc hr, ?_⟩
  intro m frontier hr
  obtain ⟨m2, e1, _, _, _, _, _, e7⟩ := updateConflictGraph_spec frontier m hr
  exact ⟨m2, e1, e7⟩

set_option maxRecDepth 100000 in
/-- C26, witness: on the corner simplex with its conflict graph, the frontier of
the half edges around the face 22, and `updateConflictGraph` for the half edges 8
and 11 with the candidates `[66]` and `[66, 68]`. -/
theorem updateConflictGraph_candidates_witness :
    (∃ m2 frontier, makeFrontier conflictSimplex [8, 15, 6] = some (m2, frontier) ∧
        frontier = [8, 15, 6].map (fun he => ⟨he, candidatesOf conflictSimplex he⟩) ∧
        m2.mConflictGraph.mEdges = conflictSimplex.mConflictGraph.mEdges ∧
        ∀ n, deref m2.mConflictGraph.mNodes n = deref conflictSimplex.mConflictGraph.mNodes n) ∧
    (∃ m2, updateConflictGraph [⟨8, [66]⟩, ⟨11, [66, 68]⟩] conflictSimplex = some m2 ∧
        ∀ fe ∈ [(⟨8, [66]⟩ : FrontierElem), ⟨11, [66, 68]⟩], ∃ f n,
          faceOf conflictSimplex fe.mHeit = some f ∧ conflictNodeOf m2 f = some n ∧
          m2.mConflictGraph.faceConflict n = some f ∧
          m2.mConflictGraph.outNeighbors n =
            facingCandidates conflictSimplex f fe.mFacingVertices) :=
  have h : foundClear conflictSimplex.mConflictGraph ∧
      frontierReady conflictSimplex [8, 15, 6] ∧
      updateReady conflictSimplex [⟨8, [66]⟩, ⟨11, [66, 68]⟩] := by
    unfold foundClear frontierReady updateReady facingReady
    decide!
  ⟨updateConflictGraph_candidates.1 conflictSimplex [8, 15, 6] h.1 h.2.1,
    updateConflictGraph_candidates.2 conflictSimplex [⟨8, [66]⟩, ⟨11, [66, 68]⟩] h.2.2⟩

end Makena

/-! ## `removeEdge` on an edge whose neighbourhood is in place -/

namespace Makena

theorem setHalfEdge_some (m : Manifold) (h : HalfEdgeIt) (f : HalfEdge → HalfEdge)
    (hs : (m.halfEdge h).isSome = true) :
    ∃ l, assign m.mHalfEdges h f = some l ∧
      m.setHalfEdge h f = some { m with mHalfEdges := l } := by
  have h1 := assign_isSome f h m.mHalfEdges hs
  unfold Manifold.setHalfEdge
  cases hl : assign m.mHalfEdges h f with
  | none => rw [hl] at h1; simp at h1
  | some l => exact ⟨l, rfl, rfl⟩

theorem setVertex_some (m : Manifold) (v : VertexIt) (f : Vertex → Vertex)
    (hs : (m.vertex v).isSome = true) :
    ∃ l, assign m.mVertices v f = some l ∧
      m.setVertex v f = some { m with mVertices := l } := by
  have h1 := assign_isSome f v m.mVertices hs
  unfold Manifold.setVertex
  cases hl : assign m.mVertices v f with
  | none => rw [hl] at h1; simp at h1
  | some l => exact ⟨l, rfl, rfl⟩

theorem assign_keys {α : Type} (f : α → α) (i : Nat) :
    ∀ l l2 : List (Nat × α), assign l i f = some l2 → l2.map Prod.fst = l.map Prod.fst := by
  intro l
  induction l with
  | nil => intro l2 h; simp [assign] at h
  | cons p l ih =>
    intro l2 h
    obtain ⟨k, a⟩ := p
    simp only [assign] at h
    by_cases hk : k = i
    · rw [if_pos hk] at h
      simp only [Option.some.injEq] at h
      subst h
      rfl
    · rw [if_neg hk] at h
      cases hrec : assign l i f with
      | none => rw [hrec] at h; simp at h
      | some l3 =>
        rw [hrec] at h
        simp only [Option.some.injEq] at h
        subst h
        simp [ih l3 hrec]

theorem mem_keys_of_deref {α : Type} (l : List (Nat × α)) (i : Nat)
    (h : (deref l i).isSome = true) : i ∈ l.map Prod.fst := by
  cases hd : deref l i with
  | none => rw [hd] at h; simp at h
  | some a => exact List.mem_map.mpr ⟨(i, a), mem_of_deref l i a hd, rfl⟩

theorem eraseAt_eq_filter {α : Type} (i : Nat) :
    ∀ l : List (Nat × α), i ∈ l.map Prod.fst → (l.map Prod.fst).Nodup →
      eraseAt l i = some (l.filter (fun q => decide (q.1 ≠ i))) := by
  intro l
  induction l with
  | nil => intro h; simp at h
  | cons p l ih =>
    intro h hn
    obtain ⟨k, a⟩ := p
    simp only [List.map_cons, List.nodup_cons] at hn
    simp only [eraseAt]
    by_cases hk : k = i
    · rw [if_pos hk]
      have hnot : i ∉ l.map Prod.fst := by rw [← hk]; exact hn.1
      have : l.filter (fun q => decide (q.1 ≠ i)) = l := by
        rw [List.filter_eq_self]
        intro q hq
        simp only [ne_eq, decide_eq_true_eq]
        intro e
        exact hnot (List.mem_map.mpr ⟨q, hq, e⟩)
      rw [List.filter_cons, if_neg (by simp [hk]), this]
    · rw [if_neg hk]
      simp only [List.map_cons, List.mem_cons] at h
      have hin : i ∈ l.map Prod.fst := by
        rcases h with h | h
        · exact absurd h.symm hk
        · exact h
      rw [ih hin hn.2, List.filter_cons, if_pos (by simp [hk])]

theorem deref_filter_ne {α : Type} (i j : Nat) :
    ∀ l : List (Nat × α), deref (l.filter (fun q => decide (q.1 ≠ i))) j =
      if j = i then none else deref l j := by
  intro l
  induction l with
  | nil => simp [deref]
  | cons p l ih =>
    obtain ⟨k, a⟩ := p
    by_cases hk : k = i
    · simp only [List.filter_cons, hk, ne_eq, not_true_eq_false, decide_False,
        Bool.false_eq_true, if_false, deref]
      rw [ih]
      by_cases hj : j = i
      · rw [if_pos hj, if_pos hj]
      · rw [if_neg hj, if_neg hj, if_neg (fun e => hj e.symm)]
    · simp only [List.filter_cons, ne_eq, hk, not_false_eq_true, decide_True, if_true, deref]
      by_cases hkj : k = j
      · rw [if_pos hkj, if_pos hkj, if_neg (by rw [← hkj]; exact hk)]
      · rw [if_neg hkj, if_neg hkj]
        exact ih

theorem filter_keys_nodup {α : Type} (l : List (Nat × α)) (p : Nat × α → Bool)
    (h : (l.map Prod.fst).Nodup) : ((l.filter p).map Prod.fst).Nodup :=
  List.Nodup.sublist (List.Sublist.map _ (List.filter_sublist l)) h

theorem isColinear_congr (m s : Manifold) (a b : HalfEdgeIt)
    (h1 : (s.halfEdge a).map (fun H => H.mParent) = (m.halfEdge a).map (fun H => H.mParent))
    (h2 : (s.halfEdge b).map (fun H => H.mParent) = (m.halfEdge b).map (fun H => H.mParent))
    (he : s.mEdges = m.mEdges)
    (p1 : s.dstPoint a = m.dstPoint a) (p2 : s.srcPoint a = m.srcPoint a)
    (p3 : s.dstPoint b = m.dstPoint b) (p4 : s.srcPoint b = m.srcPoint b) :
    isColinear s a b = isColinear m a b := by
  unfold isColinear
  rw [p1, p2, p3, p4]
  have hedge : ∀ e, s.edge e = m.edge e := fun e => by unfold Manifold.edge; rw [he]
  cases hA : m.halfEdge a with
  | none =>
    rw [hA] at h1
    cases hA2 : s.halfEdge a with
    | none => rfl
    | some A2 => rw [hA2] at h1; simp at h1
  | some A =>
    rw [hA] at h1
    cases hA2 : s.halfEdge a with
    | none => rw [hA2] at h1; simp at h1
    | some A2 =>
      rw [hA2] at h1
      simp only [Option.map_some', Option.some.injEq] at h1
      cases hB : m.halfEdge b with
      | none =>
        rw [hB] at h2
        cases hB2 : s.halfEdge b with
        | none => rfl
        | some B2 => rw [hB2] at h2; simp at h2
      | some B =>
        rw [hB] at h2
        cases hB2 : s.halfEdge b with
        | none => rw [hB2] at h2; simp at h2
        | some B2 =>
          rw [hB2] at h2
          simp only [Option.map_some', Option.some.injEq] at h2
          simp only [Option.bind_eq_bind, Option.some_bind, hedge, h1, h2]

theorem srcPoint_of_lookups (m s : Manifold) (h : HalfEdgeIt)
    (h1 : (s.halfEdge h).map (fun H => H.mSrc) = (m.halfEdge h).map (fun H => H.mSrc))
    (h2 : ∀ H, m.halfEdge h = some H →
      (s.vertex H.mSrc).map (fun V => V.mPointLCS) = (m.vertex H.mSrc).map (fun V => V.mPointLCS)) :
    s.srcPoint h = m.srcPoint h := by
  unfold Manifold.srcPoint
  cases hA : m.halfEdge h with
  | none =>
    rw [hA] at h1
    cases hA2 : s.halfEdge h with
    | none => rfl
    | some A2 => rw [hA2] at h1; simp at h1
  | some A =>
    rw [hA] at h1
    have h3 := h2 A hA
    cases hA2 : s.halfEdge h with
    | none => rw [hA2] at h1; simp at h1
    | some A2 =>
      rw [hA2] at h1
      simp only [Option.map_some', Option.some.injEq] at h1
      simp only [Option.bind_eq_bind, Option.some_bind, h1]
      cases hV : m.vertex A.mSrc with
      | none =>
        rw [hV] at h3
        cases hV2 : s.vertex A.mSrc with
        | none => rfl
        | some V2 => rw [hV2] at h3; simp at h3
      | some V =>
        rw [hV] at h3
        cases hV2 : s.vertex A.mSrc with
        | none => rw [hV2] at h3; simp at h3
        | some V2 =>
          rw [hV2] at h3
          simp only [Option.map_some', Option.some.injEq] at h3
          simp [h3]

theorem dstPoint_of_lookups (m s : Manifold) (h : HalfEdgeIt)
    (h1 : (s.halfEdge h).map (fun H => H.mDst) = (m.halfEdge h).map (fun H => H.mDst))
    (h2 : ∀ H, m.halfEdge h = some H →
      (s.vertex H.mDst).map (fun V => V.mPointLCS) = (m.vertex H.mDst).map (fun V => V.mPointLCS)) :
    s.dstPoint h = m.dstPoint h := by
  unfold Manifold.dstPoint
  cases hA : m.halfEdge h with
  | none =>
    rw [hA] at h1
    cases hA2 : s.halfEdge h with
    | none => rfl
    | some A2 => rw [hA2] at h1; simp at h1
  | some A =>
    rw [hA] at h1
    have h3 := h2 A hA
    cases hA2 : s.halfEdge h with
    | none => rw [hA2] at h1; simp at h1
    | some A2 =>
      rw [hA2] at h1
      simp only [Option.map_some', Option.some.injEq] at h1
      simp only [Option.bind_eq_bind, Option.some_bind, h1]
      cases hV : m.vertex A.mDst with
      | none =>
        rw [hV] at h3
        cases hV2 : s.vertex A.mDst with
        | none => rfl
        | some V2 => rw [hV2] at h3; simp at h3
      | some V =>
        rw [hV] at h3
        cases hV2 : s.vertex A.mDst with
        | none => rw [hV2] at h3; simp at h3
        | some V2 =>
          rw [hV2] at h3
          simp only [Option.map_some', Option.some.injEq] at h3
          simp [h3]

/-- The lookups of `s` agree with those of `m` on what `isColinear` reads at the half
edges `a` and `b`. -/
theorem isColinear_of_lookups (m s : Manifold) (a b : HalfEdgeIt)
    (hh : ∀ j, (s.halfEdge j).map (fun H => (H.mSrc, H.mDst, H.mParent)) =
      (m.halfEdge j).map (fun H => (H.mSrc, H.mDst, H.mParent)))
    (he : s.mEdges = m.mEdges)
    (hv : ∀ j, j = a ∨ j = b → ∀ H, m.halfEdge j = some H →
      (s.vertex H.mSrc).map (fun V => V.mPointLCS) = (m.vertex H.mSrc).map (fun V => V.mPointLCS) ∧
      (s.vertex H.mDst).map (fun V => V.mPointLCS) = (m.vertex H.mDst).map (fun V => V.mPointLCS)) :
    isColinear s a b = isColinear m a b := by
  have k1 : ∀ j, (s.halfEdge j).map (fun H => H.mSrc) = (m.halfEdge j).map (fun H => H.mSrc) := by
    intro j
    have := congrArg (Option.map (fun x : VertexIt × VertexIt × EdgeIt => x.1)) (hh j)
    simpa [Option.map_map, Function.comp] using this
  have k2 : ∀ j, (s.halfEdge j).map (fun H => H.mDst) = (m.halfEdge j).map (fun H => H.mDst) := by
    intro j
    have := congrArg (Option.map (fun x : VertexIt × VertexIt × EdgeIt => x.2.1)) (hh j)
    simpa [Option.map_map, Function.comp] using this
  have k3 : ∀ j, (s.halfEdge j).map (fun H => H.mParent) =
      (m.halfEdge j).map (fun H => H.mParent) := by
    intro j
    have := congrArg (Option.map (fun x : VertexIt × VertexIt × EdgeIt => x.2.2)) (hh j)
    simpa [Option.map_map, Function.comp] using this
  exact isColinear_congr m s a b (k3 a) (k3 b) he
    (dstPoint_of_lookups m s a (k2 a) (fun H hH => (hv a (Or.inl rfl) H hH).2))
    (srcPoint_of_lookups m s a (k1 a) (fun H hH => (hv a (Or.inl rfl) H hH).1))
    (dstPoint_of_lookups m s b (k2 b) (fun H hH => (hv b (Or.inr rfl) H hH).2))
    (srcPoint_of_lookups m s b (k1 b) (fun H hH => (hv b (Or.inr rfl) H hH).1))

theorem relink_spec (s : Manifold) (a b : HalfEdgeIt) (hA : (s.halfEdge a).isSome = true)
    (hB : (s.halfEdge b).isSome = true) (hc : (isColinear s a b).isSome = true) :
    ∃ l, relink s a b = some { s with mHalfEdges := l } ∧
      l.map Prod.fst = s.mHalfEdges.map Prod.fst ∧
      ∀ j, deref l j = (deref s.mHalfEdges j).map (relinkAt a b (colinearOr s a b) j) := by
  have hA0 : (deref s.mHalfEdges a).isSome = true := hA
  have hB0 : (deref s.mHalfEdges b).isSome = true := hB
  obtain ⟨l1, a1, e1⟩ := setHalfEdge_some s a (fun H => { H with mNext := some b }) hA
  have d1 := deref_assign (fun H : HalfEdge => { H with mNext := some b }) a _ _ a1
  have hB1 : (deref l1 b).isSome = true := by
    rw [d1 b]
    by_cases h : b = a
    · rw [if_pos h]
      cases hx : deref s.mHalfEdges a with
      | none => rw [hx] at hA0; simp at hA0
      | some X => rfl
    · rw [if_neg h]; exact hB0
  obtain ⟨l2, a2, e2⟩ := setHalfEdge_some { s with mHalfEdges := l1 } b
    (fun H => { H with mPrev := some a }) hB1
  have d2 := deref_assign (fun H : HalfEdge => { H with mPrev := some a }) b _ _ a2
  have hcol : isColinear { s with mHalfEdges := l2 } a b = isColinear s a b := by
    refine isColinear_of_lookups s _ a b (fun j => ?_) rfl (fun _ _ _ _ => ⟨rfl, rfl⟩)
    show (deref l2 j).map _ = (deref s.mHalfEdges j).map _
    rw [d2 j]
    by_cases hjb : j = b
    · rw [if_pos hjb, d1 b]
      by_cases hba : b = a
      · rw [if_pos hba, hjb, hba]
        cases deref s.mHalfEdges a with
        | none => rfl
        | some X => rfl
      · rw [if_neg hba, hjb]
        cases deref s.mHalfEdges b with
        | none => rfl
        | some X => rfl
    · rw [if_neg hjb, d1 j]
      by_cases hja : j = a
      · rw [if_pos hja, hja]
        cases deref s.mHalfEdges a with
        | none => rfl
        | some X => rfl
      · rw [if_neg hja]
  cases hcv : isColinear s a b with
  | none => rw [hcv] at hc; simp at hc
  | some c =>
    have hco : colinearOr s a b = c := by unfold colinearOr; rw [hcv]; rfl
    have hA2 : (deref l2 a).isSome = true := by
      have := assign_keys _ _ _ _ a2
      have k1 := assign_keys _ _ _ _ a1
      have hm : a ∈ l2.map Prod.fst := by
        rw [this, k1]; exact mem_keys_of_deref _ _ hA0
      exact deref_isSome_of_mem a l2 hm
    obtain ⟨l3, a3, e3⟩ := setHalfEdge_some { s with mHalfEdges := l2 } a
      (fun H => { H with mNextPred := c }) hA2
    have d3 := deref_assign (fun H : HalfEdge => { H with mNextPred := c }) a _ _ a3
    have hB3 : (deref l3 b).isSome = true := by
      have k3 := assign_keys _ _ _ _ a3
      have k2 := assign_keys _ _ _ _ a2
      have k1 := assign_keys _ _ _ _ a1
      have hm : b ∈ l3.map Prod.fst := by
        rw [k3, k2, k1]; exact mem_keys_of_deref _ _ hB0
      exact deref_isSome_of_mem b l3 hm
    obtain ⟨l4, a4, e4⟩ := setHalfEdge_some { s with mHalfEdges := l3 } b
      (fun H => { H with mPrevPred := c }) hB3
    have d4 := deref_assign (fun H : HalfEdge => { H with mPrevPred := c }) b _ _ a4
    refine ⟨l4, ?_, ?_, ?_⟩
    · simp only [relink, e1, e2, hcol, hcv, e3, e4, Option.bind_eq_bind, Option.some_bind]
    · rw [assign_keys _ _ _ _ a4, assign_keys _ _ _ _ a3, assign_keys _ _ _ _ a2,
        assign_keys _ _ _ _ a1]
    · intro j
      rw [hco, d4 j]
      by_cases hjb : j = b
      · rw [if_pos hjb, d3 b]
        by_cases hba : b = a
        · rw [if_pos hba, d2 a, if_pos hba.symm, d1 b, if_pos hba, hjb, hba]
          cases deref s.mHalfEdges a with
          | none => rfl
          | some X => simp [relinkAt]
        · rw [if_neg hba, d2 b, if_pos rfl, d1 b, if_neg hba, hjb]
          cases deref s.mHalfEdges b with
          | none => rfl
          | some X => simp [relinkAt, hba]
      · rw [if_neg hjb, d3 j]
        by_cases hja : j = a
        · have hab : ¬ a = b := fun e => hjb (hja.trans e)
          rw [if_pos hja, d2 a, if_neg hab, d1 a, if_pos rfl, hja]
          cases deref s.mHalfEdges a with
          | none => rfl
          | some X => simp [relinkAt, hab]
        · rw [if_neg hja, d2 j, if_neg hjb, d1 j, if_neg hja]
          cases deref s.mHalfEdges j with
          | none => rfl
          | some X => simp [relinkAt, hja, hjb]

theorem eraseIncident_spec (s : Manifold) (v : VertexIt) (it : ListIt) (V : Vertex)
    (hV : s.vertex v = some V) (hn : (V.mIncidentHalfEdges.map Prod.fst).Nodup)
    (hit : it ∈ V.mIncidentHalfEdges.map Prod.fst) :
    ∃ l, eraseIncident s v (some it) = some { s with mVertices := l } ∧
      l.map Prod.fst = s.mVertices.map Prod.fst ∧
      ∀ j, deref l j =
        if j = v then
          some { V with mIncidentHalfEdges :=
                         V.mIncidentHalfEdges.filter (fun q => decide (q.1 ≠ it)) }
        else deref s.mVertices j := by
  obtain ⟨l, a1, e1⟩ := setVertex_some s v
    (fun V0 => { V0 with mIncidentHalfEdges :=
                          V.mIncidentHalfEdges.filter (fun q => decide (q.1 ≠ it)) })
    (by rw [hV]; rfl)
  have d1 := deref_assign _ v _ _ a1
  refine ⟨l, ?_, assign_keys _ _ _ _ a1, fun j => ?_⟩
  · simp only [eraseIncident, hV, eraseAt_eq_filter it _ hit hn, e1, Option.bind_eq_bind,
      Option.some_bind]
  · rw [d1 j]
    by_cases hj : j = v
    · rw [if_pos hj, if_pos hj]
      have : deref s.mVertices v = some V := hV
      rw [this]
      rfl
    · rw [if_neg hj, if_neg hj]

theorem relinkAt_fields (a b : HalfEdgeIt) (c : predicate) (j : HalfEdgeIt) (H : HalfEdge) :
    (relinkAt a b c j H).mSrc = H.mSrc ∧ (relinkAt a b c j H).mDst = H.mDst ∧
    (relinkAt a b c j H).mSrcBackIt = H.mSrcBackIt ∧
    (relinkAt a b c j H).mDstBackIt = H.mDstBackIt ∧
    (relinkAt a b c j H).mParent = H.mParent ∧ (relinkAt a b c j H).mFace = H.mFace ∧
    (relinkAt a b c j H).mBuddy = H.mBuddy := by
  simp only [relinkAt]
  split_ifs <;> exact ⟨rfl, rfl, rfl, rfl, rfl, rfl, rfl⟩

theorem relinkAt_of_ne (a b : HalfEdgeIt) (c : predicate) (j : HalfEdgeIt) (H : HalfEdge)
    (h1 : j ≠ a) (h2 : j ≠ b) : relinkAt a b c j H = H := by
  unfold relinkAt
  simp [h1, h2]

/-- The relinking and the two erasures of one half of `removeEdge`, around the
vertex `v`. -/
theorem spliceAround_spec (s : Manifold) (a b : HalfEdgeIt) (v : VertexIt) (x y : ListIt)
    (V : Vertex) (hA : (s.halfEdge a).isSome = true) (hB : (s.halfEdge b).isSome = true)
    (hc : (isColinear s a b).isSome = true) (hV : s.vertex v = some V)
    (hn : (V.mIncidentHalfEdges.map Prod.fst).Nodup)
    (hx : x ∈ V.mIncidentHalfEdges.map Prod.fst) (hy : y ∈ V.mIncidentHalfEdges.map Prod.fst)
    (hxy : x ≠ y) :
    ∃ lh lv m1 m2, relink s a b = some m1 ∧ eraseIncident m1 v (some x) = some m2 ∧
      eraseIncident m2 v (some y) = some { s with mHalfEdges := lh, mVertices := lv } ∧
      m1.mHalfEdges = lh ∧ m2.mHalfEdges = lh ∧
      lh.map Prod.fst = s.mHalfEdges.map Prod.fst ∧
      lv.map Prod.fst = s.mVertices.map Prod.fst ∧
      (∀ j, deref lh j = (deref s.mHalfEdges j).map (relinkAt a b (colinearOr s a b) j)) ∧
      ∀ j, deref lv j = if j = v then some (withoutEntries V x y) else deref s.mVertices j := by
  obtain ⟨lh, e1, k1, d1⟩ := relink_spec s a b hA hB hc
  obtain ⟨lv1, e2, k2, d2⟩ := eraseIncident_spec { s with mHalfEdges := lh } v x V hV hn hx
  have hV2 : Manifold.vertex { s with mHalfEdges := lh, mVertices := lv1 } v =
      some { V with mIncidentHalfEdges :=
                     V.mIncidentHalfEdges.filter (fun q => decide (q.1 ≠ x)) } := by
    show deref lv1 v = _
    rw [d2 v, if_pos rfl]
  obtain ⟨lv2, e3, k3, d3⟩ := eraseIncident_spec { s with mHalfEdges := lh, mVertices := lv1 }
    v y _ hV2 (filter_keys_nodup _ _ hn)
    (by
      obtain ⟨q, hq, e⟩ := List.mem_map.mp hy
      refine List.mem_map.mpr ⟨q, List.mem_filter.mpr ⟨hq, ?_⟩, e⟩
      simp only [ne_eq, decide_eq_true_eq]
      rw [e]
      exact fun h => hxy h.symm)
  refine ⟨lh, lv2, _, _, e1, e2, e3, rfl, rfl, k1, k3.trans k2, d1, fun j => ?_⟩
  rw [d3 j]
  by_cases hj : j = v
  · rw [if_pos hj, if_pos hj]
    simp only [withoutEntries, List.filter_filter, Option.some.injEq]
    congr 1
    refine List.filter_congr (fun q _ => ?_)
    by_cases h1 : q.1 = x <;> by_cases h2 : q.1 = y <;> simp [h1, h2]
  · rw [if_neg hj, if_neg hj]
    show deref lv1 j = _
    rw [d2 j, if_neg hj]

/-- The first half of `removeEdge` on a state where the edge, its half edges and
what they point at are in place. -/
theorem removeEdgeAtSrc_spec (s : Manifold) (e : EdgeIt) (E : Edge) (H1 H2 : HalfEdge)
    (p1 n2 : HalfEdgeIt) (a1 b1 : ListIt)
    (hE : s.edge e = some E) (hH1 : s.halfEdge E.mHe1 = some H1)
    (hH2 : s.halfEdge E.mHe2 = some H2)
    (hp : H1.mPrev = some p1) (hn : H2.mNext = some n2)
    (ha : H1.mSrcBackIt = some a1) (hb : H2.mDstBackIt = some b1)
    (hkv : (s.mVertices.map Prod.fst).Nodup) (hv : (s.vertex H1.mSrc).isSome = true)
    (h12 : E.mHe1 ≠ E.mHe2)
    (hne : p1 ≠ E.mHe2 →
      (s.halfEdge p1).isSome = true ∧ (s.halfEdge n2).isSome = true ∧
      (isColinear s p1 n2).isSome = true ∧ entriesAt s H1.mSrc a1 b1 E.mHe1 E.mHe2) :
    ∃ lh lv, removeEdgeAtSrc s e = some { s with mHalfEdges := lh, mVertices := lv } ∧
      lh.map Prod.fst = s.mHalfEdges.map Prod.fst ∧ (lv.map Prod.fst).Nodup ∧
      (∀ j, deref lh j = (deref s.mHalfEdges j).map
        (fun H => if p1 ≠ E.mHe2 then relinkAt p1 n2 (colinearOr s p1 n2) j H else H)) ∧
      ∀ j, deref lv j =
        if j = H1.mSrc then
          (if p1 = E.mHe2 then none
           else (s.vertex H1.mSrc).map (fun V => withoutEntries V a1 b1))
        else deref s.mVertices j := by
  by_cases hc : p1 = E.mHe2
  · have hm : H1.mSrc ∈ s.mVertices.map Prod.fst := mem_keys_of_deref _ _ hv
    refine ⟨s.mHalfEdges, s.mVertices.filter (fun q => decide (q.1 ≠ H1.mSrc)), ?_, rfl,
      filter_keys_nodup _ _ hkv, fun j => ?_, fun j => ?_⟩
    · have hp2 : H1.mPrev = some E.mHe2 := by rw [hp, hc]
      simp only [removeEdgeAtSrc, hE, hH1, hp2, eraseAt_eq_filter _ _ hm hkv,
        Option.bind_eq_bind, Option.some_bind, ne_eq, not_true_eq_false, if_false]
      rfl
    · simp only [hc, ne_eq, not_true_eq_false, if_false]
      cases deref s.mHalfEdges j <;> rfl
    · rw [deref_filter_ne, if_pos hc]
  · obtain ⟨hA, hB, hcol, hent⟩ := hne hc
    cases hV : s.vertex H1.mSrc with
    | none => rw [hV] at hv; simp at hv
    | some V =>
      unfold entriesAt at hent
      rw [hV] at hent
      simp only [Option.map_some', Option.getD_some, Option.some_bind] at hent
      obtain ⟨hnd, hda, hdb⟩ := hent
      have hxa : a1 ∈ V.mIncidentHalfEdges.map Prod.fst :=
        mem_keys_of_deref _ _ (by rw [hda]; rfl)
      have hxb : b1 ∈ V.mIncidentHalfEdges.map Prod.fst :=
        mem_keys_of_deref _ _ (by rw [hdb]; rfl)
      have hab : a1 ≠ b1 := by
        intro h
        rw [h, hdb] at hda
        exact h12 (Option.some.inj hda).symm
      obtain ⟨lh, lv, m1, m2, e1, e2, e3, q1, q2, k1, k2, d1, d2⟩ :=
        spliceAround_spec s p1 n2 H1.mSrc a1 b1 V hA hB hcol hV hnd hxa hxb hab
      have g1 : m1.halfEdge E.mHe1 = some (relinkAt p1 n2 (colinearOr s p1 n2) E.mHe1 H1) := by
        show deref m1.mHalfEdges E.mHe1 = _
        rw [q1, d1]
        have : deref s.mHalfEdges E.mHe1 = some H1 := hH1
        rw [this]; rfl
      have g2 : m2.halfEdge E.mHe2 = some (relinkAt p1 n2 (colinearOr s p1 n2) E.mHe2 H2) := by
        show deref m2.mHalfEdges E.mHe2 = _
        rw [q2, d1]
        have : deref s.mHalfEdges E.mHe2 = some H2 := hH2
        rw [this]; rfl
      have f1 := relinkAt_fields p1 n2 (colinearOr s p1 n2) E.mHe1 H1
      have f2 := relinkAt_fields p1 n2 (colinearOr s p1 n2) E.mHe2 H2
      have hp2 : H1.mPrev ≠ some E.mHe2 := by
        rw [hp]; exact fun h => hc (Option.some.inj h)
      refine ⟨lh, lv, ?_, k1, by rw [k2]; exact hkv, fun j => ?_, fun j => ?_⟩
      · simp only [removeEdgeAtSrc, hE, hH1, hH2, hp, hn, e1, g1, f1.1, f1.2.2.1, ha, e2,
          g2, f2.2.2.2.1, hb, e3, Option.bind_eq_bind, Option.some_bind, ne_eq]
        rw [if_pos (fun h => hc (Option.some.inj h))]
      · rw [d1 j]
        simp only [hc, ne_eq, not_false_eq_true, if_true]
      · rw [d2 j, if_neg hc]
        rfl

/-- The second half of `removeEdge`, in the same way. -/
theorem removeEdgeAtDst_spec (s : Manifold) (e : EdgeIt) (E : Edge) (H1 H2 : HalfEdge)
    (p2 n1 : HalfEdgeIt) (a2 b2 : ListIt)
    (hE : s.edge e = some E) (hH1 : s.halfEdge E.mHe1 = some H1)
    (hH2 : s.halfEdge E.mHe2 = some H2)
    (hp : H2.mPrev = some p2) (hn : H1.mNext = some n1)
    (ha : H1.mDstBackIt = some a2) (hb : H2.mSrcBackIt = some b2)
    (hkv : (s.mVertices.map Prod.fst).Nodup) (hv : (s.vertex H1.mDst).isSome = true)
    (h12 : E.mHe1 ≠ E.mHe2)
    (hne : n1 ≠ E.mHe2 →
      (s.halfEdge p2).isSome = true ∧ (s.halfEdge n1).isSome = true ∧
      (isColinear s p2 n1).isSome = true ∧ entriesAt s H1.mDst a2 b2 E.mHe1 E.mHe2) :
    ∃ lh lv, removeEdgeAtDst s e = some { s with mHalfEdges := lh, mVertices := lv } ∧
      lh.map Prod.fst = s.mHalfEdges.map Prod.fst ∧ (lv.map Prod.fst).Nodup ∧
      (∀ j, deref lh j = (deref s.mHalfEdges j).map
        (fun H => if n1 ≠ E.mHe2 then relinkAt p2 n1 (colinearOr s p2 n1) j H else H)) ∧
      ∀ j, deref lv j =
        if j = H1.mDst then
          (if n1 = E.mHe2 then none
           else (s.vertex H1.mDst).map (fun V => withoutEntries V a2 b2))
        else deref s.mVertices j := by
  by_cases hc : n1 = E.mHe2
  · have hm : H1.mDst ∈ s.mVertices.map Prod.fst := mem_keys_of_deref _ _ hv
    refine ⟨s.mHalfEdges, s.mVertices.filter (fun q => decide (q.1 ≠ H1.mDst)), ?_, rfl,
      filter_keys_nodup _ _ hkv, fun j => ?_, fun j => ?_⟩
    · have hp2 : H1.mNext = some E.mHe2 := by rw [hn, hc]
      simp only [removeEdgeAtDst, hE, hH1, hp2, eraseAt_eq_filter _ _ hm hkv,
        Option.bind_eq_bind, Option.some_bind, ne_eq, not_true_eq_false, if_false]
      rfl
    · simp only [hc, ne_eq, not_true_eq_false, if_false]
      cases deref s.mHalfEdges j <;> rfl
    · rw [deref_filter_ne, if_pos hc]
  · obtain ⟨hA, hB, hcol, hent⟩ := hne hc
    cases hV : s.vertex H1.mDst with
    | none => rw [hV] at hv; simp at hv
    | some V =>
      unfold entriesAt at hent
      rw [hV] at hent
      simp only [Option.map_some', Option.getD_some, Option.some_bind] at hent
      obtain ⟨hnd, hda, hdb⟩ := hent
      have hxa : a2 ∈ V.mIncidentHalfEdges.map Prod.fst :=
        mem_keys_of_deref _ _ (by rw [hda]; rfl)
      have hxb : b2 ∈ V.mIncidentHalfEdges.map Prod.fst :=
        mem_keys_of_deref _ _ (by rw [hdb]; rfl)
      have hab : a2 ≠ b2 := by
        intro h
        rw [h, hdb] at hda
        exact h12 (Option.some.inj hda).symm
      obtain ⟨lh, lv, m1, m2, e1, e2, e3, q1, q2, k1, k2, d1, d2⟩ :=
        spliceAround_spec s p2 n1 H1.mDst a2 b2 V hA hB hcol hV hnd hxa hxb hab
      have g1 : m1.halfEdge E.mHe1 = some (relinkAt p2 n1 (colinearOr s p2 n1) E.mHe1 H1) := by
        show deref m1.mHalfEdges E.mHe1 = _
        rw [q1, d1]
        have : deref s.mHalfEdges E.mHe1 = some H1 := hH1
        rw [this]; rfl
      have g2 : m2.halfEdge E.mHe2 = some (relinkAt p2 n1 (colinearOr s p2 n1) E.mHe2 H2) := by
        show deref m2.mHalfEdges E.mHe2 = _
        rw [q2, d1]
        have : deref s.mHalfEdges E.mHe2 = some H2 := hH2
        rw [this]; rfl
      have f1 := relinkAt_fields p2 n1 (colinearOr s p2 n1) E.mHe1 H1
      have f2 := relinkAt_fields p2 n1 (colinearOr s p2 n1) E.mHe2 H2
      have hp2 : H1.mNext ≠ some E.mHe2 := by
        rw [hn]; exact fun h => hc (Option.some.inj h)
      refine ⟨lh, lv, ?_, k1, by rw [k2]; exact hkv, fun j => ?_, fun j => ?_⟩
      · simp only [removeEdgeAtDst, hE, hH1, hH2, hp, hn, e1, g1, f1.2.1, f1.2.2.2.1, ha,
          e2, g2, f2.2.2.1, hb, e3, Option.bind_eq_bind, Option.some_bind, ne_eq]
        rw [if_pos (fun h => hc (Option.some.inj h))]
      · rw [d1 j]
        simp only [hc, ne_eq, not_false_eq_true, if_true]
      · rw [d2 j, if_neg hc]
        rfl

theorem removeEdgeFrame_some (m : Manifold) (e : EdgeIt) (fr : RemoveEdgeFrame)
    (h : removeEdgeFrame m e = some fr) :
    ∃ E H1 H2, m.edge e = some E ∧ m.halfEdge E.mHe1 = some H1 ∧
      m.halfEdge E.mHe2 = some H2 ∧ H1.mPrev = some fr.p1 ∧ H1.mNext = some fr.n1 ∧
      H2.mPrev = some fr.p2 ∧ H2.mNext = some fr.n2 ∧ H1.mSrcBackIt = some fr.a1 ∧
      H2.mDstBackIt = some fr.b1 ∧ H1.mDstBackIt = some fr.a2 ∧ H2.mSrcBackIt = some fr.b2 ∧
      E.mHe1 = fr.he1 ∧ E.mHe2 = fr.he2 ∧ H1.mSrc = fr.v1 ∧ H1.mDst = fr.v2 := by
  simp only [removeEdgeFrame, Option.bind_eq_bind, Option.bind_eq_some, Option.pure_def,
    Option.some.injEq] at h
  obtain ⟨E, hE, H1, hH1, H2, hH2, p1, h1, n1, h2, p2, h3, n2, h4, a1, h5, b1, h6, a2, h7,
    b2, h8, rfl⟩ := h
  exact ⟨E, H1, H2, hE, hH1, hH2, h1, h2, h3, h4, h5, h6, h7, h8, rfl, rfl, rfl, rfl⟩

theorem mem_filter_keys {α : Type} (l : List (Nat × α)) (i j : Nat)
    (h : j ∈ l.map Prod.fst) (hji : j ≠ i) :
    j ∈ (l.filter (fun q => decide (q.1 ≠ i))).map Prod.fst := by
  obtain ⟨q, hq, e⟩ := List.mem_map.mp h
  refine List.mem_map.mpr ⟨q, List.mem_filter.mpr ⟨hq, ?_⟩, e⟩
  simp only [ne_eq, decide_eq_true_eq]
  rw [e]
  exact hji

theorem map_point_withoutEntries (o : Option Vertex) (a b : ListIt) :
    (o.map (fun V => withoutEntries V a b)).map (fun V => V.mPointLCS) =
      o.map (fun V => V.mPointLCS) := by
  cases o <;> rfl

/-- What `removeEdge` does, lookup by lookup. -/
theorem removeEdge_spec (m : Manifold) (e : EdgeIt) (fr : RemoveEdgeFrame)
    (hfr : removeEdgeFrame m e = some fr) (hr : removeEdgeReady m fr) :
    ∃ lv lh le,
      removeEdge m e = some { m with mVertices := lv, mHalfEdges := lh, mEdges := le } ∧
      (∀ j, deref lh j =
        if j = fr.he2 then none else if j = fr.he1 then none
        else (m.halfEdge j).map (splicedAt m fr j)) ∧
      (∀ j, deref lv j =
        if j = fr.v2 then
          (if fr.n1 = fr.he2 then none
           else (m.vertex fr.v2).map (fun V => withoutEntries V fr.a2 fr.b2))
        else if j = fr.v1 then
          (if fr.p1 = fr.he2 then none
           else (m.vertex fr.v1).map (fun V => withoutEntries V fr.a1 fr.b1))
        else m.vertex j) ∧
      ∀ j, deref le j = if j = e then none else m.edge j := by
  obtain ⟨E, H1, H2, hE, hH1, hH2, hp1, hn1, hp2, hn2, ha1, hb1, ha2, hb2, q1, q2, qv1, qv2⟩ :=
    removeEdgeFrame_some m e fr hfr
  obtain ⟨he1, he2, p1, n1, p2, n2, v1, v2, a1, b1, a2, b2⟩ := fr
  unfold removeEdgeReady at hr
  simp only at hp1 hn1 hp2 hn2 ha1 hb1 ha2 hb2 q1 q2 qv1 qv2 hr ⊢
  subst q1 q2 qv1 qv2
  obtain ⟨kv, kh, ke, h12, hv12, c1, c2, c3, c4, c5, c6, i1, i2, ev1, ev2, r1, r2⟩ := hr
  obtain ⟨lh1, lv1, e1, k1, nd1, d1, dv1⟩ := removeEdgeAtSrc_spec m e E H1 H2 p1 n2 a1 b1
    hE hH1 hH2 hp1 hn2 ha1 hb1 kv ev1 h12 r1
  have g1 : Manifold.halfEdge { m with mHalfEdges := lh1, mVertices := lv1 } E.mHe1 =
      some H1 := by
    show deref lh1 E.mHe1 = some H1
    have : deref m.mHalfEdges E.mHe1 = some H1 := hH1
    rw [d1, this]
    show some (if p1 ≠ E.mHe2 then _ else H1) = some H1
    by_cases hc : p1 = E.mHe2
    · rw [if_neg (not_not.mpr hc)]
    · rw [if_pos hc, relinkAt_of_ne _ _ _ _ _ (fun h => c1 h.symm)
        (fun h => hc (i1.mpr h.symm))]
  have g2 : Manifold.halfEdge { m with mHalfEdges := lh1, mVertices := lv1 } E.mHe2 =
      some H2 := by
    show deref lh1 E.mHe2 = some H2
    have : deref m.mHalfEdges E.mHe2 = some H2 := hH2
    rw [d1, this]
    show some (if p1 ≠ E.mHe2 then _ else H2) = some H2
    by_cases hc : p1 = E.mHe2
    · rw [if_neg (not_not.mpr hc)]
    · rw [if_pos hc, relinkAt_of_ne _ _ _ _ _ (fun h => hc h.symm) (fun h => c4 h.symm)]
  have gv : ∀ w, w ≠ H1.mSrc →
      Manifold.vertex { m with mHalfEdges := lh1, mVertices := lv1 } w = m.vertex w := by
    intro w hw
    show deref lv1 w = _
    rw [dv1, if_neg hw]
    rfl
  have gh : ∀ j, (Manifold.halfEdge { m with mHalfEdges := lh1, mVertices := lv1 } j).map
      (fun H => (H.mSrc, H.mDst, H.mParent)) =
      (m.halfEdge j).map (fun H => (H.mSrc, H.mDst, H.mParent)) := by
    intro j
    show (deref lh1 j).map _ = (deref m.mHalfEdges j).map _
    rw [d1]
    cases deref m.mHalfEdges j with
    | none => rfl
    | some X =>
      simp only [Option.map_some']
      by_cases hc : p1 = E.mHe2
      · simp only [hc, ne_eq, not_true_eq_false, if_false]
      · have f := relinkAt_fields p1 n2 (colinearOr m p1 n2) j X
        simp only [hc, ne_eq, not_false_eq_true, if_true, f.1, f.2.1, f.2.2.2.2.1]
  have gc : n1 ≠ E.mHe2 →
      isColinear { m with mHalfEdges := lh1, mVertices := lv1 } p2 n1 = isColinear m p2 n1 := by
    intro hc2
    obtain ⟨_, _, _, _, haw⟩ := r2 hc2
    refine isColinear_of_lookups m _ p2 n1 gh rfl (fun j hj H hH => ?_)
    have key : ∀ w, (p1 = E.mHe2 → w ≠ H1.mSrc) →
        (Manifold.vertex { m with mHalfEdges := lh1, mVertices := lv1 } w).map
          (fun V => V.mPointLCS) = (m.vertex w).map (fun V => V.mPointLCS) := by
      intro w hw
      show (deref lv1 w).map _ = _
      rw [dv1]
      by_cases hwv : w = H1.mSrc
      · rw [if_pos hwv]
        by_cases hc : p1 = E.mHe2
        · exact absurd hwv (hw hc)
        · rw [if_neg hc, map_point_withoutEntries, hwv]
      · rw [if_neg hwv]
        rfl
    have aw : p1 = E.mHe2 → H.mSrc ≠ H1.mSrc ∧ H.mDst ≠ H1.mSrc := by
      intro hc
      obtain ⟨w1, w2⟩ := haw hc
      unfold awayFrom at w1 w2
      rcases hj with hj | hj
      · rw [hj] at hH; rw [hH] at w1
        simpa using w1
      · rw [hj] at hH; rw [hH] at w2
        simpa using w2
    exact ⟨key _ (fun hc => (aw hc).1), key _ (fun hc => (aw hc).2)⟩
  obtain ⟨lh2, lv2, e2, k2, nd2, d2, dv2⟩ := removeEdgeAtDst_spec
    { m with mHalfEdges := lh1, mVertices := lv1 } e E H1 H2 p2 n1 a2 b2
    hE g1 g2 hp2 hn1 ha2 hb2 nd1 (by rw [gv _ (fun h => hv12 h.symm)]; exact ev2) h12
    (fun hc2 => by
      obtain ⟨x1, x2, x3, x4, _⟩ := r2 hc2
      refine ⟨?_, ?_, by rw [gc hc2]; exact x3, ?_⟩
      · show (deref lh1 p2).isSome = true
        rw [d1, Option.isSome_map']
        exact x1
      · show (deref lh1 n1).isSome = true
        rw [d1, Option.isSome_map']
        exact x2
      · unfold entriesAt
        rw [gv _ (fun h => hv12 h.symm)]
        exact x4)
  have m1 : E.mHe1 ∈ lh2.map Prod.fst := by
    rw [k2]
    show E.mHe1 ∈ lh1.map Prod.fst
    rw [k1]
    exact mem_keys_of_deref _ _ (by show (m.halfEdge E.mHe1).isSome = true; rw [hH1]; rfl)
  have m2 : E.mHe2 ∈ lh2.map Prod.fst := by
    rw [k2]
    show E.mHe2 ∈ lh1.map Prod.fst
    rw [k1]
    exact mem_keys_of_deref _ _ (by show (m.halfEdge E.mHe2).isSome = true; rw [hH2]; rfl)
  have n2k : (lh2.map Prod.fst).Nodup := by
    rw [k2]
    show (lh1.map Prod.fst).Nodup
    rw [k1]
    exact kh
  have m3 : e ∈ m.mEdges.map Prod.fst :=
    mem_keys_of_deref _ _ (by show (m.edge e).isSome = true; rw [hE]; rfl)
  refine ⟨lv2, (lh2.filter (fun q => decide (q.1 ≠ E.mHe1))).filter
    (fun q => decide (q.1 ≠ E.mHe2)), m.mEdges.filter (fun q => decide (q.1 ≠ e)),
    ?_, fun j => ?_, fun j => ?_, fun j => ?_⟩
  · have hE2 : Manifold.edge { m with mHalfEdges := lh2, mVertices := lv2 } e = some E := hE
    have x3 : eraseAt (Manifold.mEdges { m with mHalfEdges := lh2, mVertices := lv2 }) e =
        some (m.mEdges.filter (fun q => decide (q.1 ≠ e))) := eraseAt_eq_filter _ _ m3 ke
    have x1 : eraseAt (Manifold.mHalfEdges { m with mHalfEdges := lh2, mVertices := lv2 })
        E.mHe1 = some (lh2.filter (fun q => decide (q.1 ≠ E.mHe1))) :=
      eraseAt_eq_filter _ _ m1 n2k
    simp only [removeEdge, e1, e2, hE2, x1, x3,
      eraseAt_eq_filter _ _ (mem_filter_keys _ _ _ m2 (fun h => h12 h.symm))
        (filter_keys_nodup _ _ n2k),
      Option.bind_eq_bind, Option.some_bind, Option.pure_def]
  · rw [deref_filter_ne]
    by_cases hj2 : j = E.mHe2
    · rw [if_pos hj2, if_pos hj2]
    · rw [if_neg hj2, if_neg hj2, deref_filter_ne]
      by_cases hj1 : j = E.mHe1
      · rw [if_pos hj1, if_pos hj1]
      · rw [if_neg hj1, if_neg hj1, d2]
        show (deref lh1 j).map _ = _
        rw [d1]
        show _ = (deref m.mHalfEdges j).map _
        cases deref m.mHalfEdges j with
        | none => rfl
        | some X =>
          show some _ = some _
          unfold splicedAt
          by_cases hc2 : n1 = E.mHe2
          · simp only [hc2, ne_eq, not_true_eq_false, if_false]
          · have := gc hc2
            simp only [hc2, ne_eq, not_false_eq_true, if_true, colinearOr, this]
  · rw [dv2]
    by_cases hj2 : j = H1.mDst
    · rw [if_pos hj2, if_pos hj2, gv _ (fun h => hv12 h.symm)]
    · rw [if_neg hj2, if_neg hj2]
      show deref lv1 j = _
      rw [dv1]
      rfl
  · rw [deref_filter_ne]
    rfl

theorem fanOrdered_spec (m : Manifold) (v : VertexIt) (V : Vertex)
    (hf : fanOrdered m v V = true) :
    (V.mIncidentHalfEdges.map Prod.snd).Nodup ∧
    (V.mIncidentHalfEdges.map Prod.snd).length % 2 = 0 ∧
    ∀ k, k < (V.mIncidentHalfEdges.map Prod.snd).length / 2 →
      (m.halfEdge ((V.mIncidentHalfEdges.map Prod.snd).getD (2 * k) 0)).map
          (fun I => (I.mBuddy, I.mNext, I.mDst)) =
        some ((V.mIncidentHalfEdges.map Prod.snd).getD (2 * k + 1) 0,
          some ((V.mIncidentHalfEdges.map Prod.snd).getD
            (2 * ((k + (V.mIncidentHalfEdges.map Prod.snd).length / 2 - 1) %
              ((V.mIncidentHalfEdges.map Prod.snd).length / 2)) + 1) 0), v) ∧
      (m.halfEdge ((V.mIncidentHalfEdges.map Prod.snd).getD (2 * k + 1) 0)).map
          (fun O => (O.mBuddy, O.mSrc)) =
        some ((V.mIncidentHalfEdges.map Prod.snd).getD (2 * k) 0, v) := by
  unfold fanOrdered at hf
  simp only [Bool.and_eq_true, decide_eq_true_eq, List.all_eq_true, List.mem_range] at hf
  exact ⟨hf.1.1, hf.1.2, hf.2⟩

theorem getD_inj (l : List Nat) (hn : l.Nodup) (i j : Nat) (hi : i < l.length)
    (hj : j < l.length) (h : l.getD i 0 = l.getD j 0) : i = j := by
  rw [List.getD_eq_getElem l 0 hi, List.getD_eq_getElem l 0 hj] at h
  exact (List.Nodup.getElem_inj_iff hn).mp h

/-- In a fan, the half edge that ends at `v` is followed by its own buddy exactly
when the two are the whole incidence list. -/
theorem fan_single (m : Manifold) (v : VertexIt) (V : Vertex) (out inn nx : HalfEdgeIt)
    (O I : HalfEdge) (hf : fanOrdered m v V = true)
    (ho : out ∈ V.mIncidentHalfEdges.map Prod.snd) (hO : m.halfEdge out = some O)
    (hOd : O.mDst ≠ v) (hb : O.mBuddy = inn) (hI : m.halfEdge inn = some I)
    (hn : I.mNext = some nx) :
    nx = out ↔ V.mIncidentHalfEdges.map Prod.snd = [inn, out] := by
  obtain ⟨hnd, hev, hP⟩ := fanOrdered_spec m v V hf
  generalize V.mIncidentHalfEdges.map Prod.snd = l at ho hnd hev hP ⊢
  obtain ⟨i, hi, hio⟩ := List.getElem_of_mem ho
  have hio2 : l.getD i 0 = out := by rw [List.getD_eq_getElem l 0 hi]; exact hio
  have hodd : i % 2 = 1 := by
    by_contra hc
    have hk : i / 2 < l.length / 2 := by omega
    have h2 : 2 * (i / 2) = i := by omega
    have := (hP (i / 2) hk).1
    rw [h2, hio2, hO] at this
    simp only [Option.map_some', Option.some.injEq, Prod.mk.injEq] at this
    exact hOd this.2.2
  have hk : i / 2 < l.length / 2 := by omega
  have h2 : 2 * (i / 2) + 1 = i := by omega
  obtain ⟨P1, P2⟩ := hP (i / 2) hk
  rw [h2, hio2, hO] at P2
  simp only [Option.map_some', Option.some.injEq, Prod.mk.injEq] at P2
  have hinn : l.getD (2 * (i / 2)) 0 = inn := by rw [← P2.1, hb]
  rw [hinn, hI] at P1
  simp only [Option.map_some', Option.some.injEq, Prod.mk.injEq] at P1
  have hnx : nx = l.getD (2 * ((i / 2 + l.length / 2 - 1) % (l.length / 2)) + 1) 0 := by
    have := P1.2.1
    rw [hn] at this
    exact Option.some.inj this
  have hmod : (i / 2 + l.length / 2 - 1) % (l.length / 2) < l.length / 2 :=
    Nat.mod_lt _ (by omega)
  constructor
  · intro h
    rw [hnx, ← hio2] at h
    have e := getD_inj l hnd _ _ (by omega) hi h
    have hn1 : l.length / 2 = 1 := by
      by_contra hc
      by_cases hz : i / 2 = 0
      · rw [hz, Nat.zero_add, Nat.mod_eq_of_lt (by omega)] at e
        omega
      · have : i / 2 + l.length / 2 - 1 = (i / 2 - 1) + l.length / 2 := by omega
        rw [this, Nat.add_mod_right, Nat.mod_eq_of_lt (by omega)] at e
        omega
    have hl : l.length = 2 := by omega
    have hi1 : i = 1 := by omega
    match l, hl, hinn, hio2, hi1 with
    | [x, y], _, hx, hy, hi1 =>
      subst hi1
      simp only [List.getD_cons_zero, Nat.reduceDiv, Nat.mul_zero, List.getD_cons_succ] at hx hy
      rw [hx, hy]
  · intro h
    subst h
    have hi1 : i = 1 := by
      simp only [List.length_cons, List.length_nil] at hi hodd
      omega
    subst hi1
    rw [hnx]
    simp

theorem splicedAt_of_ne (m : Manifold) (fr : RemoveEdgeFrame) (j : HalfEdgeIt) (H : HalfEdge)
    (h1 : j ≠ fr.p1) (h2 : j ≠ fr.n2) (h3 : j ≠ fr.p2) (h4 : j ≠ fr.n1) :
    splicedAt m fr j H = H := by
  unfold splicedAt
  simp only [relinkAt_of_ne _ _ _ _ _ h1 h2, relinkAt_of_ne _ _ _ _ _ h3 h4, ite_self]

theorem splicedAt_face (m : Manifold) (fr : RemoveEdgeFrame) (j : HalfEdgeIt) (H : HalfEdge) :
    (splicedAt m fr j H).mFace = H.mFace := by
  unfold splicedAt
  simp only
  split_ifs <;>
    simp only [(relinkAt_fields _ _ _ _ _).2.2.2.2.2.1]

theorem splicedAt_next_p1 (m : Manifold) (fr : RemoveEdgeFrame) (H : HalfEdge)
    (h1 : fr.p1 ≠ fr.he2) (h2 : fr.p1 ≠ fr.p2) :
    (splicedAt m fr fr.p1 H).mNext = some fr.n2 := by
  unfold splicedAt relinkAt
  simp only [h1, h2, ne_eq, not_false_eq_true, if_true, if_false]
  all_goals (split_ifs <;> rfl)

theorem splicedAt_prev_n2 (m : Manifold) (fr : RemoveEdgeFrame) (H : HalfEdge)
    (h1 : fr.p1 ≠ fr.he2) (h2 : fr.n1 ≠ fr.n2) :
    (splicedAt m fr fr.n2 H).mPrev = some fr.p1 := by
  unfold splicedAt relinkAt
  simp only [h1, Ne.symm h2, ne_eq, not_false_eq_true, if_true, if_false]
  all_goals (split_ifs <;> rfl)

theorem splicedAt_next_p2 (m : Manifold) (fr : RemoveEdgeFrame) (H : HalfEdge)
    (h1 : fr.n1 ≠ fr.he2) :
    (splicedAt m fr fr.p2 H).mNext = some fr.n1 := by
  unfold splicedAt relinkAt
  simp only [h1, ne_eq, not_false_eq_true, if_true]
  all_goals (split_ifs <;> rfl)

theorem splicedAt_prev_n1 (m : Manifold) (fr : RemoveEdgeFrame) (H : HalfEdge)
    (h1 : fr.n1 ≠ fr.he2) :
    (splicedAt m fr fr.n1 H).mPrev = some fr.p2 := by
  unfold splicedAt relinkAt
  simp only [h1, ne_eq, not_false_eq_true, if_true]

/-- C23, amended: on a manifold where the handles that `removeEdge` reads are in
place, `removeEdge(e)` returns, erases `he1`, `he2` and `e`, links the old
`prev(he1)` to the old `next(he2)` and the old `prev(he2)` to the old `next(he1)`
at an end vertex that is kept, erases exactly the two entries of `he1` and `he2` from
the incidence list of that vertex, deletes `v1` exactly when `prev(he1) = he2` and
`v2` exactly when `next(he1) = he2`, which for an incidence list in fan order is
exactly when the list holds nothing but `he1` and `he2`, and writes no face: the
face records and the face of every remaining half edge are as before, and so is every
half edge other than the four neighbours, every other vertex and every other edge. -/
theorem removeEdge_splices (m : Manifold) (e : EdgeIt) (fr : RemoveEdgeFrame)
    (hfr : removeEdgeFrame m e = some fr) (hr : removeEdgeReady m fr) :
    ∃ m2, removeEdge m e = some m2 ∧
      m2.halfEdge fr.he1 = none ∧ m2.halfEdge fr.he2 = none ∧ m2.edge e = none ∧
      (fr.p1 ≠ fr.he2 →
        (m2.halfEdge fr.p1).map (fun H => H.mNext) = some (some fr.n2) ∧
        (m2.halfEdge fr.n2).map (fun H => H.mPrev) = some (some fr.p1) ∧
        m2.vertex fr.v1 = (m.vertex fr.v1).map (fun V => withoutEntries V fr.a1 fr.b1)) ∧
      (fr.n1 ≠ fr.he2 →
        (m2.halfEdge fr.p2).map (fun H => H.mNext) = some (some fr.n1) ∧
        (m2.halfEdge fr.n1).map (fun H => H.mPrev) = some (some fr.p2) ∧
        m2.vertex fr.v2 = (m.vertex fr.v2).map (fun V => withoutEntries V fr.a2 fr.b2)) ∧
      (m2.vertex fr.v1 = none ↔ fr.p1 = fr.he2) ∧
      (m2.vertex fr.v2 = none ↔ fr.n1 = fr.he2) ∧
      (∀ V, m.vertex fr.v1 = some V → fanOrdered m fr.v1 V = true →
        fr.he1 ∈ V.mIncidentHalfEdges.map Prod.snd →
        (m.halfEdge fr.he1).map (fun H => H.mBuddy) = some fr.he2 →
        (fr.p1 = fr.he2 ↔ V.mIncidentHalfEdges.map Prod.snd = [fr.he2, fr.he1])) ∧
      (∀ V, m.vertex fr.v2 = some V → fanOrdered m fr.v2 V = true →
        fr.he2 ∈ V.mIncidentHalfEdges.map Prod.snd →
        (m.halfEdge fr.he2).map (fun H => (H.mBuddy, H.mDst)) = some (fr.he1, fr.v1) →
        (fr.n1 = fr.he2 ↔ V.mIncidentHalfEdges.map Prod.snd = [fr.he1, fr.he2])) ∧
      m2.mFaces = m.mFaces ∧
      (∀ j, j ≠ fr.he1 → j ≠ fr.he2 →
        (m2.halfEdge j).map (fun H => H.mFace) = (m.halfEdge j).map (fun H => H.mFace)) ∧
      (∀ j, j ∉ [fr.he1, fr.he2, fr.p1, fr.n1, fr.p2, fr.n2] →
        m2.halfEdge j = m.halfEdge j) ∧
      (∀ j, j ≠ fr.v1 → j ≠ fr.v2 → m2.vertex j = m.vertex j) ∧
      ∀ j, j ≠ e → m2.edge j = m.edge j := by
  obtain ⟨lv, lh, le, hrun, dh, dv, de⟩ := removeEdge_spec m e fr hfr hr
  obtain ⟨E, H1, H2, hE, hH1, hH2, hp1, hn1, hp2, hn2, ha1, hb1, ha2, hb2, q1, q2, qv1, qv2⟩ :=
    removeEdgeFrame_some m e fr hfr
  obtain ⟨kv, kh, ke, h12, hv12, c1, c2, c3, c4, c5, c6, i1, i2, ev1, ev2, r1, r2⟩ := hr
  have hh : ∀ j, Manifold.halfEdge
      { m with mVertices := lv, mHalfEdges := lh, mEdges := le } j = deref lh j :=
    fun _ => rfl
  have hvx : ∀ j, Manifold.vertex
      { m with mVertices := lv, mHalfEdges := lh, mEdges := le } j = deref lv j :=
    fun _ => rfl
  have hex : ∀ j, Manifold.edge
      { m with mVertices := lv, mHalfEdges := lh, mEdges := le } j = deref le j :=
    fun _ => rfl
  have look : ∀ j, j ≠ fr.he1 → j ≠ fr.he2 →
      deref lh j = (m.halfEdge j).map (splicedAt m fr j) := by
    intro j h1 h2
    rw [dh, if_neg h2, if_neg h1]
  have some1 : ∀ o : Option Vertex, o.isSome = true → ∀ f : Vertex → Vertex,
      o.map f ≠ none := by
    intro o ho f
    cases o with
    | none => simp at ho
    | some V => simp
  refine ⟨_, hrun, ?_, ?_, ?_, ?_, ?_, ?_, ?_, ?_, ?_, rfl, ?_, ?_, ?_, ?_⟩
  · rw [hh, dh]
    by_cases h : fr.he1 = fr.he2
    · rw [if_pos h]
    · rw [if_neg h, if_pos rfl]
  · rw [hh, dh, if_pos rfl]
  · rw [hex, de, if_pos rfl]
  · intro hc
    obtain ⟨x1, x2, _, _⟩ := r1 hc
    refine ⟨?_, ?_, ?_⟩
    · rw [hh, look _ c1 hc]
      cases hP : m.halfEdge fr.p1 with
      | none => rw [hP] at x1; simp at x1
      | some P =>
        simp only [Option.map_some', splicedAt_next_p1 m fr P hc c5]
    · rw [hh, look _ (fun h => hc (i1.mpr h)) c4]
      cases hP : m.halfEdge fr.n2 with
      | none => rw [hP] at x2; simp at x2
      | some P =>
        simp only [Option.map_some', splicedAt_prev_n2 m fr P hc c6]
    · rw [hvx, dv, if_neg hv12, if_pos rfl, if_neg hc]
  · intro hc
    obtain ⟨x1, x2, _, _⟩ := r2 hc
    refine ⟨?_, ?_, ?_⟩
    · rw [hh, look _ (fun h => hc (i2.mpr h)) c3]
      cases hP : m.halfEdge fr.p2 with
      | none => rw [hP] at x1; simp at x1
      | some P =>
        simp only [Option.map_some', splicedAt_next_p2 m fr P hc]
    · rw [hh, look _ c2 hc]
      cases hP : m.halfEdge fr.n1 with
      | none => rw [hP] at x2; simp at x2
      | some P =>
        simp only [Option.map_some', splicedAt_prev_n1 m fr P hc]
    · rw [hvx, dv, if_pos rfl, if_neg hc]
  · rw [hvx, dv, if_neg hv12, if_pos rfl]
    by_cases hc : fr.p1 = fr.he2
    · rw [if_pos hc]
      exact ⟨fun _ => hc, fun _ => rfl⟩
    · rw [if_neg hc]
      exact ⟨fun h => absurd h (some1 _ ev1 _), fun h => absurd h hc⟩
  · rw [hvx, dv, if_pos rfl]
    by_cases hc : fr.n1 = fr.he2
    · rw [if_pos hc]
      exact ⟨fun _ => hc, fun _ => rfl⟩
    · rw [if_neg hc]
      exact ⟨fun h => absurd h (some1 _ ev2 _), fun h => absurd h hc⟩
  · intro V _ hf hmem hbud
    rw [i1]
    rw [← q1] at hbud hmem ⊢
    rw [hH1] at hbud
    simp only [Option.map_some', Option.some.injEq] at hbud
    rw [← q2] at hbud ⊢
    refine fan_single m fr.v1 V E.mHe1 E.mHe2 fr.n2 H1 H2 hf hmem hH1 ?_ hbud hH2 hn2
    rw [qv2]
    exact fun h => hv12 h.symm
  · intro V _ hf hmem hbud
    rw [← q2] at hbud hmem ⊢
    rw [hH2] at hbud
    simp only [Option.map_some', Option.some.injEq, Prod.mk.injEq] at hbud
    rw [← q1] at hbud ⊢
    refine fan_single m fr.v2 V E.mHe2 E.mHe1 fr.n1 H2 H1 hf hmem hH2 ?_ hbud.1 hH1 hn1
    rw [hbud.2]
    exact hv12
  · intro j h1 h2
    rw [hh, look j h1 h2]
    cases m.halfEdge j with
    | none => rfl
    | some X => simp only [Option.map_some', splicedAt_face]
  · intro j hj
    simp only [List.mem_cons, List.mem_singleton, List.not_mem_nil, or_false, not_or] at hj
    obtain ⟨h1, h2, h3, h4, h5, h6⟩ := hj
    rw [hh, look j h1 h2]
    cases m.halfEdge j with
    | none => rfl
    | some X => simp only [Option.map_some', splicedAt_of_ne m fr j X h3 h6 h5 h4]
  · intro j h1 h2
    rw [hvx, dv, if_neg h2, if_neg h1]
  · intro j h1
    rw [hex, de, if_neg h1]

/-- C23, counterexample: the edge `4` of `cornerSimplex` has the half edges `5`, of
the face `30`, and `6`, of the face `22`; after `removeEdge` the half edges `5` and
`6` are gone and the lists of the faces `30` and `22` still hold them. -/
theorem removeEdge_leaves_faces :
    (cornerSimplex.edge 4).map (fun E => (E.mHe1, E.mHe2)) = some (5, 6) ∧
    (cornerSimplex.halfEdge 5).map (fun H => H.mFace) = some (some 30) ∧
    (cornerSimplex.halfEdge 6).map (fun H => H.mFace) = some (some 22) ∧
    (removeEdge cornerSimplex 4).map (fun m2 => (m2.halfEdge 5, m2.halfEdge 6)) =
      some (none, none) ∧
    ((removeEdge cornerSimplex 4).bind (fun m2 => m2.face 30)).map
      (fun F => F.mIncidentHalfEdges.map Prod.snd) = some [5, 17, 12] ∧
    ((removeEdge cornerSimplex 4).bind (fun m2 => m2.face 22)).map
      (fun F => F.mIncidentHalfEdges.map Prod.snd) = some [8, 15, 6] := by
  decide!

set_option synthInstance.maxSize 4096 in
theorem cornerEdgeFrame_ready : removeEdgeReady cornerSimplex cornerEdgeFrame := by
  unfold removeEdgeReady entriesAt awayFrom
  decide!

/-- C23, witness: the edge `4` of the corner simplex, whose end vertices `0` and `1`
have their incidence lists in fan order. -/
theorem removeEdge_splices_witness :
    removeEdgeFrame cornerSimplex 4 = some cornerEdgeFrame ∧
    removeEdgeReady cornerSimplex cornerEdgeFrame ∧
    (cornerSimplex.vertex 0).map (fanOrdered cornerSimplex 0) = some true ∧
    (cornerSimplex.vertex 1).map (fanOrdered cornerSimplex 1) = some true ∧
    ∃ m2, removeEdge cornerSimplex 4 = some m2 ∧
      m2.halfEdge cornerEdgeFrame.he1 = none ∧ m2.halfEdge cornerEdgeFrame.he2 = none ∧
      m2.edge 4 = none ∧
      (cornerEdgeFrame.p1 ≠ cornerEdgeFrame.he2 →
        (m2.halfEdge cornerEdgeFrame.p1).map (fun H => H.mNext) =
          some (some cornerEdgeFrame.n2) ∧
        (m2.halfEdge cornerEdgeFrame.n2).map (fun H => H.mPrev) =
          some (some cornerEdgeFrame.p1) ∧
        m2.vertex cornerEdgeFrame.v1 = (cornerSimplex.vertex cornerEdgeFrame.v1).map
          (fun V => withoutEntries V cornerEdgeFrame.a1 cornerEdgeFrame.b1)) ∧
      (cornerEdgeFrame.n1 ≠ cornerEdgeFrame.he2 →
        (m2.halfEdge cornerEdgeFrame.p2).map (fun H => H.mNext) =
          some (some cornerEdgeFrame.n1) ∧
        (m2.halfEdge cornerEdgeFrame.n1).map (fun H => H.mPrev) =
          some (some cornerEdgeFrame.p2) ∧
        m2.vertex cornerEdgeFrame.v2 = (cornerSimplex.vertex cornerEdgeFrame.v2).map
          (fun V => withoutEntries V cornerEdgeFrame.a2 cornerEdgeFrame.b2)) ∧
      (m2.vertex cornerEdgeFrame.v1 = none ↔ cornerEdgeFrame.p1 = cornerEdgeFrame.he2) ∧
      (m2.vertex cornerEdgeFrame.v2 = none ↔ cornerEdgeFrame.n1 = cornerEdgeFrame.he2) ∧
      (∀ V, cornerSimplex.vertex cornerEdgeFrame.v1 = some V →
        fanOrdered cornerSimplex cornerEdgeFrame.v1 V = true →
        cornerEdgeFrame.he1 ∈ V.mIncidentHalfEdges.map Prod.snd →
        (cornerSimplex.halfEdge cornerEdgeFrame.he1).map (fun H => H.mBuddy) =
          some cornerEdgeFrame.he2 →
        (cornerEdgeFrame.p1 = cornerEdgeFrame.he2 ↔
          V.mIncidentHalfEdges.map Prod.snd = [cornerEdgeFrame.he2, cornerEdgeFrame.he1])) ∧
      (∀ V, cornerSimplex.vertex cornerEdgeFrame.v2 = some V →
        fanOrdered cornerSimplex cornerEdgeFrame.v2 V = true →
        cornerEdgeFrame.he2 ∈ V.mIncidentHalfEdges.map Prod.snd →
        (cornerSimplex.halfEdge cornerEdgeFrame.he2).map (fun H => (H.mBuddy, H.mDst)) =
          some (cornerEdgeFrame.he1, cornerEdgeFrame.v1) →
        (cornerEdgeFrame.n1 = cornerEdgeFrame.he2 ↔
          V.mIncidentHalfEdges.map Prod.snd = [cornerEdgeFrame.he1, cornerEdgeFrame.he2])) ∧
      m2.mFaces = cornerSimplex.mFaces ∧
      (∀ j, j ≠ cornerEdgeFrame.he1 → j ≠ cornerEdgeFrame.he2 →
        (m2.halfEdge j).map (fun H => H.mFace) =
          (cornerSimplex.halfEdge j).map (fun H => H.mFace)) ∧
      (∀ j, j ∉ [cornerEdgeFrame.he1, cornerEdgeFrame.he2, cornerEdgeFrame.p1,
          cornerEdgeFrame.n1, cornerEdgeFrame.p2, cornerEdgeFrame.n2] →
        m2.halfEdge j = cornerSimplex.halfEdge j) ∧
      (∀ j, j ≠ cornerEdgeFrame.v1 → j ≠ cornerEdgeFrame.v2 →
        m2.vertex j = cornerSimplex.vertex j) ∧
      ∀ j, j ≠ 4 → m2.edge j = cornerSimplex.edge j :=
  have h : removeEdgeFrame cornerSimplex 4 = some cornerEdgeFrame ∧
      (cornerSimplex.vertex 0).map (fanOrdered cornerSimplex 0) = some true ∧
      (cornerSimplex.vertex 1).map (fanOrdered cornerSimplex 1) = some true := by
    decide!
  ⟨h.1, cornerEdgeFrame_ready, h.2.1, h.2.2,
    removeEdge_splices cornerSimplex 4 cornerEdgeFrame h.1 cornerEdgeFrame_ready⟩

end Makena

/-! ## The repair loop of `checkAndMergeFacesCounterClockwise` -/

namespace Makena

set_option synthInstance.maxSize 4096 in
/-- The second round of the repair loop in the run on `mergePoints`: the queues before
and after the popped edge is processed, and the flags of what is queued. -/
theorem secondRound_facts :
    (secondRound.map queueLengths = some (1, 0) ∧
      (secondRound.bind (repairEdge 40)).map queueLengths = some (0, 1) ∧
      (secondRound.bind (repairLoop 40 2)).map queueLengths = some (0, 0)) ∧
    (secondRoundState.mEdgesToBeRemoved = [(172, 73)] ∧
      (repairEdge 40 secondRoundState).map queueLengths = some (0, 1)) ∧
    (secondRound.map (fun m => (edgeQueueConsistent m, vertexQueueConsistent m,
        m.mEdgesToBeRemoved.map Prod.snd, m.mVerticesToBeRemoved.map Prod.snd)) =
      some (true, true, [73], []) ∧
    (secondRound.bind (repairEdge 40)).map (fun m =>
        (edgeQueueConsistent m, vertexQueueConsistent m,
          m.mEdgesToBeRemoved.map Prod.snd, m.mVerticesToBeRemoved.map Prod.snd)) =
      some (true, false, [], [72]) ∧
    (secondRound.bind (repairEdge 40)).bind (fun m =>
        (m.vertex 72).map (fun V => (V.mToBeRemoved, V.mIncidentHalfEdges.length))) =
      some (false, 4)) := by
  decide!

end Makena

/-! ## `makeEdge` -/

namespace Makena

end Makena

/-! ## `makePolygon` and `makeCircularFan` outside their preconditions -/

namespace Makena

/-- C32, counterexample: on the empty manifold, `makePolygon` with no half edge
returns a face and the manifold has one face afterwards, and `makeCircularFan` with
an empty frontier returns a vertex and the manifold has one vertex afterwards;
neither ends in an exception. -/
theorem primitives_return_outside_precondition :
    (makePolygon Manifold.new []).map (fun r => (r.1.mFaces.length, r.2)) = some (1, 0) ∧
    (makeCircularFan Manifold.new [] ⟨0, 0, 0⟩ 7).map
      (fun r => (r.1.mVertices.length, r.1.mFaces.length, r.2)) = some (1, 0, 0) := by
  decide!

/-- C32, amended: `makePolygon` with fewer than two half edges and `makeCircularFan`
with an empty frontier return without an exception.  `makePolygon` has appended one
face with an empty list of half edges and returns it, with the vertices, edges and
half edges as they were; `makeCircularFan` has appended the vertex of `makeVertex`
and returns it, with the edges, half edges and faces as they were. -/
theorem primitives_without_checks (m : Manifold) (halfEdges : List HalfEdgeIt) (p : Vec3)
    (id : Int) (h : halfEdges.length < 2) :
    (∃ m2 F, makePolygon m halfEdges = some (m2, m.mFresh) ∧
      m2.mFaces = m.mFaces ++ [(m.mFresh, F)] ∧ F.mIncidentHalfEdges = [] ∧
      m2.mVertices = m.mVertices ∧ m2.mEdges = m.mEdges ∧ m2.mHalfEdges = m.mHalfEdges) ∧
    (∃ m2 V, makeCircularFan m [] p id = some (m2, m.mFresh) ∧
      m2.mVertices = m.mVertices ++ [(m.mFresh, V)] ∧ V.mPointLCS = p ∧
      V.mIncidentHalfEdges = [] ∧
      m2.mEdges = m.mEdges ∧ m2.mHalfEdges = m.mHalfEdges ∧ m2.mFaces = m.mFaces) := by
  constructor
  · unfold makePolygon
    simp only [if_pos h, Option.pure_def]
    exact ⟨_, _, rfl, rfl, rfl, rfl, rfl, rfl⟩
  · simp only [makeCircularFan, makeCircularFanLoop, makeVertex, Option.bind_eq_bind,
      Option.some_bind, Option.pure_def]
    exact ⟨_, _, rfl, rfl, rfl, rfl, rfl, rfl, rfl⟩

/-- C32, witness: the empty manifold and the empty list. -/
theorem primitives_without_checks_witness :
    (∃ m2 F, makePolygon Manifold.new [] = some (m2, Manifold.new.mFresh) ∧
      m2.mFaces = Manifold.new.mFaces ++ [(Manifold.new.mFresh, F)] ∧
      F.mIncidentHalfEdges = [] ∧
      m2.mVertices = Manifold.new.mVertices ∧ m2.mEdges = Manifold.new.mEdges ∧
      m2.mHalfEdges = Manifold.new.mHalfEdges) ∧
    (∃ m2 V, makeCircularFan Manifold.new [] ⟨1, 2, 3⟩ 7 = some (m2, Manifold.new.mFresh) ∧
      m2.mVertices = Manifold.new.mVertices ++ [(Manifold.new.mFresh, V)] ∧
      V.mPointLCS = ⟨1, 2, 3⟩ ∧ V.mIncidentHalfEdges = [] ∧
      m2.mEdges = Manifold.new.mEdges ∧ m2.mHalfEdges = Manifold.new.mHalfEdges ∧
      m2.mFaces = Manifold.new.mFaces) :=
  primitives_without_checks Manifold.new [] ⟨1, 2, 3⟩ 7 (by decide)

end Makena

/-! ## `Quaternion::rotate` and `Quaternion::rotationMatrix` -/

namespace Makena

/-- C40: for the quaternion `(0, 1, 0, 0)`, the rotation by the angle pi around the
first axis, and the vector `(1, 0, 0)` on that axis, `rotate` returns `(-1, 0, 0)`
and the product with `rotationMatrix` is `(1, 0, 0)`. -/
theorem rotate_flips_axis :
    (Quaternion.mk 0 ⟨1, 0, 0⟩).rotate ⟨1, 0, 0⟩ = ⟨-1, 0, 0⟩ ∧
    (Quaternion.mk 0 ⟨1, 0, 0⟩).rotationMatrix.mulVec ⟨1, 0, 0⟩ = ⟨1, 0, 0⟩ ∧
    (Quaternion.mk 0 ⟨1, 0, 0⟩).mul ⟨0, ⟨1, 0, 0⟩⟩ = ⟨1, ⟨0, 0, 0⟩⟩ := by
  decide!

/-- Outside the case in which `operator*` replaces the product `(-1, 0, 0, 0)` of
the quaternion and the vector, `rotate` is the product with `rotationMatrix`. -/
theorem rotate_eq_rotationMatrix (q : Quaternion) (p : Vec3)
    (h : ¬ (q.mul ⟨0, p⟩ = ⟨1, ⟨0, 0, 0⟩⟩ ∧ q.mV.dot p = 1)) :
    q.rotate p = q.rotationMatrix.mulVec p := by
  obtain ⟨s, ⟨x, y, z⟩⟩ := q
  obtain ⟨a, b, c⟩ := p
  have h1 : Quaternion.mul ⟨s, ⟨x, y, z⟩⟩ ⟨0, ⟨a, b, c⟩⟩ =
      ⟨s * 0 - (x * a + y * b + z * c),
        ⟨s * a + 0 * x + (y * c - z * b), s * b + 0 * y + (z * a - x * c),
          s * c + 0 * z + (x * b - y * a)⟩⟩ := by
    unfold Quaternion.mul
    simp only [Vec3.dot, Vec3.scale, Vec3.add, Vec3.cross]
    split_ifs with hc
    · exfalso
      apply h
      obtain ⟨e1, e2, e3, e4⟩ := hc
      constructor
      · unfold Quaternion.mul
        simp only [Vec3.dot, Vec3.scale, Vec3.add, Vec3.cross]
        rw [if_pos ⟨e1, e2, e3, e4⟩, e1, e2, e3]
      · simp only [Vec3.dot]
        linarith
    · rfl
  unfold Quaternion.rotate
  rw [h1]
  unfold Quaternion.mul Quaternion.conjugate Quaternion.rotationMatrix Mat3x3.mulVec
  simp only [Vec3.dot, Vec3.scale, Vec3.add, Vec3.cross]
  split_ifs <;> (simp only [Vec3.mk.injEq]; refine ⟨?_, ?_, ?_⟩ <;> ring)

theorem rotate_eq_rotationMatrix_witness :
    (Quaternion.mk 1 ⟨1, 0, 0⟩).rotate ⟨0, 1, 0⟩ =
      (Quaternion.mk 1 ⟨1, 0, 0⟩).rotationMatrix.mulVec ⟨0, 1, 0⟩ :=
  rotate_eq_rotationMatrix ⟨1, ⟨1, 0, 0⟩⟩ ⟨0, 1, 0⟩ (by decide!)

end Makena

/-! ## `analyzePoints` on points with equal products along the first axis -/

namespace Makena

/-- C35: on the four points of `balancedPoints` the first axis is along `(1, 1, 1)`
and every point has the product `0` with it, so that `xMinIndex = xMaxIndex = 0`:
`analyzePoints` returns `NONE` with `index1 = index2 = 0`, and `findConvexHull`
builds the simplex with two vertices at the point `0`. -/
theorem analyzePoints_repeats_index :
    balancedPoints.length = 4 ∧
    analyzePoints balancedPoints = some ⟨predicate.NONE, 0, 0, 1, 2⟩ ∧
    (findConvexHull 40 Manifold.new balancedPoints EPSILON_SQUARED).map
      (fun r => (r.2, r.1.mVertices.map (fun v => (v.2.mPointLCS, v.2.mId)))) =
      some (predicate.NONE,
        [(⟨1, -1, 0⟩, 0), (⟨1, -1, 0⟩, 0), (⟨-1, 0, 1⟩, 1), (⟨0, 1, -1⟩, 2)]) := by
  decide!

end Makena

/-! ## The indices that `makePolygon` passes to `findNormal` -/

namespace Makena

/-- C36: on the four corners of `sliver` the two extremal points along the first
axis are the corners `0` and `2`, the corners `1` and `3` are closer than the
tolerance to one of them, no third point is found, and the indices passed to
`findNormal` are `-1`, `0`, `2`: `points[-1]` is read, and the normal has no defined
value.  On the unit square the indices are `0`, `1`, `2`. -/
theorem makePolygon_index_before_array :
    makePolygonIndices sliver = some (-1, 0, 2) ∧
    pointAt sliver (-1) = none ∧
    makePolygonNormal sliver = none ∧
    makePolygonIndices [⟨0, 0, 0⟩, ⟨1, 0, 0⟩, ⟨1, 1, 0⟩, ⟨0, 1, 0⟩] = some (0, 1, 2) := by
  decide!

end Makena

/-! ## `Face::halfEdgesFromEdges` along a closed walk -/

namespace Makena

theorem edgeJoins_spec (m : Manifold) (e : EdgeIt) (a b : VertexIt)
    (h : edgeJoins m e a b = true) :
    ∃ E H1 H2, m.edge e = some E ∧ m.halfEdge E.mHe1 = some H1 ∧
      m.halfEdge E.mHe2 = some H2 ∧
      ((H1.mSrc = a ∧ H1.mDst = b ∧ H2.mSrc = b ∧ H2.mDst = a) ∨
        (H1.mSrc = b ∧ H1.mDst = a ∧ H2.mSrc = a ∧ H2.mDst = b)) := by
  unfold edgeJoins at h
  simp only [decide_eq_true_eq] at h
  obtain ⟨E, hE, h⟩ := Option.bind_eq_some.mp h
  obtain ⟨H1, h1, h⟩ := Option.bind_eq_some.mp h
  obtain ⟨H2, h2, h⟩ := Option.map_eq_some'.mp h
  exact ⟨E, H1, H2, hE, h1, h2, by simpa using h⟩

/-- The loop of `halfEdgesFromEdges` along a walk from its first vertex. -/
theorem halfEdgesFromEdgesLoop_walk (m : Manifold) :
    ∀ (edges : List EdgeIt) (vs : List VertexIt), vs.length = edges.length + 1 →
      (∀ i, i < edges.length →
        edgeJoins m (edges.getD i 0) (vs.getD i 0) (vs.getD (i + 1) 0) = true) →
      ∃ hs, halfEdgesFromEdgesLoop m edges (vs.getD 0 0) = some hs ∧
        hs.length = edges.length ∧
        ∀ i, i < edges.length → ∃ E H, m.edge (edges.getD i 0) = some E ∧
          (hs.getD i 0 = E.mHe1 ∨ hs.getD i 0 = E.mHe2) ∧
          m.halfEdge (hs.getD i 0) = some H ∧ H.mSrc = vs.getD i 0 ∧
          H.mDst = vs.getD (i + 1) 0 := by
  intro edges
  induction edges with
  | nil =>
    intro vs _ _
    exact ⟨[], rfl, rfl, fun i hi => absurd hi (Nat.not_lt_zero _)⟩
  | cons e es ih =>
    intro vs hl hw
    match vs, hl with
    | v :: w :: ws, hl =>
      have hl2 : (w :: ws).length = es.length + 1 := by
        simp only [List.length_cons] at hl ⊢
        omega
      obtain ⟨hs, hrun, hlen, hq⟩ := ih (w :: ws) hl2 (fun i hi => by
        have := hw (i + 1) (by simp only [List.length_cons]; omega)
        simpa only [List.getD_cons_succ] using this)
      obtain ⟨E, H1, H2, hE, h1, h2, hor⟩ := edgeJoins_spec m e v w (by
        have := hw 0 (by simp only [List.length_cons]; omega)
        simpa only [List.getD_cons_zero, List.getD_cons_succ] using this)
      simp only [List.getD_cons_zero] at hrun ⊢
      by_cases hsrc : H1.mSrc = v
      · have hd : H1.mDst = w := by
          rcases hor with ⟨_, a, _, _⟩ | ⟨a, b, _, _⟩
          · exact a
          · exact b.trans (hsrc.symm.trans a)
        refine ⟨E.mHe1 :: hs, ?_, by simp only [List.length_cons, hlen], fun i hi => ?_⟩
        · simp only [halfEdgesFromEdgesLoop, hE, h1, if_pos hsrc, hd, hrun,
            Option.bind_eq_bind, Option.some_bind, Option.pure_def]
        · cases i with
          | zero =>
            exact ⟨E, H1, hE, Or.inl rfl, h1, hsrc, hd⟩
          | succ j =>
            have := hq j (by simp only [List.length_cons] at hi; omega)
            simpa only [List.getD_cons_succ] using this
      · have hs2 : H2.mSrc = v ∧ H2.mDst = w := by
          rcases hor with ⟨a, _, _, _⟩ | ⟨_, _, c, d⟩
          · exact absurd a hsrc
          · exact ⟨c, d⟩
        refine ⟨E.mHe2 :: hs, ?_, by simp only [List.length_cons, hlen], fun i hi => ?_⟩
        · simp only [halfEdgesFromEdgesLoop, hE, h1, h2, if_neg hsrc, hs2.2, hrun,
            Option.bind_eq_bind, Option.some_bind, Option.pure_def]
        · cases i with
          | zero =>
            exact ⟨E, H2, hE, Or.inr rfl, h2, hs2.1, hs2.2⟩
          | succ j =>
            have := hq j (by simp only [List.length_cons] at hi; omega)
            simpa only [List.getD_cons_succ] using this

theorem edgeJoins_symm (m : Manifold) (e : EdgeIt) (a b : VertexIt)
    (h : edgeJoins m e a b = true) : edgeJoins m e b a = true := by
  obtain ⟨E, H1, H2, hE, h1, h2, hor⟩ := edgeJoins_spec m e a b h
  unfold edgeJoins
  simp only [hE, h1, h2, Option.some_bind, Option.map_some', decide_eq_true_eq,
    Option.some.injEq]
  rcases hor with h | h
  · exact Or.inr h
  · exact Or.inl h

theorem chain_of_walk (m : Manifold) (edges : List EdgeIt) (hs : List HalfEdgeIt)
    (vs : List VertexIt) (hc : vs.getD edges.length 0 = vs.getD 0 0)
    (hq : ∀ i, i < edges.length → ∃ E H, m.edge (edges.getD i 0) = some E ∧
      (hs.getD i 0 = E.mHe1 ∨ hs.getD i 0 = E.mHe2) ∧
      m.halfEdge (hs.getD i 0) = some H ∧ H.mSrc = vs.getD i 0 ∧
      H.mDst = vs.getD (i + 1) 0) :
    ∀ i, i < edges.length → ∃ E H K, m.edge (edges.getD i 0) = some E ∧
      (hs.getD i 0 = E.mHe1 ∨ hs.getD i 0 = E.mHe2) ∧
      m.halfEdge (hs.getD i 0) = some H ∧
      m.halfEdge (hs.getD ((i + 1) % edges.length) 0) = some K ∧ H.mDst = K.mSrc := by
  intro i hi
  obtain ⟨E, H, hE, hor, hH, _, hd⟩ := hq i hi
  have hpos : 0 < edges.length := Nat.lt_of_le_of_lt (Nat.zero_le _) hi
  obtain ⟨E2, K, _, _, hK, hks, _⟩ := hq ((i + 1) % edges.length) (Nat.mod_lt _ hpos)
  refine ⟨E, H, K, hE, hor, hH, hK, ?_⟩
  rw [hd, hks]
  by_cases hlast : i + 1 = edges.length
  · rw [hlast, Nat.mod_self, hc]
  · rw [Nat.mod_eq_of_lt (by omega)]

/-- C33, counterexample: in `doubledEdges` the edges `3`, `6`, `9`, `12` go around
the closed walk `0, 1, 0, 2, 0`; `halfEdgesFromEdges` returns the half edges
`5, 8, 11, 14`, of which `8` ends at the vertex `1` and `11` starts at the vertex
`2`. -/
theorem halfEdgesFromEdges_breaks_chain :
    doubledEdges.map (fun m => decide (closedWalk m [3, 6, 9, 12] [0, 1, 0, 2, 0])) =
      some true ∧
    doubledEdges.bind (fun m => halfEdgesFromEdges m [3, 6, 9, 12]) = some [5, 8, 11, 14] ∧
    doubledEdges.bind (fun m => (m.halfEdge 8).map (fun H => H.mDst)) = some 1 ∧
    doubledEdges.bind (fun m => (m.halfEdge 11).map (fun H => H.mSrc)) = some 2 := by
  decide!

/-- C33, amended: for `n >= 2` edges around a closed walk `v_0, ..., v_n = v_0`
that does not come back to `v_0` after two edges unless `n = 2`,
`halfEdgesFromEdges` returns `n` half edges, the `i`-th a half edge of the `i`-th
edge, chained head to tail, the last to the first. -/
theorem halfEdgesFromEdges_chain (m : Manifold) (edges : List EdgeIt) (vs : List VertexIt)
    (hn : 2 ≤ edges.length) (hw : closedWalk m edges vs)
    (h02 : edges.length = 2 ∨ vs.getD 0 0 ≠ vs.getD 2 0) :
    ∃ hs, halfEdgesFromEdges m edges = some hs ∧ hs.length = edges.length ∧
      ∀ i, i < edges.length → ∃ E H K, m.edge (edges.getD i 0) = some E ∧
        (hs.getD i 0 = E.mHe1 ∨ hs.getD i 0 = E.mHe2) ∧
        m.halfEdge (hs.getD i 0) = some H ∧
        m.halfEdge (hs.getD ((i + 1) % edges.length) 0) = some K ∧ H.mDst = K.mSrc := by
  obtain ⟨hl, hc, hj⟩ := hw
  match edges, vs, hn, hl with
  | e1 :: e2 :: rest, v0 :: v1 :: v2 :: ws, _, hl =>
    have j1 : edgeJoins m e1 v0 v1 = true := by
      have := hj 0 (by simp only [List.length_cons]; omega)
      simpa only [List.getD_cons_zero, List.getD_cons_succ] using this
    have j2 : edgeJoins m e2 v1 v2 = true := by
      have := hj 1 (by simp only [List.length_cons]; omega)
      simpa only [List.getD_cons_zero, List.getD_cons_succ] using this
    obtain ⟨E1, H11, H12, hE1, h11, h12, hor1⟩ := edgeJoins_spec m e1 v0 v1 j1
    obtain ⟨E2, H21, H22, hE2, h21, h22, hor2⟩ := edgeJoins_spec m e2 v1 v2 j2
    have hrun : halfEdgesFromEdges m (e1 :: e2 :: rest) =
        halfEdgesFromEdgesLoop m (e1 :: e2 :: rest)
          (if H11.mSrc = H21.mSrc ∨ H11.mSrc = H22.mSrc then H12.mSrc else H11.mSrc) := by
      simp only [halfEdgesFromEdges, hE1, h11, h12, hE2, h21, h22, Option.bind_eq_bind,
        Option.some_bind]
    have hstart : (if H11.mSrc = H21.mSrc ∨ H11.mSrc = H22.mSrc then H12.mSrc
        else H11.mSrc) = v0 ∨
        (v2 = v0 ∧ (if H11.mSrc = H21.mSrc ∨ H11.mSrc = H22.mSrc then H12.mSrc
          else H11.mSrc) = v1) := by
      have e2s : (H21.mSrc = v1 ∧ H22.mSrc = v2) ∨ (H21.mSrc = v2 ∧ H22.mSrc = v1) := by
        rcases hor2 with ⟨a, _, c, _⟩ | ⟨a, _, c, _⟩
        · exact Or.inl ⟨a, c⟩
        · exact Or.inr ⟨a, c⟩
      rcases hor1 with ⟨a, _, c, _⟩ | ⟨a, _, c, _⟩
      · by_cases hcond : H11.mSrc = H21.mSrc ∨ H11.mSrc = H22.mSrc
        · rw [if_pos hcond, c]
          rw [a] at hcond
          by_cases h01 : v0 = v1
          · exact Or.inl h01.symm
          · right
            refine ⟨?_, rfl⟩
            rcases e2s with ⟨x, y⟩ | ⟨x, y⟩
            · rw [x, y] at hcond
              rcases hcond with h | h
              · exact absurd h h01
              · exact h.symm
            · rw [x, y] at hcond
              rcases hcond with h | h
              · exact h.symm
              · exact absurd h h01
        · rw [if_neg hcond]
          exact Or.inl a
      · have hcond : H11.mSrc = H21.mSrc ∨ H11.mSrc = H22.mSrc := by
          rw [a]
          rcases e2s with ⟨x, _⟩ | ⟨_, y⟩
          · exact Or.inl x.symm
          · exact Or.inr y.symm
        rw [if_pos hcond]
        exact Or.inl c
    rw [hrun]
    rcases hstart with hv | ⟨h20, hv⟩
    · rw [hv]
      obtain ⟨hs, hr, hlen, hq⟩ := halfEdgesFromEdgesLoop_walk m (e1 :: e2 :: rest)
        (v0 :: v1 :: v2 :: ws) hl hj
      exact ⟨hs, hr, hlen, chain_of_walk m _ hs _ hc hq⟩
    · rcases h02 with h2 | hne
      · have hrest : rest = [] := by
          simp only [List.length_cons] at h2
          exact List.length_eq_zero.mp (by omega)
        subst hrest
        rw [hv]
        have hj' : ∀ i, i < [e1, e2].length →
            edgeJoins m ([e1, e2].getD i 0) ([v1, v0, v1].getD i 0)
              ([v1, v0, v1].getD (i + 1) 0) = true := by
          intro i hi
          simp only [List.length_cons, List.length_nil] at hi
          have hi2 : i = 0 ∨ i = 1 := by omega
          rcases hi2 with rfl | rfl
          · exact edgeJoins_symm _ _ _ _ j1
          · have := edgeJoins_symm _ _ _ _ j2
            rw [h20] at this
            exact this
        obtain ⟨hs, hr, hlen, hq⟩ := halfEdgesFromEdgesLoop_walk m [e1, e2] [v1, v0, v1]
          rfl hj'
        exact ⟨hs, hr, hlen, chain_of_walk m _ hs [v1, v0, v1] rfl hq⟩
      · exact absurd h20.symm (by simpa only [List.getD_cons_zero, List.getD_cons_succ] using hne)

/-- C33, witness: the edges `4`, `13`, `7` around the face of the corner simplex on
the vertices `0`, `1`, `2`. -/
theorem halfEdgesFromEdges_chain_witness :
    ∃ hs, halfEdgesFromEdges cornerSimplex [4, 13, 7] = some hs ∧
      hs.length = [4, 13, 7].length ∧
      ∀ i, i < [4, 13, 7].length → ∃ E H K,
        cornerSimplex.edge ([4, 13, 7].getD i 0) = some E ∧
        (hs.getD i 0 = E.mHe1 ∨ hs.getD i 0 = E.mHe2) ∧
        cornerSimplex.halfEdge (hs.getD i 0) = some H ∧
        cornerSimplex.halfEdge (hs.getD ((i + 1) % [4, 13, 7].length) 0) = some K ∧
        H.mDst = K.mSrc :=
  halfEdgesFromEdges_chain cornerSimplex [4, 13, 7] [0, 1, 2, 0] (by decide)
    (by decide!) (Or.inr (by decide))

end Makena

/-! ## `findOBB2D` and the initial values of its output parameters -/

namespace Makena

/-- The first iteration of `findOBB2D` overwrites the output parameters when the
first edge is longer than the tolerance. -/
theorem findOBB2DStep_zero (CH : List Vec3) (s t : OBB2D)
    (h : ¬ ({ (CH.getD 0 Vec3.zero).sub
        (CH.getD (if 0 < CH.length - 1 then 0 + 1 else 0) Vec3.zero) with x := 0 } :
        Vec3).squaredNorm2 < EPSILON_SQUARED) :
    findOBB2DStep CH 0 s = findOBB2DStep CH 0 t := by
  unfold findOBB2DStep
  simp only [if_neg h, true_or, if_true]

/-- When the first edge of `CH` is longer than the tolerance the outputs of
`findOBB2D` do not depend on the values the output parameters had at the call. -/
theorem findOBB2D_of_first_edge (CH : List Vec3) (s t : OBB2D) (hne : CH ≠ [])
    (h : ¬ ({ (CH.getD 0 Vec3.zero).sub
        (CH.getD (if 0 < CH.length - 1 then 0 + 1 else 0) Vec3.zero) with x := 0 } :
        Vec3).squaredNorm2 < EPSILON_SQUARED) :
    findOBB2D CH s = findOBB2D CH t := by
  unfold findOBB2D
  obtain ⟨n, hn⟩ : ∃ n, CH.length = n + 1 :=
    ⟨CH.length - 1, by have := List.length_pos.mpr hne; omega⟩
  rw [hn, List.range_succ_eq_map, List.foldl_cons, List.foldl_cons,
    findOBB2DStep_zero CH s t h]

/-- Claim C39, `findOBB2D` on the hull `nearPoints` of its own five points, whose
first edge is shorter than the tolerance while the other four are not: called
with the output parameters zero the function returns them unchanged, with area
and extents zero, and called with the area parameter at 100 it returns the
rectangle of the edge from `(0, 1, 0)` to `(0, 1, 1)` of area `1000001 / 1000000`;
the first iteration that passes the tolerance test compares against the value
the area parameter had at the call. -/
theorem findOBB2D_reads_initial_area :
    findConvexHull2D (nearPoints.map (fun p => (⟨p.y, p.z⟩ : Vec2))) = [0, 1, 2, 3, 4] ∧
    (({ (nearPoints.getD 0 Vec3.zero).sub (nearPoints.getD 1 Vec3.zero) with x := 0 } :
        Vec3).squaredNorm2 < EPSILON_SQUARED) ∧
    ¬ (({ (nearPoints.getD 1 Vec3.zero).sub (nearPoints.getD 2 Vec3.zero) with x := 0 } :
        Vec3).squaredNorm2 < EPSILON_SQUARED) ∧
    findOBB2D nearPoints (obbWithArea 0) = obbWithArea 0 ∧
    findOBB2D nearPoints (obbWithArea 100) =
      ⟨⟨0, 0, -1⟩, ⟨0, 1, 0⟩, ⟨0, 0, -1 / 1000000⟩, ⟨0, 1, -1 / 1000000⟩, ⟨0, 1, 1⟩,
        ⟨0, 0, 1⟩, 1000001 / 1000000, 1, 1000001 / 1000000⟩ := by
  decide!

/-- The outputs of `findOBB2D` on the square hull do not depend on the values of
the output parameters at the call. -/
theorem findOBB2D_of_first_edge_witness :
    findOBB2D [⟨0, 0, 0⟩, ⟨0, 1, 0⟩, ⟨0, 1, 1⟩, ⟨0, 0, 1⟩] (obbWithArea 0) =
      findOBB2D [⟨0, 0, 0⟩, ⟨0, 1, 0⟩, ⟨0, 1, 1⟩, ⟨0, 0, 1⟩] (obbWithArea 100) :=
  findOBB2D_of_first_edge _ _ _ (by simp) (by decide!)

end Makena

/-! ## The work queues under `removeEdgeAndMergeFaces` -/

namespace Makena

/-- The degree-2 branch of `removeEdgeAndMergeFacesCheckForUpdate`: a vertex
with four incident half edges is put at the front of `mVerticesToBeRemoved` and
its `mToBeRemoved` keeps the value it had. -/
theorem checkForUpdate_degree_two (fuel : Nat) (m : Manifold) (vit : VertexIt) (V : Vertex)
    (hV : m.vertex vit = some V) (h4 : V.mIncidentHalfEdges.length = 4) :
    ∃ m2, removeEdgeAndMergeFacesCheckForUpdate fuel m vit = some m2 ∧
      m2.mVerticesToBeRemoved = (m.mFresh, vit) :: m.mVerticesToBeRemoved ∧
      (m2.vertex vit).map (fun W => W.mToBeRemoved) = some V.mToBeRemoved := by
  obtain ⟨l, hl, hs⟩ := setVertex_some m vit (fun V =>
    { V with mBackItVTBR := some m.mFresh,
             mToBeRemoved := if false then true else V.mToBeRemoved })
    (by rw [hV]; rfl)
  have hd := deref_assign _ vit m.mVertices l hl vit
  unfold Manifold.vertex at hV
  rw [if_pos rfl, hV] at hd
  unfold removeEdgeAndMergeFacesCheckForUpdate
  simp only [Manifold.vertex, hV, Option.bind_eq_bind, Option.some_bind, h4, if_true,
    chainVertex, hs, Option.pure_def]
  refine ⟨_, rfl, rfl, ?_⟩
  simp [hd]

/-- Claim C37, the run of `findConvexHull` on `mergePoints`: at the second round
of the repair loop in the second iteration of the main loop both work queues are
consistent (edge 73 alone is queued, and flagged).  The round pops edge 73 and calls
`removeEdgeAndMergeFaces`; afterwards vertex 72, which has four incident half
edges, is the one entry of `mVerticesToBeRemoved` and its `mToBeRemoved` is
`false`, so the vertex queue is not consistent, while the edge queue is. -/
theorem repairEdge_queues_unflagged_vertex :
    secondRound.map (fun m => (edgeQueueConsistent m, vertexQueueConsistent m,
        m.mEdgesToBeRemoved.map Prod.snd, m.mVerticesToBeRemoved.map Prod.snd)) =
      some (true, true, [73], []) ∧
    (secondRound.bind (repairEdge 40)).map (fun m =>
        (edgeQueueConsistent m, vertexQueueConsistent m,
          m.mEdgesToBeRemoved.map Prod.snd, m.mVerticesToBeRemoved.map Prod.snd)) =
      some (true, false, [], [72]) ∧
    (secondRound.bind (repairEdge 40)).bind (fun m =>
        (m.vertex 72).map (fun V => (V.mToBeRemoved, V.mIncidentHalfEdges.length))) =
      some (false, 4) :=
  secondRound_facts.2.2

end Makena

/-! ## The vertices of `findConvexHull` and the input points -/

namespace Makena

theorem labels_of_fields (m s : Manifold) (hv : s.mVertices = m.mVertices)
    (hg : s.mConflictGraph.mNodes = m.mConflictGraph.mNodes) : labels s ⊆ labels m := by
  unfold labels
  rw [hv, hg]
  exact List.Subset.refl _

theorem labels_of_subsets (m s : Manifold)
    (hv : s.mVertices.map (fun p => (p.2.mPointLCS, p.2.mId)) ⊆
      m.mVertices.map (fun p => (p.2.mPointLCS, p.2.mId)))
    (hg : s.mConflictGraph.mNodes.filterMap (fun n => n.2.label) ⊆
      m.mConflictGraph.mNodes.filterMap (fun n => n.2.label)) : labels s ⊆ labels m := by
  unfold labels
  intro x hx
  rcases List.mem_append.mp hx with h | h
  · exact List.mem_append_left _ (hv h)
  · exact List.mem_append_right _ (hg h)

theorem eraseAt_sublist {α : Type} (i : Nat) :
    ∀ l l2 : List (Nat × α), eraseAt l i = some l2 → l2.Sublist l := by
  intro l
  induction l with
  | nil => intro l2 h; simp [eraseAt] at h
  | cons p l ih =>
    intro l2 h
    obtain ⟨k, a⟩ := p
    simp only [eraseAt] at h
    by_cases hk : k = i
    · simp only [hk, if_true, Option.some.injEq] at h
      rw [← h]
      exact List.sublist_cons_self _ _
    · simp only [hk, if_false] at h
      cases hr : eraseAt l i with
      | none => simp [hr] at h
      | some l3 =>
        simp only [hr, Option.map_some', Option.some.injEq] at h
        rw [← h]
        exact (ih l3 hr).cons₂ _

theorem assign_map_snd {α β : Type} (g : α → α) (h : α → β) (hg : ∀ a, h (g a) = h a)
    (i : Nat) (l l2 : List (Nat × α)) (e : assign l i g = some l2) :
    l2.map (fun q => h q.2) = l.map (fun q => h q.2) := by
  have := congrArg (List.map Prod.snd) (assign_map_eq g h hg i l l2 e)
  simpa [List.map_map, Function.comp] using this

theorem setVertex_within (m s : Manifold) (v : VertexIt) (f : Vertex → Vertex)
    (h : m.setVertex v f = some s)
    (hf : ∀ V, ((f V).mPointLCS, (f V).mId) = (V.mPointLCS, V.mId)) : labels s ⊆ labels m := by
  unfold Manifold.setVertex at h
  split at h
  · simp at h
  · rename_i l hl
    simp only [Option.some.injEq] at h
    rw [← h]
    unfold labels
    simp only [assign_map_snd f (fun V => (V.mPointLCS, V.mId)) hf v _ _ hl]
    exact List.Subset.refl _

theorem setHalfEdge_within (m s : Manifold) (v : HalfEdgeIt) (f : HalfEdge → HalfEdge)
    (h : m.setHalfEdge v f = some s) : labels s ⊆ labels m := by
  unfold Manifold.setHalfEdge at h
  split at h
  · simp at h
  · simp only [Option.some.injEq] at h
    rw [← h]
    exact List.Subset.refl _

theorem setEdge_within (m s : Manifold) (v : EdgeIt) (f : Edge → Edge)
    (h : m.setEdge v f = some s) : labels s ⊆ labels m := by
  unfold Manifold.setEdge at h
  split at h
  · simp at h
  · simp only [Option.some.injEq] at h
    rw [← h]
    exact List.Subset.refl _

theorem setFace_within (m s : Manifold) (v : FaceIt) (f : Face → Face)
    (h : m.setFace v f = some s) : labels s ⊆ labels m := by
  unfold Manifold.setFace at h
  split at h
  · simp at h
  · simp only [Option.some.injEq] at h
    rw [← h]
    exact List.Subset.refl _

theorem eraseVertex_within (m : Manifold) (v : VertexIt) (l : List (VertexIt × Vertex))
    (h : eraseAt m.mVertices v = some l) :
    labels { m with mVertices := l } ⊆ labels m := by
  apply labels_of_subsets
  · exact ((eraseAt_sublist v _ _ h).map _).subset
  · exact List.Subset.refl _

theorem removeNode_labels (g g2 : DiGraph) (n : NodeIt) (h : g.removeNode n = some g2) :
    g2.mNodes.filterMap (fun n => n.2.label) ⊆ g.mNodes.filterMap (fun n => n.2.label) := by
  simp only [DiGraph.removeNode, Option.bind_eq_bind, Option.bind_eq_some, Option.pure_def,
    Option.some.injEq] at h
  obtain ⟨l, hl, rfl⟩ := h
  exact ((eraseAt_sublist n _ _ hl).filterMap _).subset

theorem setFound_labels (g g2 : DiGraph) (n : NodeIt) (b : Bool)
    (h : g.setFound n b = some g2) :
    g2.mNodes.filterMap (fun n => n.2.label) = g.mNodes.filterMap (fun n => n.2.label) := by
  simp only [DiGraph.setFound, Option.bind_eq_bind, Option.bind_eq_some, Option.pure_def,
    Option.some.injEq] at h
  obtain ⟨c, hc, l, hl, rfl⟩ := h
  show l.filterMap _ = _
  unfold DiGraph.vertexConflict at hc
  revert hl hc
  generalize g.mNodes = ns
  intro hc hl
  induction ns generalizing l with
  | nil => simp [assign] at hl
  | cons q ns ih =>
    obtain ⟨k, a⟩ := q
    simp only [assign] at hl
    simp only [deref] at hc
    by_cases hk : k = n
    · simp only [hk, if_true, Option.some.injEq] at hl hc
      rw [← hl]
      cases a with
      | FaceConflict f => simp at hc
      | VertexConflict p id found =>
        simp only [Option.some.injEq] at hc
        rw [← hc]
        simp [ConflictNode.label]
    · simp only [hk, if_false] at hl hc
      cases hr : assign ns n (fun _ => ConflictNode.VertexConflict c.1 c.2.1 b) with
      | none => simp [hr] at hl
      | some l3 =>
        simp only [hr, Option.some.injEq] at hl
        rw [← hl]
        simp only [List.filterMap_cons]
        rw [ih l3 hc hr]

theorem forEachIt_within (step : Manifold → Nat → Option Manifold)
    (hstep : ∀ m i s, step m i = some s → labels s ⊆ labels m) :
    ∀ l m s, forEachIt step l m = some s → labels s ⊆ labels m := by
  intro l
  induction l with
  | nil =>
    intro m s h
    simp only [forEachIt, Option.some.injEq] at h
    rw [h]
    exact List.Subset.refl _
  | cons i l ih =>
    intro m s h
    simp only [forEachIt] at h
    cases hs : step m i with
    | none => simp [hs] at h
    | some m1 =>
      simp only [hs] at h
      exact List.Subset.trans (ih m1 s h) (hstep m i m1 hs)

theorem addNode_face_labels (g : DiGraph) (it : NodeIt) (f : FaceIt) :
    (g.addNode it (ConflictNode.FaceConflict f)).mNodes.filterMap (fun n => n.2.label) =
      g.mNodes.filterMap (fun n => n.2.label) := by
  simp [DiGraph.addNode, List.filterMap_append, ConflictNode.label]

theorem collectNotFound_labels :
    ∀ (l : List NodeIt) (s r : DiGraph × List NodeIt), collectNotFound l s = some r →
      r.1.mNodes.filterMap (fun n => n.2.label) = s.1.mNodes.filterMap (fun n => n.2.label) := by
  intro l
  induction l with
  | nil => intro s r h; simp only [collectNotFound, Option.some.injEq] at h; rw [h]
  | cons n l ih =>
    intro s r h
    simp only [collectNotFound, Option.bind_eq_bind, Option.bind_eq_some] at h
    obtain ⟨c, -, h⟩ := h
    split at h
    · simp only [Option.bind_eq_some] at h
      obtain ⟨g, hg, h⟩ := h
      rw [ih _ _ h]
      exact setFound_labels _ _ _ _ hg
    · exact ih _ _ h

theorem setFoundAll_labels (b : Bool) :
    ∀ (l : List NodeIt) (g g2 : DiGraph), setFoundAll b l g = some g2 →
      g2.mNodes.filterMap (fun n => n.2.label) = g.mNodes.filterMap (fun n => n.2.label) := by
  intro l
  induction l with
  | nil => intro g g2 h; simp only [setFoundAll, Option.some.injEq] at h; rw [h]
  | cons n l ih =>
    intro g g2 h
    simp only [setFoundAll, Option.bind_eq_bind, Option.bind_eq_some] at h
    obtain ⟨g1, hg, h⟩ := h
    rw [ih _ _ h]
    exact setFound_labels _ _ _ _ hg

theorem setFace_fields (m s : Manifold) (v : FaceIt) (f : Face → Face)
    (h : m.setFace v f = some s) :
    s.mVertices = m.mVertices ∧ s.mConflictGraph = m.mConflictGraph := by
  unfold Manifold.setFace at h
  split at h
  · simp at h
  · simp only [Option.some.injEq] at h
    rw [← h]
    exact ⟨rfl, rfl⟩
theorem eraseIncident_within (m s : Manifold) (v : VertexIt) (it : Option ListIt)
    (h : eraseIncident m v it = some s) : labels s ⊆ labels m := by
  simp only [eraseIncident, Option.bind_eq_bind, Option.bind_eq_some] at h
  obtain ⟨V, -, i, -, l, -, h⟩ := h
  exact setVertex_within _ _ _ _ h (fun _ => rfl)

theorem insertIncident_within (m : Manifold) (v : VertexIt) (pos : Option ListIt)
    (he : HalfEdgeIt) (r : Manifold × ListIt)
    (h : insertIncident m v pos he = some r) : labels r.1 ⊆ labels m := by
  simp only [insertIncident, Option.bind_eq_bind, Option.bind_eq_some, Option.pure_def,
    Option.some.injEq] at h
  obtain ⟨V, -, p, -, l, -, m1, h1, rfl⟩ := h
  exact setVertex_within m m1 _ _ h1 (fun _ => rfl)

theorem relink_within (m s : Manifold) (a b : HalfEdgeIt)
    (h : relink m a b = some s) : labels s ⊆ labels m := by
  simp only [relink, Option.bind_eq_bind, Option.bind_eq_some] at h
  obtain ⟨m1, h1, m2, h2, c, -, m3, h3, h4⟩ := h
  exact List.Subset.trans (setHalfEdge_within _ _ _ _ h4)
    (List.Subset.trans (setHalfEdge_within _ _ _ _ h3)
    (List.Subset.trans (setHalfEdge_within _ _ _ _ h2) (setHalfEdge_within _ _ _ _ h1)))

theorem removeEdgeAtSrc_within (m s : Manifold) (e : EdgeIt)
    (h : removeEdgeAtSrc m e = some s) : labels s ⊆ labels m := by
  simp only [removeEdgeAtSrc, Option.bind_eq_bind, Option.bind_eq_some, Option.pure_def] at h
  obtain ⟨E, -, H1, -, h⟩ := h
  split at h
  · simp only [Option.bind_eq_some] at h
    obtain ⟨H2, -, p, -, n, -, m1, h1, H1b, -, m2, h2, H2b, -, h3⟩ := h
    exact List.Subset.trans (eraseIncident_within _ _ _ _ h3)
      (List.Subset.trans (eraseIncident_within _ _ _ _ h2) (relink_within _ _ _ _ h1))
  · simp only [Option.bind_eq_some, Option.some.injEq] at h
    obtain ⟨l, hl, rfl⟩ := h
    exact eraseVertex_within _ _ _ hl

theorem removeEdgeAtDst_within (m s : Manifold) (e : EdgeIt)
    (h : removeEdgeAtDst m e = some s) : labels s ⊆ labels m := by
  simp only [removeEdgeAtDst, Option.bind_eq_bind, Option.bind_eq_some, Option.pure_def] at h
  obtain ⟨E, -, H1, -, h⟩ := h
  split at h
  · simp only [Option.bind_eq_some] at h
    obtain ⟨H2, -, p, -, n, -, m1, h1, H1b, -, m2, h2, H2b, -, h3⟩ := h
    exact List.Subset.trans (eraseIncident_within _ _ _ _ h3)
      (List.Subset.trans (eraseIncident_within _ _ _ _ h2) (relink_within _ _ _ _ h1))
  · simp only [Option.bind_eq_some, Option.some.injEq] at h
    obtain ⟨l, hl, rfl⟩ := h
    exact eraseVertex_within _ _ _ hl

theorem removeEdge_within (m s : Manifold) (e : EdgeIt)
    (h : removeEdge m e = some s) : labels s ⊆ labels m := by
  simp only [removeEdge, Option.bind_eq_bind, Option.bind_eq_some, Option.pure_def,
    Option.some.injEq] at h
  obtain ⟨m1, h1, m2, h2, E, -, l1, -, l2, -, le, -, rfl⟩ := h
  show labels m2 ⊆ _
  exact List.Subset.trans (removeEdgeAtDst_within _ _ _ h2) (removeEdgeAtSrc_within _ _ _ h1)

theorem setToBeMergedOfFace_within (b : Bool) (m : Manifold) (fit : FaceIt) (s : Manifold)
    (h : setToBeMergedOfFace b m fit = some s) : labels s ⊆ labels m := by
  simp only [setToBeMergedOfFace, Option.bind_eq_bind, Option.bind_eq_some] at h
  obtain ⟨F, -, h⟩ := h
  exact forEachIt_within _ (fun m i s h => setHalfEdge_within _ _ _ _ h) _ _ _ h

theorem gatherAcross_within :
    ∀ (l : List (ListIt × HalfEdgeIt)) (s r : Manifold × List FaceIt),
      gatherAcross l s = some r → labels r.1 ⊆ labels s.1 := by
  intro l
  induction l with
  | nil =>
    intro s r h
    simp only [gatherAcross, Option.some.injEq] at h
    rw [h]
    exact List.Subset.refl _
  | cons p l ih =>
    intro s r h
    obtain ⟨k, heit⟩ := p
    simp only [gatherAcross, Option.bind_eq_bind, Option.bind_eq_some] at h
    obtain ⟨H, -, E, -, h⟩ := h
    split at h
    · simp only [Option.bind_eq_some] at h
      obtain ⟨B, -, fB, -, FB, -, h⟩ := h
      split at h
      · simp only [Option.bind_eq_some] at h
        obtain ⟨m1, h1, h⟩ := h
        refine List.Subset.trans (ih _ _ h) ?_
        exact setFace_within _ _ _ _ h1
      · exact ih _ _ h
    · exact ih _ _ h

theorem gatherLoop_within :
    ∀ (fuel : Nat) (s : Manifold × List FaceIt) (faces : List FaceIt)
      (r : Manifold × List FaceIt),
      gatherLoop fuel s faces = some r → labels r.1 ⊆ labels s.1 := by
  intro fuel
  induction fuel with
  | zero =>
    intro s faces r h
    simp only [gatherLoop] at h
    split at h
    · simp only [Option.some.injEq] at h; rw [← h]; exact List.Subset.refl _
    · simp at h
  | succ k ih =>
    intro s faces r h
    simp only [gatherLoop] at h
    split at h
    · simp only [Option.some.injEq] at h; rw [← h]; exact List.Subset.refl _
    · simp only [Option.bind_eq_bind, Option.bind_eq_some] at h
      obtain ⟨F, -, s1, h1, h⟩ := h
      refine List.Subset.trans (ih _ _ _ h) ?_
      have h2 := gatherAcross_within _ _ _ h1
      exact h2

theorem setFacesToBeMerged_within (b : Bool) :
    ∀ (l : List FaceIt) (m s : Manifold),
      setFacesToBeMerged b l m = some s → labels s ⊆ labels m := by
  intro l
  induction l with
  | nil =>
    intro m s h
    simp only [setFacesToBeMerged, Option.some.injEq] at h
    rw [h]
    exact List.Subset.refl _
  | cons f l ih =>
    intro m s h
    simp only [setFacesToBeMerged, Option.bind_eq_bind, Option.bind_eq_some] at h
    obtain ⟨m1, h1, h⟩ := h
    exact List.Subset.trans (ih _ _ h) (setFace_within _ _ _ _ h1)

theorem gatherConnectedFaces_within (fuel : Nat) (m : Manifold) (eit : EdgeIt)
    (r : Manifold × List FaceIt) (h : gatherConnectedFaces fuel m eit = some r) :
    labels r.1 ⊆ labels m := by
  simp only [gatherConnectedFaces, Option.bind_eq_bind, Option.bind_eq_some, Option.pure_def,
    Option.some.injEq] at h
  obtain ⟨E, -, H1, -, H2, -, f1, -, f2, -, m1, h1, m2, h2, r1, h3, m3, h4, rfl⟩ := h
  show labels m3 ⊆ _
  exact List.Subset.trans (setFacesToBeMerged_within _ _ _ _ h4)
    (List.Subset.trans (gatherLoop_within _ _ _ _ h3)
    (List.Subset.trans (setFace_within _ _ _ _ h2) (setFace_within _ _ _ _ h1)))

theorem findCircumference_within (fuel : Nat) (m : Manifold) (faces : List FaceIt)
    (r : Manifold × List HalfEdgeIt × Bool) (h : findCircumference fuel m faces = some r) :
    labels r.1 ⊆ labels m := by
  have hf : ∀ b l m s, forEachIt (setToBeMergedOfFace b) l m = some s →
      labels s ⊆ labels m :=
    fun b => forEachIt_within _ (fun m i s h => setToBeMergedOfFace_within b m i s h)
  simp only [findCircumference, Option.bind_eq_bind, Option.bind_eq_some, Option.pure_def] at h
  obtain ⟨m1, h1, c, -, h⟩ := h
  split at h
  · simp only [Option.bind_eq_some, Option.some.injEq] at h
    obtain ⟨m2, h2, rfl⟩ := h
    show labels m2 ⊆ _
    exact List.Subset.trans (hf _ _ _ _ h2) (hf _ _ _ _ h1)
  · simp only [Option.bind_eq_some] at h
    obtain ⟨heStart, -, heit, -, bh, -, m2, h2, h⟩ := h
    split at h
    · simp only [Option.some.injEq] at h
      rw [← h]
      show labels m2 ⊆ _
      exact List.Subset.trans (hf _ _ _ _ h2) (hf _ _ _ _ h1)
    · simp only [Option.some.injEq] at h
      rw [← h]
      show labels m2 ⊆ _
      exact List.Subset.trans (hf _ _ _ _ h2) (hf _ _ _ _ h1)

theorem markAdditional_within (s : Manifold × List FaceIt) (f : Option FaceIt)
    (r : Manifold × List FaceIt) (h : markAdditional s f = some r) :
    labels r.1 ⊆ labels s.1 := by
  simp only [markAdditional, Option.bind_eq_bind, Option.bind_eq_some, Option.pure_def] at h
  obtain ⟨fit, -, F, -, h⟩ := h
  split at h
  · simp only [Option.bind_eq_some, Option.some.injEq] at h
    obtain ⟨m1, h1, rfl⟩ := h
    exact setFace_within _ _ _ _ h1
  · simp only [Option.some.injEq] at h
    rw [h]; exact List.Subset.refl _

theorem concavityFound_within (s : Manifold × List FaceIt) (he1 he2 : HalfEdgeIt)
    (r : Manifold × Option (List FaceIt)) (h : concavityFound s he1 he2 = some r) :
    labels r.1 ⊆ labels s.1 := by
  simp only [concavityFound, Option.bind_eq_bind, Option.bind_eq_some, Option.pure_def] at h
  obtain ⟨H1, -, H2, -, E1, -, E2, -, B1, -, B2, -, h⟩ := h
  split at h
  · simp only [Option.bind_eq_some, Option.some.injEq] at h
    obtain ⟨s1, h1, s2, h2, rfl⟩ := h
    show labels s2.1 ⊆ _
    exact List.Subset.trans (markAdditional_within _ _ _ h2) (markAdditional_within _ _ _ h1)
  · simp only [Option.bind_eq_some, Option.some.injEq] at h
    obtain ⟨m1, h1, f1, -, F1, -, f2, -, F2, -, rfl⟩ := h
    exact setFacesToBeMerged_within _ _ _ _ h1

theorem checkForConcavityLoop_within (halfEdges : List HalfEdgeIt) (n : Vec3) :
    ∀ (l : List Nat) (s : Manifold × List FaceIt) (r : Manifold × List FaceIt × Bool),
      checkForConcavityLoop halfEdges n l s = some r → labels r.1 ⊆ labels s.1 := by
  intro l
  induction l with
  | nil =>
    intro s r h
    simp only [checkForConcavityLoop, Option.bind_eq_bind, Option.bind_eq_some, Option.pure_def,
      Option.some.injEq] at h
    obtain ⟨m1, h1, rfl⟩ := h
    exact setFacesToBeMerged_within _ _ _ _ h1
  | cons i l ih =>
    intro s r h
    simp only [checkForConcavityLoop, Option.bind_eq_bind, Option.bind_eq_some,
      Option.pure_def] at h
    obtain ⟨he1, -, he2, -, X1, -, X2, -, d, -, h⟩ := h
    split at h
    · simp only [Option.bind_eq_some] at h
      obtain ⟨c, hc, h⟩ := h
      split at h
      · refine List.Subset.trans (ih _ _ h) ?_
        exact concavityFound_within _ _ _ _ hc
      · simp only [Option.some.injEq] at h
        rw [← h]
        exact concavityFound_within _ _ _ _ hc
    · exact ih _ _ h

theorem checkForConcavity_within (m : Manifold) (halfEdges : List HalfEdgeIt)
    (r : Manifold × List FaceIt × Bool) (h : checkForConcavity m halfEdges = some r) :
    labels r.1 ⊆ labels m := by
  simp only [checkForConcavity, Option.bind_eq_bind, Option.bind_eq_some] at h
  obtain ⟨h0, -, H0, -, f, -, F, -, h⟩ := h
  exact checkForConcavityLoop_within _ _ _ _ _ h

theorem setParentsFound_within (b : Bool) :
    ∀ (l : List HalfEdgeIt) (m s : Manifold),
      setParentsFound b l m = some s → labels s ⊆ labels m := by
  intro l
  induction l with
  | nil =>
    intro m s h
    simp only [setParentsFound, Option.some.injEq] at h
    rw [h]
    exact List.Subset.refl _
  | cons f l ih =>
    intro m s h
    simp only [setParentsFound, Option.bind_eq_bind, Option.bind_eq_some] at h
    obtain ⟨H, -, m1, h1, h⟩ := h
    exact List.Subset.trans (ih _ _ h) (setEdge_within _ _ _ _ h1)

theorem collectConflicts_within :
    ∀ (l : List FaceIt) (s r : Manifold × List NodeIt),
      collectConflicts l s = some r → labels r.1 ⊆ labels s.1 := by
  intro l
  induction l with
  | nil =>
    intro s r h
    simp only [collectConflicts, Option.some.injEq] at h
    rw [h]
    exact List.Subset.refl _
  | cons f l ih =>
    intro s r h
    simp only [collectConflicts, Option.bind_eq_bind, Option.bind_eq_some] at h
    obtain ⟨F, -, fcit, -, x, -, c, hc, g, hg, h⟩ := h
    refine List.Subset.trans (ih _ _ h) ?_
    have e := removeNode_labels _ _ _ hg
    rw [collectNotFound_labels _ _ _ hc] at e
    exact labels_of_subsets s.1 _ (List.Subset.refl _) e

theorem renewPredFaces_within :
    ∀ (l : List HalfEdgeIt) (m s : Manifold),
      renewPredFaces l m = some s → labels s ⊆ labels m := by
  intro l
  induction l with
  | nil =>
    intro m s h
    simp only [renewPredFaces, Option.some.injEq] at h
    rw [h]
    exact List.Subset.refl _
  | cons f l ih =>
    intro m s h
    simp only [renewPredFaces, Option.bind_eq_bind, Option.bind_eq_some] at h
    obtain ⟨H, -, B, -, p, -, m1, h1, h⟩ := h
    exact List.Subset.trans (ih _ _ h) (setEdge_within _ _ _ _ h1)

theorem newFaceConflict_within (m : Manifold) (f : FaceIt) (r : Manifold × NodeIt)
    (h : newFaceConflict m f = some r) : labels r.1 ⊆ labels m := by
  simp only [newFaceConflict, Option.bind_eq_bind, Option.bind_eq_some, Option.pure_def,
    Option.some.injEq] at h
  obtain ⟨m1, h1, rfl⟩ := h
  obtain ⟨e1, -⟩ := setFace_fields _ _ _ _ h1
  apply labels_of_subsets
  · show m1.mVertices.map _ ⊆ _
    rw [e1]
    exact List.Subset.refl _
  · show (m.mConflictGraph.addNode m.mFresh (ConflictNode.FaceConflict f)).mNodes.filterMap _ ⊆ _
    rw [addNode_face_labels]
    exact List.Subset.refl _

theorem addFacingEdges_within (f : FaceIt) (fc : NodeIt) :
    ∀ (l : List NodeIt) (m s : Manifold),
      addFacingEdges f fc l m = some s → labels s ⊆ labels m := by
  intro l
  induction l with
  | nil =>
    intro m s h
    simp only [addFacingEdges, Option.some.injEq] at h
    rw [h]
    exact List.Subset.refl _
  | cons v l ih =>
    intro m s h
    simp only [addFacingEdges, Option.bind_eq_bind, Option.bind_eq_some] at h
    obtain ⟨c, -, r, -, h⟩ := h
    split at h
    · have h2 := ih _ _ h
      exact h2
    · exact ih _ _ h

theorem removeFacesDetach_within :
    ∀ (l : List (ListIt × HalfEdgeIt)) (s r : Manifold × List EdgeIt),
      removeFacesDetach l s = some r → labels r.1 ⊆ labels s.1 := by
  intro l
  induction l with
  | nil =>
    intro s r h
    simp only [removeFacesDetach, Option.some.injEq] at h
    rw [h]
    exact List.Subset.refl _
  | cons p l ih =>
    intro s r h
    obtain ⟨k, hit⟩ := p
    simp only [removeFacesDetach, Option.bind_eq_bind, Option.bind_eq_some] at h
    obtain ⟨m1, h1, H, -, B, -, h⟩ := h
    split at h
    · have h2 := ih _ _ h
      refine List.Subset.trans (h2) ?_
      exact setHalfEdge_within _ _ _ _ h1
    · have h2 := ih _ _ h
      refine List.Subset.trans (h2) ?_
      exact setHalfEdge_within _ _ _ _ h1

theorem makePolygonInsert_within (fit : FaceIt) :
    ∀ (l : List HalfEdgeIt) (m s : Manifold),
      makePolygonInsert fit l m = some s → labels s ⊆ labels m := by
  intro l
  induction l with
  | nil =>
    intro m s h
    simp only [makePolygonInsert, Option.some.injEq] at h
    rw [h]
    exact List.Subset.refl _
  | cons x l ih =>
    intro m s h
    simp only [makePolygonInsert, Option.bind_eq_bind, Option.bind_eq_some] at h
    obtain ⟨m1, h1, m2, h2, h⟩ := h
    have h3 := ih _ _ h
    refine List.Subset.trans (h3) ?_
    show labels m2 ⊆ _
    exact List.Subset.trans (setHalfEdge_within _ _ _ _ h2) (setFace_within _ _ _ _ h1)

theorem makePolygonLink_within (fit : FaceIt) :
    ∀ (l : List (ListIt × HalfEdgeIt)) (m : Manifold) (hp : Option HalfEdgeIt)
      (pts : List Vec3) (r : Manifold × Option HalfEdgeIt × List Vec3),
      makePolygonLink fit l m hp pts = some r → labels r.1 ⊆ labels m := by
  intro l
  induction l with
  | nil =>
    intro m hp pts r h
    simp only [makePolygonLink, Option.some.injEq] at h
    rw [← h]; exact List.Subset.refl _
  | cons x l ih =>
    intro m hp pts r h
    obtain ⟨k, hit⟩ := x
    simp only [makePolygonLink, Option.bind_eq_bind, Option.bind_eq_some] at h
    obtain ⟨p, -, m1, h1, h⟩ := h
    split at h
    · exact List.Subset.trans (ih _ _ _ _ h) (setHalfEdge_within _ _ _ _ h1)
    · simp only [Option.bind_eq_some] at h
      obtain ⟨m2, h2, m3, h3, c, -, m4, h4, m5, h5, h⟩ := h
      exact List.Subset.trans (ih _ _ _ _ h) (List.Subset.trans (setHalfEdge_within _ _ _ _ h5)
        (List.Subset.trans (setHalfEdge_within _ _ _ _ h4)
        (List.Subset.trans (setHalfEdge_within _ _ _ _ h3)
        (List.Subset.trans (setHalfEdge_within _ _ _ _ h2) (setHalfEdge_within _ _ _ _ h1)))))

theorem eraseFromFace_within (m s : Manifold) (f : Option FaceIt) (it : Option ListIt)
    (h : eraseFromFace m f it = some s) : labels s ⊆ labels m := by
  simp only [eraseFromFace, Option.bind_eq_bind, Option.bind_eq_some] at h
  obtain ⟨fit, -, F, -, i, -, l, -, h⟩ := h
  exact setFace_within _ _ _ _ h

theorem mergeEdgesErase_within (m s : Manifold) (fr : MergeEdgesFrame)
    (h : mergeEdgesErase m fr = some s) : labels s ⊆ labels m := by
  simp only [mergeEdgesErase, Option.bind_eq_bind, Option.bind_eq_some, Option.pure_def,
    Option.some.injEq] at h
  obtain ⟨H5, -, H2, -, m1, h1, m2, h2, m3, h3, m4, h4, l1, -, l2, -, le, -, rfl⟩ := h
  show labels m4 ⊆ _
  exact List.Subset.trans (eraseIncident_within _ _ _ _ h4)
    (List.Subset.trans (eraseIncident_within _ _ _ _ h3)
    (List.Subset.trans (eraseFromFace_within _ _ _ _ h2) (eraseFromFace_within _ _ _ _ h1)))

theorem mergeEdgesAttach_within (m s : Manifold) (v2 : VertexIt) (fr : MergeEdgesFrame)
    (h : mergeEdgesAttach m v2 fr = some s) : labels s ⊆ labels m := by
  simp only [mergeEdgesAttach, Option.bind_eq_bind, Option.bind_eq_some] at h
  obtain ⟨r1, h1, m1, h2, he6, -, r2, h3, m2, h4, lv, hlv, m3, h5, m4, h6, m5, h7, he3, -, h8⟩ := h
  refine List.Subset.trans (List.Subset.trans (setHalfEdge_within _ _ _ _ h8)
    (List.Subset.trans (setHalfEdge_within _ _ _ _ h7)
    (List.Subset.trans (setHalfEdge_within _ _ _ _ h6) (setHalfEdge_within _ _ _ _ h5)))) ?_
  refine List.Subset.trans (eraseVertex_within _ _ _ hlv) ?_
  exact List.Subset.trans (setHalfEdge_within _ _ _ _ h4)
    (List.Subset.trans (insertIncident_within _ _ _ _ _ h3)
    (List.Subset.trans (setHalfEdge_within _ _ _ _ h2) (insertIncident_within _ _ _ _ _ h1)))
theorem removeFacesLoop_within :
    ∀ (l : List FaceIt) (s r : Manifold × List EdgeIt),
      removeFacesLoop l s = some r → labels r.1 ⊆ labels s.1 := by
  intro l
  induction l with
  | nil =>
    intro s r h
    simp only [removeFacesLoop, Option.some.injEq] at h
    rw [h]
    exact List.Subset.refl _
  | cons f l ih =>
    intro s r h
    simp only [removeFacesLoop, Option.bind_eq_bind, Option.bind_eq_some] at h
    obtain ⟨F, -, s1, h1, lf, h2, h⟩ := h
    refine List.Subset.trans (ih _ _ h) ?_
    show labels s1.1 ⊆ _
    exact removeFacesDetach_within _ _ _ h1

theorem removeFaces_within (m s : Manifold) (faces : List FaceIt)
    (h : removeFaces m faces = some s) : labels s ⊆ labels m := by
  simp only [removeFaces, Option.bind_eq_bind, Option.bind_eq_some] at h
  obtain ⟨r, h1, h2⟩ := h
  exact List.Subset.trans
    (forEachIt_within removeEdge (fun m i s h => removeEdge_within m s i h) _ _ _ h2)
    (removeFacesLoop_within _ _ _ h1)

theorem makePolygon_within (m : Manifold) (halfEdges : List HalfEdgeIt) (r : Manifold × FaceIt)
    (h : makePolygon m halfEdges = some r) : labels r.1 ⊆ labels m := by
  unfold makePolygon at h
  dsimp only at h
  split at h
  · have h0 := Option.some.inj h
    rw [← h0]
    exact List.Subset.refl _
  · obtain ⟨m1, h1, h⟩ := Option.bind_eq_some.mp h
    obtain ⟨F, -, h⟩ := Option.bind_eq_some.mp h
    obtain ⟨x, h2, h⟩ := Option.bind_eq_some.mp h
    obtain ⟨m2, hp, pts⟩ := x
    dsimp only at h
    obtain ⟨hl, -, h⟩ := Option.bind_eq_some.mp h
    obtain ⟨hf, -, h⟩ := Option.bind_eq_some.mp h
    obtain ⟨m3, h3, h⟩ := Option.bind_eq_some.mp h
    obtain ⟨m4, h4, h⟩ := Option.bind_eq_some.mp h
    obtain ⟨c, -, h⟩ := Option.bind_eq_some.mp h
    obtain ⟨m5, h5, h⟩ := Option.bind_eq_some.mp h
    obtain ⟨m6, h6, h⟩ := Option.bind_eq_some.mp h
    obtain ⟨y, -, h⟩ := Option.bind_eq_some.mp h
    obtain ⟨n, fp⟩ := y
    dsimp only at h
    obtain ⟨m7, h7, h⟩ := Option.bind_eq_some.mp h
    have h0 := Option.some.inj h
    have e : labels m7 ⊆ labels m1 :=
      List.Subset.trans (setFace_within _ _ _ _ h7)
        (List.Subset.trans (setHalfEdge_within _ _ _ _ h6)
          (List.Subset.trans (setHalfEdge_within _ _ _ _ h5)
            (List.Subset.trans (setHalfEdge_within _ _ _ _ h4)
              (List.Subset.trans (setHalfEdge_within _ _ _ _ h3)
                (makePolygonLink_within _ _ _ _ _ _ h2)))))
    have e1 := makePolygonInsert_within _ _ _ _ h1
    rw [← h0]
    exact List.Subset.trans e e1

theorem setFoundAll_within (b : Bool) (m : Manifold) (l : List NodeIt) (g : DiGraph)
    (h : setFoundAll b l m.mConflictGraph = some g) :
    labels { m with mConflictGraph := g } ⊆ labels m := by
  apply labels_of_subsets
  · exact List.Subset.refl _
  · show g.mNodes.filterMap _ ⊆ _
    rw [setFoundAll_labels _ _ _ _ h]
    exact List.Subset.refl _

theorem mergeConsecutiveFaces_within (fuel : Nat) (m s : Manifold) (faces : List FaceIt)
    (h : mergeConsecutiveFaces fuel m faces = some s) : labels s ⊆ labels m := by
  simp only [mergeConsecutiveFaces, Option.bind_eq_bind, Option.bind_eq_some] at h
  obtain ⟨r, h1, g, hg, c, h2, m1, h3, f, h4, m2, h5, fc, h6, h7⟩ := h
  have v1 := collectConflicts_within _ _ _ h1
  have v2 := findCircumference_within _ _ _ _ h2
  have v3 := removeFaces_within _ _ _ h3
  have v4 := makePolygon_within _ _ _ h4
  have v5 := renewPredFaces_within _ _ _ h5
  have v6 := newFaceConflict_within _ _ _ h6
  have v7 := addFacingEdges_within _ _ _ _ _ h7
  have vg := setFoundAll_within _ r.1 _ _ hg
  exact List.Subset.trans v7 (List.Subset.trans v6 (List.Subset.trans v5
    (List.Subset.trans v4 (List.Subset.trans v3 (List.Subset.trans v2
      (List.Subset.trans vg v1))))))

theorem unchainInnerEdges_within :
    ∀ (l : List (ListIt × HalfEdgeIt)) (m s : Manifold),
      unchainInnerEdges l m = some s → labels s ⊆ labels m := by
  intro l
  induction l with
  | nil =>
    intro m s h
    simp only [unchainInnerEdges, Option.some.injEq] at h
    rw [h]
    exact List.Subset.refl _
  | cons p l ih =>
    intro m s h
    obtain ⟨k, he⟩ := p
    simp only [unchainInnerEdges, Option.bind_eq_bind, Option.bind_eq_some] at h
    obtain ⟨H, -, E, -, h⟩ := h
    split at h
    · simp only [Option.bind_eq_some] at h
      obtain ⟨m1, h1, b, -, q, hq, h⟩ := h
      refine List.Subset.trans (ih _ _ h) ?_
      show labels m1 ⊆ _
      exact setEdge_within _ _ _ _ h1
    · exact ih _ _ h

theorem unchainInnerEdgesOfFaces_within :
    ∀ (l : List FaceIt) (m s : Manifold),
      unchainInnerEdgesOfFaces l m = some s → labels s ⊆ labels m := by
  intro l
  induction l with
  | nil =>
    intro m s h
    simp only [unchainInnerEdgesOfFaces, Option.some.injEq] at h
    rw [h]
    exact List.Subset.refl _
  | cons p l ih =>
    intro m s h
    simp only [unchainInnerEdgesOfFaces, Option.bind_eq_bind, Option.bind_eq_some] at h
    obtain ⟨F, -, m1, h1, h⟩ := h
    exact List.Subset.trans (ih _ _ h) (unchainInnerEdges_within _ _ _ h1)

theorem findInnerEdgesAndRemoveFromChain_within (m s : Manifold) (faces : List FaceIt)
    (halfEdges : List HalfEdgeIt)
    (h : findInnerEdgesAndRemoveFromChain m faces halfEdges = some s) :
    labels s ⊆ labels m := by
  simp only [findInnerEdgesAndRemoveFromChain, Option.bind_eq_bind, Option.bind_eq_some] at h
  obtain ⟨m1, h1, m2, h2, h3⟩ := h
  exact List.Subset.trans (setParentsFound_within _ _ _ _ h3)
    (List.Subset.trans (unchainInnerEdgesOfFaces_within _ _ _ h2)
      (setParentsFound_within _ _ _ _ h1))

theorem chainVertex_within (m s : Manifold) (v : VertexIt) (flag : Bool)
    (h : chainVertex m v flag = some s) : labels s ⊆ labels m := by
  simp only [chainVertex, Option.bind_eq_bind, Option.bind_eq_some, Option.pure_def,
    Option.some.injEq] at h
  obtain ⟨m1, h1, rfl⟩ := h
  have a := setVertex_within _ _ _ _ h1 (fun _ => rfl)
  exact a

theorem unchainVertex_within (m s : Manifold) (v : VertexIt)
    (h : unchainVertex m v = some s) : labels s ⊆ labels m := by
  simp only [unchainVertex, Option.bind_eq_bind, Option.bind_eq_some, Option.pure_def,
    Option.some.injEq] at h
  obtain ⟨V, -, b, -, q, -, m1, h1, rfl⟩ := h
  have a := setVertex_within _ _ _ _ h1 (fun _ => rfl)
  exact a

theorem removeDanglingTail_within (x : Manifold × Bool) (H : HalfEdge) (vAdj : VertexIt)
    (r : Manifold × VertexIt × Bool)
    (h : (do
      let E ← x.1.edge H.mParent
      let q ← if E.mToBeRemoved then eraseAt x.1.mEdgesToBeRemoved (← E.mBackItETBR)
              else pure x.1.mEdgesToBeRemoved
      let m ← removeEdge { x.1 with mEdgesToBeRemoved := q } H.mParent
      pure (m, vAdj, x.2)) = some r) :
    labels r.1 ⊆ labels x.1 := by
  obtain ⟨E, -, h⟩ := Option.bind_eq_some.mp h
  dsimp only at h
  have fin : ∀ q : List (ListIt × EdgeIt),
      (do
        let m ← removeEdge { x.1 with mEdgesToBeRemoved := q } H.mParent
        pure (m, vAdj, x.2)) = some r →
      labels r.1 ⊆ labels x.1 := by
    intro q h
    obtain ⟨m1, h1, h⟩ := Option.bind_eq_some.mp h
    have h0 := Option.some.inj h
    rw [← h0]
    have a := removeEdge_within _ _ _ h1
    exact a
  split at h
  · obtain ⟨b, -, h⟩ := Option.bind_eq_some.mp h
    obtain ⟨q, hq, h⟩ := Option.bind_eq_some.mp h
    exact fin q h
  · obtain ⟨q, hq, h⟩ := Option.bind_eq_some.mp h
    exact fin q h

theorem removeDanglingEdge_within (m : Manifold) (vCur : VertexIt)
    (r : Manifold × VertexIt × Bool) (h : removeDanglingEdge m vCur = some r) :
    labels r.1 ⊆ labels m := by
  unfold removeDanglingEdge at h
  obtain ⟨VC, -, h⟩ := Option.bind_eq_some.mp h
  obtain ⟨heCur, -, h⟩ := Option.bind_eq_some.mp h
  obtain ⟨H, -, h⟩ := Option.bind_eq_some.mp h
  dsimp only at h
  obtain ⟨VA, -, h⟩ := Option.bind_eq_some.mp h
  split at h
  · obtain ⟨x, hx, h⟩ := Option.bind_eq_some.mp h
    obtain ⟨m2, h2, e⟩ := Option.map_eq_some'.mp hx
    refine List.Subset.trans (removeDanglingTail_within x H _ r h) ?_
    rw [← e]
    exact chainVertex_within _ _ _ _ h2
  · split at h
    · obtain ⟨x, hx, h⟩ := Option.bind_eq_some.mp h
      obtain ⟨m2, h2, e⟩ := Option.map_eq_some'.mp hx
      refine List.Subset.trans (removeDanglingTail_within x H _ r h) ?_
      rw [← e]
      exact unchainVertex_within _ _ _ h2
    · obtain ⟨x, hx, h⟩ := Option.bind_eq_some.mp h
      have e := Option.some.inj hx
      refine List.Subset.trans (removeDanglingTail_within x H _ r h) ?_
      rw [← e]
      exact List.Subset.refl _

theorem removeDanglingChain_within :
    ∀ (fuel : Nat) (m : Manifold) (v : VertexIt) (s : Manifold),
      removeDanglingChain fuel m v = some s → labels s ⊆ labels m := by
  intro fuel
  induction fuel with
  | zero => intro m v s h; simp [removeDanglingChain] at h
  | succ k ih =>
    intro m v s h
    simp only [removeDanglingChain, Option.bind_eq_bind, Option.bind_eq_some,
      Option.pure_def] at h
    obtain ⟨r, h1, h⟩ := h
    have a := removeDanglingEdge_within _ _ _ h1
    split at h
    · exact List.Subset.trans (ih _ _ _ h) a
    · have e := Option.some.inj h
      rw [← e]
      exact a

theorem removeEdgeAndMergeFacesCheckForUpdate_within (fuel : Nat) (m s : Manifold)
    (vit : VertexIt) (h : removeEdgeAndMergeFacesCheckForUpdate fuel m vit = some s) :
    labels s ⊆ labels m := by
  simp only [removeEdgeAndMergeFacesCheckForUpdate, Option.bind_eq_bind, Option.bind_eq_some,
    Option.pure_def] at h
  obtain ⟨V, -, h⟩ := h
  split at h
  · exact chainVertex_within _ _ _ _ h
  · split at h
    · simp only [Option.bind_eq_some] at h
      obtain ⟨r, h1, h⟩ := h
      have a := removeDanglingEdge_within _ _ _ h1
      split at h
      · exact List.Subset.trans (removeDanglingChain_within _ _ _ _ h) a
      · have e := Option.some.inj h
        rw [← e]
        exact a
    · have e := Option.some.inj h
      rw [← e]
      exact List.Subset.refl _

theorem checkForUpdateAll_within (fuel : Nat) :
    ∀ (l : List HalfEdgeIt) (m s : Manifold),
      checkForUpdateAll fuel l m = some s → labels s ⊆ labels m := by
  intro l
  induction l with
  | nil =>
    intro m s h
    simp only [checkForUpdateAll, Option.some.injEq] at h
    rw [h]
    exact List.Subset.refl _
  | cons he l ih =>
    intro m s h
    simp only [checkForUpdateAll, Option.bind_eq_bind, Option.bind_eq_some] at h
    obtain ⟨H, -, m1, h1, h⟩ := h
    exact List.Subset.trans (ih _ _ h)
      (removeEdgeAndMergeFacesCheckForUpdate_within _ _ _ _ h1)

theorem growFaces_within (fuel : Nat) :
    ∀ (k : Nat) (m : Manifold) (faces : List FaceIt)
      (r : Manifold × Option (List FaceIt × List HalfEdgeIt)),
      growFaces fuel k m faces = some r → labels r.1 ⊆ labels m := by
  intro k
  induction k with
  | zero => intro m faces r h; simp [growFaces] at h
  | succ k ih =>
    intro m faces r h
    simp only [growFaces, Option.bind_eq_bind, Option.bind_eq_some, Option.pure_def] at h
    obtain ⟨c, h1, h⟩ := h
    have v1 := findCircumference_within _ _ _ _ h1
    split at h
    · have e := Option.some.inj h
      rw [← e]
      exact v1
    · simp only [Option.bind_eq_some] at h
      obtain ⟨x, h2, h⟩ := h
      have v2 := checkForConcavity_within _ _ _ h2
      split at h
      · have e := Option.some.inj h
        rw [← e]
        exact List.Subset.trans v2 v1
      · split at h
        · have e := Option.some.inj h
          rw [← e]
          exact List.Subset.trans v2 v1
        · exact List.Subset.trans (ih _ _ _ h) (List.Subset.trans v2 v1)

theorem removeEdgeAndMergeFaces_within (fuel : Nat) (m : Manifold) (eit : EdgeIt)
    (r : Manifold × Bool) (h : removeEdgeAndMergeFaces fuel m eit = some r) :
    labels r.1 ⊆ labels m := by
  simp only [removeEdgeAndMergeFaces, Option.bind_eq_bind, Option.bind_eq_some,
    Option.pure_def] at h
  obtain ⟨g, h1, x, h2, h⟩ := h
  have v1 := gatherConnectedFaces_within _ _ _ _ h1
  have v2 := growFaces_within _ _ _ _ _ h2
  split at h
  · have e := Option.some.inj h
    rw [← e]
    exact List.Subset.trans v2 v1
  · simp only [Option.bind_eq_some, Option.some.injEq] at h
    obtain ⟨m1, h3, m2, h4, m3, h5, e⟩ := h
    rw [← e]
    exact List.Subset.trans (checkForUpdateAll_within _ _ _ _ h5)
      (List.Subset.trans (mergeConsecutiveFaces_within _ _ _ _ h4)
        (List.Subset.trans (findInnerEdgesAndRemoveFromChain_within _ _ _ _ h3)
          (List.Subset.trans v2 v1)))

theorem repairEdge_within (fuel : Nat) (m s : Manifold)
    (h : repairEdge fuel m = some s) : labels s ⊆ labels m := by
  unfold repairEdge at h
  split at h
  · have e := Option.some.inj h
    rw [← e]
    exact List.Subset.refl _
  · rename_i i eit q hq
    obtain ⟨m1, h1, h⟩ := Option.bind_eq_some.mp h
    obtain ⟨r, h2, h⟩ := Option.bind_eq_some.mp h
    have a0 := setEdge_within _ _ _ _ h1
    have a : labels m1 ⊆ labels m := a0
    have b := removeEdgeAndMergeFaces_within _ _ _ _ h2
    have hs : s = r.1 := by
      by_cases hr : r.2 = true
      · rw [if_pos hr] at h
        obtain ⟨E, -, h⟩ := Option.bind_eq_some.mp h
        obtain ⟨H, -, h⟩ := Option.bind_eq_some.mp h
        obtain ⟨V1, -, h⟩ := Option.bind_eq_some.mp h
        obtain ⟨V2, -, h⟩ := Option.bind_eq_some.mp h
        exact (Option.some.inj h).symm
      · rw [if_neg hr] at h
        exact (Option.some.inj h).symm
    rw [hs]
    exact List.Subset.trans b a

theorem chainEdge_within (m s : Manifold) (e : EdgeIt) (h : chainEdge m e = some s) :
    labels s ⊆ labels m := by
  simp only [chainEdge, Option.bind_eq_bind, Option.bind_eq_some, Option.pure_def] at h
  obtain ⟨E, -, h⟩ := h
  split at h
  · simp only [Option.bind_eq_some, Option.some.injEq] at h
    obtain ⟨m1, h1, rfl⟩ := h
    have a := setEdge_within _ _ _ _ h1
    exact a
  · have e := Option.some.inj h
    rw [← e]
    exact List.Subset.refl _

theorem chainTwoCycle_within (m s : Manifold) (heA : HalfEdgeIt) (heB : Option HalfEdgeIt)
    (v1 v3 : VertexIt) (h : chainTwoCycle m heA heB v1 v3 = some s) :
    labels s ⊆ labels m := by
  simp only [chainTwoCycle, Option.bind_eq_bind, Option.bind_eq_some, Option.pure_def] at h
  obtain ⟨HA, -, b, -, HB, -, E2, -, h⟩ := h
  split at h
  · exact chainEdge_within _ _ _ h
  · simp only [Option.bind_eq_some] at h
    obtain ⟨E1, -, h⟩ := h
    split at h
    · exact chainEdge_within _ _ _ h
    · simp only [Option.bind_eq_some, Option.some.injEq] at h
      obtain ⟨V1, -, V3, -, rfl⟩ := h
      exact List.Subset.refl _

theorem mergeEdgesTwoCycles_within (m s : Manifold) (fr : MergeEdgesFrame)
    (h : mergeEdgesTwoCycles m fr = some s) : labels s ⊆ labels m := by
  unfold mergeEdgesTwoCycles at h
  obtain ⟨f1, -, h⟩ := Option.bind_eq_some.mp h
  obtain ⟨F1, -, h⟩ := Option.bind_eq_some.mp h
  have fin : ∀ m1 : Manifold, labels m1 ⊆ labels m →
      (if fr.f1 ≠ fr.f2 then do
          let F2 ← m1.face (← fr.f2)
          if F2.mIncidentHalfEdges.length = 2 then chainTwoCycle m1 fr.he4 fr.he6 fr.v1 fr.v3
          else pure m1
        else pure m1) = some s →
      labels s ⊆ labels m := by
    intro m1 e1 h
    split at h
    · obtain ⟨f2, -, h⟩ := Option.bind_eq_some.mp h
      obtain ⟨F2, -, h⟩ := Option.bind_eq_some.mp h
      split at h
      · exact List.Subset.trans (chainTwoCycle_within _ _ _ _ _ _ h) e1
      · have e := Option.some.inj h
        rw [← e]
        exact e1
    · have e := Option.some.inj h
      rw [← e]
      exact e1
  dsimp only at h
  by_cases hl : F1.mIncidentHalfEdges.length = 2
  · rw [if_pos hl] at h
    obtain ⟨m1, h1, h⟩ := Option.bind_eq_some.mp h
    exact fin m1 (chainTwoCycle_within _ _ _ _ _ _ h1) h
  · rw [if_neg hl] at h
    obtain ⟨m1, h1, h⟩ := Option.bind_eq_some.mp h
    have e := Option.some.inj h1
    rw [← e] at h
    exact fin m (List.Subset.refl _) h

theorem removeVertexAndMergeEdges_within (m s : Manifold) (v2 : VertexIt)
    (h : removeVertexAndMergeEdges m v2 = some s) : labels s ⊆ labels m := by
  simp only [removeVertexAndMergeEdges, Option.bind_eq_bind, Option.bind_eq_some] at h
  obtain ⟨fr, -, h⟩ := h
  split at h
  · simp only [Option.bind_eq_some] at h
    obtain ⟨H1, -, m1, h1, h2⟩ := h
    exact List.Subset.trans (setVertex_within _ _ _ _ h2 (fun _ => rfl))
      (chainEdge_within _ _ _ h1)
  · simp only [Option.bind_eq_some] at h
    obtain ⟨m1, h1, m2, h2, h3⟩ := h
    exact List.Subset.trans (mergeEdgesTwoCycles_within _ _ _ h3)
      (List.Subset.trans (mergeEdgesAttach_within _ _ _ _ h2)
        (mergeEdgesErase_within _ _ _ h1))

theorem repairVertex_within (m s : Manifold) (h : repairVertex m = some s) :
    labels s ⊆ labels m := by
  unfold repairVertex at h
  split at h
  · have e := Option.some.inj h
    rw [← e]
    exact List.Subset.refl _
  · rename_i i vit q hq
    obtain ⟨m1, h1, h⟩ := Option.bind_eq_some.mp h
    have a0 := setVertex_within _ _ _ _ h1 (fun _ => rfl)
    have a : labels m1 ⊆ labels m := a0
    exact List.Subset.trans (removeVertexAndMergeEdges_within _ _ _ h) a

theorem repairLoop_within (fuel : Nat) :
    ∀ (k : Nat) (m s : Manifold), repairLoop fuel k m = some s → labels s ⊆ labels m := by
  intro k
  induction k with
  | zero =>
    intro m s h
    simp only [repairLoop] at h
    split at h
    · have e := Option.some.inj h
      rw [← e]
      exact List.Subset.refl _
    · simp at h
  | succ k ih =>
    intro m s h
    simp only [repairLoop] at h
    split at h
    · have e := Option.some.inj h
      rw [← e]
      exact List.Subset.refl _
    · simp only [Option.bind_eq_bind, Option.bind_eq_some] at h
      obtain ⟨m1, h1, m2, h2, h⟩ := h
      exact List.Subset.trans (ih _ _ h)
        (List.Subset.trans (repairVertex_within _ _ h2) (repairEdge_within _ _ _ h1))

theorem checkEdge_within (m s : Manifold) (e : EdgeIt) (h : checkEdge m e = some s) :
    labels s ⊆ labels m := by
  simp only [checkEdge, Option.bind_eq_bind, Option.bind_eq_some, Option.pure_def] at h
  obtain ⟨E, -, h⟩ := h
  split at h
  · exact chainEdge_within _ _ _ h
  · simp only [Option.bind_eq_some] at h
    obtain ⟨b, -, h⟩ := h
    split at h
    · exact chainEdge_within _ _ _ h
    · have e := Option.some.inj h
      rw [← e]
      exact List.Subset.refl _

theorem checkPillars_within (center : VertexIt) :
    ∀ (l : List (ListIt × HalfEdgeIt)) (m s : Manifold),
      checkPillars center l m = some s → labels s ⊆ labels m := by
  intro l
  induction l with
  | nil =>
    intro m s h
    simp only [checkPillars, Option.some.injEq] at h
    rw [h]
    exact List.Subset.refl _
  | cons p l ih =>
    intro m s h
    obtain ⟨k, he⟩ := p
    simp only [checkPillars, Option.bind_eq_bind, Option.bind_eq_some] at h
    obtain ⟨H, -, h⟩ := h
    split at h
    · simp only [Option.bind_eq_some] at h
      obtain ⟨m1, h1, n, -, HC, -, m2, h2, h⟩ := h
      exact List.Subset.trans (ih _ _ h)
        (List.Subset.trans (checkEdge_within _ _ _ h2) (checkEdge_within _ _ _ h1))
    · exact ih _ _ h

theorem checkAndMergeFacesCounterClockwise_within (fuel : Nat) (m s : Manifold)
    (center : Option VertexIt)
    (h : checkAndMergeFacesCounterClockwise fuel m center = some s) :
    labels s ⊆ labels m := by
  simp only [checkAndMergeFacesCounterClockwise, Option.bind_eq_bind, Option.bind_eq_some] at h
  obtain ⟨c, -, C, -, m1, h1, h⟩ := h
  refine List.Subset.trans (repairLoop_within _ _ _ _ h) ?_
  have a := checkPillars_within _ _ _ _ h1
  exact a
theorem pushHalfEdgesCCW_within (m s : Manifold) (v : VertexIt) (e : EdgeIt)
    (h : pushHalfEdgesCCW m v e = some s) : labels s ⊆ labels m := by
  simp only [pushHalfEdgesCCW, Option.bind_eq_bind, Option.bind_eq_some] at h
  obtain ⟨E, -, he1, -, x, -, h⟩ := h
  split at h
  · simp only [Option.bind_eq_some] at h
    obtain ⟨m1, h1, m2, h2, h3⟩ := h
    have a := setVertex_within _ _ _ _ h1 (fun _ => rfl)
    exact List.Subset.trans (setHalfEdge_within _ _ _ _ h3)
      (List.Subset.trans (setHalfEdge_within _ _ _ _ h2) a)
  · simp only [Option.bind_eq_some] at h
    obtain ⟨m1, h1, m2, h2, h3⟩ := h
    have a := setVertex_within _ _ _ _ h1 (fun _ => rfl)
    exact List.Subset.trans (setHalfEdge_within _ _ _ _ h3)
      (List.Subset.trans (setHalfEdge_within _ _ _ _ h2) a)

theorem makeEdge_within (m : Manifold) (v1 v2 : VertexIt) (r : Manifold × EdgeIt)
    (h : makeEdge m v1 v2 = some r) : labels r.1 ⊆ labels m := by
  simp only [makeEdge, Option.bind_eq_bind, Option.bind_eq_some, Option.pure_def,
    Option.some.injEq] at h
  obtain ⟨V1, -, V2, -, rfl⟩ := h
  exact List.Subset.refl _

theorem vertexSetNormalFromIncidentFaces_within (m s : Manifold) (v : VertexIt)
    (h : vertexSetNormalFromIncidentFaces m v = some s) : labels s ⊆ labels m := by
  simp only [vertexSetNormalFromIncidentFaces, Option.bind_eq_bind, Option.bind_eq_some] at h
  obtain ⟨V, -, n, -, h⟩ := h
  exact setVertex_within _ _ _ _ h (fun _ => rfl)

theorem edgeSetNormalFromIncidentFaces_within (m s : Manifold) (e : EdgeIt)
    (h : edgeSetNormalFromIncidentFaces m e = some s) : labels s ⊆ labels m := by
  simp only [edgeSetNormalFromIncidentFaces, Option.bind_eq_bind, Option.bind_eq_some] at h
  obtain ⟨E, -, H1, -, H2, -, f1, -, F1, -, f2, -, F2, -, h⟩ := h
  exact setEdge_within _ _ _ _ h

theorem setNormalsForVerticesAndEdges_within (m s : Manifold)
    (h : setNormalsForVerticesAndEdges m = some s) : labels s ⊆ labels m := by
  simp only [setNormalsForVerticesAndEdges, Option.bind_eq_bind, Option.bind_eq_some] at h
  obtain ⟨m1, h1, h2⟩ := h
  exact List.Subset.trans
    (forEachIt_within _ (fun m i s h => edgeSetNormalFromIncidentFaces_within m s i h) _ _ _ h2)
    (forEachIt_within _ (fun m i s h => vertexSetNormalFromIncidentFaces_within m s i h)
      _ _ _ h1)

theorem makePolygonFromEdges_within (m : Manifold) (edges : List EdgeIt) (r : Manifold × FaceIt)
    (h : makePolygonFromEdges m edges = some r) : labels r.1 ⊆ labels m := by
  simp only [makePolygonFromEdges, Option.bind_eq_bind, Option.bind_eq_some] at h
  obtain ⟨hes, -, h⟩ := h
  exact makePolygon_within _ _ _ h

theorem makeTriangle_within (m : Manifold) (e1 e2 e3 : Option HalfEdgeIt) (r : Manifold × FaceIt)
    (h : makeTriangle m e1 e2 e3 = some r) : labels r.1 ⊆ labels m := by
  simp only [makeTriangle, Option.bind_eq_bind, Option.bind_eq_some] at h
  obtain ⟨a, -, b, -, c, -, h⟩ := h
  exact makePolygon_within _ _ _ h

theorem helperMapsVertices_within :
    ∀ (l : List VertexIt) (m s : Manifold),
      helperMapsVertices l m = some s → labels s ⊆ labels m := by
  intro l
  induction l with
  | nil =>
    intro m s h
    simp only [helperMapsVertices, Option.some.injEq] at h
    rw [h]
    exact List.Subset.refl _
  | cons v l ih =>
    intro m s h
    simp only [helperMapsVertices, Option.bind_eq_bind, Option.bind_eq_some] at h
    obtain ⟨V, -, fc, -, m1, h1, h⟩ := h
    refine List.Subset.trans (ih _ _ h) ?_
    show labels m1 ⊆ _
    exact setVertex_within _ _ _ _ h1 (fun _ => rfl)

theorem helperMapsEdges_within :
    ∀ (l : List EdgeIt) (m s : Manifold),
      helperMapsEdges l m = some s → labels s ⊆ labels m := by
  intro l
  induction l with
  | nil =>
    intro m s h
    simp only [helperMapsEdges, Option.some.injEq] at h
    rw [h]
    exact List.Subset.refl _
  | cons v l ih =>
    intro m s h
    simp only [helperMapsEdges, Option.bind_eq_bind, Option.bind_eq_some] at h
    obtain ⟨E, -, H, -, VS, -, VD, -, h⟩ := h
    have a := ih _ _ h
    exact a

theorem constructHelperMaps_within (m s : Manifold)
    (h : constructHelperMaps m = some s) : labels s ⊆ labels m := by
  simp only [constructHelperMaps, Option.bind_eq_bind, Option.bind_eq_some, Option.pure_def,
    Option.some.injEq] at h
  obtain ⟨m1, h1, m2, h2, rfl⟩ := h
  have a := helperMapsVertices_within _ _ _ h1
  have b := helperMapsEdges_within _ _ _ h2
  show labels m2 ⊆ _
  exact List.Subset.trans b a

theorem setPredFaces_within (m s : Manifold) (e : EdgeIt) (f1 f2 : Option FaceIt)
    (h : setPredFaces m e f1 f2 = some s) : labels s ⊆ labels m := by
  simp only [setPredFaces, Option.bind_eq_bind, Option.bind_eq_some] at h
  obtain ⟨p, -, h⟩ := h
  exact setEdge_within _ _ _ _ h

theorem construct3SimplexPush_within (m s : Manifold) (v1 v2 v3 v4 : VertexIt)
    (e12 e13 e14 e23 e24 e34 : EdgeIt)
    (h : construct3SimplexPush m v1 v2 v3 v4 e12 e13 e14 e23 e24 e34 = some s) :
    labels s ⊆ labels m := by
  simp only [construct3SimplexPush, Option.bind_eq_bind, Option.bind_eq_some] at h
  obtain ⟨m1, h1, m2, h2, m3, h3, m4, h4, m5, h5, m6, h6, m7, h7, m8, h8, m9, h9, m10, h10,
    m11, h11, h12⟩ := h
  have p := pushHalfEdgesCCW_within
  exact List.Subset.trans (p _ _ _ _ h12) (List.Subset.trans (p _ _ _ _ h11)
    (List.Subset.trans (p _ _ _ _ h10) (List.Subset.trans (p _ _ _ _ h9)
    (List.Subset.trans (p _ _ _ _ h8) (List.Subset.trans (p _ _ _ _ h7)
    (List.Subset.trans (p _ _ _ _ h6) (List.Subset.trans (p _ _ _ _ h5)
    (List.Subset.trans (p _ _ _ _ h4) (List.Subset.trans (p _ _ _ _ h3)
    (List.Subset.trans (p _ _ _ _ h2) (p _ _ _ _ h1)))))))))))

theorem construct3SimplexPreds_within (m s : Manifold) (e12 e13 e14 e23 e24 e34 : EdgeIt)
    (f132 f143 f124 f234 : FaceIt)
    (h : construct3SimplexPreds m e12 e13 e14 e23 e24 e34 f132 f143 f124 f234 = some s) :
    labels s ⊆ labels m := by
  simp only [construct3SimplexPreds, Option.bind_eq_bind, Option.bind_eq_some] at h
  obtain ⟨m1, h1, m2, h2, m3, h3, m4, h4, m5, h5, h6⟩ := h
  have p := setPredFaces_within
  exact List.Subset.trans (p _ _ _ _ _ h6) (List.Subset.trans (p _ _ _ _ _ h5)
    (List.Subset.trans (p _ _ _ _ _ h4) (List.Subset.trans (p _ _ _ _ _ h3)
    (List.Subset.trans (p _ _ _ _ _ h2) (p _ _ _ _ _ h1)))))

theorem construct3SimplexFaces_within (m s : Manifold) (v1 v2 v3 v4 : VertexIt)
    (e12 e13 e14 e23 e24 e34 : EdgeIt)
    (h : construct3SimplexFaces m v1 v2 v3 v4 e12 e13 e14 e23 e24 e34 = some s) :
    labels s ⊆ labels m := by
  simp only [construct3SimplexFaces, makeTriangleFromEdges, Option.bind_eq_bind,
    Option.bind_eq_some] at h
  obtain ⟨r1, h1, r2, h2, r3, h3, r4, h4, m5, h5, m6, h6, m7, h7, h8⟩ := h
  have p := makePolygonFromEdges_within
  exact List.Subset.trans (constructHelperMaps_within _ _ h8)
    (List.Subset.trans (setNormalsForVerticesAndEdges_within _ _ h7)
    (List.Subset.trans (construct3SimplexPreds_within _ _ _ _ _ _ _ _ _ _ _ _ h6)
    (List.Subset.trans (construct3SimplexPush_within _ _ _ _ _ _ _ _ _ _ _ _ h5)
    (List.Subset.trans (p _ _ _ h4) (List.Subset.trans (p _ _ _ h3)
    (List.Subset.trans (p _ _ _ h2) (p _ _ _ h1)))))))

theorem construct3SimplexEdges_within (m s : Manifold) (v1 v2 v3 v4 : VertexIt)
    (h : construct3SimplexEdges m v1 v2 v3 v4 = some s) : labels s ⊆ labels m := by
  simp only [construct3SimplexEdges, Option.bind_eq_bind, Option.bind_eq_some] at h
  obtain ⟨r1, h1, r2, h2, r3, h3, r4, h4, r5, h5, r6, h6, h7⟩ := h
  have p := makeEdge_within
  exact List.Subset.trans (construct3SimplexFaces_within _ _ _ _ _ _ _ _ _ _ _ _ h7)
    (List.Subset.trans (p _ _ _ _ h6) (List.Subset.trans (p _ _ _ _ h5)
    (List.Subset.trans (p _ _ _ _ h4) (List.Subset.trans (p _ _ _ _ h3)
    (List.Subset.trans (p _ _ _ _ h2) (p _ _ _ _ h1))))))

theorem makeVertex_labels (m : Manifold) (p : Vec3) (id : Int) (hid : id ≠ -1) :
    labels (makeVertex m p id).1 ⊆ (p, id) :: labels m := by
  intro x hx
  simp only [makeVertex, labels, if_neg hid, List.map_append, List.map_cons, List.map_nil,
    List.mem_append, List.mem_cons, List.mem_singleton, List.not_mem_nil, or_false] at hx ⊢
  rcases hx with (hx | hx) | hx
  · exact Or.inr (Or.inl hx)
  · exact Or.inl hx
  · exact Or.inr (Or.inr hx)

theorem construct3Simplex_labels (m s : Manifold) (cp1 cp2 cp3 cp4 : Vec3)
    (ind1 ind2 ind3 ind4 : Int) (h1 : ind1 ≠ -1) (h2 : ind2 ≠ -1) (h3 : ind3 ≠ -1)
    (h4 : ind4 ≠ -1)
    (h : construct3Simplex m cp1 cp2 cp3 cp4 ind1 ind2 ind3 ind4 = some s) :
    labels s ⊆ (cp1, ind1) :: (cp2, ind2) :: (cp3, ind3) :: (cp4, ind4) :: labels m := by
  unfold construct3Simplex at h
  dsimp only at h
  have a := construct3SimplexEdges_within _ _ _ _ _ _ h
  intro x hx
  have b4 := makeVertex_labels _ cp4 ind4 h4 (a hx)
  rcases List.mem_cons.mp b4 with e | b4
  · rw [e]; simp
  by_cases hr : (cp4.sub cp1).dot ((cp2.sub cp1).cross (cp3.sub cp1)) < 0
  · simp only [hr, decide_True, if_true] at b4
    have b3 := makeVertex_labels _ cp2 ind2 h2 b4
    rcases List.mem_cons.mp b3 with e | b3
    · rw [e]; simp
    have b2 := makeVertex_labels _ cp3 ind3 h3 b3
    rcases List.mem_cons.mp b2 with e | b2
    · rw [e]; simp
    have b1 := makeVertex_labels _ cp1 ind1 h1 b2
    rcases List.mem_cons.mp b1 with e | b1
    · rw [e]; simp
    · simp [b1]
  · simp only [hr, decide_False, if_false] at b4
    have b3 := makeVertex_labels _ cp3 ind3 h3 b4
    rcases List.mem_cons.mp b3 with e | b3
    · rw [e]; simp
    have b2 := makeVertex_labels _ cp2 ind2 h2 b3
    rcases List.mem_cons.mp b2 with e | b2
    · rw [e]; simp
    have b1 := makeVertex_labels _ cp1 ind1 h1 b2
    rcases List.mem_cons.mp b1 with e | b1
    · rw [e]; simp
    · simp [b1]
theorem createFaceConflicts_within :
    ∀ (l : List FaceIt) (m s : Manifold),
      createFaceConflicts l m = some s → labels s ⊆ labels m := by
  intro l
  induction l with
  | nil =>
    intro m s h
    simp only [createFaceConflicts, Option.some.injEq] at h
    rw [h]
    exact List.Subset.refl _
  | cons f l ih =>
    intro m s h
    simp only [createFaceConflicts, Option.bind_eq_bind, Option.bind_eq_some] at h
    obtain ⟨m1, h1, h⟩ := h
    refine List.Subset.trans (ih _ _ h) ?_
    obtain ⟨e1, -⟩ := setFace_fields _ _ _ _ h1
    apply labels_of_subsets
    · show m1.mVertices.map _ ⊆ _
      rw [e1]
      exact List.Subset.refl _
    · show (m.mConflictGraph.addNode m.mFresh (ConflictNode.FaceConflict f)).mNodes.filterMap _
        ⊆ _
      rw [addNode_face_labels]
      exact List.Subset.refl _

theorem addConflictEdge_within (m : Manifold) (fc vc : NodeIt) :
    labels (addConflictEdge m fc vc) ⊆ labels m :=
  List.Subset.refl _

theorem addVertexConflict_labels (m : Manifold) (p : Vec3) (id : Int) (b : Bool) (k : Nat) :
    labels { m with mConflictGraph :=
                      m.mConflictGraph.addNode m.mFresh (ConflictNode.VertexConflict p id b),
                    mFresh := k } ⊆ (p, id) :: labels m := by
  intro x hx
  simp only [labels, DiGraph.addNode, List.filterMap_append, List.filterMap_cons,
    List.filterMap_nil, ConflictNode.label, List.mem_append, List.mem_cons, List.mem_singleton,
    List.not_mem_nil, or_false] at hx ⊢
  rcases hx with hx | hx | hx
  · exact Or.inr (Or.inl hx)
  · exact Or.inr (Or.inr hx)
  · exact Or.inl hx

theorem createConflictsOfPoint_labels (p : Vec3) (id : Int) :
    ∀ (l : List FaceIt) (s r : Manifold × Option NodeIt),
      createConflictsOfPoint p id l s = some r → labels r.1 ⊆ (p, id) :: labels s.1 := by
  intro l
  induction l with
  | nil =>
    intro s r h
    simp only [createConflictsOfPoint, Option.some.injEq] at h
    rw [h]
    exact List.subset_cons_self _ _
  | cons f l ih =>
    intro s r h
    simp only [createConflictsOfPoint, Option.bind_eq_bind, Option.bind_eq_some] at h
    obtain ⟨F, -, fcit, -, x, -, t, -, h⟩ := h
    split at h
    · split at h
      · have a := ih _ _ h
        intro y hy
        rcases List.mem_cons.mp (a hy) with e | hy2
        · rw [e]
          exact List.mem_cons_self _ _
        · exact addVertexConflict_labels s.1 p id false (s.1.mFresh + 1) hy2
      · have a := ih _ _ h
        exact a
    · exact ih _ _ h

theorem createConflicts_labels :
    ∀ (ps : List Vec3) (ids : List Int) (s r : Manifold × List NodeIt),
      createConflicts ps ids s = some r → labels r.1 ⊆ ps.zip ids ++ labels s.1 := by
  intro ps
  induction ps with
  | nil =>
    intro ids s r h
    simp only [createConflicts, Option.some.injEq] at h
    rw [h]
    exact List.subset_append_right _ _
  | cons p ps ih =>
    intro ids s r h
    cases ids with
    | nil => simp [createConflicts] at h
    | cons id ids =>
      simp only [createConflicts, Option.bind_eq_bind, Option.bind_eq_some] at h
      obtain ⟨t, h1, h⟩ := h
      have a := createConflictsOfPoint_labels p id _ _ _ h1
      have b : labels r.1 ⊆ ps.zip ids ++ labels t.1 := by
        split at h
        · exact ih _ _ _ h
        · exact ih _ _ _ h
      intro y hy
      rcases List.mem_append.mp (b hy) with hy2 | hy2
      · exact List.mem_append_left _ (List.mem_cons_of_mem _ hy2)
      · rcases List.mem_cons.mp (a hy2) with e | hy3
        · rw [e]
          exact List.mem_append_left _ (List.mem_cons_self _ _)
        · exact List.mem_append_right _ hy3

theorem createInitialConflictGraph_labels (m : Manifold) (points : List Vec3)
    (indices : List Int) (r : Manifold × List NodeIt)
    (h : createInitialConflictGraph m points indices = some r) :
    labels r.1 ⊆ points.zip indices ++ labels m := by
  simp only [createInitialConflictGraph, Option.bind_eq_bind, Option.bind_eq_some] at h
  obtain ⟨m1, h1, h2⟩ := h
  have a := createFaceConflicts_within _ _ _ h1
  have b := createConflicts_labels _ _ _ _ h2
  intro y hy
  rcases List.mem_append.mp (b hy) with hy2 | hy2
  · exact List.mem_append_left _ hy2
  · exact List.mem_append_right _ (a hy2)

theorem makeFrontierLoop_within :
    ∀ (l : List HalfEdgeIt) (m : Manifold) (r : Manifold × List FrontierElem),
      makeFrontierLoop l m = some r → labels r.1 ⊆ labels m := by
  intro l
  induction l with
  | nil =>
    intro m r h
    simp only [makeFrontierLoop, Option.some.injEq] at h
    rw [← h]
    exact List.Subset.refl _
  | cons he l ih =>
    intro m r h
    simp only [makeFrontierLoop, Option.bind_eq_bind, Option.bind_eq_some, Option.pure_def,
      Option.some.injEq] at h
    obtain ⟨fc1, -, g, hg, H, -, fc2, -, more, -, g2, hg2, t, ht, rfl⟩ := h
    have c := ih _ _ ht
    show labels t.1 ⊆ _
    refine List.Subset.trans c ?_
    have a := setFoundAll_within _ m _ _ hg
    have b := setFoundAll_within _ { m with mConflictGraph := g } _ _ hg2
    exact List.Subset.trans b a

theorem removeFaceConflicts_within :
    ∀ (l : List FaceIt) (m s : Manifold),
      removeFaceConflicts l m = some s → labels s ⊆ labels m := by
  intro l
  induction l with
  | nil =>
    intro m s h
    simp only [removeFaceConflicts, Option.some.injEq] at h
    rw [h]
    exact List.Subset.refl _
  | cons f l ih =>
    intro m s h
    simp only [removeFaceConflicts, Option.bind_eq_bind, Option.bind_eq_some] at h
    obtain ⟨F, -, fcit, -, x, -, g, hg, h⟩ := h
    refine List.Subset.trans (ih _ _ h) ?_
    exact labels_of_subsets m _ (List.Subset.refl _) (removeNode_labels _ _ _ hg)

theorem appendIncident_within (m : Manifold) (v : VertexIt) (he : HalfEdgeIt)
    (r : Manifold × ListIt) (h : appendIncident m v he = some r) : labels r.1 ⊆ labels m := by
  simp only [appendIncident, Option.bind_eq_bind, Option.bind_eq_some, Option.pure_def,
    Option.some.injEq] at h
  obtain ⟨m1, h1, rfl⟩ := h
  have a := setVertex_within _ _ _ _ h1 (fun _ => rfl)
  exact a

theorem setPredFacesAcross_within (m s : Manifold) (he : Option HalfEdgeIt) (fit : FaceIt)
    (h : setPredFacesAcross m he fit = some s) : labels s ⊆ labels m := by
  simp only [setPredFacesAcross, Option.bind_eq_bind, Option.bind_eq_some] at h
  obtain ⟨x, -, H, -, B, -, p, -, h⟩ := h
  exact setEdge_within _ _ _ _ h

theorem makeCircularFanStitchCenter_within (m s : Manifold) (vCenter : VertexIt)
    (hStem1 hStem2 : HalfEdgeIt)
    (h : makeCircularFanStitchCenter m vCenter hStem1 hStem2 = some s) :
    labels s ⊆ labels m := by
  simp only [makeCircularFanStitchCenter, Option.bind_eq_bind, Option.bind_eq_some] at h
  obtain ⟨r1, h1, m1, h2, r2, h3, h4⟩ := h
  exact List.Subset.trans (setHalfEdge_within _ _ _ _ h4)
    (List.Subset.trans (appendIncident_within _ _ _ _ h3)
      (List.Subset.trans (setHalfEdge_within _ _ _ _ h2) (appendIncident_within _ _ _ _ h1)))

theorem makeCircularFanStitch_within (m s : Manifold) (vBase vCenter : VertexIt)
    (hBase1 : Option HalfEdgeIt) (hStem1 hStem2 : HalfEdgeIt)
    (h : makeCircularFanStitch m vBase vCenter hBase1 hStem1 hStem2 = some s) :
    labels s ⊆ labels m := by
  simp only [makeCircularFanStitch, Option.bind_eq_bind, Option.bind_eq_some] at h
  obtain ⟨x, -, HB1, -, r1, h1, m1, h2, y, -, HB2, -, r2, h3, m2, h4, h5⟩ := h
  exact List.Subset.trans (makeCircularFanStitchCenter_within _ _ _ _ _ h5)
    (List.Subset.trans (setHalfEdge_within _ _ _ _ h4)
      (List.Subset.trans (insertIncident_within _ _ _ _ _ h3)
        (List.Subset.trans (setHalfEdge_within _ _ _ _ h2)
          (insertIncident_within _ _ _ _ _ h1))))
theorem makeCircularFanFaces_within (m s : Manifold) (i size : Nat) (hBase2 : HalfEdgeIt)
    (hBase1 : Option HalfEdgeIt) (hStem1 hStem2 : HalfEdgeIt) (hPrev hLast : Option HalfEdgeIt)
    (h : makeCircularFanFaces m i size hBase2 hBase1 hStem1 hStem2 hPrev hLast = some s) :
    labels s ⊆ labels m := by
  unfold makeCircularFanFaces at h
  dsimp only at h
  have fin : ∀ m1 : Manifold, labels m1 ⊆ labels m →
      (if i + 1 = size then do
          let r ← makeTriangle m1 (some hBase2) hLast (some hStem2)
          let m ← setPredFacesAcross r.1 (some hBase2) r.2
          setPredFacesAcross m hLast r.2
        else pure m1) = some s →
      labels s ⊆ labels m := by
    intro m1 a h
    split at h
    · obtain ⟨r, h2, h⟩ := Option.bind_eq_some.mp h
      obtain ⟨m2, h3, h4⟩ := Option.bind_eq_some.mp h
      exact List.Subset.trans (setPredFacesAcross_within _ _ _ _ h4)
        (List.Subset.trans (setPredFacesAcross_within _ _ _ _ h3)
          (List.Subset.trans (makeTriangle_within _ _ _ _ _ h2) a))
    · have e := Option.some.inj h
      rw [← e]
      exact a
  split at h
  · obtain ⟨r, h2, h⟩ := Option.bind_eq_some.mp h
    obtain ⟨y, h3, h⟩ := Option.bind_eq_some.mp h
    exact fin y (List.Subset.trans (setPredFacesAcross_within _ _ _ _ h3)
      (makeTriangle_within _ _ _ _ _ h2)) h
  · obtain ⟨y, hy, h⟩ := Option.bind_eq_some.mp h
    have e := Option.some.inj hy
    rw [← e] at h
    exact fin m (List.Subset.refl _) h

theorem makeCircularFanLoop_within (vCenter : VertexIt) (size : Nat) :
    ∀ (l : List HalfEdgeIt) (i : Nat) (m : Manifold) (st : Option HalfEdgeIt × Option HalfEdgeIt)
      (s : Manifold), makeCircularFanLoop vCenter size l i m st = some s →
      labels s ⊆ labels m := by
  intro l
  induction l with
  | nil =>
    intro i m st s h
    simp only [makeCircularFanLoop, Option.some.injEq] at h
    rw [h]
    exact List.Subset.refl _
  | cons hb l ih =>
    intro i m st s h
    simp only [makeCircularFanLoop, Option.bind_eq_bind, Option.bind_eq_some] at h
    obtain ⟨HB2, -, r, h1, E, -, H1, -, m1, h2, m2, h3, h⟩ := h
    exact List.Subset.trans (ih _ _ _ _ h)
      (List.Subset.trans (makeCircularFanStitch_within _ _ _ _ _ _ _ h3)
        (List.Subset.trans (makeCircularFanFaces_within _ _ _ _ _ _ _ _ _ _ h2)
          (makeEdge_within _ _ _ _ h1)))

theorem makeCircularFan_labels (m : Manifold) (halfEdges : List HalfEdgeIt) (p : Vec3)
    (id : Int) (r : Manifold × VertexIt) (hid : id ≠ -1)
    (h : makeCircularFan m halfEdges p id = some r) : labels r.1 ⊆ (p, id) :: labels m := by
  simp only [makeCircularFan, Option.bind_eq_bind, Option.bind_eq_some, Option.pure_def,
    Option.some.injEq] at h
  obtain ⟨m1, h1, rfl⟩ := h
  exact List.Subset.trans (makeCircularFanLoop_within _ _ _ _ _ _ _ h1)
    (makeVertex_labels m p id hid)

theorem updateFaces_labels (fuel : Nat) (m : Manifold) (p : Vec3) (id : Int)
    (conflictFaces : List FaceIt) (r : Manifold × UpdateFacesResult) (hid : id ≠ -1)
    (h : updateFaces fuel m p id conflictFaces = some r) :
    labels r.1 ⊆ (p, id) :: labels m := by
  simp only [updateFaces, Option.bind_eq_bind, Option.bind_eq_some, Option.pure_def] at h
  obtain ⟨c, h1, h⟩ := h
  have a := findCircumference_within _ _ _ _ h1
  split at h
  · have e := Option.some.inj h
    rw [← e]
    exact List.Subset.trans a (List.subset_cons_self _ _)
  · simp only [Option.bind_eq_some, Option.some.injEq] at h
    obtain ⟨fr, h2, m1, h3, m2, h4, t, h5, rfl⟩ := h
    have b : labels m2 ⊆ labels m :=
      List.Subset.trans (removeFaces_within _ _ _ h4)
        (List.Subset.trans (removeFaceConflicts_within _ _ _ h3)
          (List.Subset.trans (makeFrontierLoop_within _ _ _ h2) a))
    exact List.Subset.trans (makeCircularFan_labels _ _ _ _ _ hid h5)
      (List.cons_subset_cons _ b)

theorem updateConflictGraph_within :
    ∀ (l : List FrontierElem) (m s : Manifold),
      updateConflictGraph l m = some s → labels s ⊆ labels m := by
  intro l
  induction l with
  | nil =>
    intro m s h
    simp only [updateConflictGraph, Option.some.injEq] at h
    rw [h]
    exact List.Subset.refl _
  | cons fe l ih =>
    intro m s h
    simp only [updateConflictGraph, Option.bind_eq_bind, Option.bind_eq_some] at h
    obtain ⟨H, -, f, -, r, h1, m1, h2, h⟩ := h
    exact List.Subset.trans (ih _ _ h)
      (List.Subset.trans (addFacingEdges_within _ _ _ _ _ h2)
        (newFaceConflict_within _ _ _ h1))

theorem removeNodes_labels :
    ∀ (l : List NodeIt) (g g2 : DiGraph),
      l.foldlM (fun g n => DiGraph.removeNode g n) g = some g2 →
      g2.mNodes.filterMap (fun n => n.2.label) ⊆ g.mNodes.filterMap (fun n => n.2.label) := by
  intro l
  induction l with
  | nil =>
    intro g g2 h
    simp only [List.foldlM_nil, Option.pure_def, Option.some.injEq] at h
    rw [h]
    exact List.Subset.refl _
  | cons n l ih =>
    intro g g2 h
    simp only [List.foldlM_cons, Option.bind_eq_bind, Option.bind_eq_some] at h
    obtain ⟨g1, h1, h⟩ := h
    exact List.Subset.trans (ih _ _ h) (removeNode_labels _ _ _ h1)

theorem clearConflictGraph_within (m s : Manifold) (h : clearConflictGraph m = some s) :
    labels s ⊆ labels m := by
  simp only [clearConflictGraph, Option.bind_eq_bind, Option.bind_eq_some, Option.pure_def,
    Option.some.injEq] at h
  obtain ⟨g, hg, rfl⟩ := h
  exact labels_of_subsets m _ (List.Subset.refl _) (removeNodes_labels _ _ _ hg)

theorem deref_mem {α : Type} (i : Nat) :
    ∀ (l : List (Nat × α)) (a : α), deref l i = some a → (i, a) ∈ l := by
  intro l
  induction l with
  | nil => intro a h; simp [deref] at h
  | cons q l ih =>
    intro a h
    obtain ⟨k, b⟩ := q
    simp only [deref] at h
    by_cases hk : k = i
    · simp only [hk, if_true, Option.some.injEq] at h
      rw [hk, h]
      exact List.mem_cons_self _ _
    · simp only [hk, if_false] at h
      exact List.mem_cons_of_mem _ (ih a h)

theorem vertexConflict_label (m : Manifold) (n : NodeIt) (c : Vec3 × Int × Bool)
    (h : m.mConflictGraph.vertexConflict n = some c) : (c.1, c.2.1) ∈ labels m := by
  unfold DiGraph.vertexConflict at h
  cases hd : deref m.mConflictGraph.mNodes n with
  | none => simp [hd] at h
  | some node =>
    cases node with
    | FaceConflict f => simp [hd] at h
    | VertexConflict p id found =>
      simp only [hd, Option.some.injEq] at h
      rw [← h]
      unfold labels
      refine List.mem_append_right _ (List.mem_filterMap.mpr ⟨_, deref_mem _ _ _ hd, ?_⟩)
      rfl

theorem incorporate_within (fuel : Nat) (m s : Manifold) (vcit : NodeIt)
    (hneg : ∀ x ∈ labels m, x.2 ≠ -1) (h : incorporate fuel m vcit = some s) :
    labels s ⊆ labels m := by
  unfold incorporate at h
  obtain ⟨c, hc, h⟩ := Option.bind_eq_some.mp h
  dsimp only at h
  have hmem := vertexConflict_label m vcit c hc
  have fin : ∀ m1 : Manifold, labels m1 ⊆ labels m →
      (do
        let g ← m1.mConflictGraph.removeNode vcit
        pure { m1 with mConflictGraph := g }) = some s →
      labels s ⊆ labels m := by
    intro m1 a h
    obtain ⟨g, hg, h⟩ := Option.bind_eq_some.mp h
    have e := Option.some.inj h
    rw [← e]
    exact List.Subset.trans
      (labels_of_subsets m1 _ (List.Subset.refl _) (removeNode_labels _ _ _ hg)) a
  split at h
  · obtain ⟨v, hv, h⟩ := Option.bind_eq_some.mp h
    split at h
    · obtain ⟨u, hu, h⟩ := Option.bind_eq_some.mp h
      have b := updateFaces_labels _ _ _ _ _ _ (hneg _ hmem) hu
      have b2 : labels u.1 ⊆ labels m := by
        intro y hy
        rcases List.mem_cons.mp (b hy) with e2 | hy2
        · rw [e2]
          exact hmem
        · exact hy2
      split at h
      · obtain ⟨m2, h2, h⟩ := Option.bind_eq_some.mp h
        obtain ⟨y, h3, h⟩ := Option.bind_eq_some.mp h
        exact fin y (List.Subset.trans (checkAndMergeFacesCounterClockwise_within _ _ _ _ h3)
          (List.Subset.trans (updateConflictGraph_within _ _ _ h2) b2)) h
      · obtain ⟨y, hy, h⟩ := Option.bind_eq_some.mp h
        have e := Option.some.inj hy
        rw [← e] at h
        exact fin u.1 b2 h
    · obtain ⟨y, hy, h⟩ := Option.bind_eq_some.mp h
      have e := Option.some.inj hy
      rw [← e] at h
      exact fin m (List.Subset.refl _) h
  · obtain ⟨y, hy, h⟩ := Option.bind_eq_some.mp h
    have e := Option.some.inj hy
    rw [← e] at h
    exact fin m (List.Subset.refl _) h

theorem incorporateAll_within (fuel : Nat) :
    ∀ (l : List NodeIt) (m s : Manifold), (∀ x ∈ labels m, x.2 ≠ -1) →
      incorporateAll fuel l m = some s → labels s ⊆ labels m := by
  intro l
  induction l with
  | nil =>
    intro m s _ h
    simp only [incorporateAll, Option.some.injEq] at h
    rw [h]
    exact List.Subset.refl _
  | cons n l ih =>
    intro m s hneg h
    simp only [incorporateAll, Option.bind_eq_bind, Option.bind_eq_some] at h
    obtain ⟨m1, h1, h⟩ := h
    have a := incorporate_within _ _ _ _ hneg h1
    exact List.Subset.trans (ih _ _ (fun x hx => hneg x (a hx)) h) a

theorem filtered_zip_mem {α β : Type} (q : Nat → Bool) :
    ∀ (xs : List α) (ys : List β) (k : Nat) (x : α × β),
      x ∈ (((xs.enumFrom k).filter (fun ix => q ix.1)).map Prod.snd).zip
        (((ys.enumFrom k).filter (fun ix => q ix.1)).map Prod.snd) →
      ∃ i, xs.get? i = some x.1 ∧ ys.get? i = some x.2 := by
  intro xs
  induction xs with
  | nil => intro ys k x hx; simp at hx
  | cons a xs ih =>
    intro ys k x hx
    cases ys with
    | nil => simp at hx
    | cons b ys =>
      simp only [List.enumFrom_cons, List.filter_cons] at hx
      by_cases hq : q k = true
      · simp only [hq, if_true, List.map_cons, List.zip_cons_cons, List.mem_cons] at hx
        rcases hx with e | hx
        · exact ⟨0, by rw [e]; rfl, by rw [e]; rfl⟩
        · obtain ⟨i, h1, h2⟩ := ih ys (k + 1) x hx
          exact ⟨i + 1, h1, h2⟩
      · simp only [hq, if_false] at hx
        obtain ⟨i, h1, h2⟩ := ih ys (k + 1) x hx
        exact ⟨i + 1, h1, h2⟩

theorem reduced_zip_mem {α β : Type} (xs : List α) (ys : List β) (a b c d : Nat)
    (x : α × β) (hx : x ∈ (reduced xs a b c d).zip (reduced ys a b c d)) :
    ∃ i, xs.get? i = some x.1 ∧ ys.get? i = some x.2 :=
  filtered_zip_mem (fun i => decide (i ≠ a ∧ i ≠ b ∧ i ≠ c ∧ i ≠ d)) xs ys 0 x hx
theorem atInput_of_get (points : List Vec3) (i : Nat) (p : Vec3)
    (h : points.get? i = some p) : atInput points (p, (i : Int)) :=
  ⟨Int.ofNat_nonneg i, by simpa using h⟩

theorem atInput_ne (points : List Vec3) (x : Vec3 × Int) (h : atInput points x) :
    x.2 ≠ -1 := by
  have := h.1
  omega

theorem initialSimplex_labels (m s : Manifold) (points : List Vec3) (indices : List Int)
    (a : Analysis) (p1 p2 p3 p4 : Vec3)
    (hind : ∀ (i : Nat) (id : Int), indices.get? i = some id → id = (i : Int))
    (hp1 : points.get? a.index1 = some p1) (hp2 : points.get? a.index2 = some p2)
    (hp3 : points.get? a.index3 = some p3) (hp4 : points.get? a.index4 = some p4)
    (hm : ∀ x ∈ labels m, atInput points x)
    (h : initialSimplex m indices a p1 p2 p3 p4 = some s) :
    ∀ x ∈ labels s, atInput points x := by
  simp only [initialSimplex, Option.bind_eq_bind, Option.bind_eq_some] at h
  obtain ⟨i1, e1, i2, e2, i3, e3, i4, e4, h⟩ := h
  have a1 := atInput_of_get points _ _ hp1
  have a2 := atInput_of_get points _ _ hp2
  have a3 := atInput_of_get points _ _ hp3
  have a4 := atInput_of_get points _ _ hp4
  rw [← hind _ _ e1] at a1
  rw [← hind _ _ e2] at a2
  rw [← hind _ _ e3] at a3
  rw [← hind _ _ e4] at a4
  have b := construct3Simplex_labels _ _ _ _ _ _ _ _ _ _ (atInput_ne _ _ a1)
    (atInput_ne _ _ a2) (atInput_ne _ _ a3) (atInput_ne _ _ a4) h
  intro x hx
  have hx2 := b hx
  simp only [List.mem_cons] at hx2
  rcases hx2 with e | e | e | e | hx3
  · rw [e]; exact a1
  · rw [e]; exact a2
  · rw [e]; exact a3
  · rw [e]; exact a4
  · exact hm x hx3

theorem incorporateRemaining_labels (fuel : Nat) (m s : Manifold) (points : List Vec3)
    (indices : List Int) (a : Analysis)
    (hind : ∀ (i : Nat) (id : Int), indices.get? i = some id → id = (i : Int))
    (hm : ∀ x ∈ labels m, atInput points x)
    (h : incorporateRemaining fuel m points indices a = some s) :
    ∀ x ∈ labels s, atInput points x := by
  simp only [incorporateRemaining, Option.bind_eq_bind, Option.bind_eq_some] at h
  obtain ⟨r, h1, m1, h2, m2, h3, m3, h4, h5⟩ := h
  have b := createInitialConflictGraph_labels _ _ _ _ h1
  have hr : ∀ x ∈ labels r.1, atInput points x := by
    intro x hx
    rcases List.mem_append.mp (b hx) with hx2 | hx2
    · obtain ⟨i, g1, g2⟩ := reduced_zip_mem _ _ _ _ _ _ x hx2
      have g3 : indices.get? i = some x.2 := by
        rw [List.get?_eq_getElem?] at g2 ⊢
        rw [List.getElem?_take] at g2
        split at g2
        · exact g2
        · simp at g2
      have g4 := hind _ _ g3
      have g5 := atInput_of_get points i x.1 g1
      rw [← g4] at g5
      exact g5
    · exact hm x hx2
  have c := incorporateAll_within _ _ _ _ (fun x hx => atInput_ne points x (hr x hx)) h2
  intro x hx
  exact hr x (c (clearConflictGraph_within _ _ h3
    (setNormalsForVerticesAndEdges_within _ _ h4 (constructHelperMaps_within _ _ h5 hx))))

theorem buildHull_labels (fuel : Nat) (m s : Manifold) (points : List Vec3)
    (indices : List Int) (a : Analysis)
    (hind : ∀ (i : Nat) (id : Int), indices.get? i = some id → id = (i : Int))
    (hm : ∀ x ∈ labels m, atInput points x)
    (h : buildHull fuel m points indices a = some s) :
    ∀ x ∈ labels s, atInput points x := by
  simp only [buildHull, Option.bind_eq_bind, Option.bind_eq_some] at h
  obtain ⟨p1, hp1, p2, hp2, p3, hp3, p4, hp4, m1, h1, h2⟩ := h
  exact incorporateRemaining_labels _ _ _ _ _ _ hind
    (initialSimplex_labels _ _ _ _ _ _ _ _ _ hind hp1 hp2 hp3 hp4 hm h1) h2

theorem range_index (n : Nat) (i : Nat) (id : Int)
    (h : (List.map (fun i : Nat => (i : Int)) (List.range n)).get? i = some id) :
    id = (i : Int) := by
  rw [List.get?_eq_getElem?, List.getElem?_map] at h
  cases hr : (List.range n)[i]? with
  | none => simp [hr] at h
  | some j =>
    simp only [hr, Option.map_some', Option.some.injEq] at h
    by_cases hi : i < n
    · rw [List.getElem?_range hi] at hr
      simp only [Option.some.injEq] at hr
      rw [← h, ← hr]
    · rw [List.getElem?_eq_none (by simpa using hi)] at hr
      simp at hr

/-- Claim C34, `findConvexHull` on an empty manifold: when it returns `NONE`, every
vertex of the manifold it has built lies at an input point and its id is the index of
that point in `points`.  The vertices come from `makeVertex` alone, called by
`construct3Simplex` with four input points and their indices and by
`makeCircularFan` with the point and the id of a `VertexConflict`, which
`createInitialConflictGraph` has filled from the remaining input points; nothing
else writes the point or the id of a vertex. -/
theorem findConvexHull_vertices_at_inputs (fuel : Nat) (points : List Vec3) (epsilon : ℚ)
    (m : Manifold)
    (h : findConvexHull fuel Manifold.new points epsilon = some (m, predicate.NONE)) :
    ∀ p ∈ m.mVertices, ∃ i : Nat, p.2.mId = (i : Int) ∧
      points.get? i = some p.2.mPointLCS := by
  unfold findConvexHull findConvexHullIndexed at h
  split at h
  · simp at h
  · split at h
    · simp at h
    · rename_i a ha
      split at h
      · simp only [Option.some.injEq, Prod.mk.injEq] at h
        rename_i hp
        exact absurd h.2 hp
      · split at h
        · simp at h
        · rename_i m1 hb
          simp only [Option.some.injEq, Prod.mk.injEq] at h
          have hl := buildHull_labels _ _ _ _ _ _ (range_index points.length)
            (fun x hx => by simp [labels, Manifold.new] at hx) hb
          intro p hp
          have hx : (p.2.mPointLCS, p.2.mId) ∈ labels m1 := by
            unfold labels
            rw [h.1]
            exact List.mem_append_left _ (List.mem_map.mpr ⟨p, hp, rfl⟩)
          obtain ⟨g1, g2⟩ := hl _ hx
          refine ⟨p.2.mId.toNat, ?_, g2⟩
          exact (Int.toNat_of_nonneg g1).symm

/-- The hull of `spikedTetrahedron`: `findConvexHull` returns `NONE` and every vertex
of `spikedHull` lies at the point of `spikedTetrahedron` that its id names. -/
theorem findConvexHull_vertices_at_inputs_witness :
    findConvexHull 20 Manifold.new spikedTetrahedron EPSILON_SQUARED =
        some (spikedHull, predicate.NONE) ∧
      ∀ p ∈ spikedHull.mVertices, ∃ i : Nat, p.2.mId = (i : Int) ∧
        spikedTetrahedron.get? i = some p.2.mPointLCS :=
  have h : findConvexHull 20 Manifold.new spikedTetrahedron EPSILON_SQUARED =
      some (spikedHull, predicate.NONE) := by
    decide!
  ⟨h, findConvexHull_vertices_at_inputs 20 spikedTetrahedron EPSILON_SQUARED spikedHull h⟩

end Makena

/-! ## `exportData` after `importData` -/

namespace Makena

end Makena
